import Mathlib

/-!
# Alpha 21264 privileged core (es40 / qemu-0.10): embedding and verified properties

Shallow embedding of `target-alpha/helper.c`, `target-alpha/cpu.h` and of
`helper_hw_ret` from `target-alpha/op_helper.c`.

Conventions.
* A C integer of width `w` is the natural number of its bit pattern, below `2^w`.
  `int64_t` values are 64-bit patterns too; `toS64` gives the signed reading.
* `abort()`, `cpu_abort()` and `exit()` make the embedded function return `none`: the
  call does not return to its caller.
* Calls into the surrounding emulator (`tlb_flush`, `tb_flush`,
  `tlb_set_page_exec`, ...) are appended to the `calls` field of the state.
-/

namespace Alpha

/-! ## Machine arithmetic -/

/-- Signed reading of a 64-bit pattern (`int64_t`). -/
def toS64 (x : Nat) : Int :=
  if x < 2 ^ 63 then (x : Int) else (x : Int) - 2 ^ 64

/-- The 64-bit pattern of an integer (conversion to `uint64_t`). -/
def ofS64 (i : Int) : Nat := (i % 2 ^ 64).toNat

/-- Left shift of a 64-bit value, `x << n`, wrapping at 64 bits. -/
def shl64 (x n : Nat) : Nat := (x <<< n) % 2 ^ 64

/-- Arithmetic right shift of an `int64_t`, `x >> n`: floor division of the
signed value by `2^n`, given back as a 64-bit pattern. -/
def sar64 (x n : Nat) : Nat := ofS64 (toS64 x / 2 ^ n)

/-- Bitwise complement of a `uint64_t`, `~x`. -/
def not64 (x : Nat) : Nat := 2 ^ 64 - 1 - x % 2 ^ 64

/-! ## Constants of `cpu.h` -/

def TARGET_PAGE_BITS : Nat := 13

/-- Modelled from the spec: the macro `TARGET_PAGE_SIZE` of the generic header
`cpu-all.h`, which is not part of the sources; the base page of the translation
cache is `1 << TARGET_PAGE_BITS` bytes. -/
def TARGET_PAGE_SIZE : Nat := 1 <<< TARGET_PAGE_BITS

/-- Modelled from the spec: the macro `TARGET_PAGE_MASK` of the generic header
`cpu-all.h`, `~(TARGET_PAGE_SIZE - 1)`, an `int` that is sign-extended when it
meets a 64-bit operand: the mask that page-aligns an address. -/
def TARGET_PAGE_MASK : Nat := not64 (TARGET_PAGE_SIZE - 1)

/-- Modelled from the spec: protection bits `PAGE_READ`, `PAGE_WRITE`,
`PAGE_EXEC` of the generic header `cpu-all.h` (the read/write/execute
capability mask handed over with a translation). -/
def PAGE_READ : Nat := 1

/-- Modelled from the spec: see `PAGE_READ`. -/
def PAGE_WRITE : Nat := 2

/-- Modelled from the spec: see `PAGE_READ`. -/
def PAGE_EXEC : Nat := 4

/-- Modelled from the spec: the request bit `CPU_INTERRUPT_HARD` of the generic
header `cpu-all.h`, the hardware interrupt line asserted to the surrounding
scheduler. -/
def CPU_INTERRUPT_HARD : Nat := 2

def ALPHA_PTE_V : Nat := 1 <<< 0
def ALPHA_PTE_FOR : Nat := 1 <<< 1
def ALPHA_PTE_FOW : Nat := 1 <<< 2
def ALPHA_PTE_ASM : Nat := 1 <<< 4
def ALPHA_PTE_GH_SHIFT : Nat := 5
def ALPHA_PTE_KRE : Nat := 1 <<< 8
def ALPHA_PTE_ERE : Nat := 1 <<< 9
def ALPHA_PTE_SRE : Nat := 1 <<< 10
def ALPHA_PTE_URE : Nat := 1 <<< 11
def ALPHA_PTE_KWE : Nat := 1 <<< 12
def ALPHA_PTE_EWE : Nat := 1 <<< 13
def ALPHA_PTE_SWE : Nat := 1 <<< 14
def ALPHA_PTE_UWE : Nat := 1 <<< 15

def PTE_ASN_BAD_VA : Nat := 1
def PTE_ASN_MISS : Nat := 0

def MAX_NBR_TLB_21264 : Nat := 128

def MMU_KERNEL_IDX : Nat := 0
def MMU_USER_IDX : Nat := 3
def MMU_PAL_IDX : Nat := 4

def IPR_CC : Nat := 0xC0
def IPR_CC_CTL : Nat := 0xC1
def IPR_CC_CTL_ENA_SHIFT : Nat := 32
def IPR_CC_CTL_COUNTER_MASK : Nat := 0xfffffff0
def IPR_VA : Nat := 0xC2
def IPR_VA_CTL : Nat := 0xC4
def IPR_VA_CTL_VA_48_SHIFT : Nat := 1
def IPR_VA_FORM : Nat := 0xC3
def IPR_ITB_TAG : Nat := 0x00
def IPR_ITB_PTE : Nat := 0x01
def IPR_ITB_IAP : Nat := 0x02
def IPR_ITB_IA : Nat := 0x03
def IPR_ITB_IS : Nat := 0x04
def IPR_PMPC : Nat := 0x05
def IPR_EXC_ADDR : Nat := 0x06
def IPR_IVA_FORM : Nat := 0x07
def IPR_CM : Nat := 0x09
def IPR_CM_SHIFT : Nat := 3
def IPR_CM_MASK : Nat := 3 <<< IPR_CM_SHIFT
def IPR_IER : Nat := 0x0A
def IPR_IER_MASK : Nat := 0x0000007fffffe000
def IPR_IER_CM : Nat := 0x0B
def IPR_SIRR : Nat := 0x0C
def IPR_SIRR_SHIFT : Nat := 14
def IPR_SIRR_MASK : Nat := 0x7fff <<< IPR_SIRR_SHIFT
def IPR_ISUM : Nat := 0x0D
def IPR_HW_INT_CLR : Nat := 0x0E
def IPR_EXC_SUM : Nat := 0x0F
def IPR_PAL_BASE : Nat := 0x10
def IPR_I_CTL : Nat := 0x11
def IPR_I_CTL_CHIP_ID_SHIFT : Nat := 24
def IPR_I_CTL_IC_EN_SHIFT : Nat := 1
def IPR_I_CTL_SDE1_SHIFT : Nat := 7
def IPR_I_CTL_HWE_SHIFT : Nat := 12
def IPR_I_CTL_VA_48_SHIFT : Nat := 15
def IPR_I_CTL_SPE_SHIFT : Nat := 3
def IPR_I_CTL_CALL_PAL_R23_SHIFT : Nat := 20
def IPR_I_STAT : Nat := 0x16
def IPR_IC_FLUSH : Nat := 0x13
def IPR_IC_FLUSH_ASM : Nat := 0x12
def IPR_CLR_MAP : Nat := 0x15
def IPR_SLEEP : Nat := 0x17
def IPR_PCTX : Nat := 0x40
def IPR_PCTX_ASN : Nat := 0x01
def IPR_PCTX_ASN_SHIFT : Nat := 39
def IPR_PCTX_ASTER : Nat := 0x02
def IPR_PCTX_ASTER_SHIFT : Nat := 5
def IPR_PCTX_ASTRR : Nat := 0x04
def IPR_PCTX_ASTRR_SHIFT : Nat := 9
def IPR_PCTX_PPCE : Nat := 0x08
def IPR_PCTX_PPCE_SHIFT : Nat := 1
def IPR_PCTX_FPE : Nat := 0x10
def IPR_PCTX_FPE_SHIFT : Nat := 2
def IPR_PCTX_ALL : Nat := 0x5f
def IPR_PCTR_CTL : Nat := 0x14
def IPR_DTB_TAG0 : Nat := 0x20
def IPR_DTB_TAG1 : Nat := 0xA0
def IPR_DTB_PTE0 : Nat := 0x21
def IPR_DTB_PTE1 : Nat := 0xA1
def IPR_DTB_ALTMODE : Nat := 0xA6
def IPR_DTB_ALTMODE0 : Nat := 0x26
def IPR_DTB_ALTMODE_MASK : Nat := 3
def IPR_DTB_IAP : Nat := 0xA2
def IPR_DTB_IA : Nat := 0xA3
def IPR_DTB_IS0 : Nat := 0x24
def IPR_DTB_IS1 : Nat := 0xA4
def IPR_DTB_ASN0 : Nat := 0x25
def IPR_DTB_ASN1 : Nat := 0xA5
def IPR_DTB_ASN_SHIFT : Nat := 56
def IPR_MM_STAT : Nat := 0x27
def IPR_M_CTL : Nat := 0x28
def IPR_M_CTL_SPE_SHIFT : Nat := 1
def IPR_M_CTL_SPE_MASK : Nat := 7
def IPR_DC_CTL : Nat := 0x29
def IPR_DC_STAT : Nat := 0x2A
def IPR_C_DATA : Nat := 0x2B
def IPR_C_SHIFT : Nat := 0x2C

def EXCP_21264_DTBM_DOUBLE_3 : Int := 0x0100
def EXCP_21264_DTBM_DOUBLE_4 : Int := 0x0180
def EXCP_21264_FEN : Int := 0x0200
def EXCP_21264_UNALIGN : Int := 0x0280
def EXCP_21264_DTBM_SINGLE : Int := 0x0300
def EXCP_21264_DFAULT : Int := 0x0380
def EXCP_21264_OPCDEC : Int := 0x0400
def EXCP_21264_IACV : Int := 0x0480
def EXCP_21264_MCHK : Int := 0x0500
def EXCP_21264_ITB_MISS : Int := 0x0580
def EXCP_21264_ARITH : Int := 0x0600
def EXCP_21264_INTERRUPT : Int := 0x0680
def EXCP_21264_MT_FPCR : Int := 0x0700
def EXCP_21264_RESET : Int := 0x0780
def EXCP_GEN_OPCDEC : Int := 1
def EXCP_GEN_ARITH : Int := 2
def EXCP_GEN_FEN : Int := 3
def EXCP_GEN_INTERRUPT : Int := 4
def EXCP_GEN_LAST : Int := 4
def EXCP_CALL_PALP : Nat := 0x2000
def EXCP_CALL_PAL : Nat := 0x3000
def EXCP_CALL_PALE : Nat := 0x4000

/-! ## Data model of `cpu.h` -/

/-- How palcode is interpreted (`enum pal_emul`). -/
inductive pal_emul where
  | PAL_NONE
  | PAL_21264
  deriving DecidableEq, Repr

/-- Descriptor `struct alpha_pte`: `pa` is a `uint32_t`, `fl` a `uint16_t`,
`asn` a `uint8_t`. -/
structure alpha_pte where
  pa : Nat
  fl : Nat
  asn : Nat
  deriving DecidableEq, Repr

/-- Translation-cache slot `struct alpha_21264_tlbe`; `va` is an `int64_t`. -/
structure alpha_21264_tlbe where
  va : Nat
  pte : alpha_pte
  deriving DecidableEq, Repr

/-- Translation cache `struct alpha_21264_tlb`. The array `entries` is a function of the
index; only the indices below `MAX_NBR_TLB_21264` exist in the program. -/
structure alpha_21264_tlb where
  in_use : Nat
  next : Nat
  spe : Nat
  entries : Nat → alpha_21264_tlbe

/-- A call into the surrounding emulator, in the order the program makes them. -/
inductive EngineCall where
  | tlb_flush (flush_global : Nat)
  | tlb_flush_page (addr : Nat)
  | tb_flush
  | tlb_set_page_exec (vaddr paddr prot mmu_idx is_softmmu : Nat)
  deriving DecidableEq, Repr

/-- The member `a21264` of `struct CPUAlphaState`. -/
structure A21264State where
  pal_reloc_mask : Nat
  pal_reloc_val : Nat
  pal_reloc_offset : Nat
  shadow_r4 : Nat
  shadow_r5 : Nat
  shadow_r6 : Nat
  shadow_r7 : Nat
  shadow_r20 : Nat
  shadow_r21 : Nat
  shadow_r22 : Nat
  shadow_r23 : Nat
  cc_counter : Nat
  cc_load_ticks : Nat
  cc_offset : Nat
  cc_ena : Nat
  i_vptb : Nat
  iva_48 : Nat
  hwe : Nat
  sde1 : Nat
  chip_id : Nat
  ic_en : Nat
  call_pal_r23 : Nat
  cm : Nat
  ier : Nat
  isum : Nat
  ipend : Nat
  d_vptb : Nat
  dva_48 : Nat
  astrr : Nat
  aster : Nat
  fpe : Nat
  ppce : Nat
  altmode : Nat
  sirr : Nat
  mm_stat : Nat
  iva_form : Nat
  va_form : Nat
  va : Nat
  exc_sum : Nat
  itb_tag : Nat
  itb_pte : Nat
  dtb_tag : Nat
  dtb_pte : Nat
  dtb_asn : Nat
  itlb : alpha_21264_tlb
  dtlb : alpha_21264_tlb

/-- Processor state `struct CPUAlphaState` (the fields the privileged core uses).
`exception_index`, `error_code` and `interrupt_request` come from `CPU_COMMON`;
the first two are `int`. `ir` is the array of the 31 integer registers. -/
structure CPUAlphaState where
  ir : Nat → Nat
  pc : Nat
  intr_flag : Nat
  fen : Nat
  pal_mode : Nat
  pal_emul : pal_emul
  mmu_data_index : Nat
  mmu_code_index : Nat
  asn : Nat
  pal_base : Nat
  exc_addr : Nat
  exception_index : Int
  error_code : Int
  interrupt_request : Nat
  a21264 : A21264State
  calls : List EngineCall

/-- Translated code block `TranslationBlock`: only `page_addr[0]` is read. -/
structure TranslationBlock where
  page_addr0 : Nat
  deriving DecidableEq, Repr

/-- The instruction-block cache and physical memory of the surrounding emulator,
as the data-fault path uses them: `tb_find_pc` locates the code block of a host
return address, `cpu_restore_state` gives the guest `pc` it restores for that
block and address, `ldl_phys` reads a 32-bit word of physical memory. -/
structure Engine where
  tb_find_pc : Nat → Option TranslationBlock
  cpu_restore_state : TranslationBlock → Nat → Nat
  ldl_phys : Nat → Nat

/-! ## Address translation (`helper.c`) -/

def GH_MASK (gh : Nat) : Nat := not64 ((1 <<< (13 + gh)) - 1)
def TB_PTE_GET_GH (v : Nat) : Nat := (v >>> 5) &&& 3
def TB_PTE_GET_RE (v : Nat) : Nat := (v >>> 8) &&& 0x0f
def TB_PTE_GET_WE (v : Nat) : Nat := (v >>> 12) &&& 0x0f
def TB_PTE_GET_ASM (v : Nat) : Nat := (v >>> 4) &&& 1
def TB_PTE_GET_FO (v : Nat) : Nat := (v >>> 1) &&& 2
def IPR_CM_GET_CM (v : Nat) : Nat := (v >>> 3) &&& 3

/-- The function `va_form`: the virtual page-table entry address of `va`. `va` is an
`int64_t`, so its shifts are arithmetic; a `form` other than 0, 1, 2 aborts. -/
def va_form (va vptb form : Nat) : Option Nat :=
  let va := shl64 (sar64 va 13) 3
  if form = 0 then
    some ((vptb &&& 0xfffffffe00000000) ||| (va &&& 0x00000001fffffff8))
  else if form = 1 then
    some ((vptb &&& 0xfffff80000000000)
      ||| (sar64 (shl64 va 26) 26 &&& 0x000007fffffffff8))
  else if form = 2 then
    some ((vptb &&& 0xffffffffc0000000) ||| (va &&& 0x00000000003ffff8))
  else none

/-- The stream an access kind uses: the instruction cache for `rwx = 2`, the data
cache otherwise (lines 97-105 of `helper.c`). -/
def v2p_tlb (env : CPUAlphaState) (rwx : Nat) : alpha_21264_tlb :=
  if rwx = 2 then env.a21264.itlb else env.a21264.dtlb

/-- The shift `va_sh` of the sign-extension check (lines 97-105 of `helper.c`). -/
def v2p_va_sh (env : CPUAlphaState) (rwx : Nat) : Nat :=
  if rwx = 2 then (if env.a21264.iva_48 ≠ 0 then 64 - 48 else 64 - 43)
  else (if env.a21264.dva_48 ≠ 0 then 64 - 48 else 64 - 43)

/-- Test of one slot in the search loop of `cpu_alpha_mmu_v2p_21264`
(lines 140-145 of `helper.c`). -/
def v2p_match (tlbe : alpha_21264_tlbe) (asn address : Nat) : Bool :=
  if tlbe.pte.fl &&& ALPHA_PTE_V = 0 then false
  else
    let pg_sh := 13 + 3 * TB_PTE_GET_GH tlbe.pte.fl
    decide (sar64 tlbe.va pg_sh = sar64 address pg_sh)
      && (decide (tlbe.pte.asn = asn) || decide (tlbe.pte.fl &&& ALPHA_PTE_ASM ≠ 0))

/-- The search loop of `cpu_alpha_mmu_v2p_21264` (lines 136-149 of `helper.c`),
from index `i` for `n` more iterations. -/
def v2p_search (tlb : alpha_21264_tlb) (asn address : Nat) : Nat → Nat → alpha_pte
  | _, 0 => { pa := 0, fl := 0, asn := PTE_ASN_MISS }
  | i, n + 1 =>
    if v2p_match (tlb.entries i) asn address then (tlb.entries i).pte
    else v2p_search tlb asn address (i + 1) n

/-- The function `cpu_alpha_mmu_v2p_21264`. `address` is an `int64_t`. -/
def cpu_alpha_mmu_v2p_21264 (env : CPUAlphaState) (address rwx : Nat) : alpha_pte :=
  let tlb := v2p_tlb env rwx
  let va_sh := v2p_va_sh env rwx
  if sar64 (shl64 address va_sh) va_sh ≠ address then
    { pa := 0, fl := 0, asn := PTE_ASN_BAD_VA }
  else if tlb.spe &&& 4 ≠ 0 ∧ sar64 address 46 &&& 3 = 2 then
    { pa := ((address &&& 0x000008ffffffe000) >>> 13) % 2 ^ 32,
      fl := ALPHA_PTE_KRE ||| ALPHA_PTE_KWE ||| ALPHA_PTE_V, asn := 0 }
  else if tlb.spe &&& 2 ≠ 0 ∧ sar64 address 41 &&& 0x7f = 0x7e then
    { pa := ((sar64 (shl64 address 23) 23 &&& 0x000008ffffffe000) >>> 13) % 2 ^ 32,
      fl := ALPHA_PTE_KRE ||| ALPHA_PTE_KWE ||| ALPHA_PTE_V, asn := 0 }
  else if tlb.spe &&& 1 ≠ 0 ∧ sar64 address 30 &&& 0x3ffff = 0x3fffe then
    { pa := ((address &&& 0x000000003fffe000) >>> 13) % 2 ^ 32,
      fl := ALPHA_PTE_KRE ||| ALPHA_PTE_KWE ||| ALPHA_PTE_V, asn := 0 }
  else v2p_search tlb env.asn address 0 MAX_NBR_TLB_21264

/-- The function `cpu_alpha_mmu_dfault_21264`. -/
def cpu_alpha_mmu_dfault_21264 (env : CPUAlphaState) (address : Nat) :
    Option CPUAlphaState :=
  match va_form address env.a21264.d_vptb env.a21264.dva_48 with
  | none => none
  | some v => some { env with a21264 := { env.a21264 with va_form := v } }

/-- Result of `cpu_alpha_mmu_fault_21264`: the returned `int` and the state. -/
structure FaultResult where
  ret : Nat
  env : CPUAlphaState

/-- The success test of `cpu_alpha_mmu_fault_21264` (lines 184-187 of `helper.c`). -/
def mmu_fault_ok (pte : alpha_pte) (cm rwx : Nat) : Bool :=
  let rights := pte.fl >>> cm
  decide (pte.fl &&& ALPHA_PTE_V ≠ 0)
    && decide (rights &&& (if rwx = 1 then ALPHA_PTE_KWE else ALPHA_PTE_KRE) ≠ 0)
    && (decide (rwx = 2) || decide ((pte.fl >>> rwx) &&& ALPHA_PTE_FOR = 0))

/-- The physical address computed on success (lines 192-193 of `helper.c`). -/
def mmu_fault_pa (pte : alpha_pte) (address : Nat) : Nat :=
  let mask := shl64 ((1 <<< (3 * TB_PTE_GET_GH pte.fl)) - 1) 13
  (shl64 pte.pa 13 &&& not64 mask) ||| (address &&& mask)

/-- The protection computed on success (lines 194-203 of `helper.c`). -/
def mmu_fault_mode (pte : alpha_pte) (cm rwx : Nat) : Nat :=
  let rights := pte.fl >>> cm
  if rwx = 2 then PAGE_READ ||| PAGE_EXEC
  else
    let mode :=
      if rights &&& ALPHA_PTE_KWE ≠ 0 ∧ pte.fl &&& ALPHA_PTE_FOW = 0 then PAGE_WRITE
      else 0
    if rights &&& ALPHA_PTE_KRE ≠ 0 ∧ pte.fl &&& ALPHA_PTE_FOR = 0 then
      mode ||| PAGE_READ
    else mode

/-- The exception code and the values of `exc_sum` and `va` chosen on the instruction
side (lines 211-224 of `helper.c`); `va` is the value of `env->a21264.va` before the
call; `none` is `abort()`. -/
def mmu_fault_iexcp (pte : alpha_pte) (address va : Nat) : Option (Int × Nat × Nat) :=
  if pte.fl = 0 then
    if pte.asn = PTE_ASN_MISS then some (EXCP_21264_ITB_MISS, 0, va)
    else if pte.asn = PTE_ASN_BAD_VA then some (EXCP_21264_IACV, 1 <<< 41, address)
    else none
  else some (EXCP_21264_IACV, 0, va)

/-- The exception code chosen on the data side (lines 235-238 of `helper.c`). -/
def mmu_fault_dexcp (pte : alpha_pte) : Int :=
  if pte.fl = 0 ∧ pte.asn = PTE_ASN_MISS then EXCP_21264_DTBM_SINGLE
  else EXCP_21264_DFAULT

/-- The value stored in `mm_stat` (lines 268-272 of `helper.c`), a `uint32_t`. -/
def mmu_fault_mm_stat (pte : alpha_pte) (rwx insn : Nat) : Nat :=
  (((insn >>> 26) <<< 4)
    ||| (if rwx = 1 then 1 else 0)
    ||| (if rwx = 0 ∧ pte.fl &&& ALPHA_PTE_FOR ≠ 0 then 6 else 0)
    ||| (if rwx = 1 ∧ pte.fl &&& ALPHA_PTE_FOW ≠ 0 then 0xa else 0)
    ||| (if pte.fl = 0 ∧ pte.asn = PTE_ASN_BAD_VA then 2 else 0)) % 2 ^ 32

/-- The function `cpu_alpha_mmu_fault_21264`. `retaddr` is a pointer (0 is `NULL`);
`eng` stands for the instruction-block cache and physical memory. -/
def cpu_alpha_mmu_fault_21264 (eng : Engine) (env : CPUAlphaState)
    (address rwx mmu_idx retaddr : Nat) : Option FaultResult :=
  let pte := cpu_alpha_mmu_v2p_21264 env address rwx
  if mmu_fault_ok pte env.a21264.cm rwx then
    let pa := mmu_fault_pa pte address
    let mode := mmu_fault_mode pte env.a21264.cm rwx
    some { ret := 0,
           env := { env with calls := env.calls ++
             [EngineCall.tlb_set_page_exec (address &&& TARGET_PAGE_MASK) pa mode mmu_idx 1] } }
  else if rwx = 2 then
    match mmu_fault_iexcp pte address env.a21264.va with
    | none => none
    | some (excp, exc_sum, va) =>
      match va_form address env.a21264.i_vptb env.a21264.iva_48 with
      | none => none
      | some f =>
        if retaddr ≠ 0 then none
        else some { ret := 1,
                    env := { env with
                      exception_index := excp,
                      a21264 := { env.a21264 with
                        exc_sum := exc_sum, va := va, iva_form := f } } }
  else
    let excp := mmu_fault_dexcp pte
    if retaddr = 0 then none
    else
      match eng.tb_find_pc retaddr with
      | none => none
      | some tb =>
        let pc := eng.cpu_restore_state tb retaddr
        let phys_pc := (tb.page_addr0 + (pc &&& not64 TARGET_PAGE_MASK)) % 2 ^ 64
        let insn := eng.ldl_phys phys_pc
        let exc_sum := ((insn >>> 21) &&& 0x1f) <<< 8
        let mm_stat := mmu_fault_mm_stat pte rwx insn
        let env1 : CPUAlphaState :=
          { env with
            exception_index := excp, pc := pc,
            a21264 := { env.a21264 with
              exc_sum := exc_sum, mm_stat := mm_stat, va := address } }
        match cpu_alpha_mmu_dfault_21264 env1 address with
        | none => none
        | some env2 => some { ret := 1, env := env2 }

/-! ## Translation-cache maintenance (`helper.c`) -/

/-- Store into one slot of the array `entries`. -/
def set_entry (tlb : alpha_21264_tlb) (i : Nat) (e : alpha_21264_tlbe) :
    alpha_21264_tlb :=
  { tlb with entries := fun j => if j = i then e else tlb.entries j }

/-- The function `insert_itlb_21264`. `va` is an `int64_t`. -/
def insert_itlb_21264 (env : CPUAlphaState) (va pte : Nat) : CPUAlphaState :=
  let tlb := env.a21264.itlb
  let e : alpha_21264_tlbe :=
    { va := sar64 (shl64 (va &&& TARGET_PAGE_MASK) 16) 16,
      pte := { pa := (pte >>> 13) % 2 ^ 32,
               fl := (pte &&& 0x1fff) ||| ALPHA_PTE_V,
               asn := env.asn } }
  let tlb1 := set_entry tlb tlb.next e
  let tlb2 := { tlb1 with next := (tlb.next + 1) % MAX_NBR_TLB_21264 }
  { env with a21264 := { env.a21264 with itlb := tlb2 } }

/-- The function `insert_dtlb_21264`. `va` is an `int64_t`. -/
def insert_dtlb_21264 (env : CPUAlphaState) (va pte : Nat) : CPUAlphaState :=
  let tlb := env.a21264.dtlb
  let e : alpha_21264_tlbe :=
    { va := sar64 (shl64 (va &&& TARGET_PAGE_MASK) 16) 16,
      pte := { pa := (pte >>> 32) % 2 ^ 32,
               fl := (pte ||| ALPHA_PTE_V) % 2 ^ 16,
               asn := env.asn } }
  let tlb1 := set_entry tlb tlb.next e
  let tlb2 := { tlb1 with next := (tlb.next + 1) % MAX_NBR_TLB_21264 }
  { env with a21264 := { env.a21264 with dtlb := tlb2 } }

/-- Clear the flags of one slot (`e->pte.fl = 0`). -/
def clear_fl (e : alpha_21264_tlbe) : alpha_21264_tlbe :=
  { e with pte := { e.pte with fl := 0 } }

/-- The function `flush_tlb_asm_21264`: the loop body is applied to each of the 128 slots. -/
def flush_tlb_asm_21264 (tlb : alpha_21264_tlb) : alpha_21264_tlb :=
  { tlb with entries := fun i =>
      if i < MAX_NBR_TLB_21264 ∧ (tlb.entries i).pte.fl &&& ALPHA_PTE_ASM = 0 then
        clear_fl (tlb.entries i)
      else tlb.entries i }

/-- The function `flush_tlb_all_21264`. -/
def flush_tlb_all_21264 (tlb : alpha_21264_tlb) : alpha_21264_tlb :=
  { tlb with entries := fun i =>
      if i < MAX_NBR_TLB_21264 then clear_fl (tlb.entries i) else tlb.entries i }

/-- Test of one slot in `flush_tlb_21264_page` (lines 357-360 of `helper.c`). `e->va` is
an `int64_t` and `addr` a `uint64_t`: the left side is shifted arithmetically and
converted to `uint64_t`, the right side is shifted logically. -/
def flush_match (e : alpha_21264_tlbe) (asn addr : Nat) : Bool :=
  let pg_sh := 13 + 3 * TB_PTE_GET_GH e.pte.fl
  decide (sar64 e.va pg_sh = addr >>> pg_sh)
    && (decide (e.pte.fl &&& ALPHA_PTE_ASM ≠ 0) || decide (e.pte.asn = asn))

/-- The inner loop of `flush_tlb_21264_page` (lines 364-365 of `helper.c`): the calls
`tlb_flush_page(env, baddr + k)` for `k = 0, TARGET_PAGE_SIZE, ...` below `1 << pg_sh`. -/
def flush_page_calls (baddr pg_sh : Nat) : List EngineCall :=
  (List.range ((1 <<< pg_sh) / TARGET_PAGE_SIZE)).map
    (fun j => EngineCall.tlb_flush_page ((baddr + j * TARGET_PAGE_SIZE) % 2 ^ 64))

/-- The outer loop of `flush_tlb_21264_page` (lines 355-368 of `helper.c`), from index
`i` for `n` more iterations; the second component collects the engine calls. -/
def flush_page_loop (asn addr : Nat) :
    Nat → Nat → alpha_21264_tlb × List EngineCall → alpha_21264_tlb × List EngineCall
  | _, 0, st => st
  | i, n + 1, (tlb, calls) =>
    let e := tlb.entries i
    if flush_match e asn addr then
      let pg_sh := 13 + 3 * TB_PTE_GET_GH e.pte.fl
      let baddr := shl64 (addr >>> pg_sh) pg_sh
      flush_page_loop asn addr (i + 1) n
        (set_entry tlb i (clear_fl e), calls ++ flush_page_calls baddr pg_sh)
    else flush_page_loop asn addr (i + 1) n (tlb, calls)

/-- The function `flush_tlb_21264_page`, given the state, the stream and the address: it
returns the new stream and the engine calls made. -/
def flush_tlb_21264_page (env : CPUAlphaState) (tlb : alpha_21264_tlb) (addr : Nat) :
    alpha_21264_tlb × List EngineCall :=
  flush_page_loop env.asn addr 0 MAX_NBR_TLB_21264 (tlb, [])

/-! ## Register file and interrupts (`helper.c`) -/

/-- Modelled from the spec: `cpu_interrupt` of the surrounding emulator (`exec.c`, not
part of the sources), which asserts the request lines of `mask` to the scheduler:
it sets them in `interrupt_request`. -/
def cpu_interrupt (env : CPUAlphaState) (mask : Nat) : CPUAlphaState :=
  { env with interrupt_request := env.interrupt_request ||| mask }

/-- Modelled from the spec: `cpu_reset_interrupt` of the surrounding emulator (`exec.c`,
not part of the sources), which clears the request lines of `mask`. -/
def cpu_reset_interrupt (env : CPUAlphaState) (mask : Nat) : CPUAlphaState :=
  { env with interrupt_request := env.interrupt_request &&& not64 mask }

/-- Store into one element of the register array `ir`. -/
def set_ir (ir : Nat → Nat) (i v : Nat) : Nat → Nat :=
  fun j => if j = i then v else ir j

/-- The function `swap_shadow_21264`. -/
def swap_shadow_21264 (env : CPUAlphaState) : CPUAlphaState :=
  let a := env.a21264
  { env with
    ir := set_ir (set_ir (set_ir (set_ir (set_ir (set_ir (set_ir (set_ir env.ir
            4 a.shadow_r4) 5 a.shadow_r5) 6 a.shadow_r6) 7 a.shadow_r7)
            20 a.shadow_r20) 21 a.shadow_r21) 22 a.shadow_r22) 23 a.shadow_r23,
    a21264 := { a with
      shadow_r4 := env.ir 4, shadow_r5 := env.ir 5,
      shadow_r6 := env.ir 6, shadow_r7 := env.ir 7,
      shadow_r20 := env.ir 20, shadow_r21 := env.ir 21,
      shadow_r22 := env.ir 22, shadow_r23 := env.ir 23 } }

/-- The function `alpha_21264_srm_write` (lines 776-809 of `hw/es40.c`). It stores the
three relocation fields, patches physical memory and writes the ROM file; every path
then ends in `exit(1)` (line 802) or `exit(0)` (line 808), so the function never
returns to its caller: its result is `none`, whatever the state it was called in. -/
def alpha_21264_srm_write (env : CPUAlphaState) : Option CPUAlphaState :=
  let _env1 : CPUAlphaState :=
    { env with
      a21264 := { env.a21264 with
        pal_reloc_val := 1, pal_reloc_mask := 0, pal_reloc_offset := 0 } }
  none

/-- The function `cpu_alpha_mfpr_21264`; the `default` case is `cpu_abort`. -/
def cpu_alpha_mfpr_21264 (env : CPUAlphaState) (iprn : Nat) : Option Nat :=
  let a := env.a21264
  if iprn = IPR_PAL_BASE then some env.pal_base
  else if iprn = IPR_I_CTL then
    some (a.i_vptb
      ||| (a.chip_id <<< IPR_I_CTL_CHIP_ID_SHIFT)
      ||| (a.iva_48 <<< IPR_I_CTL_VA_48_SHIFT)
      ||| (a.hwe <<< IPR_I_CTL_HWE_SHIFT)
      ||| (a.sde1 <<< IPR_I_CTL_SDE1_SHIFT)
      ||| (a.ic_en <<< IPR_I_CTL_IC_EN_SHIFT)
      ||| (a.call_pal_r23 <<< IPR_I_CTL_CALL_PAL_R23_SHIFT)
      ||| (a.itlb.spe <<< IPR_I_CTL_SPE_SHIFT))
  else if iprn = IPR_IVA_FORM then some a.iva_form
  else if iprn = IPR_VA then some a.va
  else if iprn = IPR_EXC_ADDR then some env.exc_addr
  else if iprn = IPR_I_STAT ∨ iprn = IPR_DC_STAT then some 0
  else if iprn = IPR_C_DATA ∨ iprn = IPR_C_SHIFT then some 0
  else if IPR_PCTX ≤ iprn ∧ iprn ≤ IPR_PCTX_ALL then
    some (shl64 env.asn IPR_PCTX_ASN_SHIFT
      ||| shl64 a.astrr IPR_PCTX_ASTRR_SHIFT
      ||| shl64 a.aster IPR_PCTX_ASTER_SHIFT
      ||| shl64 env.fen IPR_PCTX_FPE_SHIFT
      ||| shl64 a.ppce IPR_PCTX_PPCE_SHIFT)
  else if iprn = IPR_IER_CM ∨ iprn = IPR_CM ∨ iprn = IPR_IER then
    some (shl64 a.cm IPR_CM_SHIFT ||| a.ier)
  else if iprn = IPR_ISUM then some a.isum
  else if iprn = IPR_SIRR then some a.sirr
  else if iprn = IPR_MM_STAT then some a.mm_stat
  else if iprn = IPR_VA_FORM then some a.va_form
  else if iprn = IPR_EXC_SUM then some a.exc_sum
  else none

/-- The ASN field of a PCTX write (lines 529-535 of `helper.c`). -/
def pctx_asn (env : CPUAlphaState) (iprn val : Nat) : CPUAlphaState :=
  if iprn &&& IPR_PCTX_ASN ≠ 0 then
    let nasn := (val >>> IPR_PCTX_ASN_SHIFT) &&& 0xff
    if nasn ≠ env.asn then
      { env with asn := nasn, calls := env.calls ++ [EngineCall.tlb_flush 1] }
    else env
  else env

/-- The ASTRR field of a PCTX write (lines 536-537 of `helper.c`). -/
def pctx_astrr (env : CPUAlphaState) (iprn val : Nat) : CPUAlphaState :=
  if iprn &&& IPR_PCTX_ASTRR ≠ 0 then
    { env with a21264 := { env.a21264 with
        astrr := (val >>> IPR_PCTX_ASTRR_SHIFT) &&& 0xf } }
  else env

/-- The ASTER field of a PCTX write (lines 541-542 of `helper.c`). -/
def pctx_aster (env : CPUAlphaState) (iprn val : Nat) : CPUAlphaState :=
  if iprn &&& IPR_PCTX_ASTER ≠ 0 then
    { env with a21264 := { env.a21264 with
        aster := (val >>> IPR_PCTX_ASTER_SHIFT) &&& 0xf } }
  else env

/-- The FPE field of a PCTX write (lines 546-547 of `helper.c`). -/
def pctx_fpe (env : CPUAlphaState) (iprn val : Nat) : CPUAlphaState :=
  if iprn &&& IPR_PCTX_FPE ≠ 0 then
    { env with fen := (val >>> IPR_PCTX_FPE_SHIFT) &&& 1 }
  else env

/-- The PPCE field of a PCTX write (lines 548-549 of `helper.c`). -/
def pctx_ppce (env : CPUAlphaState) (iprn val : Nat) : CPUAlphaState :=
  if iprn &&& IPR_PCTX_PPCE ≠ 0 then
    { env with a21264 := { env.a21264 with
        ppce := (val >>> IPR_PCTX_PPCE_SHIFT) &&& 1 } }
  else env

/-- The case `IPR_PCTX ... IPR_PCTX_ALL` of `cpu_alpha_mtpr_21264`
(lines 528-550 of `helper.c`); a non-zero ASTRR or ASTER field is `cpu_abort`. -/
def mtpr_pctx (env : CPUAlphaState) (iprn val : Nat) : Option CPUAlphaState :=
  let env1 := pctx_asn env iprn val
  let env2 := pctx_astrr env1 iprn val
  if iprn &&& IPR_PCTX_ASTRR ≠ 0 ∧ env2.a21264.astrr ≠ 0 then none
  else
    let env3 := pctx_aster env2 iprn val
    if iprn &&& IPR_PCTX_ASTER ≠ 0 ∧ env3.a21264.aster ≠ 0 then none
    else some (pctx_ppce (pctx_fpe env3 iprn val) iprn val)

/-- The IER part of the case `IPR_IER_CM`, `IPR_CM`, `IPR_IER` of
`cpu_alpha_mtpr_21264` (lines 486-489 of `helper.c`). -/
def mtpr_ier (env : CPUAlphaState) (iprn val : Nat) : CPUAlphaState :=
  if iprn &&& 2 ≠ 0 then
    { env with a21264 := { env.a21264 with
        ier := val &&& IPR_IER_MASK,
        isum := env.a21264.ipend &&& (val &&& IPR_IER_MASK) } }
  else env

/-- The CM part of the case `IPR_IER_CM`, `IPR_CM`, `IPR_IER` of
`cpu_alpha_mtpr_21264` (lines 490-493 of `helper.c`). -/
def mtpr_cm (env : CPUAlphaState) (iprn val : Nat) : CPUAlphaState :=
  if iprn &&& 1 ≠ 0 then
    { env with
      a21264 := { env.a21264 with cm := (val &&& IPR_CM_MASK) >>> IPR_CM_SHIFT },
      mmu_data_index := (val &&& IPR_CM_MASK) >>> IPR_CM_SHIFT }
  else env

/-- The case `IPR_CC` of `cpu_alpha_mtpr_21264`. -/
def mtpr_cc (env : CPUAlphaState) (val : Nat) : CPUAlphaState :=
  { env with a21264 := { env.a21264 with cc_offset := shl64 (val >>> 32) 32 } }

/-- The case `IPR_CC_CTL` of `cpu_alpha_mtpr_21264`; `ticks` is what `cpu_get_ticks()`
returns. -/
def mtpr_cc_ctl (ticks : Nat) (env : CPUAlphaState) (val : Nat) : CPUAlphaState :=
  { env with a21264 := { env.a21264 with
      cc_ena := (val >>> IPR_CC_CTL_ENA_SHIFT) &&& 1,
      cc_counter := (val &&& IPR_CC_CTL_COUNTER_MASK) % 2 ^ 32,
      cc_load_ticks := ticks } }

/-- The case `IPR_ITB_TAG` of `cpu_alpha_mtpr_21264`. -/
def mtpr_itb_tag (env : CPUAlphaState) (val : Nat) : CPUAlphaState :=
  { env with a21264 := { env.a21264 with itb_tag := val &&& 0x0000ffffffffe000 } }

/-- The case `IPR_DTB_TAG0` of `cpu_alpha_mtpr_21264`. -/
def mtpr_dtb_tag0 (env : CPUAlphaState) (val : Nat) : CPUAlphaState :=
  { env with a21264 := { env.a21264 with dtb_tag := val &&& 0x0000ffffffffe000 } }

/-- The store to `itb_pte` in the case `IPR_ITB_PTE` of `cpu_alpha_mtpr_21264`. -/
def set_itb_pte (env : CPUAlphaState) (val : Nat) : CPUAlphaState :=
  { env with a21264 := { env.a21264 with itb_pte := val &&& 0x00000fffffffef70 } }

/-- The case `IPR_ITB_PTE` of `cpu_alpha_mtpr_21264`. -/
def mtpr_itb_pte (env : CPUAlphaState) (val : Nat) : CPUAlphaState :=
  insert_itlb_21264 (set_itb_pte env val) (set_itb_pte env val).a21264.itb_tag
    (set_itb_pte env val).a21264.itb_pte

/-- The store to `dtb_pte` in the case `IPR_DTB_PTE0` of `cpu_alpha_mtpr_21264`. -/
def set_dtb_pte (env : CPUAlphaState) (val : Nat) : CPUAlphaState :=
  { env with a21264 := { env.a21264 with dtb_pte := val &&& 0x7fffffff0000ffe6 } }

/-- The case `IPR_DTB_PTE0` of `cpu_alpha_mtpr_21264`. -/
def mtpr_dtb_pte0 (env : CPUAlphaState) (val : Nat) : CPUAlphaState :=
  insert_dtlb_21264 (set_dtb_pte env val) (set_dtb_pte env val).a21264.dtb_tag
    (set_dtb_pte env val).a21264.dtb_pte

/-- The case `IPR_DTB_ASN0` of `cpu_alpha_mtpr_21264`. -/
def mtpr_dtb_asn0 (env : CPUAlphaState) (val : Nat) : CPUAlphaState :=
  { env with a21264 := { env.a21264 with
      dtb_asn := (val >>> IPR_DTB_ASN_SHIFT) &&& 0xff } }

/-- The case `IPR_PAL_BASE` of `cpu_alpha_mtpr_21264`. -/
def mtpr_pal_base (env : CPUAlphaState) (val : Nat) : CPUAlphaState :=
  { env with pal_base := val &&& 0x00000fffffff8000 }

/-- The field stores of the case `IPR_I_CTL` of `cpu_alpha_mtpr_21264`
(lines 465-471 of `helper.c`). -/
def set_i_ctl (env : CPUAlphaState) (val : Nat) : CPUAlphaState :=
  { env with a21264 := { env.a21264 with
      i_vptb := sar64 (shl64 val 16) 16 &&& 0xffffffffc0000000,
      hwe := (val >>> IPR_I_CTL_HWE_SHIFT) &&& 1,
      sde1 := (val >>> IPR_I_CTL_SDE1_SHIFT) &&& 1,
      iva_48 := (val >>> IPR_I_CTL_VA_48_SHIFT) &&& 3,
      itlb := { env.a21264.itlb with spe := (val >>> IPR_I_CTL_SPE_SHIFT) &&& 7 },
      call_pal_r23 := (val >>> IPR_I_CTL_CALL_PAL_R23_SHIFT) &&& 1 } }

/-- The case `IPR_I_CTL` of `cpu_alpha_mtpr_21264`. -/
def mtpr_i_ctl (env : CPUAlphaState) (val : Nat) : CPUAlphaState :=
  if (set_i_ctl env val).pal_mode ≠ 0
      ∧ env.a21264.sde1 ≠ (set_i_ctl env val).a21264.sde1 then
    swap_shadow_21264 (set_i_ctl env val)
  else set_i_ctl env val

/-- The case `IPR_VA_CTL` of `cpu_alpha_mtpr_21264`; a set bit 0 (big endian) is
`cpu_abort`. -/
def mtpr_va_ctl (env : CPUAlphaState) (val : Nat) : Option CPUAlphaState :=
  if val &&& 1 ≠ 0 then none
  else
    some { env with a21264 := { env.a21264 with
      d_vptb := val &&& 0xffffffffc0000000,
      dva_48 := (val >>> IPR_VA_CTL_VA_48_SHIFT) &&& 3 } }

/-- The call `tb_flush(env)`. -/
def call_tb_flush (env : CPUAlphaState) : CPUAlphaState :=
  { env with calls := env.calls ++ [EngineCall.tb_flush] }

/-- The call `tlb_flush(env, 1)`. -/
def call_tlb_flush (env : CPUAlphaState) : CPUAlphaState :=
  { env with calls := env.calls ++ [EngineCall.tlb_flush 1] }

/-- Replace the instruction stream and append engine calls. -/
def set_itlb (env : CPUAlphaState) (r : alpha_21264_tlb × List EngineCall) :
    CPUAlphaState :=
  { env with calls := env.calls ++ r.2, a21264 := { env.a21264 with itlb := r.1 } }

/-- Replace the data stream and append engine calls. -/
def set_dtlb (env : CPUAlphaState) (r : alpha_21264_tlb × List EngineCall) :
    CPUAlphaState :=
  { env with calls := env.calls ++ r.2, a21264 := { env.a21264 with dtlb := r.1 } }

/-- The case `IPR_M_CTL` of `cpu_alpha_mtpr_21264`. -/
def mtpr_m_ctl (env : CPUAlphaState) (val : Nat) : CPUAlphaState :=
  { env with a21264 := { env.a21264 with
      dtlb := { env.a21264.dtlb with
        spe := (val >>> IPR_M_CTL_SPE_SHIFT) &&& IPR_M_CTL_SPE_MASK } } }

/-- The case `IPR_SIRR` of `cpu_alpha_mtpr_21264`; `sirr` is a `uint32_t`. -/
def mtpr_sirr (env : CPUAlphaState) (val : Nat) : CPUAlphaState :=
  let sirr := (val &&& IPR_SIRR_MASK) % 2 ^ 32
  let ipend := (env.a21264.ipend &&& not64 IPR_SIRR_MASK) ||| sirr
  { env with a21264 := { env.a21264 with
      sirr := sirr, ipend := ipend, isum := ipend &&& env.a21264.ier } }

/-- The case `IPR_DTB_ALTMODE0` of `cpu_alpha_mtpr_21264`. -/
def mtpr_dtb_altmode0 (env : CPUAlphaState) (val : Nat) : CPUAlphaState :=
  { env with a21264 := { env.a21264 with altmode := val &&& IPR_DTB_ALTMODE_MASK } }

/-- The function `cpu_alpha_mtpr_21264`. `ticks` is the value `cpu_get_ticks()` returns
when it is called; `none` is a call that does not return: `cpu_abort`, or the `exit`
of `alpha_21264_srm_write`. -/
def cpu_alpha_mtpr_21264 (ticks : Nat) (env : CPUAlphaState) (iprn val : Nat) :
    Option CPUAlphaState :=
  if iprn = IPR_CC then some (mtpr_cc env val)
  else if iprn = IPR_CC_CTL then some (mtpr_cc_ctl ticks env val)
  else if iprn = IPR_ITB_TAG then some (mtpr_itb_tag env val)
  else if iprn = IPR_DTB_TAG0 then some (mtpr_dtb_tag0 env val)
  else if iprn = IPR_DTB_TAG1 ∨ iprn = IPR_DTB_ASN1 ∨ iprn = IPR_DTB_PTE1 then some env
  else if iprn = IPR_ITB_PTE then some (mtpr_itb_pte env val)
  else if iprn = IPR_DTB_PTE0 then some (mtpr_dtb_pte0 env val)
  else if iprn = IPR_DTB_ASN0 then some (mtpr_dtb_asn0 env val)
  else if iprn = IPR_PAL_BASE then some (mtpr_pal_base env val)
  else if iprn = IPR_I_CTL then some (mtpr_i_ctl env val)
  else if iprn = IPR_VA_CTL then mtpr_va_ctl env val
  else if iprn = IPR_IER_CM ∨ iprn = IPR_CM ∨ iprn = IPR_IER then
    some (mtpr_cm (mtpr_ier env iprn val) iprn val)
  else if iprn = IPR_IC_FLUSH ∨ iprn = IPR_IC_FLUSH_ASM then some (call_tb_flush env)
  else if iprn = IPR_ITB_IA then
    some (set_itlb (call_tlb_flush env) (flush_tlb_all_21264 env.a21264.itlb, []))
  else if iprn = IPR_ITB_IAP then
    some (set_itlb (call_tlb_flush env) (flush_tlb_asm_21264 env.a21264.itlb, []))
  else if iprn = IPR_ITB_IS then
    some (set_itlb env (flush_tlb_21264_page env env.a21264.itlb val))
  else if iprn = IPR_DTB_IA then
    some (set_dtlb (call_tlb_flush env) (flush_tlb_all_21264 env.a21264.dtlb, []))
  else if iprn = IPR_DTB_IAP then
    some (set_dtlb (call_tlb_flush env) (flush_tlb_asm_21264 env.a21264.dtlb, []))
  else if iprn = IPR_DTB_IS0 then
    some (set_dtlb env (flush_tlb_21264_page env env.a21264.dtlb val))
  else if iprn = IPR_DTB_IS1 then some env
  else if iprn = IPR_I_STAT ∨ iprn = IPR_DC_STAT then some env
  else if iprn = IPR_MM_STAT then some env
  else if IPR_PCTX ≤ iprn ∧ iprn ≤ IPR_PCTX_ALL then mtpr_pctx env iprn val
  else if iprn = IPR_M_CTL then some (mtpr_m_ctl env val)
  else if iprn = IPR_SIRR then some (mtpr_sirr env val)
  else if iprn = IPR_HW_INT_CLR then some env
  else if iprn = IPR_DTB_ALTMODE0 then some (mtpr_dtb_altmode0 env val)
  else if iprn = IPR_PCTR_CTL then some env
  else if iprn = IPR_C_DATA ∨ iprn = IPR_C_SHIFT then some env
  else if iprn = IPR_DC_CTL then
    if val &&& 0x34 ≠ 0 then none else some env
  else if iprn = 0x2d then
    if env.a21264.pal_reloc_val ≠ 0 then alpha_21264_srm_write env else some env
  else none

/-- The function `cpu_alpha_update_irq`; `irqs` is an `int` given as its 64-bit
sign-extended pattern (the cast `(uint64_t)irqs`). -/
def cpu_alpha_update_irq (env : CPUAlphaState) (irqs : Nat) : Option CPUAlphaState :=
  match env.pal_emul with
  | pal_emul.PAL_21264 =>
    let ipend1 := env.a21264.ipend &&& not64 (shl64 0x3f 33)
    let ipend2 := ipend1 ||| shl64 irqs 33
    let isum := ipend2 &&& env.a21264.ier
    let env1 : CPUAlphaState :=
      { env with a21264 := { env.a21264 with ipend := ipend2, isum := isum } }
    if isum ≠ 0 ∧ env.pal_mode = 0 then some (cpu_interrupt env1 CPU_INTERRUPT_HARD)
    else some env1
  | pal_emul.PAL_NONE => none

/-- The generic exception translation of `do_interrupt` (lines 646-661 of `helper.c`). -/
def do_interrupt_excp (pe : pal_emul) (excp : Int) : Option Int :=
  if excp ≤ EXCP_GEN_LAST then
    match pe with
    | pal_emul.PAL_21264 =>
      if excp = EXCP_GEN_OPCDEC then some EXCP_21264_OPCDEC
      else if excp = EXCP_GEN_ARITH then some EXCP_21264_ARITH
      else if excp = EXCP_GEN_FEN then some EXCP_21264_FEN
      else if excp = EXCP_GEN_INTERRUPT then some EXCP_21264_INTERRUPT
      else none
    | pal_emul.PAL_NONE => none
  else some excp

/-- The shadow swap of `do_interrupt` (lines 665-666 of `helper.c`). -/
def do_interrupt_swap (env : CPUAlphaState) : CPUAlphaState :=
  if env.a21264.sde1 ≠ 0 ∧ env.exc_addr &&& 1 = 0 then swap_shadow_21264 env
  else env

/-- The store of the return address of `do_interrupt` (lines 667-668 of `helper.c`);
`pc` is `env->pc`, which `do_interrupt` has not changed yet. -/
def do_interrupt_r23 (env : CPUAlphaState) (excp : Int) : CPUAlphaState :=
  if excp.toNat &&& EXCP_CALL_PALP ≠ 0 ∧ env.a21264.call_pal_r23 ≠ 0 then
    { env with ir := set_ir env.ir 23 env.pc }
  else env

/-- The reset of the interrupt request of `do_interrupt` (lines 669-670 of `helper.c`). -/
def do_interrupt_reset (env : CPUAlphaState) (excp : Int) : CPUAlphaState :=
  if excp = EXCP_21264_INTERRUPT then cpu_reset_interrupt env CPU_INTERRUPT_HARD
  else env

/-- The second `switch (env->pal_emul)` of `do_interrupt` (lines 663-674 of `helper.c`). -/
def do_interrupt_pal (env : CPUAlphaState) (excp : Int) : CPUAlphaState :=
  match env.pal_emul with
  | pal_emul.PAL_21264 =>
    do_interrupt_reset (do_interrupt_r23 (do_interrupt_swap env) excp) excp
  | pal_emul.PAL_NONE => env

/-- The function `do_interrupt` (system emulation). -/
def do_interrupt (env : CPUAlphaState) : Option CPUAlphaState :=
  if env.pal_mode ≠ 0 ∧ env.exception_index = EXCP_GEN_INTERRUPT then none
  else
    let env1 : CPUAlphaState :=
      { env with
        exc_addr := env.pc ||| env.pal_mode,
        exception_index := 0,
        error_code := 0,
        pal_mode := 1,
        mmu_code_index := MMU_PAL_IDX }
    match do_interrupt_excp env.pal_emul env.exception_index with
    | none => none
    | some excp =>
      let env2 := do_interrupt_pal env1 excp
      some { env2 with pc := ofS64 ((env2.pal_base : Int) + excp) }

/-! ## Return from PAL mode (`op_helper.c`) -/

/-- The function `helper_hw_ret`, on the state `env` it reaches through the global. -/
def helper_hw_ret (env : CPUAlphaState) (a : Nat) : Option CPUAlphaState :=
  match env.pal_emul with
  | pal_emul.PAL_21264 =>
    if a &&& 1 = 0 ∧ env.a21264.isum ≠ 0 then
      some { env with
        exc_addr := a,
        pc := ofS64 ((env.pal_base : Int) + EXCP_21264_INTERRUPT),
        interrupt_request := env.interrupt_request &&& not64 CPU_INTERRUPT_HARD }
    else
      let env1 : CPUAlphaState := { env with pc := a &&& not64 3 }
      if env1.pal_mode ≠ a &&& 1 then
        let env2 : CPUAlphaState := { env1 with pal_mode := a &&& 1 }
        let env3 : CPUAlphaState :=
          if env2.pal_mode = 0 then { env2 with mmu_code_index := env2.mmu_data_index }
          else { env2 with mmu_code_index := MMU_PAL_IDX }
        if env3.a21264.sde1 ≠ 0 ∧ a &&& 1 = 0 then some (swap_shadow_21264 env3)
        else some env3
      else some env1
  | pal_emul.PAL_NONE => none

/-! ## Arithmetic helpers (`op_helper.c`) -/

/-- Outcome of a helper that can call `helper_excp`: it returns a value, or it leaves
through `cpu_loop_exit()` after `helper_excp(excp, error)` has stored `excp` in
`exception_index` and `error` in `error_code`. -/
inductive Helper (α : Type) where
  | ret (v : α)
  | raised (excp error : Int)
  deriving DecidableEq, Repr

/-- The function `helper_excp`: it stores the two codes and does not return. -/
def helper_excp {α : Type} (excp error : Int) : Helper α := Helper.raised excp error

/-- The enumerator `EXCP_ARITH_OVERFLOW` of `cpu.h`. -/
def EXCP_ARITH_OVERFLOW : Int := 0

/-- The function `helper_addqv`. -/
def helper_addqv (op1 op2 : Nat) : Helper Nat :=
  let tmp := op1
  let op1 := (op1 + op2) % 2 ^ 64
  if ((tmp ^^^ op2 ^^^ (2 ^ 64 - 1)) &&& (tmp ^^^ op1) &&& (1 <<< 63)) ≠ 0 then
    helper_excp EXCP_GEN_ARITH EXCP_ARITH_OVERFLOW
  else Helper.ret op1

/-- Modelled from the spec: `muls64` of the generic header `host-utils.h`, which is not
part of the sources: the signed 128-bit product of two `int64_t`, delivered as its low
and its high 64-bit word. -/
def muls64 (a b : Nat) : Nat × Nat :=
  (ofS64 (toS64 a * toS64 b), ofS64 ((toS64 a * toS64 b) / 2 ^ 64))

/-- The function `helper_mulqv`. -/
def helper_mulqv (op1 op2 : Nat) : Helper Nat :=
  let tl := (muls64 op1 op2).1
  let th := (muls64 op1 op2).2
  if (th + 1) % 2 ^ 64 > 1 then helper_excp EXCP_GEN_ARITH EXCP_ARITH_OVERFLOW
  else Helper.ret tl

/-! ## Floating-point formats (`op_helper.c`)

A `float32` is given by its 32-bit pattern and a `float64` by its 64-bit pattern (the
unions `CPU_FloatU` and `CPU_DoubleU`). -/

/-- The function `float32_to_f`. -/
def float32_to_f (fa : Nat) : Nat :=
  let sig := shl64 (fa &&& 0x80000000) 32
  let exp := (fa >>> 23) &&& 0xff
  let mant := shl64 (fa &&& 0x007fffff) 29
  if exp = 255 then 1
  else if exp = 0 then
    if mant = 0 then 0
    else sig ||| shl64 (exp + 1) 52 ||| mant
  else
    if exp ≥ 253 then 1
    else sig ||| shl64 (exp + 2) 52

/-- The function `f_to_float32`; `exp` and `mant_sig` are `uint32_t`. -/
def f_to_float32 (a : Nat) : Helper Nat :=
  let exp := (((a >>> 55) &&& 0x80) ||| ((a >>> 52) &&& 0x7f)) % 2 ^ 32
  let mant_sig := (((a >>> 32) &&& 0x80000000) ||| ((a >>> 29) &&& 0x007fffff)) % 2 ^ 32
  if exp = 0 ∧ mant_sig ≠ 0 then helper_excp EXCP_GEN_OPCDEC 0
  else if exp < 3 then Helper.ret 0
  else Helper.ret ((((exp - 2) <<< 23) ||| mant_sig) % 2 ^ 32)

/-- The function `float64_to_g`. -/
def float64_to_g (fa : Nat) : Nat :=
  let sig := fa &&& 0x8000000000000000
  let exp := (fa >>> 52) &&& 0x7ff
  let mant := fa &&& 0x000fffffffffffff
  if exp = 2047 then 1
  else if exp = 0 then
    if mant = 0 then 0
    else sig ||| shl64 (exp + 1) 52 ||| mant
  else
    if exp ≥ 2045 then 1
    else sig ||| shl64 (exp + 2) 52

/-- The function `g_to_float64`. -/
def g_to_float64 (a : Nat) : Helper Nat :=
  let exp := (a >>> 52) &&& 0x7ff
  let mant_sig := a &&& 0x800fffffffffffff
  if exp = 0 ∧ mant_sig ≠ 0 then helper_excp EXCP_GEN_OPCDEC 0
  else if exp < 3 then Helper.ret 0
  else Helper.ret (shl64 (exp - 2) 52 ||| mant_sig)

/-- The function `float32_to_s`. -/
def float32_to_s (fa : Nat) : Nat :=
  let r := shl64 (fa &&& 0xc0000000) 32 ||| shl64 (fa &&& 0x3fffffff) 29
  if fa &&& 0x7f800000 ≠ 0x7f800000 ∧ fa &&& 0x40000000 = 0 then r ||| shl64 0x7 59
  else r

/-- The function `s_to_float32`; the result is a `uint32_t`. -/
def s_to_float32 (a : Nat) : Nat :=
  (((a >>> 32) &&& 0xc0000000) ||| ((a >>> 29) &&& 0x3fffffff)) % 2 ^ 32

/-- The function `helper_s_to_memory`: the memory format is that of `float32`. -/
def helper_s_to_memory (a : Nat) : Nat := s_to_float32 a

/-- The function `helper_memory_to_s`; its argument is a `uint32_t`. -/
def helper_memory_to_s (a : Nat) : Nat := float32_to_s a

/-! ## Longword helpers (`op_helper.c`) -/

/-- Signed reading of the low 32 bits of a value (conversion to `int32_t`). -/
def toS32 (x : Nat) : Int :=
  if x % 2 ^ 32 < 2 ^ 31 then ((x % 2 ^ 32 : Nat) : Int) else ((x % 2 ^ 32 : Nat) : Int) - 2 ^ 32

/-- The function `helper_addlv`; `-1UL` and `1UL << 31` are `unsigned long` constants of
a 64-bit host. -/
def helper_addlv (op1 op2 : Nat) : Helper Nat :=
  let tmp := op1
  let op1 := ((op1 + op2) % 2 ^ 64) % 2 ^ 32
  if ((tmp ^^^ op2 ^^^ (2 ^ 64 - 1)) &&& (tmp ^^^ op1) &&& (1 <<< 31)) ≠ 0 then
    helper_excp EXCP_GEN_ARITH EXCP_ARITH_OVERFLOW
  else Helper.ret op1

/-- The function `helper_sublv`; `res` is a `uint32_t`. -/
def helper_sublv (op1 op2 : Nat) : Helper Nat :=
  let res := ((op1 + (2 ^ 64 - op2 % 2 ^ 64)) % 2 ^ 64) % 2 ^ 32
  if ((op1 ^^^ op2) &&& (res ^^^ op1) &&& (1 <<< 31)) ≠ 0 then
    helper_excp EXCP_GEN_ARITH EXCP_ARITH_OVERFLOW
  else Helper.ret res

/-- The function `helper_mullv`; the `int64_t` product wraps at 64 bits. -/
def helper_mullv (op1 op2 : Nat) : Helper Nat :=
  let res := ofS64 (toS64 op1 * toS64 op2)
  if toS32 res ≠ toS64 res then helper_excp EXCP_GEN_ARITH EXCP_ARITH_OVERFLOW
  else Helper.ret (ofS64 (toS32 res))

/-- The function `helper_cvtlq`. -/
def helper_cvtlq (a : Nat) : Nat :=
  ofS64 (toS32 ((a >>> 32) ||| ((a >>> 29) &&& 0x3FFFFFFF)))

/-- The function `__helper_cvtql`; `s` and `v` are the `int` flags of the software
completion and of the overflow check. -/
def helper_cvtql_sv (a s v : Nat) : Helper Nat :=
  let r := shl64 (a &&& 0xC0000000) 32 ||| shl64 (a &&& 0x7FFFFFFF) 29
  if v ≠ 0 ∧ toS32 r ≠ toS64 r then helper_excp EXCP_GEN_ARITH EXCP_ARITH_OVERFLOW
  else if s ≠ 0 then Helper.ret r
  else Helper.ret r

/-- The function `helper_cvtql`. -/
def helper_cvtql (a : Nat) : Helper Nat := helper_cvtql_sv a 0 0

/-- The function `helper_cvtqlv`. -/
def helper_cvtqlv (a : Nat) : Helper Nat := helper_cvtql_sv a 0 1

/-- The function `helper_f_to_memory`; `r` is a `uint32_t`. -/
def helper_f_to_memory (a : Nat) : Nat :=
  ((((a &&& 0x00001fffe0000000) >>> 13) % 2 ^ 32)
    ||| (((a &&& 0x07ffe00000000000) >>> 45) % 2 ^ 32)
    ||| (((a &&& 0xc000000000000000) >>> 48) % 2 ^ 32)) % 2 ^ 32

/-- The function `helper_memory_to_f`; its argument is a `uint32_t`. -/
def helper_memory_to_f (a : Nat) : Nat :=
  let r := shl64 (a &&& 0x0000c000) 48 ||| shl64 (a &&& 0x003fffff) 45
            ||| shl64 (a &&& 0xffff0000) 13
  if a &&& 0x00004000 = 0 then r ||| shl64 0x7 59 else r

/-! ## Notions of the specification -/

/-- Sign extension of the low `w` bits of a 64-bit value (`sign_extend(a, w)`): the
value whose bits below `w` are those of `a` and whose bits from `w` up all equal bit
`w - 1` of `a`. -/
def sign_extend (a w : Nat) : Nat :=
  if a % 2 ^ w < 2 ^ (w - 1) then a % 2 ^ w else a % 2 ^ w + (2 ^ 64 - 2 ^ w)

/-- Canonical width of the stream an access uses: 48 bits when the `va_48` field of the
stream is non-zero, else 43; instruction stream for `rwx = 2`, data stream otherwise. -/
def canonical_width (env : CPUAlphaState) (rwx : Nat) : Nat :=
  if rwx = 2 then (if env.a21264.iva_48 ≠ 0 then 48 else 43)
  else (if env.a21264.dva_48 ≠ 0 then 48 else 43)

/-- The bad-VA descriptor `{0, 0, PTE_ASN_BAD_VA}`. -/
def pte_bad_va : alpha_pte := { pa := 0, fl := 0, asn := PTE_ASN_BAD_VA }

/-- The Miss descriptor `{0, 0, PTE_ASN_MISS}`. -/
def pte_miss : alpha_pte := { pa := 0, fl := 0, asn := PTE_ASN_MISS }

/-- Page size in bytes selected by the granularity hint of the flags `fl`:
1, 8, 64 or 512 base pages of 8 KB. -/
def page_size (fl : Nat) : Nat := 2 ^ 13 * 8 ^ ((fl / 32) % 4)

/-- The page of the entry `e`, of the size its granularity hint gives, contains the
address `a`: both lie in the same aligned block of that size. -/
def in_page (e : alpha_21264_tlbe) (a : Nat) : Prop :=
  e.va / page_size e.pte.fl = a / page_size e.pte.fl

instance (e : alpha_21264_tlbe) (a : Nat) : Decidable (in_page e a) := by
  unfold in_page; infer_instance

/-- The entry is valid: bit 0 of its flags is set. -/
def entry_valid (e : alpha_21264_tlbe) : Prop := e.pte.fl % 2 = 1

instance (e : alpha_21264_tlbe) : Decidable (entry_valid e) := by
  unfold entry_valid; infer_instance

/-- The entry is global: the ASM flag, bit 4 of its flags, is set. -/
def entry_global (e : alpha_21264_tlbe) : Prop := (e.pte.fl / 16) % 2 = 1

instance (e : alpha_21264_tlbe) : Decidable (entry_global e) := by
  unfold entry_global; infer_instance

/-- The address lies in a superpage window enabled by the mask `spe`:
bit 2 enables the window VA[47:46] = 2, bit 1 the window VA[47:41] = 0x7e,
bit 0 the window VA[47:30] = 0x3fffe. -/
def in_enabled_superpage (spe a : Nat) : Prop :=
  ((spe / 4) % 2 = 1 ∧ (a / 2 ^ 46) % 4 = 2)
  ∨ ((spe / 2) % 2 = 1 ∧ (a / 2 ^ 41) % 128 = 0x7e)
  ∨ (spe % 2 = 1 ∧ (a / 2 ^ 30) % 2 ^ 18 = 0x3fffe)

instance (spe a : Nat) : Decidable (in_enabled_superpage spe a) := by
  unfold in_enabled_superpage; infer_instance

/-- Bit `k` of the flags `x` is set. -/
def flag_bit (x k : Nat) : Prop := (x / 2 ^ k) % 2 = 1

instance (x k : Nat) : Decidable (flag_bit x k) := by
  unfold flag_bit; infer_instance

/-- The descriptor flags `fl` permit the access `rwx` in the mode `cm`: the valid bit
is set, the enable bit of the mode is set (bit `8 + cm`, read enable, for a read or an
execute; bit `12 + cm`, write enable, for a write) and, for a data access only, the
matching fault-on bit is clear (FOR, bit 1, for a read; FOW, bit 2, for a write). -/
def access_permitted (fl cm rwx : Nat) : Prop :=
  flag_bit fl 0
  ∧ (if rwx = 1 then flag_bit fl (12 + cm) else flag_bit fl (8 + cm))
  ∧ (rwx = 0 → ¬ flag_bit fl 1)
  ∧ (rwx = 1 → ¬ flag_bit fl 2)

instance (fl cm rwx : Nat) : Decidable (access_permitted fl cm rwx) := by
  unfold access_permitted; infer_instance

/-- The surrounding engine can take the report of a failed access, so that
`cpu_alpha_mmu_fault_21264` returns instead of aborting: an instruction access comes
with no host return address, a data access comes from a translated block that the
engine finds; and the stream's page-table form is one that `va_form` handles. -/
def fault_reportable (eng : Engine) (env : CPUAlphaState) (rwx retaddr : Nat) : Prop :=
  if rwx = 2 then retaddr = 0 ∧ env.a21264.iva_48 < 3
  else retaddr ≠ 0 ∧ (eng.tb_find_pc retaddr).isSome = true ∧ env.a21264.dva_48 < 3

instance (eng : Engine) (env : CPUAlphaState) (rwx retaddr : Nat) :
    Decidable (fault_reportable eng env rwx retaddr) := by
  unfold fault_reportable; infer_instance

/-- An engine whose every host address lies in a translated block at physical page 0
and whose memory reads as zero. -/
def eng_zero : Engine :=
  { tb_find_pc := fun _ => some { page_addr0 := 0 },
    cpu_restore_state := fun _ _ => 0,
    ldl_phys := fun _ => 0 }

/-- The interrupt summary invariant: `isum == ipend & ier`. -/
def isum_inv (env : CPUAlphaState) : Prop :=
  env.a21264.isum = env.a21264.ipend &&& env.a21264.ier

instance (env : CPUAlphaState) : Decidable (isum_inv env) := by
  unfold isum_inv; infer_instance

/-- The interrupt registers `isum`, `ipend`, `ier` of a state. -/
def irq_regs (env : CPUAlphaState) : Nat × Nat × Nat :=
  (env.a21264.isum, env.a21264.ipend, env.a21264.ier)

/-- Successive insertions into the instruction stream, one per pair `(va, pte)`. -/
def insert_itlb_seq (env : CPUAlphaState) (xs : List (Nat × Nat)) : CPUAlphaState :=
  xs.foldl (fun e p => insert_itlb_21264 e p.1 p.2) env

/-- Successive insertions into the data stream, one per pair `(va, pte)`. -/
def insert_dtlb_seq (env : CPUAlphaState) (xs : List (Nat × Nat)) : CPUAlphaState :=
  xs.foldl (fun e p => insert_dtlb_21264 e p.1 p.2) env

/-- The two control-register writes that enter a translation into the instruction
stream: the tag register, then the PTE register. -/
def itb_write (ticks : Nat) (env : CPUAlphaState) (va p : Nat) : Option CPUAlphaState :=
  (cpu_alpha_mtpr_21264 ticks env IPR_ITB_TAG va).bind
    (fun e => cpu_alpha_mtpr_21264 ticks e IPR_ITB_PTE p)

/-- The two control-register writes that enter a translation into the data stream: the
tag register, then the PTE register. -/
def dtb_write (ticks : Nat) (env : CPUAlphaState) (va p : Nat) : Option CPUAlphaState :=
  (cpu_alpha_mtpr_21264 ticks env IPR_DTB_TAG0 va).bind
    (fun e => cpu_alpha_mtpr_21264 ticks e IPR_DTB_PTE0 p)

/-- The entry that `itb_write` inserts for a canonical address `va`: the page address of
`va` as tag, the frame number and flags of the written value (as the ITB_PTE register
keeps them) with the valid bit set, and the current ASN. -/
def itb_inserted (env : CPUAlphaState) (va p : Nat) : alpha_21264_tlbe :=
  { va := va / 2 ^ 13 * 2 ^ 13,
    pte := { pa := ((p &&& 0x00000fffffffef70) >>> 13) % 2 ^ 32,
             fl := ((p &&& 0x00000fffffffef70) &&& 0x1fff) ||| 1,
             asn := env.asn } }

/-- The entry that `dtb_write` inserts for a canonical address `va`: the page address of
`va` as tag, the frame number and flags of the written value (as the DTB_PTE0 register
keeps them) with the valid bit set, and the current ASN. -/
def dtb_inserted (env : CPUAlphaState) (va p : Nat) : alpha_21264_tlbe :=
  { va := va / 2 ^ 13 * 2 ^ 13,
    pte := { pa := ((p &&& 0x7fffffff0000ffe6) >>> 32) % 2 ^ 32,
             fl := ((p &&& 0x7fffffff0000ffe6) ||| 1) % 2 ^ 16,
             asn := env.asn } }

/-- Every slot of the stream is invalid with all flags 0 (an empty stream). -/
def tlb_empty (tlb : alpha_21264_tlb) : Prop :=
  ∀ j, j < MAX_NBR_TLB_21264 → (tlb.entries j).pte.fl = 0

/-- The state after `flush_tlb_21264_page` is called on the stream of the access kind
`rwx` (the instruction stream for 2, the data stream otherwise) with the address `a`. -/
def flush_stream (env : CPUAlphaState) (rwx a : Nat) : CPUAlphaState :=
  if rwx = 2 then set_itlb env (flush_tlb_21264_page env env.a21264.itlb a)
  else set_dtlb env (flush_tlb_21264_page env env.a21264.dtlb a)

/-- The entry is one that a page flush at `a` has to remove and a lookup of `a` can
return: it matches the ASN `asn` or is global, and its page contains `a`. -/
def entry_covers (e : alpha_21264_tlbe) (asn a : Nat) : Prop :=
  in_page e a ∧ (e.pte.asn = asn ∨ entry_global e)

instance (e : alpha_21264_tlbe) (asn a : Nat) : Decidable (entry_covers e asn a) := by
  unfold entry_covers; infer_instance

/-- Frame number of a superpage hit, by the window the address lies in (the three
windows are disjoint): the frame fields the program extracts at lines 117, 123 and 129 of
`helper.c`. It depends on the address alone. -/
def superpage_pa (a : Nat) : Nat :=
  if (a / 2 ^ 46) % 4 = 2 then ((a &&& 0x000008ffffffe000) >>> 13) % 2 ^ 32
  else if (a / 2 ^ 41) % 128 = 0x7e then
    ((sar64 (shl64 a 23) 23 &&& 0x000008ffffffe000) >>> 13) % 2 ^ 32
  else ((a &&& 0x000000003fffe000) >>> 13) % 2 ^ 32

/-- The descriptor of a superpage hit at the address `a`: flags exactly KRE, KWE and V,
ASN 0. -/
def superpage_pte (a : Nat) : alpha_pte :=
  { pa := superpage_pa a, fl := ALPHA_PTE_KRE ||| ALPHA_PTE_KWE ||| ALPHA_PTE_V, asn := 0 }

/-- The vector offset of a raised condition: 0x400, 0x600, 0x200, 0x680 for the generic
conditions OPCDEC (1), ARITH (2), FEN (3), INTERRUPT (4); the condition itself
otherwise. -/
def interrupt_vector (excp : Int) : Int :=
  if excp = 1 then 0x400
  else if excp = 2 then 0x600
  else if excp = 3 then 0x200
  else if excp = 4 then 0x680
  else excp

/-- The eight shadow registers `shadow_r4 .. shadow_r7`, `shadow_r20 .. shadow_r23`. -/
def shadow_regs (env : CPUAlphaState) : List Nat :=
  [env.a21264.shadow_r4, env.a21264.shadow_r5, env.a21264.shadow_r6, env.a21264.shadow_r7,
   env.a21264.shadow_r20, env.a21264.shadow_r21, env.a21264.shadow_r22,
   env.a21264.shadow_r23]

/-- The eight shadowed integer registers `ir[4 .. 7]`, `ir[20 .. 23]`. -/
def shadowed_ir (env : CPUAlphaState) : List Nat :=
  [env.ir 4, env.ir 5, env.ir 6, env.ir 7, env.ir 20, env.ir 21, env.ir 22, env.ir 23]

/-- The index `j` is that of one of the eight shadowed integer registers. -/
def is_shadowed (j : Nat) : Prop :=
  j = 4 ∨ j = 5 ∨ j = 6 ∨ j = 7 ∨ j = 20 ∨ j = 21 ∨ j = 22 ∨ j = 23

instance (j : Nat) : Decidable (is_shadowed j) := by
  unfold is_shadowed; infer_instance

/-- The state `e2` is `e1` with the eight shadowed integer registers exchanged with
the shadow registers and the other integer registers unchanged. -/
def regs_swapped (e1 e2 : CPUAlphaState) : Prop :=
  shadowed_ir e2 = shadow_regs e1 ∧ shadow_regs e2 = shadowed_ir e1
  ∧ ∀ j, ¬ is_shadowed j → e2.ir j = e1.ir j

/-- The state `e2` has the integer registers and the shadow registers of `e1`. -/
def regs_same (e1 e2 : CPUAlphaState) : Prop :=
  (∀ j, e2.ir j = e1.ir j) ∧ shadow_regs e2 = shadow_regs e1

/-- The register ids `cpu_alpha_mfpr_21264` reads a register for: PAL_BASE, I_CTL,
IVA_FORM, VA, EXC_ADDR, PCTX .. PCTX_ALL, IER_CM, CM, IER, ISUM, SIRR, MM_STAT,
VA_FORM and EXC_SUM. -/
def mfpr_implemented (iprn : Nat) : Prop :=
  iprn = IPR_PAL_BASE ∨ iprn = IPR_I_CTL ∨ iprn = IPR_IVA_FORM ∨ iprn = IPR_VA
  ∨ iprn = IPR_EXC_ADDR ∨ (IPR_PCTX ≤ iprn ∧ iprn ≤ IPR_PCTX_ALL)
  ∨ iprn = IPR_IER_CM ∨ iprn = IPR_CM ∨ iprn = IPR_IER ∨ iprn = IPR_ISUM
  ∨ iprn = IPR_SIRR ∨ iprn = IPR_MM_STAT ∨ iprn = IPR_VA_FORM ∨ iprn = IPR_EXC_SUM

instance (iprn : Nat) : Decidable (mfpr_implemented iprn) := by
  unfold mfpr_implemented; infer_instance

/-- The register ids `cpu_alpha_mfpr_21264` reads as zero: I_STAT, DC_STAT, C_DATA and
C_SHIFT. -/
def mfpr_reads_zero (iprn : Nat) : Prop :=
  iprn = IPR_I_STAT ∨ iprn = IPR_DC_STAT ∨ iprn = IPR_C_DATA ∨ iprn = IPR_C_SHIFT

instance (iprn : Nat) : Decidable (mfpr_reads_zero iprn) := by
  unfold mfpr_reads_zero; infer_instance

/-- The register ids that have a case in the `switch` of `cpu_alpha_mtpr_21264`, in
the order of the cases. -/
def mtpr_handled (iprn : Nat) : Prop :=
  iprn = IPR_CC ∨ iprn = IPR_CC_CTL ∨ iprn = IPR_ITB_TAG ∨ iprn = IPR_DTB_TAG0
  ∨ (iprn = IPR_DTB_TAG1 ∨ iprn = IPR_DTB_ASN1 ∨ iprn = IPR_DTB_PTE1)
  ∨ iprn = IPR_ITB_PTE ∨ iprn = IPR_DTB_PTE0 ∨ iprn = IPR_DTB_ASN0
  ∨ iprn = IPR_PAL_BASE ∨ iprn = IPR_I_CTL ∨ iprn = IPR_VA_CTL
  ∨ (iprn = IPR_IER_CM ∨ iprn = IPR_CM ∨ iprn = IPR_IER)
  ∨ (iprn = IPR_IC_FLUSH ∨ iprn = IPR_IC_FLUSH_ASM)
  ∨ iprn = IPR_ITB_IA ∨ iprn = IPR_ITB_IAP ∨ iprn = IPR_ITB_IS
  ∨ iprn = IPR_DTB_IA ∨ iprn = IPR_DTB_IAP ∨ iprn = IPR_DTB_IS0 ∨ iprn = IPR_DTB_IS1
  ∨ (iprn = IPR_I_STAT ∨ iprn = IPR_DC_STAT) ∨ iprn = IPR_MM_STAT
  ∨ (IPR_PCTX ≤ iprn ∧ iprn ≤ IPR_PCTX_ALL)
  ∨ iprn = IPR_M_CTL ∨ iprn = IPR_SIRR ∨ iprn = IPR_HW_INT_CLR
  ∨ iprn = IPR_DTB_ALTMODE0 ∨ iprn = IPR_PCTR_CTL
  ∨ (iprn = IPR_C_DATA ∨ iprn = IPR_C_SHIFT) ∨ iprn = IPR_DC_CTL ∨ iprn = 0x2d

instance (iprn : Nat) : Decidable (mtpr_handled iprn) := by
  unfold mtpr_handled; infer_instance

/-- The writes on which `cpu_alpha_mtpr_21264` calls `cpu_abort`: VA_CTL with bit 0
set, DC_CTL with a bit of 0x34 set, a PCTX write that selects the ASTRR or the ASTER
field with a non-zero value of the field, and every id without a case. -/
def mtpr_fatal (iprn val : Nat) : Prop :=
  (iprn = IPR_VA_CTL ∧ val &&& 1 ≠ 0)
  ∨ (iprn = IPR_DC_CTL ∧ val &&& 0x34 ≠ 0)
  ∨ ((IPR_PCTX ≤ iprn ∧ iprn ≤ IPR_PCTX_ALL)
      ∧ ((iprn &&& IPR_PCTX_ASTRR ≠ 0 ∧ (val >>> IPR_PCTX_ASTRR_SHIFT) &&& 0xf ≠ 0)
        ∨ (iprn &&& IPR_PCTX_ASTER ≠ 0 ∧ (val >>> IPR_PCTX_ASTER_SHIFT) &&& 0xf ≠ 0)))
  ∨ ¬ mtpr_handled iprn

instance (iprn val : Nat) : Decidable (mtpr_fatal iprn val) := by
  unfold mtpr_fatal; infer_instance

/-- The write on which `cpu_alpha_mtpr_21264` ends the process through
`alpha_21264_srm_write`: the id 0x2d in a state whose `pal_reloc_val` is non-zero. -/
def mtpr_exits (env : CPUAlphaState) (iprn : Nat) : Prop :=
  iprn = 0x2d ∧ env.a21264.pal_reloc_val ≠ 0

instance (env : CPUAlphaState) (iprn : Nat) : Decidable (mtpr_exits env iprn) := by
  unfold mtpr_exits; infer_instance

/-- The instruction word the data-fault path reads (lines 253-263 of `helper.c`) for
the host return address `retaddr` found in the block `tb`: the word of physical memory
at `tb->page_addr[0]` plus the page offset of the restored `pc`. -/
def fault_insn (eng : Engine) (tb : TranslationBlock) (retaddr : Nat) : Nat :=
  eng.ldl_phys
    ((tb.page_addr0 + (eng.cpu_restore_state tb retaddr &&& not64 TARGET_PAGE_MASK))
      % 2 ^ 64)

/-- The superpage check of `spe` bit `k` taken on its own (lines 115-120, 121-126 and
127-132 of `helper.c` for `k` = 2, 1, 0): the descriptor it returns when it hits. -/
def superpage_check (k spe a : Nat) : Option alpha_pte :=
  if k = 2 then
    (if spe &&& 4 ≠ 0 ∧ sar64 a 46 &&& 3 = 2 then
      some { pa := ((a &&& 0x000008ffffffe000) >>> 13) % 2 ^ 32,
             fl := ALPHA_PTE_KRE ||| ALPHA_PTE_KWE ||| ALPHA_PTE_V, asn := 0 }
     else none)
  else if k = 1 then
    (if spe &&& 2 ≠ 0 ∧ sar64 a 41 &&& 0x7f = 0x7e then
      some { pa := ((sar64 (shl64 a 23) 23 &&& 0x000008ffffffe000) >>> 13) % 2 ^ 32,
             fl := ALPHA_PTE_KRE ||| ALPHA_PTE_KWE ||| ALPHA_PTE_V, asn := 0 }
     else none)
  else if k = 0 then
    (if spe &&& 1 ≠ 0 ∧ sar64 a 30 &&& 0x3ffff = 0x3fffe then
      some { pa := ((a &&& 0x000000003fffe000) >>> 13) % 2 ^ 32,
             fl := ALPHA_PTE_KRE ||| ALPHA_PTE_KWE ||| ALPHA_PTE_V, asn := 0 }
     else none)
  else none

/-- The superpage checks taken in the order `order`: the descriptor of the first check
that hits. -/
def superpage_first (order : List Nat) (spe a : Nat) : Option alpha_pte :=
  match order with
  | [] => none
  | k :: l =>
    match superpage_check k spe a with
    | some p => some p
    | none => superpage_first l spe a

/-- The lookup of `cpu_alpha_mmu_v2p_21264` with its three superpage checks taken in
the order `order`; the program takes them in the order 2, 1, 0. -/
def v2p_ordered (order : List Nat) (env : CPUAlphaState) (address rwx : Nat) : alpha_pte :=
  let tlb := v2p_tlb env rwx
  let va_sh := v2p_va_sh env rwx
  if sar64 (shl64 address va_sh) va_sh ≠ address then
    { pa := 0, fl := 0, asn := PTE_ASN_BAD_VA }
  else
    match superpage_first order tlb.spe address with
    | some p => p
    | none => v2p_search tlb env.asn address 0 MAX_NBR_TLB_21264

/-- The tags of the 128 slots of a stream are 64-bit values (`int64_t`). -/
def tlb_wf (tlb : alpha_21264_tlb) : Prop :=
  ∀ i, i < MAX_NBR_TLB_21264 → (tlb.entries i).va < 2 ^ 64

/-- A stream with every slot zero, as `init_cpu_21264` leaves it (`memset`). -/
def tlb_zero : alpha_21264_tlb :=
  { in_use := 0, next := 0, spe := 0,
    entries := fun _ => { va := 0, pte := { pa := 0, fl := 0, asn := 0 } } }

/-- A 21264 state with every field zero and both streams empty. -/
def a21264_zero : A21264State :=
  { pal_reloc_mask := 0, pal_reloc_val := 0, pal_reloc_offset := 0,
    shadow_r4 := 0, shadow_r5 := 0, shadow_r6 := 0, shadow_r7 := 0,
    shadow_r20 := 0, shadow_r21 := 0, shadow_r22 := 0, shadow_r23 := 0,
    cc_counter := 0, cc_load_ticks := 0, cc_offset := 0, cc_ena := 0,
    i_vptb := 0, iva_48 := 0, hwe := 0, sde1 := 0, chip_id := 0x21, ic_en := 3,
    call_pal_r23 := 0, cm := 0, ier := 0, isum := 0, ipend := 0,
    d_vptb := 0, dva_48 := 0, astrr := 0, aster := 0, fpe := 0, ppce := 0,
    altmode := 0, sirr := 0, mm_stat := 0, iva_form := 0, va_form := 0, va := 0,
    exc_sum := 0, itb_tag := 0, itb_pte := 0, dtb_tag := 0, dtb_pte := 0, dtb_asn := 0,
    itlb := tlb_zero, dtlb := tlb_zero }

/-- A processor state after reset: 21264 PALcode emulation, not in PAL mode, all
registers zero, both streams empty. -/
def env_zero : CPUAlphaState :=
  { ir := fun _ => 0, pc := 0, intr_flag := 0, fen := 0, pal_mode := 0,
    pal_emul := pal_emul.PAL_21264, mmu_data_index := 0, mmu_code_index := 0,
    asn := 0, pal_base := 0, exc_addr := 0, exception_index := 0, error_code := 0,
    interrupt_request := 0, a21264 := a21264_zero, calls := [] }

/-! ## Concrete states -/

/-- A stream holding one valid global entry for page 0x10000 under ASN 5, in slot 7. -/
def tlb_one_global : alpha_21264_tlb :=
  set_entry tlb_zero 7 { va := 0x10000, pte := { pa := 3, fl := 0x1111, asn := 5 } }

/-- A state whose data stream is `tlb_one_global`. -/
def env_one_global : CPUAlphaState :=
  { env_zero with a21264 := { a21264_zero with dtlb := tlb_one_global } }

/-- A data stream holding, in slot 7, one valid non-global entry of ASN 5 for the page
at 0x10000 that grants user read but no user write. -/
def tlb_user_ro : alpha_21264_tlb :=
  set_entry tlb_zero 7 { va := 0x10000, pte := { pa := 3, fl := 0x1901, asn := 5 } }

/-- A user-mode state (`cm = 3`) under ASN 5 whose data stream is `tlb_user_ro`. -/
def env_user_ro : CPUAlphaState :=
  { env_zero with
    asn := 5, mmu_data_index := 3,
    a21264 := { a21264_zero with cm := 3, dtlb := tlb_user_ro } }


/-- A user-mode state (`cm = 3`) under ASN 5 with both streams empty. -/
def env_user5 : CPUAlphaState :=
  { env_zero with
    asn := 5, mmu_data_index := 3, a21264 := { a21264_zero with cm := 3 } }

/-- The scenario of a data-stream entry written as global: under ASN 5 the tag register
is written with page 0x20000 and the PTE register with a value whose ASM flag (bit 4) is
set and whose user write enable (bit 15) is clear; the ASN is then set to `asn` by a
write to the ASN field of PCTX; a user-mode store to the page follows. The result is the
returned `int`, the exception code stored and the ASN at the time of the store. -/
def dtb_global_scenario (asn : Nat) : Option (Nat × Int × Nat) :=
  ((dtb_write 0 env_user5 0x20000 0x0000000300007f10).bind
    (fun e1 => (cpu_alpha_mtpr_21264 0 e1 (IPR_PCTX + IPR_PCTX_ASN)
        (asn <<< IPR_PCTX_ASN_SHIFT)).bind
      (fun e2 => cpu_alpha_mmu_fault_21264 eng_zero e2 0x20000 1 3 1))).map
    (fun r => (r.ret, r.env.exception_index, r.env.asn))

/-- A data stream holding, in slot 3, one valid entry of ASN 0 for the page at the
canonical address 0xfffffc0000010000, which has bit 63 set. -/
def tlb_high_page : alpha_21264_tlb :=
  set_entry tlb_zero 3
    { va := 0xfffffc0000010000, pte := { pa := 8, fl := 0x1101, asn := 0 } }

/-- A state under ASN 0 whose data stream is `tlb_high_page`. -/
def env_high_page : CPUAlphaState :=
  { env_zero with a21264 := { a21264_zero with dtlb := tlb_high_page } }

/-- A data stream with two overlapping valid entries of ASN 0: slot 0 maps the 64 KB
page at 0x10000 (granularity hint 1), slot 1 the 8 KB page at 0x12000 inside it. -/
def tlb_overlap : alpha_21264_tlb :=
  set_entry
    (set_entry tlb_zero 0 { va := 0x10000, pte := { pa := 8, fl := 0x1121, asn := 0 } })
    1 { va := 0x12000, pte := { pa := 9, fl := 0x1101, asn := 0 } }

/-- A state under ASN 0 whose data stream is `tlb_overlap`. -/
def env_overlap : CPUAlphaState :=
  { env_zero with a21264 := { a21264_zero with dtlb := tlb_overlap } }

/-- A kernel-mode state in 48-bit data addressing whose data stream has the superpage
window of `spe` bit 2 enabled and holds, in slot 0, a valid entry for the page of the
address 0xffff800000010000, which lies in that window. -/
def env_superpage : CPUAlphaState :=
  { env_zero with
    a21264 := { a21264_zero with
      dva_48 := 1,
      dtlb := { set_entry tlb_zero 0
                  { va := 0xffff800000010000, pte := { pa := 77, fl := 0xff01, asn := 0 } }
                with spe := 4 } } }

/-- The scenario of a write to VA_CTL followed by a data lookup: from the reset state
the register is written with `v`, then the address `a` is looked up for a read. -/
def va_ctl_scenario (v a : Nat) : Option alpha_pte :=
  (cpu_alpha_mtpr_21264 0 env_zero IPR_VA_CTL v).map
    (fun e => cpu_alpha_mmu_v2p_21264 e a 0)

/-- The scenario of a write to I_CTL followed by an instruction lookup: from the reset
state the register is written with `v`, then the address `a` is looked up for an
execute. -/
def i_ctl_scenario (v a : Nat) : Option alpha_pte :=
  (cpu_alpha_mtpr_21264 0 env_zero IPR_I_CTL v).map
    (fun e => cpu_alpha_mmu_v2p_21264 e a 2)

/-- The result of a user-mode read of 0x10008 in the state `env_user_ro` (the call
succeeds; the default is never taken). -/
def user_read_result : FaultResult :=
  (cpu_alpha_mmu_fault_21264 eng_zero env_user_ro 0x10008 0 3 1).getD
    { ret := 1, env := env_user_ro }

/-- A user-mode state with a pending data-stream miss at `pc = 0x4000`. -/
def env_dtb_miss : CPUAlphaState :=
  { env_user5 with pc := 0x4000, pal_base := 0x8000,
                   exception_index := EXCP_21264_DTBM_SINGLE }

/-- A state outside PAL mode with shadow mode enabled (`sde1 = 1`), integer register
`j` holding `100 + j`, the shadow registers holding 204 .. 207 and 220 .. 223, and a
pending data-stream miss at `pc = 0x4000`. -/
def env_shadow : CPUAlphaState :=
  { env_zero with
    ir := fun j => 100 + j, pc := 0x4000, pal_base := 0x8000,
    exception_index := EXCP_21264_DTBM_SINGLE,
    a21264 := { a21264_zero with
      sde1 := 1,
      shadow_r4 := 204, shadow_r5 := 205, shadow_r6 := 206, shadow_r7 := 207,
      shadow_r20 := 220, shadow_r21 := 221, shadow_r22 := 222, shadow_r23 := 223 } }

/-- The state `env_shadow` in PAL mode, with a pending interrupt summary and the
hard-interrupt request raised next to another request bit. -/
def env_pal_pending : CPUAlphaState :=
  { env_shadow with
    pal_mode := 1, mmu_code_index := MMU_PAL_IDX, mmu_data_index := 3,
    exception_index := 0, interrupt_request := 6,
    a21264 := { env_shadow.a21264 with
      ipend := 2 ^ 33, ier := 2 ^ 33, isum := 2 ^ 33 } }

/-- The state `env_shadow` in PAL mode with no interrupt pending. -/
def env_pal : CPUAlphaState :=
  { env_shadow with
    pal_mode := 1, mmu_code_index := MMU_PAL_IDX, mmu_data_index := 3,
    exception_index := 0 }

/-- An engine whose every host address lies in a translated block at physical page 0
and whose memory reads everywhere as the instruction word 0xB4220000 (opcode 0x2d,
Ra = 1: a quadword store from register 1). -/
def eng_store : Engine :=
  { tb_find_pc := fun _ => some { page_addr0 := 0 },
    cpu_restore_state := fun _ _ => 0x4000,
    ldl_phys := fun _ => 0xB4220000 }

/-- The state `env_shadow` with `call_pal_r23` enabled and a pending condition of the
call class (vector 0x2080). -/
def env_call : CPUAlphaState :=
  { env_shadow with
    exception_index := 0x2080,
    a21264 := { env_shadow.a21264 with call_pal_r23 := 1 } }

/-- The round trip of a Format-G register value through IEEE,
`float64_to_g(g_to_float64(v))`; a fault of the way in is passed on. -/
def g_round_trip (v : Nat) : Helper Nat :=
  match g_to_float64 v with
  | Helper.ret x => Helper.ret (float64_to_g x)
  | Helper.raised excp error => Helper.raised excp error

/-- The round trip of an IEEE single through Format-F,
`f_to_float32(float32_to_f(x))`. -/
def f_round_trip (x : Nat) : Helper Nat := f_to_float32 (float32_to_f x)

/-- The scenario of a write to VA_CTL followed by a data read that must be reported:
from the reset state the register is written with `v`, then the fault handler is
called for a read of the address `a` from translated code. The outer level is the
write, the inner level the call. -/
def va_ctl_fault_scenario (v a : Nat) : Option (Option FaultResult) :=
  (cpu_alpha_mtpr_21264 0 env_zero IPR_VA_CTL v).map
    (fun e => cpu_alpha_mmu_fault_21264 eng_zero e a 0 0 1)

/-- The scenario of a write to I_CTL followed by an instruction fetch that must be
reported: from the reset state the register is written with `v`, then the fault handler
is called for an execute of the address `a`. -/
def i_ctl_fault_scenario (v a : Nat) : Option (Option FaultResult) :=
  (cpu_alpha_mtpr_21264 0 env_zero IPR_I_CTL v).map
    (fun e => cpu_alpha_mmu_fault_21264 eng_zero e a 2 0 0)

/-- The reset state with the relocation fields as `es40_rombuild_init` sets them
(lines 863-865 of `hw/es40.c`): `pal_reloc_val = 0x900000`. -/
def env_rombuild : CPUAlphaState :=
  { env_zero with
    a21264 := { a21264_zero with
      pal_reloc_val := 0x900000, pal_reloc_mask := 0xfffffffffff00000,
      pal_reloc_offset := 0x400000 } }

/-! ## Lemmas on machine arithmetic -/

theorem sar64_shl64_16 (a : Nat) : sar64 (shl64 a 16) 16 = sign_extend a 48 := by
  unfold sar64 ofS64 toS64 shl64 sign_extend
  simp only [Nat.shiftLeft_eq]
  split_ifs <;> omega

theorem sar64_shl64_21 (a : Nat) : sar64 (shl64 a 21) 21 = sign_extend a 43 := by
  unfold sar64 ofS64 toS64 shl64 sign_extend
  simp only [Nat.shiftLeft_eq]
  split_ifs <;> omega

theorem v2p_sign_check (env : CPUAlphaState) (a rwx : Nat) :
    sar64 (shl64 a (v2p_va_sh env rwx)) (v2p_va_sh env rwx)
      = sign_extend a (canonical_width env rwx) := by
  unfold v2p_va_sh canonical_width
  split_ifs <;> simp only [Nat.reduceSub, sar64_shl64_16, sar64_shl64_21]

/-! ## The search loop -/

theorem v2p_match_valid (e : alpha_21264_tlbe) (asn a : Nat)
    (h : v2p_match e asn a = true) : e.pte.fl &&& ALPHA_PTE_V ≠ 0 := by
  unfold v2p_match at h
  split_ifs at h with h0
  exact h0

/-- First-match characterisation of the search loop. -/
theorem v2p_search_spec (tlb : alpha_21264_tlb) (asn a : Nat) :
    ∀ n i,
      (∃ j, i ≤ j ∧ j < i + n ∧ v2p_match (tlb.entries j) asn a = true
          ∧ (∀ k, i ≤ k → k < j → v2p_match (tlb.entries k) asn a = false)
          ∧ v2p_search tlb asn a i n = (tlb.entries j).pte)
      ∨ ((∀ j, i ≤ j → j < i + n → v2p_match (tlb.entries j) asn a = false)
          ∧ v2p_search tlb asn a i n = pte_miss) := by
  intro n
  induction n with
  | zero =>
    intro i
    right
    exact ⟨fun j h1 h2 => by omega, rfl⟩
  | succ n ih =>
    intro i
    by_cases hm : v2p_match (tlb.entries i) asn a = true
    · left
      refine ⟨i, le_refl _, by omega, hm, fun k h1 h2 => by omega, ?_⟩
      simp [v2p_search, hm]
    · have hm' : v2p_match (tlb.entries i) asn a = false := by simpa using hm
      rcases ih (i + 1) with ⟨j, h1, h2, h3, h4, h5⟩ | ⟨h1, h2⟩
      · left
        refine ⟨j, by omega, by omega, h3, ?_, ?_⟩
        · intro k hk1 hk2
          by_cases hki : k = i
          · subst hki; exact hm'
          · exact h4 k (by omega) hk2
        · simp [v2p_search, hm', h5]
      · right
        refine ⟨?_, ?_⟩
        · intro j hj1 hj2
          by_cases hji : j = i
          · subst hji; exact hm'
          · exact h1 j (by omega) (by omega)
        · simp [v2p_search, hm', h2]

/-- The descriptor returned for a canonical address is a superpage descriptor, an
entry that matches, or the Miss descriptor when no entry matches. -/
theorem v2p_cases (env : CPUAlphaState) (a rwx : Nat)
    (hs : sign_extend a (canonical_width env rwx) = a) :
    (cpu_alpha_mmu_v2p_21264 env a rwx).fl = 0x1101
    ∨ (∃ j, j < MAX_NBR_TLB_21264
        ∧ v2p_match ((v2p_tlb env rwx).entries j) env.asn a = true
        ∧ cpu_alpha_mmu_v2p_21264 env a rwx = ((v2p_tlb env rwx).entries j).pte)
    ∨ (cpu_alpha_mmu_v2p_21264 env a rwx = pte_miss
        ∧ ∀ j, j < MAX_NBR_TLB_21264 →
            v2p_match ((v2p_tlb env rwx).entries j) env.asn a = false) := by
  unfold cpu_alpha_mmu_v2p_21264
  simp only [v2p_sign_check, hs]
  split_ifs
  · rename_i hne; exact absurd rfl hne
  · left; rfl
  · left; rfl
  · left; rfl
  · rcases v2p_search_spec (v2p_tlb env rwx) env.asn a MAX_NBR_TLB_21264 0 with
      ⟨j, _, h2, h3, _, h5⟩ | ⟨h1, h2⟩
    · right; left
      exact ⟨j, by omega, h3, h5⟩
    · right; right
      exact ⟨h2, fun j hj => h1 j (Nat.zero_le _) (by omega)⟩

/-! ## C1 -/

/-- C1: an address that its stream's canonical sign extension does not give back is
translated to the bad-VA descriptor, whatever the state; an address that it gives back
is never translated to the bad-VA descriptor. -/
theorem c1_bad_va_iff (env : CPUAlphaState) (a rwx : Nat) :
    (sign_extend a (canonical_width env rwx) ≠ a →
        cpu_alpha_mmu_v2p_21264 env a rwx = { pa := 0, fl := 0, asn := PTE_ASN_BAD_VA })
    ∧ (sign_extend a (canonical_width env rwx) = a →
        cpu_alpha_mmu_v2p_21264 env a rwx ≠ { pa := 0, fl := 0, asn := PTE_ASN_BAD_VA }) := by
  constructor
  · intro h
    unfold cpu_alpha_mmu_v2p_21264
    simp only [v2p_sign_check]
    rw [if_pos h]
  · intro h
    rcases v2p_cases env a rwx h with h1 | ⟨j, _, hm, hj⟩ | ⟨h1, _⟩
    · intro hb; rw [hb] at h1; simp at h1
    · intro hb
      have := v2p_match_valid _ _ _ hm
      rw [← hj, hb] at this
      simp at this
    · rw [h1]; decide

theorem c1_bad_va_iff_witness :
    cpu_alpha_mmu_v2p_21264 env_zero (2 ^ 47) 0 = { pa := 0, fl := 0, asn := PTE_ASN_BAD_VA }
    ∧ cpu_alpha_mmu_v2p_21264 env_zero 0x2000 2 ≠ { pa := 0, fl := 0, asn := PTE_ASN_BAD_VA } :=
  ⟨(c1_bad_va_iff env_zero (2 ^ 47) 0).1 (by decide),
   (c1_bad_va_iff env_zero 0x2000 2).2 (by decide)⟩

/-! ## Bit tests as arithmetic -/

theorem and_pow2_ne_zero_iff (x k : Nat) : x &&& 2 ^ k ≠ 0 ↔ (x / 2 ^ k) % 2 = 1 := by
  rw [Nat.and_two_pow]
  by_cases h : x.testBit k
  · have h2 := h
    rw [Nat.testBit_to_div_mod] at h2
    have hp : 0 < 2 ^ k := Nat.two_pow_pos k
    simp only [h, Bool.toNat_true, one_mul]
    constructor
    · intro _; simpa using h2
    · intro _; omega
  · have h2 := h
    rw [Nat.testBit_to_div_mod] at h2
    simp only [h, Bool.toNat_false, zero_mul]
    constructor
    · intro hc; exact absurd rfl hc
    · intro hc; simp [hc] at h2

theorem and_pow2_eq_zero_iff (x k : Nat) : x &&& 2 ^ k = 0 ↔ (x / 2 ^ k) % 2 = 0 := by
  have h := and_pow2_ne_zero_iff x k
  constructor
  · intro h1
    by_contra h2
    exact (h.2 (by omega)) h1
  · intro h1
    by_contra h2
    have := h.1 h2
    omega

theorem and_V_ne_zero_iff (fl : Nat) : fl &&& ALPHA_PTE_V ≠ 0 ↔ fl % 2 = 1 := by
  have := and_pow2_ne_zero_iff fl 0
  simp [ALPHA_PTE_V] at this ⊢

theorem and_ASM_ne_zero_iff (fl : Nat) : fl &&& ALPHA_PTE_ASM ≠ 0 ↔ (fl / 16) % 2 = 1 := by
  have := and_pow2_ne_zero_iff fl 4
  simp [ALPHA_PTE_ASM] at this ⊢
  exact this

theorem get_gh_eq (fl : Nat) : TB_PTE_GET_GH fl = (fl / 32) % 4 := by
  unfold TB_PTE_GET_GH
  rw [Nat.shiftRight_eq_div_pow]
  exact Nat.and_pow_two_sub_one_eq_mod (fl / 2 ^ 5) 2

theorem sar64_eq_iff_div (x y g : Nat) (hx : x < 2 ^ 64) (hy : y < 2 ^ 64) (hg : g < 4) :
    sar64 x (13 + 3 * g) = sar64 y (13 + 3 * g)
      ↔ x / (2 ^ 13 * 8 ^ g) = y / (2 ^ 13 * 8 ^ g) := by
  have hcases : g = 0 ∨ g = 1 ∨ g = 2 ∨ g = 3 := by omega
  rcases hcases with h | h | h | h <;> subst h <;>
    simp only [sar64, ofS64, toS64] <;> norm_num <;> split_ifs <;> omega

/-- The slot test of the lookup in the words of the specification. -/
theorem v2p_match_iff (e : alpha_21264_tlbe) (asn a : Nat)
    (he : e.va < 2 ^ 64) (ha : a < 2 ^ 64) :
    v2p_match e asn a = true
      ↔ entry_valid e ∧ in_page e a ∧ (e.pte.asn = asn ∨ entry_global e) := by
  unfold v2p_match entry_valid in_page entry_global page_size
  have hg : (e.pte.fl / 32) % 4 < 4 := Nat.mod_lt _ (by decide)
  by_cases hv : e.pte.fl &&& ALPHA_PTE_V = 0
  · have : ¬ (e.pte.fl % 2 = 1) := by
      intro h; exact ((and_V_ne_zero_iff _).2 h) hv
    simp [hv, this]
  · have hv2 : e.pte.fl % 2 = 1 := (and_V_ne_zero_iff _).1 hv
    simp only [hv, if_false, get_gh_eq, Bool.and_eq_true, Bool.or_eq_true,
      decide_eq_true_eq, and_ASM_ne_zero_iff, sar64_eq_iff_div _ _ _ he ha hg, hv2,
      true_and]

theorem sar64_46_and (a : Nat) (ha : a < 2 ^ 64) : sar64 a 46 &&& 3 = (a / 2 ^ 46) % 4 := by
  rw [show (3 : Nat) = 2 ^ 2 - 1 by norm_num, Nat.and_pow_two_sub_one_eq_mod]
  simp only [sar64, ofS64, toS64]
  split_ifs <;> omega

theorem sar64_41_and (a : Nat) (ha : a < 2 ^ 64) :
    sar64 a 41 &&& 0x7f = (a / 2 ^ 41) % 128 := by
  rw [show (0x7f : Nat) = 2 ^ 7 - 1 by norm_num, Nat.and_pow_two_sub_one_eq_mod]
  simp only [sar64, ofS64, toS64]
  split_ifs <;> omega

theorem sar64_30_and (a : Nat) (ha : a < 2 ^ 64) :
    sar64 a 30 &&& 0x3ffff = (a / 2 ^ 30) % 2 ^ 18 := by
  rw [show (0x3ffff : Nat) = 2 ^ 18 - 1 by norm_num, Nat.and_pow_two_sub_one_eq_mod]
  simp only [sar64, ofS64, toS64]
  split_ifs <;> omega

/-- The three superpage tests of the lookup, in the words of the specification. -/
theorem superpage_tests_iff (spe a : Nat) (ha : a < 2 ^ 64) :
    ((spe &&& 4 ≠ 0 ∧ sar64 a 46 &&& 3 = 2)
      ∨ (spe &&& 2 ≠ 0 ∧ sar64 a 41 &&& 0x7f = 0x7e)
      ∨ (spe &&& 1 ≠ 0 ∧ sar64 a 30 &&& 0x3ffff = 0x3fffe))
    ↔ in_enabled_superpage spe a := by
  unfold in_enabled_superpage
  have h4 := and_pow2_ne_zero_iff spe 2
  have h2 := and_pow2_ne_zero_iff spe 1
  have h1 : ¬ spe &&& 1 = 0 ↔ spe % 2 = 1 := by
    exact and_V_ne_zero_iff spe
  norm_num at h4 h2
  rw [sar64_46_and a ha, sar64_41_and a ha, sar64_30_and a ha]
  simp only [ne_eq, h4, h2, h1]

/-- Outside the enabled superpage windows a canonical address is looked up in the
128 slots of its stream. -/
theorem v2p_eq_search (env : CPUAlphaState) (a rwx : Nat) (ha : a < 2 ^ 64)
    (hs : sign_extend a (canonical_width env rwx) = a)
    (hsp : ¬ in_enabled_superpage (v2p_tlb env rwx).spe a) :
    cpu_alpha_mmu_v2p_21264 env a rwx
      = v2p_search (v2p_tlb env rwx) env.asn a 0 MAX_NBR_TLB_21264 := by
  have h := (superpage_tests_iff (v2p_tlb env rwx).spe a ha).not.2 hsp
  simp only [not_or] at h
  obtain ⟨h1, h2, h3⟩ := h
  unfold cpu_alpha_mmu_v2p_21264
  simp only [v2p_sign_check, hs, ne_eq, not_true_eq_false, if_false]
  rw [if_neg h1, if_neg h2, if_neg h3]

/-! ## C2 -/

/-- C2: for a canonical address outside the enabled superpage windows, (1) a descriptor
with the valid bit set that the lookup returns is that of a valid slot whose page
contains the address and whose ASN is the current one or which is global; (2) when every
valid slot containing the address is non-global with another ASN, the lookup returns the
Miss descriptor; (3) a valid global slot containing the address gives a hit, a valid
descriptor of a slot containing the address, for every value of the current ASN. -/
theorem c2_asn_or_global (env : CPUAlphaState) (a rwx : Nat) (ha : a < 2 ^ 64)
    (hwf : tlb_wf (v2p_tlb env rwx))
    (hs : sign_extend a (canonical_width env rwx) = a)
    (hsp : ¬ in_enabled_superpage (v2p_tlb env rwx).spe a) :
    ((cpu_alpha_mmu_v2p_21264 env a rwx).fl % 2 = 1 →
        ∃ i, i < MAX_NBR_TLB_21264
          ∧ cpu_alpha_mmu_v2p_21264 env a rwx = ((v2p_tlb env rwx).entries i).pte
          ∧ entry_valid ((v2p_tlb env rwx).entries i)
          ∧ in_page ((v2p_tlb env rwx).entries i) a
          ∧ (((v2p_tlb env rwx).entries i).pte.asn = env.asn
              ∨ entry_global ((v2p_tlb env rwx).entries i)))
    ∧ ((∀ i, i < MAX_NBR_TLB_21264 → entry_valid ((v2p_tlb env rwx).entries i) →
          in_page ((v2p_tlb env rwx).entries i) a →
          ¬ entry_global ((v2p_tlb env rwx).entries i)
            ∧ ((v2p_tlb env rwx).entries i).pte.asn ≠ env.asn) →
        cpu_alpha_mmu_v2p_21264 env a rwx = { pa := 0, fl := 0, asn := PTE_ASN_MISS })
    ∧ (∀ i, i < MAX_NBR_TLB_21264 → entry_valid ((v2p_tlb env rwx).entries i) →
          in_page ((v2p_tlb env rwx).entries i) a →
          entry_global ((v2p_tlb env rwx).entries i) →
          ∀ asn, ∃ j, j < MAX_NBR_TLB_21264
            ∧ cpu_alpha_mmu_v2p_21264 { env with asn := asn } a rwx
                = ((v2p_tlb env rwx).entries j).pte
            ∧ entry_valid ((v2p_tlb env rwx).entries j)
            ∧ in_page ((v2p_tlb env rwx).entries j) a) := by
  have hsearch := v2p_eq_search env a rwx ha hs hsp
  refine ⟨?_, ?_, ?_⟩
  · intro hv
    rcases v2p_search_spec (v2p_tlb env rwx) env.asn a MAX_NBR_TLB_21264 0 with
      ⟨j, _, h2, h3, _, h5⟩ | ⟨_, h2⟩
    · have hj : j < MAX_NBR_TLB_21264 := by omega
      obtain ⟨m1, m2, m3⟩ := (v2p_match_iff _ _ _ (hwf j hj) ha).1 h3
      exact ⟨j, hj, hsearch.trans h5, m1, m2, m3⟩
    · rw [hsearch, h2] at hv
      simp [pte_miss] at hv
  · intro hall
    rcases v2p_search_spec (v2p_tlb env rwx) env.asn a MAX_NBR_TLB_21264 0 with
      ⟨j, _, h2, h3, _, _⟩ | ⟨_, h2⟩
    · have hj : j < MAX_NBR_TLB_21264 := by omega
      obtain ⟨m1, m2, m3⟩ := (v2p_match_iff _ _ _ (hwf j hj) ha).1 h3
      obtain ⟨n1, n2⟩ := hall j hj m1 m2
      rcases m3 with m3 | m3
      · exact absurd m3 n2
      · exact absurd m3 n1
    · rw [hsearch, h2]; rfl
  · intro i hi hvalid hpage hglobal asn
    have hsearch2 : cpu_alpha_mmu_v2p_21264 { env with asn := asn } a rwx
        = v2p_search (v2p_tlb env rwx) asn a 0 MAX_NBR_TLB_21264 :=
      v2p_eq_search { env with asn := asn } a rwx ha hs hsp
    rcases v2p_search_spec (v2p_tlb env rwx) asn a MAX_NBR_TLB_21264 0 with
      ⟨j, _, h2, h3, _, h5⟩ | ⟨h1, _⟩
    · have hj : j < MAX_NBR_TLB_21264 := by omega
      obtain ⟨m1, m2, _⟩ := (v2p_match_iff _ _ _ (hwf j hj) ha).1 h3
      exact ⟨j, hj, hsearch2.trans h5, m1, m2⟩
    · have hm := (v2p_match_iff _ asn a (hwf i hi) ha).2 ⟨hvalid, hpage, Or.inr hglobal⟩
      rw [h1 i (Nat.zero_le _) (by omega)] at hm
      exact absurd hm (by simp)

theorem tlb_one_global_wf : tlb_wf tlb_one_global := by
  intro i _
  by_cases h : i = 7 <;> simp [tlb_one_global, set_entry, tlb_zero, h]

theorem c2_asn_or_global_witness :
    tlb_wf (v2p_tlb env_one_global 1)
    ∧ sign_extend 0x10008 (canonical_width env_one_global 1) = 0x10008
    ∧ ¬ in_enabled_superpage (v2p_tlb env_one_global 1).spe 0x10008
    ∧ ∃ j, j < MAX_NBR_TLB_21264
      ∧ cpu_alpha_mmu_v2p_21264 { env_one_global with asn := 6 } 0x10008 1
          = ((v2p_tlb env_one_global 1).entries j).pte
      ∧ entry_valid ((v2p_tlb env_one_global 1).entries j)
      ∧ in_page ((v2p_tlb env_one_global 1).entries j) 0x10008 :=
  ⟨tlb_one_global_wf, by decide, by decide,
   (c2_asn_or_global env_one_global 0x10008 1 (by decide) tlb_one_global_wf
      (by decide) (by decide)).2.2 7 (by decide) (by decide) (by decide) (by decide) 6⟩

/-! ## The permission test -/

theorem shr_and_pow2_ne_zero_iff (x s k : Nat) :
    (x >>> s) &&& 2 ^ k ≠ 0 ↔ (x / 2 ^ (k + s)) % 2 = 1 := by
  rw [and_pow2_ne_zero_iff, Nat.shiftRight_eq_div_pow, Nat.div_div_eq_div_mul, ← pow_add,
    Nat.add_comm s k]

theorem shr_and_pow2_eq_zero_iff (x s k : Nat) :
    (x >>> s) &&& 2 ^ k = 0 ↔ (x / 2 ^ (k + s)) % 2 = 0 := by
  rw [and_pow2_eq_zero_iff, Nat.shiftRight_eq_div_pow, Nat.div_div_eq_div_mul, ← pow_add,
    Nat.add_comm s k]

/-- The success test of the fault handler in the words of the specification. -/
theorem mmu_fault_ok_iff (pte : alpha_pte) (cm rwx : Nat) (hr : rwx ≤ 2) :
    mmu_fault_ok pte cm rwx = true ↔ access_permitted pte.fl cm rwx := by
  have hk : ¬ (pte.fl >>> cm &&& 1 <<< 8 = 0) ↔ pte.fl / 2 ^ (8 + cm) % 2 = 1 :=
    shr_and_pow2_ne_zero_iff pte.fl cm 8
  have hw : ¬ (pte.fl >>> cm &&& 1 <<< 12 = 0) ↔ pte.fl / 2 ^ (12 + cm) % 2 = 1 :=
    shr_and_pow2_ne_zero_iff pte.fl cm 12
  have hv := and_V_ne_zero_iff pte.fl
  have hf0 : pte.fl &&& 1 <<< 1 = 0 ↔ pte.fl / 2 % 2 = 0 :=
    and_pow2_eq_zero_iff pte.fl 1
  have hf1 : pte.fl >>> 1 &&& 1 <<< 1 = 0 ↔ pte.fl / 4 % 2 = 0 :=
    shr_and_pow2_eq_zero_iff pte.fl 1 1
  have hcases : rwx = 0 ∨ rwx = 1 ∨ rwx = 2 := by omega
  unfold mmu_fault_ok access_permitted flag_bit
  simp only [ALPHA_PTE_KWE, ALPHA_PTE_KRE, ALPHA_PTE_FOR, Bool.and_eq_true,
    Bool.or_eq_true, decide_eq_true_eq, hv, ne_eq]
  rcases hcases with h | h | h <;> subst h <;>
    simp only [hk, hw, hf0, hf1, Nat.shiftRight_zero] <;> norm_num <;> omega

/-! ## The fault handler -/

theorem mmu_fault_success (eng : Engine) (env : CPUAlphaState)
    (a rwx mmu_idx retaddr : Nat)
    (h : mmu_fault_ok (cpu_alpha_mmu_v2p_21264 env a rwx) env.a21264.cm rwx = true) :
    ∃ r, cpu_alpha_mmu_fault_21264 eng env a rwx mmu_idx retaddr = some r ∧ r.ret = 0 := by
  unfold cpu_alpha_mmu_fault_21264
  simp only [h, if_true]
  exact ⟨_, rfl, rfl⟩

theorem dfault_exception_index (env env2 : CPUAlphaState) (a : Nat)
    (h : cpu_alpha_mmu_dfault_21264 env a = some env2) :
    env2.exception_index = env.exception_index := by
  unfold cpu_alpha_mmu_dfault_21264 at h
  split at h
  · exact absurd h (by simp)
  · simp only [Option.some.injEq] at h
    rw [← h]

/-- When the access is not permitted, a call that returns returns 1 and stores the code
chosen by lines 210-238 of `helper.c`. -/
theorem mmu_fault_failure (eng : Engine) (env : CPUAlphaState)
    (a rwx mmu_idx retaddr : Nat) (r : FaultResult)
    (h : mmu_fault_ok (cpu_alpha_mmu_v2p_21264 env a rwx) env.a21264.cm rwx = false)
    (hr : cpu_alpha_mmu_fault_21264 eng env a rwx mmu_idx retaddr = some r) :
    r.ret = 1
    ∧ r.env.exception_index =
        (if rwx = 2 then
          (if (cpu_alpha_mmu_v2p_21264 env a rwx).fl = 0
              ∧ (cpu_alpha_mmu_v2p_21264 env a rwx).asn = PTE_ASN_MISS
            then EXCP_21264_ITB_MISS else EXCP_21264_IACV)
        else
          (if (cpu_alpha_mmu_v2p_21264 env a rwx).fl = 0
              ∧ (cpu_alpha_mmu_v2p_21264 env a rwx).asn = PTE_ASN_MISS
            then EXCP_21264_DTBM_SINGLE else EXCP_21264_DFAULT)) := by
  unfold cpu_alpha_mmu_fault_21264 at hr
  simp only [h, Bool.false_eq_true, if_false] at hr
  by_cases h2 : rwx = 2
  · simp only [h2, if_true] at hr ⊢
    cases hi : mmu_fault_iexcp (cpu_alpha_mmu_v2p_21264 env a 2) a env.a21264.va with
    | none => simp [hi] at hr
    | some t =>
      obtain ⟨excp, exc_sum, va⟩ := t
      simp only [hi] at hr
      cases hf : va_form a env.a21264.i_vptb env.a21264.iva_48 with
      | none => simp [hf] at hr
      | some f =>
        simp only [hf] at hr
        by_cases hra : retaddr = 0
        · simp only [hra, ne_eq, not_true_eq_false, if_false, Option.some.injEq] at hr
          rw [← hr]
          refine ⟨rfl, ?_⟩
          show excp = _
          unfold mmu_fault_iexcp at hi
          split_ifs at hi with c1 c2 c3 <;> simp only [Option.some.injEq, Prod.mk.injEq] at hi
          · simp [c1, c2, hi.1.symm]
          · simp [c1, c2, hi.1.symm]
          · simp [c1, hi.1.symm]
        · simp [hra] at hr
  · simp only [h2, if_false] at hr ⊢
    by_cases hra : retaddr = 0
    · simp [hra] at hr
    · simp only [hra, if_false] at hr
      cases htb : eng.tb_find_pc retaddr with
      | none => simp [htb] at hr
      | some tb =>
        simp only [htb] at hr
        split at hr
        · exact absurd hr (by simp)
        · rename_i env2 hd
          simp only [Option.some.injEq] at hr
          have := dfault_exception_index _ _ _ hd
          rw [← hr]
          exact ⟨rfl, this⟩

theorem v2p_total_cases (env : CPUAlphaState) (a rwx : Nat) :
    cpu_alpha_mmu_v2p_21264 env a rwx = pte_bad_va
    ∨ cpu_alpha_mmu_v2p_21264 env a rwx = pte_miss
    ∨ (cpu_alpha_mmu_v2p_21264 env a rwx).fl % 2 = 1 := by
  by_cases hs : sign_extend a (canonical_width env rwx) = a
  · rcases v2p_cases env a rwx hs with h | ⟨j, _, hm, hj⟩ | ⟨h, _⟩
    · right; right; rw [h]
    · right; right
      rw [hj]
      exact (and_V_ne_zero_iff _).1 (v2p_match_valid _ _ _ hm)
    · right; left; exact h
  · left
    unfold cpu_alpha_mmu_v2p_21264
    simp only [v2p_sign_check]
    rw [if_pos hs]; rfl

theorem va_form_some (va vptb form : Nat) (h : form < 3) :
    ∃ v, va_form va vptb form = some v := by
  have hc : form = 0 ∨ form = 1 ∨ form = 2 := by omega
  rcases hc with h | h | h <;> subst h <;> exact ⟨_, rfl⟩

/-- When the access is not permitted and the engine can take the report, the call
returns. -/
theorem mmu_fault_returns (eng : Engine) (env : CPUAlphaState)
    (a rwx mmu_idx retaddr : Nat)
    (h : mmu_fault_ok (cpu_alpha_mmu_v2p_21264 env a rwx) env.a21264.cm rwx = false)
    (hrep : fault_reportable eng env rwx retaddr) :
    ∃ r, cpu_alpha_mmu_fault_21264 eng env a rwx mmu_idx retaddr = some r := by
  unfold fault_reportable at hrep
  unfold cpu_alpha_mmu_fault_21264
  simp only [h, Bool.false_eq_true, if_false]
  by_cases h2 : rwx = 2
  · simp only [h2, if_true] at hrep ⊢
    obtain ⟨hra, hform⟩ := hrep
    obtain ⟨f, hf⟩ := va_form_some a env.a21264.i_vptb env.a21264.iva_48 hform
    have hi : ∃ t, mmu_fault_iexcp (cpu_alpha_mmu_v2p_21264 env a 2) a env.a21264.va
        = some t := by
      unfold mmu_fault_iexcp
      rcases v2p_total_cases env a 2 with hc | hc | hc
      · rw [hc]; exact ⟨_, rfl⟩
      · rw [hc]; exact ⟨_, rfl⟩
      · have : (cpu_alpha_mmu_v2p_21264 env a 2).fl ≠ 0 := by omega
        rw [if_neg this]; exact ⟨_, rfl⟩
    obtain ⟨⟨excp, exc_sum, va⟩, hi⟩ := hi
    simp only [hi, hf, hra, ne_eq, not_true_eq_false, if_false]
    exact ⟨_, rfl⟩
  · simp only [h2, if_false] at hrep ⊢
    obtain ⟨hra, htb, hform⟩ := hrep
    obtain ⟨f, hf⟩ := va_form_some a env.a21264.d_vptb env.a21264.dva_48 hform
    obtain ⟨tb, htb⟩ := Option.isSome_iff_exists.1 htb
    simp only [hra, if_false, htb, cpu_alpha_mmu_dfault_21264, hf]
    exact ⟨_, rfl⟩

/-- Outcome of the lookup of a canonical address outside the enabled superpage windows,
in the words of the specification: the descriptor of a valid slot that contains the
address and matches the ASN or is global, or Miss when there is no such slot. -/
theorem v2p_lookup_cases (env : CPUAlphaState) (a rwx : Nat) (ha : a < 2 ^ 64)
    (hwf : tlb_wf (v2p_tlb env rwx))
    (hs : sign_extend a (canonical_width env rwx) = a)
    (hsp : ¬ in_enabled_superpage (v2p_tlb env rwx).spe a) :
    (∃ j, j < MAX_NBR_TLB_21264
        ∧ cpu_alpha_mmu_v2p_21264 env a rwx = ((v2p_tlb env rwx).entries j).pte
        ∧ entry_valid ((v2p_tlb env rwx).entries j)
        ∧ in_page ((v2p_tlb env rwx).entries j) a
        ∧ (((v2p_tlb env rwx).entries j).pte.asn = env.asn
            ∨ entry_global ((v2p_tlb env rwx).entries j)))
    ∨ (cpu_alpha_mmu_v2p_21264 env a rwx = pte_miss
        ∧ ∀ j, j < MAX_NBR_TLB_21264 →
            ¬ (entry_valid ((v2p_tlb env rwx).entries j)
                ∧ in_page ((v2p_tlb env rwx).entries j) a
                ∧ (((v2p_tlb env rwx).entries j).pte.asn = env.asn
                    ∨ entry_global ((v2p_tlb env rwx).entries j)))) := by
  have hsearch := v2p_eq_search env a rwx ha hs hsp
  rcases v2p_search_spec (v2p_tlb env rwx) env.asn a MAX_NBR_TLB_21264 0 with
    ⟨j, _, h2, h3, _, h5⟩ | ⟨h1, h2⟩
  · left
    have hj : j < MAX_NBR_TLB_21264 := by omega
    obtain ⟨m1, m2, m3⟩ := (v2p_match_iff _ _ _ (hwf j hj) ha).1 h3
    exact ⟨j, hj, hsearch.trans h5, m1, m2, m3⟩
  · right
    refine ⟨hsearch.trans h2, ?_⟩
    intro j hj hc
    have hm := (v2p_match_iff _ env.asn a (hwf j hj) ha).2 hc
    rw [h1 j (Nat.zero_le _) (by omega)] at hm
    exact absurd hm (by simp)

/-! ## C3 -/

/-- C3: the descriptor of a failed access is the Miss descriptor (no matching entry),
the bad-VA descriptor, or a valid descriptor (a matching entry, which then denies the
access); a call that returns 1 has stored ITB_MISS resp. DTBM_SINGLE in the first case
and IACV resp. DFAULT in the other two (instruction resp. data stream); a call for an
access that is not permitted does return 1 when the engine can take the report. In
particular, when slot `i` is the only valid slot whose page contains the address and it
is non-global and lacks the user write enable, a user-mode store gives DFAULT under the
ASN of the slot and DTBM_SINGLE under any other ASN. -/
theorem c3_fault_table (eng : Engine) (env : CPUAlphaState)
    (a rwx mmu_idx retaddr : Nat) (hrwx : rwx ≤ 2) :
    (cpu_alpha_mmu_v2p_21264 env a rwx = pte_miss
      ∨ cpu_alpha_mmu_v2p_21264 env a rwx = pte_bad_va
      ∨ flag_bit (cpu_alpha_mmu_v2p_21264 env a rwx).fl 0)
    ∧ (∀ r, cpu_alpha_mmu_fault_21264 eng env a rwx mmu_idx retaddr = some r →
        r.ret = 1 →
        (cpu_alpha_mmu_v2p_21264 env a rwx = pte_miss →
          r.env.exception_index
            = if rwx = 2 then EXCP_21264_ITB_MISS else EXCP_21264_DTBM_SINGLE)
        ∧ (cpu_alpha_mmu_v2p_21264 env a rwx = pte_bad_va
            ∨ flag_bit (cpu_alpha_mmu_v2p_21264 env a rwx).fl 0 →
          r.env.exception_index
            = if rwx = 2 then EXCP_21264_IACV else EXCP_21264_DFAULT))
    ∧ (¬ access_permitted (cpu_alpha_mmu_v2p_21264 env a rwx).fl env.a21264.cm rwx →
        fault_reportable eng env rwx retaddr →
        ∃ r, cpu_alpha_mmu_fault_21264 eng env a rwx mmu_idx retaddr = some r ∧ r.ret = 1)
    ∧ (env.a21264.cm = 3 → a < 2 ^ 64 → tlb_wf env.a21264.dtlb →
        sign_extend a (canonical_width env 1) = a →
        ¬ in_enabled_superpage env.a21264.dtlb.spe a →
        fault_reportable eng env 1 retaddr →
        ∀ i, i < MAX_NBR_TLB_21264 →
          entry_valid (env.a21264.dtlb.entries i) →
          in_page (env.a21264.dtlb.entries i) a →
          ¬ flag_bit (env.a21264.dtlb.entries i).pte.fl 15 →
          ¬ entry_global (env.a21264.dtlb.entries i) →
          (∀ j, j < MAX_NBR_TLB_21264 → entry_valid (env.a21264.dtlb.entries j) →
            in_page (env.a21264.dtlb.entries j) a → j = i) →
          ∀ asn, ∃ r,
            cpu_alpha_mmu_fault_21264 eng { env with asn := asn } a 1 mmu_idx retaddr
              = some r
            ∧ r.ret = 1
            ∧ r.env.exception_index
                = if asn = (env.a21264.dtlb.entries i).pte.asn then EXCP_21264_DFAULT
                  else EXCP_21264_DTBM_SINGLE) := by
  have htot : cpu_alpha_mmu_v2p_21264 env a rwx = pte_miss
      ∨ cpu_alpha_mmu_v2p_21264 env a rwx = pte_bad_va
      ∨ flag_bit (cpu_alpha_mmu_v2p_21264 env a rwx).fl 0 := by
    rcases v2p_total_cases env a rwx with h | h | h
    · exact Or.inr (Or.inl h)
    · exact Or.inl h
    · right; right
      unfold flag_bit; simpa using h
  refine ⟨htot, ?_, ?_, ?_⟩
  · intro r hr hret
    have hnok : mmu_fault_ok (cpu_alpha_mmu_v2p_21264 env a rwx) env.a21264.cm rwx
        = false := by
      by_contra hc
      have hc2 : mmu_fault_ok (cpu_alpha_mmu_v2p_21264 env a rwx) env.a21264.cm rwx
          = true := by simpa using hc
      obtain ⟨r2, hr2, hret2⟩ := mmu_fault_success eng env a rwx mmu_idx retaddr hc2
      rw [hr] at hr2
      simp only [Option.some.injEq] at hr2
      rw [hr2] at hret
      omega
    obtain ⟨_, hx⟩ := mmu_fault_failure eng env a rwx mmu_idx retaddr r hnok hr
    constructor
    · intro hm
      rw [hx, hm]
      simp [pte_miss]
    · intro hb
      rw [hx]
      rcases hb with hb | hb
      · rw [hb]; simp [pte_bad_va, PTE_ASN_BAD_VA, PTE_ASN_MISS]
      · have : (cpu_alpha_mmu_v2p_21264 env a rwx).fl ≠ 0 := by
          unfold flag_bit at hb
          intro h0; rw [h0] at hb; simp at hb
        simp [this]
  · intro hnp hrep
    have hnok : mmu_fault_ok (cpu_alpha_mmu_v2p_21264 env a rwx) env.a21264.cm rwx
        = false := by
      by_contra hc
      have hc2 : mmu_fault_ok (cpu_alpha_mmu_v2p_21264 env a rwx) env.a21264.cm rwx
          = true := by simpa using hc
      exact hnp ((mmu_fault_ok_iff _ _ _ hrwx).1 hc2)
    obtain ⟨r, hr⟩ := mmu_fault_returns eng env a rwx mmu_idx retaddr hnok hrep
    exact ⟨r, hr, (mmu_fault_failure eng env a rwx mmu_idx retaddr r hnok hr).1⟩
  · intro hcm ha hwf hs hsp hrep i hi hvalid hpage huwe hng huniq asn
    have hrep2 : fault_reportable eng { env with asn := asn } 1 retaddr := hrep
    have hlook := v2p_lookup_cases { env with asn := asn } a 1 ha hwf hs hsp
    have hnok : mmu_fault_ok (cpu_alpha_mmu_v2p_21264 { env with asn := asn } a 1)
        env.a21264.cm 1 = false := by
      by_contra hc
      have hc2 : mmu_fault_ok (cpu_alpha_mmu_v2p_21264 { env with asn := asn } a 1)
          env.a21264.cm 1 = true := by simpa using hc
      have hp := (mmu_fault_ok_iff _ _ _ (by decide)).1 hc2
      rcases hlook with ⟨j, hj, hj1, hj2, hj3, _⟩ | ⟨hmiss, _⟩
      · have hji := huniq j hj hj2 hj3
        subst hji
        rw [hj1, hcm] at hp
        unfold access_permitted at hp
        simp only [if_true] at hp
        exact huwe hp.2.1
      · rw [hmiss] at hp
        unfold access_permitted flag_bit pte_miss at hp
        simp at hp
    obtain ⟨r, hr⟩ :=
      mmu_fault_returns eng { env with asn := asn } a 1 mmu_idx retaddr hnok hrep2
    obtain ⟨hret, hx⟩ :=
      mmu_fault_failure eng { env with asn := asn } a 1 mmu_idx retaddr r hnok hr
    refine ⟨r, hr, hret, ?_⟩
    rw [hx]
    simp only [show ¬ ((1 : Nat) = 2) by decide, if_false]
    rcases hlook with ⟨j, hj, hj1, hj2, hj3, hj4⟩ | ⟨hmiss, hnone⟩
    · have hji := huniq j hj hj2 hj3
      subst hji
      have hasn : asn = ((v2p_tlb { env with asn := asn } 1).entries j).pte.asn := by
        rcases hj4 with h | h
        · exact h.symm
        · exact absurd h hng
      have hfl : (cpu_alpha_mmu_v2p_21264 { env with asn := asn } a 1).fl ≠ 0 := by
        rw [hj1]
        unfold entry_valid at hj2
        intro h0; rw [h0] at hj2; simp at hj2
      have hasn2 : asn = (env.a21264.dtlb.entries j).pte.asn := hasn
      simp [hfl, ← hasn2]
    · have hne : asn ≠ (env.a21264.dtlb.entries i).pte.asn := by
        intro he
        exact hnone i hi ⟨hvalid, hpage, Or.inl he.symm⟩
      rw [hmiss]
      simp [pte_miss, hne]

theorem tlb_user_ro_wf : tlb_wf tlb_user_ro := by
  intro i _
  by_cases h : i = 7 <;> simp [tlb_user_ro, set_entry, tlb_zero, h]

theorem tlb_user_ro_unique (a : Nat) (j : Nat) (_ : j < MAX_NBR_TLB_21264)
    (hv : entry_valid (tlb_user_ro.entries j)) (_ : in_page (tlb_user_ro.entries j) a) :
    j = 7 := by
  by_contra h
  simp [entry_valid, tlb_user_ro, set_entry, tlb_zero, h] at hv

theorem c3_fault_table_witness :
    (∃ r, cpu_alpha_mmu_fault_21264 eng_zero { env_user_ro with asn := 5 } 0x10008 1 3 1
        = some r ∧ r.ret = 1 ∧ r.env.exception_index = EXCP_21264_DFAULT)
    ∧ (∃ r, cpu_alpha_mmu_fault_21264 eng_zero { env_user_ro with asn := 6 } 0x10008 1 3 1
        = some r ∧ r.ret = 1 ∧ r.env.exception_index = EXCP_21264_DTBM_SINGLE) :=
  ⟨(c3_fault_table eng_zero env_user_ro 0x10008 1 3 1 (by decide)).2.2.2
      rfl (by decide) tlb_user_ro_wf (by decide) (by decide) (by decide)
      7 (by decide) (by decide) (by decide) (by decide) (by decide)
      (tlb_user_ro_unique 0x10008) 5,
   (c3_fault_table eng_zero env_user_ro 0x10008 1 3 1 (by decide)).2.2.2
      rfl (by decide) tlb_user_ro_wf (by decide) (by decide) (by decide)
      7 (by decide) (by decide) (by decide) (by decide) (by decide)
      (tlb_user_ro_unique 0x10008) 6⟩

/-! ## C4 -/

/-- C4: for an access kind 0, 1 or 2 and a mode `cm` in 0..3, the fault handler returns 0
exactly when the descriptor of the lookup permits the access: valid bit set, enable bit
of the mode set (bit `8 + cm` for a read or an execute, bit `12 + cm` for a write) and,
for a data access only, the matching fault-on bit clear; for an execute access the
outcome is decided by the valid bit and bit `8 + cm` alone. -/
theorem c4_success_iff (eng : Engine) (env : CPUAlphaState)
    (a rwx mmu_idx retaddr : Nat) (hrwx : rwx ≤ 2) (_hcm : env.a21264.cm < 4) :
    ((∃ r, cpu_alpha_mmu_fault_21264 eng env a rwx mmu_idx retaddr = some r ∧ r.ret = 0)
      ↔ access_permitted (cpu_alpha_mmu_v2p_21264 env a rwx).fl env.a21264.cm rwx)
    ∧ (rwx = 2 →
        ((∃ r, cpu_alpha_mmu_fault_21264 eng env a rwx mmu_idx retaddr = some r ∧ r.ret = 0)
          ↔ flag_bit (cpu_alpha_mmu_v2p_21264 env a rwx).fl 0
            ∧ flag_bit (cpu_alpha_mmu_v2p_21264 env a rwx).fl (8 + env.a21264.cm))) := by
  have main : (∃ r, cpu_alpha_mmu_fault_21264 eng env a rwx mmu_idx retaddr = some r
        ∧ r.ret = 0)
      ↔ access_permitted (cpu_alpha_mmu_v2p_21264 env a rwx).fl env.a21264.cm rwx := by
    constructor
    · rintro ⟨r, hr, hret⟩
      by_contra hnp
      have hnok : mmu_fault_ok (cpu_alpha_mmu_v2p_21264 env a rwx) env.a21264.cm rwx
          = false := by
        by_contra hc
        have hc2 : mmu_fault_ok (cpu_alpha_mmu_v2p_21264 env a rwx) env.a21264.cm rwx
            = true := by simpa using hc
        exact hnp ((mmu_fault_ok_iff _ _ _ hrwx).1 hc2)
      have := (mmu_fault_failure eng env a rwx mmu_idx retaddr r hnok hr).1
      omega
    · intro hp
      exact mmu_fault_success eng env a rwx mmu_idx retaddr
        ((mmu_fault_ok_iff _ _ _ hrwx).2 hp)
  refine ⟨main, ?_⟩
  intro h2
  rw [main]
  subst h2
  unfold access_permitted
  simp

theorem c4_success_iff_witness :
    (0 : Nat) ≤ 2 ∧ env_user_ro.a21264.cm < 4
    ∧ ((∃ r, cpu_alpha_mmu_fault_21264 eng_zero env_user_ro 0x10008 0 3 1 = some r
          ∧ r.ret = 0)
        ↔ access_permitted (cpu_alpha_mmu_v2p_21264 env_user_ro 0x10008 0).fl
            env_user_ro.a21264.cm 0) :=
  ⟨by decide, by decide,
   (c4_success_iff eng_zero env_user_ro 0x10008 0 3 1 (by decide) (by decide)).1⟩

/-! ## Case analysis of a control-register write -/

/-- Case analysis of `cpu_alpha_mtpr_21264`: a property that holds of the result of
each case of the `switch`, under the condition that selects the case, holds of the
result of the call. -/
theorem mtpr_cases (ticks : Nat) (env : CPUAlphaState) (iprn val : Nat)
    (P : Option CPUAlphaState → Prop)
    (h0 : iprn = IPR_CC → P (some (mtpr_cc env val)))
    (h1 : iprn = IPR_CC_CTL → P (some (mtpr_cc_ctl ticks env val)))
    (h2 : iprn = IPR_ITB_TAG → P (some (mtpr_itb_tag env val)))
    (h3 : iprn = IPR_DTB_TAG0 → P (some (mtpr_dtb_tag0 env val)))
    (h4 : iprn = IPR_DTB_TAG1 ∨ iprn = IPR_DTB_ASN1 ∨ iprn = IPR_DTB_PTE1 → P (some env))
    (h5 : iprn = IPR_ITB_PTE → P (some (mtpr_itb_pte env val)))
    (h6 : iprn = IPR_DTB_PTE0 → P (some (mtpr_dtb_pte0 env val)))
    (h7 : iprn = IPR_DTB_ASN0 → P (some (mtpr_dtb_asn0 env val)))
    (h8 : iprn = IPR_PAL_BASE → P (some (mtpr_pal_base env val)))
    (h9 : iprn = IPR_I_CTL → P (some (mtpr_i_ctl env val)))
    (h10 : iprn = IPR_VA_CTL → P (mtpr_va_ctl env val))
    (h11 : iprn = IPR_IER_CM ∨ iprn = IPR_CM ∨ iprn = IPR_IER → P (some (mtpr_cm (mtpr_ier env iprn val) iprn val)))
    (h12 : iprn = IPR_IC_FLUSH ∨ iprn = IPR_IC_FLUSH_ASM → P (some (call_tb_flush env)))
    (h13 : iprn = IPR_ITB_IA → P (some (set_itlb (call_tlb_flush env) (flush_tlb_all_21264 env.a21264.itlb, []))))
    (h14 : iprn = IPR_ITB_IAP → P (some (set_itlb (call_tlb_flush env) (flush_tlb_asm_21264 env.a21264.itlb, []))))
    (h15 : iprn = IPR_ITB_IS → P (some (set_itlb env (flush_tlb_21264_page env env.a21264.itlb val))))
    (h16 : iprn = IPR_DTB_IA → P (some (set_dtlb (call_tlb_flush env) (flush_tlb_all_21264 env.a21264.dtlb, []))))
    (h17 : iprn = IPR_DTB_IAP → P (some (set_dtlb (call_tlb_flush env) (flush_tlb_asm_21264 env.a21264.dtlb, []))))
    (h18 : iprn = IPR_DTB_IS0 → P (some (set_dtlb env (flush_tlb_21264_page env env.a21264.dtlb val))))
    (h19 : iprn = IPR_DTB_IS1 → P (some env))
    (h20 : iprn = IPR_I_STAT ∨ iprn = IPR_DC_STAT → P (some env))
    (h21 : iprn = IPR_MM_STAT → P (some env))
    (h22 : IPR_PCTX ≤ iprn ∧ iprn ≤ IPR_PCTX_ALL → P (mtpr_pctx env iprn val))
    (h23 : iprn = IPR_M_CTL → P (some (mtpr_m_ctl env val)))
    (h24 : iprn = IPR_SIRR → P (some (mtpr_sirr env val)))
    (h25 : iprn = IPR_HW_INT_CLR → P (some env))
    (h26 : iprn = IPR_DTB_ALTMODE0 → P (some (mtpr_dtb_altmode0 env val)))
    (h27 : iprn = IPR_PCTR_CTL → P (some env))
    (h28 : iprn = IPR_C_DATA ∨ iprn = IPR_C_SHIFT → P (some env))
    (h29 : iprn = IPR_DC_CTL → P (if val &&& 0x34 ≠ 0 then none else some env))
    (h30 : iprn = 0x2d → P (if env.a21264.pal_reloc_val ≠ 0 then alpha_21264_srm_write env else some env))
    (hdefault : P none) :
    P (cpu_alpha_mtpr_21264 ticks env iprn val) := by
  unfold cpu_alpha_mtpr_21264
  by_cases c0 : iprn = IPR_CC
  · rw [if_pos c0]; exact h0 c0
  rw [if_neg c0]
  by_cases c1 : iprn = IPR_CC_CTL
  · rw [if_pos c1]; exact h1 c1
  rw [if_neg c1]
  by_cases c2 : iprn = IPR_ITB_TAG
  · rw [if_pos c2]; exact h2 c2
  rw [if_neg c2]
  by_cases c3 : iprn = IPR_DTB_TAG0
  · rw [if_pos c3]; exact h3 c3
  rw [if_neg c3]
  by_cases c4 : iprn = IPR_DTB_TAG1 ∨ iprn = IPR_DTB_ASN1 ∨ iprn = IPR_DTB_PTE1
  · rw [if_pos c4]; exact h4 c4
  rw [if_neg c4]
  by_cases c5 : iprn = IPR_ITB_PTE
  · rw [if_pos c5]; exact h5 c5
  rw [if_neg c5]
  by_cases c6 : iprn = IPR_DTB_PTE0
  · rw [if_pos c6]; exact h6 c6
  rw [if_neg c6]
  by_cases c7 : iprn = IPR_DTB_ASN0
  · rw [if_pos c7]; exact h7 c7
  rw [if_neg c7]
  by_cases c8 : iprn = IPR_PAL_BASE
  · rw [if_pos c8]; exact h8 c8
  rw [if_neg c8]
  by_cases c9 : iprn = IPR_I_CTL
  · rw [if_pos c9]; exact h9 c9
  rw [if_neg c9]
  by_cases c10 : iprn = IPR_VA_CTL
  · rw [if_pos c10]; exact h10 c10
  rw [if_neg c10]
  by_cases c11 : iprn = IPR_IER_CM ∨ iprn = IPR_CM ∨ iprn = IPR_IER
  · rw [if_pos c11]; exact h11 c11
  rw [if_neg c11]
  by_cases c12 : iprn = IPR_IC_FLUSH ∨ iprn = IPR_IC_FLUSH_ASM
  · rw [if_pos c12]; exact h12 c12
  rw [if_neg c12]
  by_cases c13 : iprn = IPR_ITB_IA
  · rw [if_pos c13]; exact h13 c13
  rw [if_neg c13]
  by_cases c14 : iprn = IPR_ITB_IAP
  · rw [if_pos c14]; exact h14 c14
  rw [if_neg c14]
  by_cases c15 : iprn = IPR_ITB_IS
  · rw [if_pos c15]; exact h15 c15
  rw [if_neg c15]
  by_cases c16 : iprn = IPR_DTB_IA
  · rw [if_pos c16]; exact h16 c16
  rw [if_neg c16]
  by_cases c17 : iprn = IPR_DTB_IAP
  · rw [if_pos c17]; exact h17 c17
  rw [if_neg c17]
  by_cases c18 : iprn = IPR_DTB_IS0
  · rw [if_pos c18]; exact h18 c18
  rw [if_neg c18]
  by_cases c19 : iprn = IPR_DTB_IS1
  · rw [if_pos c19]; exact h19 c19
  rw [if_neg c19]
  by_cases c20 : iprn = IPR_I_STAT ∨ iprn = IPR_DC_STAT
  · rw [if_pos c20]; exact h20 c20
  rw [if_neg c20]
  by_cases c21 : iprn = IPR_MM_STAT
  · rw [if_pos c21]; exact h21 c21
  rw [if_neg c21]
  by_cases c22 : IPR_PCTX ≤ iprn ∧ iprn ≤ IPR_PCTX_ALL
  · rw [if_pos c22]; exact h22 c22
  rw [if_neg c22]
  by_cases c23 : iprn = IPR_M_CTL
  · rw [if_pos c23]; exact h23 c23
  rw [if_neg c23]
  by_cases c24 : iprn = IPR_SIRR
  · rw [if_pos c24]; exact h24 c24
  rw [if_neg c24]
  by_cases c25 : iprn = IPR_HW_INT_CLR
  · rw [if_pos c25]; exact h25 c25
  rw [if_neg c25]
  by_cases c26 : iprn = IPR_DTB_ALTMODE0
  · rw [if_pos c26]; exact h26 c26
  rw [if_neg c26]
  by_cases c27 : iprn = IPR_PCTR_CTL
  · rw [if_pos c27]; exact h27 c27
  rw [if_neg c27]
  by_cases c28 : iprn = IPR_C_DATA ∨ iprn = IPR_C_SHIFT
  · rw [if_pos c28]; exact h28 c28
  rw [if_neg c28]
  by_cases c29 : iprn = IPR_DC_CTL
  · rw [if_pos c29]; exact h29 c29
  rw [if_neg c29]
  by_cases c30 : iprn = 0x2d
  · rw [if_pos c30]; exact h30 c30
  rw [if_neg c30]
  exact hdefault

/-! ## The interrupt summary -/

theorem isum_inv_of_regs (env env2 : CPUAlphaState) (h : irq_regs env2 = irq_regs env)
    (hi : isum_inv env) : isum_inv env2 := by
  unfold irq_regs at h
  simp only [Prod.mk.injEq] at h
  unfold isum_inv at hi ⊢
  rw [h.1, h.2.1, h.2.2]
  exact hi

theorem pctx_asn_irq (env : CPUAlphaState) (iprn val : Nat) :
    irq_regs (pctx_asn env iprn val) = irq_regs env := by
  simp only [pctx_asn]; split_ifs <;> rfl

theorem pctx_astrr_irq (env : CPUAlphaState) (iprn val : Nat) :
    irq_regs (pctx_astrr env iprn val) = irq_regs env := by
  simp only [pctx_astrr]; split_ifs <;> rfl

theorem pctx_aster_irq (env : CPUAlphaState) (iprn val : Nat) :
    irq_regs (pctx_aster env iprn val) = irq_regs env := by
  simp only [pctx_aster]; split_ifs <;> rfl

theorem pctx_fpe_irq (env : CPUAlphaState) (iprn val : Nat) :
    irq_regs (pctx_fpe env iprn val) = irq_regs env := by
  simp only [pctx_fpe]; split_ifs <;> rfl

theorem pctx_ppce_irq (env : CPUAlphaState) (iprn val : Nat) :
    irq_regs (pctx_ppce env iprn val) = irq_regs env := by
  simp only [pctx_ppce]; split_ifs <;> rfl

theorem mtpr_pctx_irq (env env2 : CPUAlphaState) (iprn val : Nat)
    (h : mtpr_pctx env iprn val = some env2) : irq_regs env2 = irq_regs env := by
  unfold mtpr_pctx at h
  simp only at h
  split_ifs at h
  simp only [Option.some.injEq] at h
  rw [← h, pctx_ppce_irq, pctx_fpe_irq, pctx_aster_irq, pctx_astrr_irq, pctx_asn_irq]

theorem mtpr_cm_irq (env : CPUAlphaState) (iprn val : Nat) :
    irq_regs (mtpr_cm env iprn val) = irq_regs env := by
  simp only [mtpr_cm]; split_ifs <;> rfl

theorem swap_shadow_irq (env : CPUAlphaState) :
    irq_regs (swap_shadow_21264 env) = irq_regs env := rfl

theorem i_ctl_irq (env : CPUAlphaState) (val : Nat) :
    irq_regs (mtpr_i_ctl env val) = irq_regs env := by
  simp only [mtpr_i_ctl]
  split_ifs <;> simp only [irq_regs, swap_shadow_21264, set_i_ctl]

/-- A register write that is not to IER, IER_CM or SIRR leaves `isum`, `ipend` and
`ier` as they are. -/
theorem mtpr_irq_frame (ticks : Nat) (env env2 : CPUAlphaState) (iprn val : Nat)
    (hn : iprn ≠ IPR_IER ∧ iprn ≠ IPR_IER_CM ∧ iprn ≠ IPR_SIRR)
    (h : cpu_alpha_mtpr_21264 ticks env iprn val = some env2) :
    irq_regs env2 = irq_regs env := by
  obtain ⟨hn1, hn2, hn3⟩ := hn
  revert env2
  apply mtpr_cases ticks env iprn val
    (fun r => ∀ env2, r = some env2 → irq_regs env2 = irq_regs env)
  case h9 => intro _ e h; cases h; exact i_ctl_irq env val
  case h10 =>
    intro _ e h
    unfold mtpr_va_ctl at h
    split_ifs at h
    cases h; simp only [irq_regs]
  case h11 =>
    intro c e h
    cases h
    rw [mtpr_cm_irq]
    have h2 : iprn = IPR_CM := by
      rcases c with c | c | c
      · exact absurd c hn2
      · exact c
      · exact absurd c hn1
    subst h2
    simp only [irq_regs, mtpr_ier, IPR_CM]
    rfl
  case h22 => intro _ e h; exact mtpr_pctx_irq _ _ _ _ h
  case h24 => intro c; exact absurd c hn3
  case h29 => intro _ e h; split_ifs at h; cases h; rfl
  case h30 =>
    intro _ e h
    split_ifs at h
    · simp only [alpha_21264_srm_write] at h
      cases h
    · cases h
      rfl
  case hdefault => intro e h; cases h
  all_goals
    intro _ e h
    cases h
    simp only [irq_regs, mtpr_cc, mtpr_cc_ctl, mtpr_itb_tag, mtpr_dtb_tag0, mtpr_itb_pte,
      mtpr_dtb_pte0, insert_itlb_21264, insert_dtlb_21264, set_itb_pte, set_dtb_pte,
      mtpr_dtb_asn0, mtpr_pal_base, call_tb_flush, call_tlb_flush, set_itlb, set_dtlb,
      mtpr_m_ctl, mtpr_dtb_altmode0]

theorem mtpr_at_ier (ticks : Nat) (env : CPUAlphaState) (val : Nat) :
    cpu_alpha_mtpr_21264 ticks env IPR_IER val
      = some (mtpr_cm (mtpr_ier env IPR_IER val) IPR_IER val) := by
  unfold cpu_alpha_mtpr_21264
  simp [IPR_IER, IPR_CC, IPR_CC_CTL, IPR_ITB_TAG, IPR_DTB_TAG0, IPR_DTB_TAG1, IPR_DTB_ASN1,
    IPR_DTB_PTE1, IPR_ITB_PTE, IPR_DTB_PTE0, IPR_DTB_ASN0, IPR_PAL_BASE, IPR_I_CTL,
    IPR_VA_CTL]

theorem mtpr_at_ier_cm (ticks : Nat) (env : CPUAlphaState) (val : Nat) :
    cpu_alpha_mtpr_21264 ticks env IPR_IER_CM val
      = some (mtpr_cm (mtpr_ier env IPR_IER_CM val) IPR_IER_CM val) := by
  unfold cpu_alpha_mtpr_21264
  simp [IPR_IER_CM, IPR_CC, IPR_CC_CTL, IPR_ITB_TAG, IPR_DTB_TAG0, IPR_DTB_TAG1,
    IPR_DTB_ASN1, IPR_DTB_PTE1, IPR_ITB_PTE, IPR_DTB_PTE0, IPR_DTB_ASN0, IPR_PAL_BASE,
    IPR_I_CTL, IPR_VA_CTL]

theorem mtpr_at_sirr (ticks : Nat) (env : CPUAlphaState) (val : Nat) :
    cpu_alpha_mtpr_21264 ticks env IPR_SIRR val = some (mtpr_sirr env val) := by
  unfold cpu_alpha_mtpr_21264
  simp [IPR_SIRR, IPR_CC, IPR_CC_CTL, IPR_ITB_TAG, IPR_DTB_TAG0, IPR_DTB_TAG1,
    IPR_DTB_ASN1, IPR_DTB_PTE1, IPR_ITB_PTE, IPR_DTB_PTE0, IPR_DTB_ASN0, IPR_PAL_BASE,
    IPR_I_CTL, IPR_VA_CTL, IPR_IER_CM, IPR_CM, IPR_IER, IPR_IC_FLUSH, IPR_IC_FLUSH_ASM,
    IPR_ITB_IA, IPR_ITB_IAP, IPR_ITB_IS, IPR_DTB_IA, IPR_DTB_IAP, IPR_DTB_IS0, IPR_DTB_IS1,
    IPR_I_STAT, IPR_DC_STAT, IPR_MM_STAT, IPR_PCTX, IPR_PCTX_ALL, IPR_M_CTL]

theorem isum_inv_mtpr_ier (env : CPUAlphaState) (iprn val : Nat) (h : iprn &&& 2 ≠ 0) :
    isum_inv (mtpr_cm (mtpr_ier env iprn val) iprn val) := by
  have h1 : irq_regs (mtpr_cm (mtpr_ier env iprn val) iprn val)
      = irq_regs (mtpr_ier env iprn val) := mtpr_cm_irq _ _ _
  unfold irq_regs at h1
  simp only [Prod.mk.injEq] at h1
  unfold isum_inv
  rw [h1.1, h1.2.1, h1.2.2]
  simp only [mtpr_ier, h, ne_eq, not_false_eq_true, if_true]

theorem isum_inv_mtpr_sirr (env : CPUAlphaState) (val : Nat) :
    isum_inv (mtpr_sirr env val) := by
  simp only [isum_inv, mtpr_sirr]

theorem update_irq_spec (env : CPUAlphaState) (irqs : Nat) (env2 : CPUAlphaState)
    (h : cpu_alpha_update_irq env irqs = some env2) : isum_inv env2 := by
  unfold cpu_alpha_update_irq at h
  split at h
  · simp only at h
    split_ifs at h <;> simp only [Option.some.injEq] at h <;> subst h <;>
      simp only [isum_inv, cpu_interrupt]
  · exact absurd h (by simp)

theorem do_interrupt_pal_irq (env : CPUAlphaState) (excp : Int) :
    irq_regs (do_interrupt_pal env excp) = irq_regs env := by
  simp only [do_interrupt_pal]
  split
  · simp only [do_interrupt_reset, do_interrupt_r23, do_interrupt_swap]
    split_ifs <;> simp only [irq_regs, cpu_reset_interrupt, swap_shadow_21264]
  · rfl

theorem do_interrupt_irq (env env2 : CPUAlphaState) (h : do_interrupt env = some env2) :
    irq_regs env2 = irq_regs env := by
  unfold do_interrupt at h
  split_ifs at h
  simp only at h
  split at h
  · exact absurd h (by simp)
  · simp only [Option.some.injEq] at h
    subst h
    have := do_interrupt_pal_irq
      { env with exc_addr := env.pc ||| env.pal_mode, exception_index := 0,
                 error_code := 0, pal_mode := 1, mmu_code_index := MMU_PAL_IDX } ‹Int›
    simp only [irq_regs] at this ⊢
    exact this

theorem hw_ret_irq (env env2 : CPUAlphaState) (a : Nat)
    (h : helper_hw_ret env a = some env2) : irq_regs env2 = irq_regs env := by
  unfold helper_hw_ret at h
  split at h
  · simp only at h
    split_ifs at h <;> simp only [Option.some.injEq] at h <;> subst h <;>
      simp only [irq_regs, swap_shadow_21264]
  · exact absurd h (by simp)

/-! ## C6 -/

/-- C6: `isum == ipend & ier` is preserved by every control-register write that returns,
by `do_interrupt` and by `helper_hw_ret`; it holds after every `cpu_alpha_update_irq`
call that returns, whatever the state before; writes to IER, IER_CM and SIRR and (under
21264 PALcode emulation) `cpu_alpha_update_irq` do return, and it holds after them
whatever the state before. -/
theorem c6_isum_invariant :
    (∀ ticks env iprn val env2, isum_inv env →
        cpu_alpha_mtpr_21264 ticks env iprn val = some env2 → isum_inv env2)
    ∧ (∀ env irqs env2, cpu_alpha_update_irq env irqs = some env2 → isum_inv env2)
    ∧ (∀ env env2, isum_inv env → do_interrupt env = some env2 → isum_inv env2)
    ∧ (∀ env a env2, isum_inv env → helper_hw_ret env a = some env2 → isum_inv env2)
    ∧ (∀ ticks env iprn val, iprn = IPR_IER ∨ iprn = IPR_IER_CM ∨ iprn = IPR_SIRR →
        ∃ env2, cpu_alpha_mtpr_21264 ticks env iprn val = some env2 ∧ isum_inv env2)
    ∧ (∀ env irqs, env.pal_emul = pal_emul.PAL_21264 →
        ∃ env2, cpu_alpha_update_irq env irqs = some env2 ∧ isum_inv env2) := by
  have hwr : ∀ ticks env iprn val,
      iprn = IPR_IER ∨ iprn = IPR_IER_CM ∨ iprn = IPR_SIRR →
      ∃ env2, cpu_alpha_mtpr_21264 ticks env iprn val = some env2 ∧ isum_inv env2 := by
    intro ticks env iprn val hc
    rcases hc with h | h | h <;> subst h
    · exact ⟨_, mtpr_at_ier ticks env val, isum_inv_mtpr_ier env _ val (by decide)⟩
    · exact ⟨_, mtpr_at_ier_cm ticks env val, isum_inv_mtpr_ier env _ val (by decide)⟩
    · exact ⟨_, mtpr_at_sirr ticks env val, isum_inv_mtpr_sirr env val⟩
  refine ⟨?_, update_irq_spec, ?_, ?_, hwr, ?_⟩
  · intro ticks env iprn val env2 hi h
    by_cases hc : iprn = IPR_IER ∨ iprn = IPR_IER_CM ∨ iprn = IPR_SIRR
    · obtain ⟨e, he, hinv⟩ := hwr ticks env iprn val hc
      rw [he] at h
      simp only [Option.some.injEq] at h
      rw [← h]; exact hinv
    · simp only [not_or] at hc
      exact isum_inv_of_regs env env2 (mtpr_irq_frame ticks env env2 iprn val hc h) hi
  · intro env env2 hi h
    exact isum_inv_of_regs env env2 (do_interrupt_irq env env2 h) hi
  · intro env a env2 hi h
    exact isum_inv_of_regs env env2 (hw_ret_irq env env2 a h) hi
  · intro env irqs hp
    have : ∃ env2, cpu_alpha_update_irq env irqs = some env2 := by
      unfold cpu_alpha_update_irq
      rw [hp]
      simp only
      split_ifs <;> exact ⟨_, rfl⟩
    obtain ⟨e, he⟩ := this
    exact ⟨e, he, update_irq_spec env irqs e he⟩

/-! ## C7 -/

theorem ne_zero_of_testBit (x i : Nat) (h : x.testBit i = true) : x ≠ 0 := by
  intro h0
  subst h0
  simp at h

theorem flag_bit_iff_testBit (x k : Nat) : flag_bit x k ↔ x.testBit k = true := by
  unfold flag_bit
  rw [Nat.testBit_to_div_mod]
  simp

theorem and_shifted_mask (x lo len : Nat) :
    x &&& ((2 ^ len - 1) <<< lo) = ((x >>> lo) % 2 ^ len) <<< lo := by
  apply Nat.eq_of_testBit_eq
  intro i
  rw [Nat.testBit_and, Nat.testBit_shiftLeft, Nat.testBit_shiftLeft,
    Nat.testBit_two_pow_sub_one, Nat.testBit_mod_two_pow, Nat.testBit_shiftRight]
  by_cases h : lo ≤ i
  · have : lo + (i - lo) = i := by omega
    simp [h, this]
    exact Bool.and_comm _ _
  · simp [h]

theorem and_page_mask (va : Nat) (h : va < 2 ^ 64) :
    va &&& TARGET_PAGE_MASK = va / 2 ^ 13 * 2 ^ 13 := by
  have hm : TARGET_PAGE_MASK = (2 ^ 51 - 1) <<< 13 := by decide
  rw [hm, and_shifted_mask, Nat.shiftLeft_eq, Nat.shiftRight_eq_div_pow]
  have : va / 2 ^ 13 < 2 ^ 51 := by omega
  rw [Nat.mod_eq_of_lt this]

theorem insert_tag_eq (va : Nat) (h : va < 2 ^ 64) :
    sar64 (shl64 (va &&& TARGET_PAGE_MASK) 16) 16 = sign_extend (va / 2 ^ 13 * 2 ^ 13) 48 := by
  rw [sar64_shl64_16, and_page_mask va h]

theorem or_V_flag (x : Nat) : flag_bit (x ||| ALPHA_PTE_V) 0 := by
  rw [flag_bit_iff_testBit, Nat.testBit_or]
  simp [ALPHA_PTE_V]

theorem or_V_mod_flag (x : Nat) : flag_bit ((x ||| ALPHA_PTE_V) % 2 ^ 16) 0 := by
  rw [flag_bit_iff_testBit, Nat.testBit_mod_two_pow, Nat.testBit_or]
  simp [ALPHA_PTE_V]

theorem insert_itlb_seq_next (xs : List (Nat × Nat)) :
    ∀ env : CPUAlphaState, env.a21264.itlb.next < MAX_NBR_TLB_21264 →
      (insert_itlb_seq env xs).a21264.itlb.next
        = (env.a21264.itlb.next + xs.length) % MAX_NBR_TLB_21264 := by
  induction xs with
  | nil =>
    intro env h
    simp only [insert_itlb_seq, List.foldl_nil, List.length_nil, Nat.add_zero]
    exact (Nat.mod_eq_of_lt h).symm
  | cons x xs ih =>
    intro env h
    have hstep : (insert_itlb_21264 env x.1 x.2).a21264.itlb.next
        = (env.a21264.itlb.next + 1) % MAX_NBR_TLB_21264 := by
      simp only [insert_itlb_21264, set_entry]
    have hlt : (insert_itlb_21264 env x.1 x.2).a21264.itlb.next < MAX_NBR_TLB_21264 := by
      rw [hstep]; exact Nat.mod_lt _ (by decide)
    have := ih (insert_itlb_21264 env x.1 x.2) hlt
    simp only [insert_itlb_seq, List.foldl_cons, List.length_cons] at this ⊢
    rw [this, hstep]
    simp only [MAX_NBR_TLB_21264]
    omega

theorem insert_dtlb_seq_next (xs : List (Nat × Nat)) :
    ∀ env : CPUAlphaState, env.a21264.dtlb.next < MAX_NBR_TLB_21264 →
      (insert_dtlb_seq env xs).a21264.dtlb.next
        = (env.a21264.dtlb.next + xs.length) % MAX_NBR_TLB_21264 := by
  induction xs with
  | nil =>
    intro env h
    simp only [insert_dtlb_seq, List.foldl_nil, List.length_nil, Nat.add_zero]
    exact (Nat.mod_eq_of_lt h).symm
  | cons x xs ih =>
    intro env h
    have hstep : (insert_dtlb_21264 env x.1 x.2).a21264.dtlb.next
        = (env.a21264.dtlb.next + 1) % MAX_NBR_TLB_21264 := by
      simp only [insert_dtlb_21264, set_entry]
    have hlt : (insert_dtlb_21264 env x.1 x.2).a21264.dtlb.next < MAX_NBR_TLB_21264 := by
      rw [hstep]; exact Nat.mod_lt _ (by decide)
    have := ih (insert_dtlb_21264 env x.1 x.2) hlt
    simp only [insert_dtlb_seq, List.foldl_cons, List.length_cons] at this ⊢
    rw [this, hstep]
    simp only [MAX_NBR_TLB_21264]
    omega

/-! ## C8 -/

/-- C8: an insertion into a stream whose `next` is below 128 writes the slot
`entries[next]` with the page-aligned address sign-extended from bit 47 as tag, flags
with the valid bit set and the current ASN; it leaves every other slot of the stream and
the whole other stream as they are; it sets `next` to `(next + 1) mod 128`, which is below
128; and after 128 insertions `next` is back at the slot the first one wrote, so the
129th insertion overwrites it. This holds for every prior content of the stream. -/
theorem c8_insert_round_robin (env : CPUAlphaState) (va pte : Nat) (hva : va < 2 ^ 64)
    (hi : env.a21264.itlb.next < MAX_NBR_TLB_21264)
    (hd : env.a21264.dtlb.next < MAX_NBR_TLB_21264) :
    (((insert_itlb_21264 env va pte).a21264.itlb.entries env.a21264.itlb.next).va
        = sign_extend (va / 2 ^ 13 * 2 ^ 13) 48
      ∧ flag_bit
          ((insert_itlb_21264 env va pte).a21264.itlb.entries env.a21264.itlb.next).pte.fl 0
      ∧ ((insert_itlb_21264 env va pte).a21264.itlb.entries env.a21264.itlb.next).pte.asn
          = env.asn
      ∧ (∀ j, j ≠ env.a21264.itlb.next →
          (insert_itlb_21264 env va pte).a21264.itlb.entries j = env.a21264.itlb.entries j)
      ∧ (insert_itlb_21264 env va pte).a21264.dtlb = env.a21264.dtlb
      ∧ (insert_itlb_21264 env va pte).a21264.itlb.next
          = (env.a21264.itlb.next + 1) % 128
      ∧ (insert_itlb_21264 env va pte).a21264.itlb.next < 128
      ∧ (∀ xs : List (Nat × Nat), xs.length = 128 →
          (insert_itlb_seq env xs).a21264.itlb.next = env.a21264.itlb.next))
    ∧ (((insert_dtlb_21264 env va pte).a21264.dtlb.entries env.a21264.dtlb.next).va
        = sign_extend (va / 2 ^ 13 * 2 ^ 13) 48
      ∧ flag_bit
          ((insert_dtlb_21264 env va pte).a21264.dtlb.entries env.a21264.dtlb.next).pte.fl 0
      ∧ ((insert_dtlb_21264 env va pte).a21264.dtlb.entries env.a21264.dtlb.next).pte.asn
          = env.asn
      ∧ (∀ j, j ≠ env.a21264.dtlb.next →
          (insert_dtlb_21264 env va pte).a21264.dtlb.entries j = env.a21264.dtlb.entries j)
      ∧ (insert_dtlb_21264 env va pte).a21264.itlb = env.a21264.itlb
      ∧ (insert_dtlb_21264 env va pte).a21264.dtlb.next
          = (env.a21264.dtlb.next + 1) % 128
      ∧ (insert_dtlb_21264 env va pte).a21264.dtlb.next < 128
      ∧ (∀ xs : List (Nat × Nat), xs.length = 128 →
          (insert_dtlb_seq env xs).a21264.dtlb.next = env.a21264.dtlb.next)) := by
  have hmod : ∀ n, n % 128 < 128 := fun n => Nat.mod_lt _ (by decide)
  refine ⟨⟨?_, ?_, ?_, ?_, ?_, ?_, ?_, ?_⟩, ⟨?_, ?_, ?_, ?_, ?_, ?_, ?_, ?_⟩⟩
  · simp only [insert_itlb_21264, set_entry, if_true]
    exact insert_tag_eq va hva
  · simp only [insert_itlb_21264, set_entry, if_true]
    exact or_V_flag _
  · simp only [insert_itlb_21264, set_entry, if_true]
  · intro j hj
    simp only [insert_itlb_21264, set_entry, if_neg hj]
  · simp only [insert_itlb_21264]
  · simp only [insert_itlb_21264, set_entry, MAX_NBR_TLB_21264]
  · simp only [insert_itlb_21264, set_entry, MAX_NBR_TLB_21264]
    exact hmod _
  · intro xs hx
    rw [insert_itlb_seq_next xs env hi, hx]
    simp only [MAX_NBR_TLB_21264] at hi ⊢
    omega
  · simp only [insert_dtlb_21264, set_entry, if_true]
    exact insert_tag_eq va hva
  · simp only [insert_dtlb_21264, set_entry, if_true]
    exact or_V_mod_flag _
  · simp only [insert_dtlb_21264, set_entry, if_true]
  · intro j hj
    simp only [insert_dtlb_21264, set_entry, if_neg hj]
  · simp only [insert_dtlb_21264]
  · simp only [insert_dtlb_21264, set_entry, MAX_NBR_TLB_21264]
  · simp only [insert_dtlb_21264, set_entry, MAX_NBR_TLB_21264]
    exact hmod _
  · intro xs hx
    rw [insert_dtlb_seq_next xs env hd, hx]
    simp only [MAX_NBR_TLB_21264] at hd ⊢
    omega

theorem c8_insert_round_robin_witness :
    (0xfffffc0000012345 : Nat) < 2 ^ 64
    ∧ env_user_ro.a21264.itlb.next < MAX_NBR_TLB_21264
    ∧ env_user_ro.a21264.dtlb.next < MAX_NBR_TLB_21264
    ∧ ((insert_dtlb_21264 env_user_ro 0xfffffc0000012345 0x1100).a21264.dtlb.entries
          env_user_ro.a21264.dtlb.next).va
        = sign_extend (0xfffffc0000012345 / 2 ^ 13 * 2 ^ 13) 48 :=
  ⟨by decide, by decide, by decide,
   (c8_insert_round_robin env_user_ro 0xfffffc0000012345 0x1100 (by decide) (by decide)
      (by decide)).2.1⟩

/-! ## Lookup after insertion -/

/-- A canonical address that some slot matches is translated to a valid descriptor. -/
theorem v2p_hit_of_match (env : CPUAlphaState) (a rwx j : Nat)
    (hs : sign_extend a (canonical_width env rwx) = a) (hj : j < MAX_NBR_TLB_21264)
    (hm : v2p_match ((v2p_tlb env rwx).entries j) env.asn a = true) :
    flag_bit (cpu_alpha_mmu_v2p_21264 env a rwx).fl 0 := by
  rcases v2p_cases env a rwx hs with h | ⟨k, _, hk, hk2⟩ | ⟨_, h⟩
  · rw [h]; decide
  · rw [hk2]
    have := (and_V_ne_zero_iff _).1 (v2p_match_valid _ _ _ hk)
    unfold flag_bit; simpa using this
  · rw [h j hj] at hm
    exact absurd hm (by simp)

/-- Outside the superpage windows, when every slot that matches a canonical address
holds the descriptor `q` and some slot matches, the lookup returns `q`. -/
theorem v2p_eq_of_all_match (env : CPUAlphaState) (a rwx j : Nat) (q : alpha_pte)
    (ha : a < 2 ^ 64)
    (hs : sign_extend a (canonical_width env rwx) = a)
    (hsp : ¬ in_enabled_superpage (v2p_tlb env rwx).spe a)
    (hj : j < MAX_NBR_TLB_21264)
    (hm : v2p_match ((v2p_tlb env rwx).entries j) env.asn a = true)
    (hall : ∀ k, k < MAX_NBR_TLB_21264 →
      v2p_match ((v2p_tlb env rwx).entries k) env.asn a = true →
      ((v2p_tlb env rwx).entries k).pte = q) :
    cpu_alpha_mmu_v2p_21264 env a rwx = q := by
  rw [v2p_eq_search env a rwx ha hs hsp]
  rcases v2p_search_spec (v2p_tlb env rwx) env.asn a MAX_NBR_TLB_21264 0 with
    ⟨k, _, h2, h3, _, h5⟩ | ⟨h1, _⟩
  · rw [h5]
    exact hall k (by omega) h3
  · rw [h1 j (Nat.zero_le _) (by omega)] at hm
    exact absurd hm (by simp)

theorem no_superpage_of_spe (spe a : Nat) (h : spe % 8 = 0) :
    ¬ in_enabled_superpage spe a := by
  unfold in_enabled_superpage
  omega

theorem canonical_43_48 (va : Nat) (h : sign_extend va 43 = va) : sign_extend va 48 = va := by
  unfold sign_extend at h ⊢
  split_ifs at h ⊢ <;> omega

theorem canonical_width_cases (env : CPUAlphaState) (rwx : Nat) :
    canonical_width env rwx = 43 ∨ canonical_width env rwx = 48 := by
  unfold canonical_width
  split_ifs <;> simp

theorem canonical_48_of_width (env : CPUAlphaState) (rwx va : Nat)
    (h : sign_extend va (canonical_width env rwx) = va) : sign_extend va 48 = va := by
  rcases canonical_width_cases env rwx with hw | hw <;> rw [hw] at h
  · exact canonical_43_48 va h
  · exact h

/-- The tag stored for a canonical address written through the tag register. -/
theorem tag_of_canonical (va : Nat) (h : va < 2 ^ 64) (hc : sign_extend va 48 = va) :
    sar64 (shl64 ((va &&& 0x0000ffffffffe000) &&& TARGET_PAGE_MASK) 16) 16
      = va / 2 ^ 13 * 2 ^ 13 := by
  have hm : (0x0000ffffffffe000 : Nat) = (2 ^ 35 - 1) <<< 13 := by decide
  have h1 : va &&& 0x0000ffffffffe000 = va / 2 ^ 13 % 2 ^ 35 * 2 ^ 13 := by
    rw [hm, and_shifted_mask, Nat.shiftLeft_eq, Nat.shiftRight_eq_div_pow]
  have h2 : va &&& 0x0000ffffffffe000 < 2 ^ 64 := by rw [h1]; omega
  rw [sar64_shl64_16, and_page_mask _ h2, h1]
  unfold sign_extend at hc ⊢
  split_ifs at hc ⊢ <;> omega

/-- An address in the page of an entry tagged with a canonical page address is
canonical. -/
theorem canonical_of_in_page (va a w fl : Nat) (hw : w = 43 ∨ w = 48)
    (ha : a < 2 ^ 64)
    (hc : sign_extend va w = va)
    (hp : (va / 2 ^ 13 * 2 ^ 13) / page_size fl = a / page_size fl) :
    sign_extend a w = a := by
  unfold page_size at hp
  have hg : (fl / 32) % 4 < 4 := Nat.mod_lt _ (by decide)
  have hcases : (fl / 32) % 4 = 0 ∨ (fl / 32) % 4 = 1 ∨ (fl / 32) % 4 = 2
      ∨ (fl / 32) % 4 = 3 := by omega
  unfold sign_extend at hc ⊢
  rcases hw with hw | hw <;> subst hw <;>
    rcases hcases with h | h | h | h <;> rw [h] at hp <;> norm_num at hp hc ⊢ <;>
    split_ifs at hc ⊢ <;> omega

theorem mtpr_at_itb_tag (ticks : Nat) (env : CPUAlphaState) (val : Nat) :
    cpu_alpha_mtpr_21264 ticks env IPR_ITB_TAG val = some (mtpr_itb_tag env val) := by
  unfold cpu_alpha_mtpr_21264
  simp [IPR_ITB_TAG, IPR_CC, IPR_CC_CTL]

theorem mtpr_at_itb_pte (ticks : Nat) (env : CPUAlphaState) (val : Nat) :
    cpu_alpha_mtpr_21264 ticks env IPR_ITB_PTE val = some (mtpr_itb_pte env val) := by
  unfold cpu_alpha_mtpr_21264
  simp [IPR_ITB_PTE, IPR_ITB_TAG, IPR_CC, IPR_CC_CTL, IPR_DTB_TAG0, IPR_DTB_TAG1,
    IPR_DTB_ASN1, IPR_DTB_PTE1]

theorem mtpr_at_dtb_tag0 (ticks : Nat) (env : CPUAlphaState) (val : Nat) :
    cpu_alpha_mtpr_21264 ticks env IPR_DTB_TAG0 val = some (mtpr_dtb_tag0 env val) := by
  unfold cpu_alpha_mtpr_21264
  simp [IPR_DTB_TAG0, IPR_ITB_TAG, IPR_CC, IPR_CC_CTL]

theorem mtpr_at_dtb_pte0 (ticks : Nat) (env : CPUAlphaState) (val : Nat) :
    cpu_alpha_mtpr_21264 ticks env IPR_DTB_PTE0 val = some (mtpr_dtb_pte0 env val) := by
  unfold cpu_alpha_mtpr_21264
  simp [IPR_DTB_PTE0, IPR_ITB_PTE, IPR_ITB_TAG, IPR_CC, IPR_CC_CTL, IPR_DTB_TAG0,
    IPR_DTB_TAG1, IPR_DTB_ASN1, IPR_DTB_PTE1]

theorem itb_write_eq (ticks : Nat) (env : CPUAlphaState) (va p : Nat) :
    itb_write ticks env va p = some (mtpr_itb_pte (mtpr_itb_tag env va) p) := by
  unfold itb_write
  rw [mtpr_at_itb_tag, Option.some_bind, mtpr_at_itb_pte]

theorem dtb_write_eq (ticks : Nat) (env : CPUAlphaState) (va p : Nat) :
    dtb_write ticks env va p = some (mtpr_dtb_pte0 (mtpr_dtb_tag0 env va) p) := by
  unfold dtb_write
  rw [mtpr_at_dtb_tag0, Option.some_bind, mtpr_at_dtb_pte0]

/-- What the two writes to the instruction-stream registers change. -/
theorem itb_write_step (env : CPUAlphaState) (va p : Nat) (hva : va < 2 ^ 64)
    (hc : sign_extend va 48 = va) :
    (mtpr_itb_pte (mtpr_itb_tag env va) p).a21264.itlb.entries env.a21264.itlb.next
        = itb_inserted env va p
    ∧ (∀ j, j ≠ env.a21264.itlb.next →
        (mtpr_itb_pte (mtpr_itb_tag env va) p).a21264.itlb.entries j
          = env.a21264.itlb.entries j)
    ∧ (mtpr_itb_pte (mtpr_itb_tag env va) p).a21264.itlb.next
        = (env.a21264.itlb.next + 1) % MAX_NBR_TLB_21264
    ∧ (mtpr_itb_pte (mtpr_itb_tag env va) p).asn = env.asn
    ∧ (mtpr_itb_pte (mtpr_itb_tag env va) p).a21264.itlb.spe = env.a21264.itlb.spe
    ∧ (mtpr_itb_pte (mtpr_itb_tag env va) p).a21264.iva_48 = env.a21264.iva_48 := by
  refine ⟨?_, ?_, ?_, ?_, ?_, ?_⟩
  · simp only [mtpr_itb_pte, mtpr_itb_tag, set_itb_pte, insert_itlb_21264, set_entry,
      if_true, itb_inserted, tag_of_canonical va hva hc, ALPHA_PTE_V]
    rfl
  · intro j hj
    simp only [mtpr_itb_pte, mtpr_itb_tag, set_itb_pte, insert_itlb_21264, set_entry,
      if_neg hj]
  · simp only [mtpr_itb_pte, mtpr_itb_tag, set_itb_pte, insert_itlb_21264, set_entry]
  · simp only [mtpr_itb_pte, mtpr_itb_tag, set_itb_pte, insert_itlb_21264]
  · simp only [mtpr_itb_pte, mtpr_itb_tag, set_itb_pte, insert_itlb_21264, set_entry]
  · simp only [mtpr_itb_pte, mtpr_itb_tag, set_itb_pte, insert_itlb_21264]

/-- What the two writes to the data-stream registers change. -/
theorem dtb_write_step (env : CPUAlphaState) (va p : Nat) (hva : va < 2 ^ 64)
    (hc : sign_extend va 48 = va) :
    (mtpr_dtb_pte0 (mtpr_dtb_tag0 env va) p).a21264.dtlb.entries env.a21264.dtlb.next
        = dtb_inserted env va p
    ∧ (∀ j, j ≠ env.a21264.dtlb.next →
        (mtpr_dtb_pte0 (mtpr_dtb_tag0 env va) p).a21264.dtlb.entries j
          = env.a21264.dtlb.entries j)
    ∧ (mtpr_dtb_pte0 (mtpr_dtb_tag0 env va) p).a21264.dtlb.next
        = (env.a21264.dtlb.next + 1) % MAX_NBR_TLB_21264
    ∧ (mtpr_dtb_pte0 (mtpr_dtb_tag0 env va) p).asn = env.asn
    ∧ (mtpr_dtb_pte0 (mtpr_dtb_tag0 env va) p).a21264.dtlb.spe = env.a21264.dtlb.spe
    ∧ (mtpr_dtb_pte0 (mtpr_dtb_tag0 env va) p).a21264.dva_48 = env.a21264.dva_48 := by
  refine ⟨?_, ?_, ?_, ?_, ?_, ?_⟩
  · simp only [mtpr_dtb_pte0, mtpr_dtb_tag0, set_dtb_pte, insert_dtlb_21264, set_entry,
      if_true, dtb_inserted, tag_of_canonical va hva hc, ALPHA_PTE_V]
    rfl
  · intro j hj
    simp only [mtpr_dtb_pte0, mtpr_dtb_tag0, set_dtb_pte, insert_dtlb_21264, set_entry,
      if_neg hj]
  · simp only [mtpr_dtb_pte0, mtpr_dtb_tag0, set_dtb_pte, insert_dtlb_21264, set_entry]
  · simp only [mtpr_dtb_pte0, mtpr_dtb_tag0, set_dtb_pte, insert_dtlb_21264]
  · simp only [mtpr_dtb_pte0, mtpr_dtb_tag0, set_dtb_pte, insert_dtlb_21264, set_entry]
  · simp only [mtpr_dtb_pte0, mtpr_dtb_tag0, set_dtb_pte, insert_dtlb_21264]

theorem match_of_valid_in_page (E : alpha_21264_tlbe) (asn a : Nat)
    (hE : E.va < 2 ^ 64) (ha : a < 2 ^ 64) (hv : flag_bit E.pte.fl 0)
    (hasn : E.pte.asn = asn) (hp : in_page E a) : v2p_match E asn a = true := by
  refine (v2p_match_iff E asn a hE ha).2 ⟨?_, hp, Or.inl hasn⟩
  unfold flag_bit at hv
  unfold entry_valid
  simpa using hv

theorem no_match_of_fl_zero (E : alpha_21264_tlbe) (asn a : Nat) (h : E.pte.fl = 0) :
    v2p_match E asn a = false := by
  unfold v2p_match
  simp [h]

theorem page_of_tag (va fl : Nat) :
    (va / 2 ^ 13 * 2 ^ 13) / page_size fl = va / page_size fl := by
  unfold page_size
  have hg : (fl / 32) % 4 < 4 := Nat.mod_lt _ (by decide)
  have hcases : (fl / 32) % 4 = 0 ∨ (fl / 32) % 4 = 1 ∨ (fl / 32) % 4 = 2
      ∨ (fl / 32) % 4 = 3 := by omega
  rcases hcases with h | h | h | h <;> rw [h] <;> norm_num <;> omega

/-- Lookup in a stream of which one slot holds a valid entry of the current ASN whose
page contains the canonical address: the result is valid, and it is the descriptor of
that entry when no superpage window is enabled and every other slot that matches
holds the same descriptor. -/
theorem lookup_slot (env : CPUAlphaState) (rwx slot a : Nat) (E : alpha_21264_tlbe)
    (ha : a < 2 ^ 64) (hs : sign_extend a (canonical_width env rwx) = a)
    (hslot : slot < MAX_NBR_TLB_21264)
    (hE : (v2p_tlb env rwx).entries slot = E) (hEv : E.va < 2 ^ 64)
    (hvalid : flag_bit E.pte.fl 0) (hasn : E.pte.asn = env.asn) (hp : in_page E a) :
    flag_bit (cpu_alpha_mmu_v2p_21264 env a rwx).fl 0
    ∧ ((v2p_tlb env rwx).spe % 8 = 0 →
        (∀ k, k < MAX_NBR_TLB_21264 → k ≠ slot →
          v2p_match ((v2p_tlb env rwx).entries k) env.asn a = true →
          ((v2p_tlb env rwx).entries k).pte = E.pte) →
        cpu_alpha_mmu_v2p_21264 env a rwx = E.pte) := by
  have hm : v2p_match ((v2p_tlb env rwx).entries slot) env.asn a = true := by
    rw [hE]; exact match_of_valid_in_page E env.asn a hEv ha hvalid hasn hp
  refine ⟨v2p_hit_of_match env a rwx slot hs hslot hm, ?_⟩
  intro hspe hall
  apply v2p_eq_of_all_match env a rwx slot E.pte ha hs (no_superpage_of_spe _ a hspe)
    hslot hm
  intro k hk hkm
  by_cases hks : k = slot
  · rw [hks, hE]
  · exact hall k hk hks hkm

theorem v2p_tlb_exec (env : CPUAlphaState) : v2p_tlb env 2 = env.a21264.itlb := by
  simp [v2p_tlb]

theorem v2p_tlb_data (env : CPUAlphaState) (rwx : Nat) (h : rwx ≠ 2) :
    v2p_tlb env rwx = env.a21264.dtlb := by
  simp [v2p_tlb, h]

theorem itb_inserted_props (env : CPUAlphaState) (va p : Nat) (hva : va < 2 ^ 64) :
    (itb_inserted env va p).va < 2 ^ 64
    ∧ flag_bit (itb_inserted env va p).pte.fl 0
    ∧ (itb_inserted env va p).pte.asn = env.asn
    ∧ in_page (itb_inserted env va p) va := by
  refine ⟨?_, ?_, rfl, ?_⟩
  · simp only [itb_inserted]; omega
  · exact or_V_flag _
  · unfold in_page
    exact page_of_tag va _

theorem dtb_inserted_props (env : CPUAlphaState) (va p : Nat) (hva : va < 2 ^ 64) :
    (dtb_inserted env va p).va < 2 ^ 64
    ∧ flag_bit (dtb_inserted env va p).pte.fl 0
    ∧ (dtb_inserted env va p).pte.asn = env.asn
    ∧ in_page (dtb_inserted env va p) va := by
  refine ⟨?_, ?_, rfl, ?_⟩
  · simp only [dtb_inserted]; omega
  · exact or_V_mod_flag _
  · unfold in_page
    exact page_of_tag va _

/-- Lookup after one and after two identical writes to the instruction-stream
registers. -/
theorem itb_lookup_after_write (ticks : Nat) (env : CPUAlphaState) (va p a : Nat)
    (hva : va < 2 ^ 64) (ha : a < 2 ^ 64)
    (hc : sign_extend va (canonical_width env 2) = va)
    (hnext : env.a21264.itlb.next < MAX_NBR_TLB_21264) :
    ∃ e1 e2, itb_write ticks env va p = some e1 ∧ itb_write ticks e1 va p = some e2
      ∧ flag_bit (cpu_alpha_mmu_v2p_21264 e1 va 2).fl 0
      ∧ flag_bit (cpu_alpha_mmu_v2p_21264 e2 va 2).fl 0
      ∧ (tlb_empty env.a21264.itlb → env.a21264.itlb.spe % 8 = 0 →
          in_page (itb_inserted env va p) a →
          cpu_alpha_mmu_v2p_21264 e1 a 2 = (itb_inserted env va p).pte
          ∧ cpu_alpha_mmu_v2p_21264 e2 a 2 = (itb_inserted env va p).pte) := by
  have hc48 := canonical_48_of_width env 2 va hc
  obtain ⟨s1, s2, s3, s4, s5, s6⟩ := itb_write_step env va p hva hc48
  obtain ⟨t1, t2, t3, t4, t5, t6⟩ :=
    itb_write_step (mtpr_itb_pte (mtpr_itb_tag env va) p) va p hva hc48
  obtain ⟨q1, q2, q3, q4⟩ := itb_inserted_props env va p hva
  have hins : itb_inserted (mtpr_itb_pte (mtpr_itb_tag env va) p) va p
      = itb_inserted env va p := by
    simp only [itb_inserted, s4]
  rw [hins] at t1
  have hw1 : canonical_width (mtpr_itb_pte (mtpr_itb_tag env va) p) 2
      = canonical_width env 2 := by
    simp only [canonical_width, s6, if_true]
  have hw2 : canonical_width
      (mtpr_itb_pte (mtpr_itb_tag (mtpr_itb_pte (mtpr_itb_tag env va) p) va) p) 2
      = canonical_width env 2 := by
    simp only [canonical_width, t6, s6, if_true]
  have hn1 : (mtpr_itb_pte (mtpr_itb_tag env va) p).a21264.itlb.next
      < MAX_NBR_TLB_21264 := by
    rw [s3]; exact Nat.mod_lt _ (by decide)
  have l1 := fun b (hb : b < 2 ^ 64)
      (hcb : sign_extend b (canonical_width env 2) = b)
      (hpb : in_page (itb_inserted env va p) b) =>
    lookup_slot (mtpr_itb_pte (mtpr_itb_tag env va) p) 2 env.a21264.itlb.next b
      (itb_inserted env va p) hb (by rw [hw1]; exact hcb) hnext
      (by rw [v2p_tlb_exec]; exact s1) q1 q2 (by rw [s4]; exact q3) hpb
  have l2 := fun b (hb : b < 2 ^ 64)
      (hcb : sign_extend b (canonical_width env 2) = b)
      (hpb : in_page (itb_inserted env va p) b) =>
    lookup_slot (mtpr_itb_pte (mtpr_itb_tag (mtpr_itb_pte (mtpr_itb_tag env va) p) va) p) 2
      (mtpr_itb_pte (mtpr_itb_tag env va) p).a21264.itlb.next b
      (itb_inserted env va p) hb (by rw [hw2]; exact hcb) hn1
      (by rw [v2p_tlb_exec]; exact t1) q1 q2 (by rw [t4, s4]; exact q3) hpb
  refine ⟨_, _, itb_write_eq ticks env va p, itb_write_eq ticks _ va p,
    (l1 va hva hc q4).1, (l2 va hva hc q4).1, ?_⟩
  intro hempty hspe hpa
  have hca : sign_extend a (canonical_width env 2) = a :=
    canonical_of_in_page va a _ _ (canonical_width_cases env 2) ha hc hpa
  have old_no_match : ∀ k, k < MAX_NBR_TLB_21264 → ∀ asn,
      v2p_match (env.a21264.itlb.entries k) asn a = false :=
    fun k hk asn => no_match_of_fl_zero _ asn a (hempty k hk)
  constructor
  · apply (l1 a ha hca hpa).2
    · rw [v2p_tlb_exec, s5]; exact hspe
    · intro k hk hks hkm
      rw [v2p_tlb_exec, s2 k hks, old_no_match k hk] at hkm
      exact absurd hkm (by simp)
  · apply (l2 a ha hca hpa).2
    · rw [v2p_tlb_exec, t5, s5]; exact hspe
    · intro k hk hks hkm
      rw [v2p_tlb_exec, t2 k hks] at hkm ⊢
      by_cases hk0 : k = env.a21264.itlb.next
      · rw [hk0, s1]
      · rw [s2 k hk0, old_no_match k hk] at hkm
        exact absurd hkm (by simp)

/-- Lookup after one and after two identical writes to the data-stream
registers. -/
theorem dtb_lookup_after_write (ticks : Nat) (env : CPUAlphaState) (va p a rwx : Nat) (hrwx : rwx ≠ 2)
    (hva : va < 2 ^ 64) (ha : a < 2 ^ 64)
    (hc : sign_extend va (canonical_width env rwx) = va)
    (hnext : env.a21264.dtlb.next < MAX_NBR_TLB_21264) :
    ∃ e1 e2, dtb_write ticks env va p = some e1 ∧ dtb_write ticks e1 va p = some e2
      ∧ flag_bit (cpu_alpha_mmu_v2p_21264 e1 va rwx).fl 0
      ∧ flag_bit (cpu_alpha_mmu_v2p_21264 e2 va rwx).fl 0
      ∧ (tlb_empty env.a21264.dtlb → env.a21264.dtlb.spe % 8 = 0 →
          in_page (dtb_inserted env va p) a →
          cpu_alpha_mmu_v2p_21264 e1 a rwx = (dtb_inserted env va p).pte
          ∧ cpu_alpha_mmu_v2p_21264 e2 a rwx = (dtb_inserted env va p).pte) := by
  have hc48 := canonical_48_of_width env rwx va hc
  obtain ⟨s1, s2, s3, s4, s5, s6⟩ := dtb_write_step env va p hva hc48
  obtain ⟨t1, t2, t3, t4, t5, t6⟩ :=
    dtb_write_step (mtpr_dtb_pte0 (mtpr_dtb_tag0 env va) p) va p hva hc48
  obtain ⟨q1, q2, q3, q4⟩ := dtb_inserted_props env va p hva
  have hins : dtb_inserted (mtpr_dtb_pte0 (mtpr_dtb_tag0 env va) p) va p
      = dtb_inserted env va p := by
    simp only [dtb_inserted, s4]
  rw [hins] at t1
  have hw1 : canonical_width (mtpr_dtb_pte0 (mtpr_dtb_tag0 env va) p) rwx
      = canonical_width env rwx := by
    simp only [canonical_width, s6, if_neg hrwx]
  have hw2 : canonical_width
      (mtpr_dtb_pte0 (mtpr_dtb_tag0 (mtpr_dtb_pte0 (mtpr_dtb_tag0 env va) p) va) p) rwx
      = canonical_width env rwx := by
    simp only [canonical_width, t6, s6, if_neg hrwx]
  have hn1 : (mtpr_dtb_pte0 (mtpr_dtb_tag0 env va) p).a21264.dtlb.next
      < MAX_NBR_TLB_21264 := by
    rw [s3]; exact Nat.mod_lt _ (by decide)
  have l1 := fun b (hb : b < 2 ^ 64)
      (hcb : sign_extend b (canonical_width env rwx) = b)
      (hpb : in_page (dtb_inserted env va p) b) =>
    lookup_slot (mtpr_dtb_pte0 (mtpr_dtb_tag0 env va) p) rwx env.a21264.dtlb.next b
      (dtb_inserted env va p) hb (by rw [hw1]; exact hcb) hnext
      (by rw [v2p_tlb_data _ rwx hrwx]; exact s1) q1 q2 (by rw [s4]; exact q3) hpb
  have l2 := fun b (hb : b < 2 ^ 64)
      (hcb : sign_extend b (canonical_width env rwx) = b)
      (hpb : in_page (dtb_inserted env va p) b) =>
    lookup_slot (mtpr_dtb_pte0 (mtpr_dtb_tag0 (mtpr_dtb_pte0 (mtpr_dtb_tag0 env va) p) va) p)
      rwx (mtpr_dtb_pte0 (mtpr_dtb_tag0 env va) p).a21264.dtlb.next b
      (dtb_inserted env va p) hb (by rw [hw2]; exact hcb) hn1
      (by rw [v2p_tlb_data _ rwx hrwx]; exact t1) q1 q2 (by rw [t4, s4]; exact q3) hpb
  refine ⟨_, _, dtb_write_eq ticks env va p, dtb_write_eq ticks _ va p,
    (l1 va hva hc q4).1, (l2 va hva hc q4).1, ?_⟩
  intro hempty hspe hpa
  have hca : sign_extend a (canonical_width env rwx) = a :=
    canonical_of_in_page va a _ _ (canonical_width_cases env rwx) ha hc hpa
  have old_no_match : ∀ k, k < MAX_NBR_TLB_21264 → ∀ asn,
      v2p_match (env.a21264.dtlb.entries k) asn a = false :=
    fun k hk asn => no_match_of_fl_zero _ asn a (hempty k hk)
  constructor
  · apply (l1 a ha hca hpa).2
    · rw [v2p_tlb_data _ rwx hrwx, s5]; exact hspe
    · intro k hk hks hkm
      rw [v2p_tlb_data _ rwx hrwx, s2 k hks, old_no_match k hk] at hkm
      exact absurd hkm (by simp)
  · apply (l2 a ha hca hpa).2
    · rw [v2p_tlb_data _ rwx hrwx, t5, s5]; exact hspe
    · intro k hk hks hkm
      rw [v2p_tlb_data _ rwx hrwx, t2 k hks] at hkm ⊢
      by_cases hk0 : k = env.a21264.dtlb.next
      · rw [hk0, s1]
      · rw [s2 k hk0, old_no_match k hk] at hkm
        exact absurd hkm (by simp)

/-! ## C9 -/

/-- C9: for every prior state of a stream (with `next` below 128) and every address `va`
canonical for the stream's width, after the tag register is written with `va` and the
PTE register with `p`, once or twice, the lookup of `va` under the unchanged ASN returns
a descriptor with the valid bit set; and when the stream was empty and no superpage
window is enabled, the lookup of every address `a` of the inserted page returns exactly
the inserted descriptor. Instruction stream first, data stream second. -/
theorem c9_insert_then_lookup (ticks : Nat) (env : CPUAlphaState) (va p a rwx : Nat)
    (hrwx : rwx ≠ 2) (hva : va < 2 ^ 64) (ha : a < 2 ^ 64) :
    (sign_extend va (canonical_width env 2) = va →
      env.a21264.itlb.next < MAX_NBR_TLB_21264 →
      ∃ e1 e2, itb_write ticks env va p = some e1 ∧ itb_write ticks e1 va p = some e2
        ∧ flag_bit (cpu_alpha_mmu_v2p_21264 e1 va 2).fl 0
        ∧ flag_bit (cpu_alpha_mmu_v2p_21264 e2 va 2).fl 0
        ∧ (tlb_empty env.a21264.itlb → env.a21264.itlb.spe % 8 = 0 →
            in_page (itb_inserted env va p) a →
            cpu_alpha_mmu_v2p_21264 e1 a 2 = (itb_inserted env va p).pte
            ∧ cpu_alpha_mmu_v2p_21264 e2 a 2 = (itb_inserted env va p).pte))
    ∧ (sign_extend va (canonical_width env rwx) = va →
      env.a21264.dtlb.next < MAX_NBR_TLB_21264 →
      ∃ e1 e2, dtb_write ticks env va p = some e1 ∧ dtb_write ticks e1 va p = some e2
        ∧ flag_bit (cpu_alpha_mmu_v2p_21264 e1 va rwx).fl 0
        ∧ flag_bit (cpu_alpha_mmu_v2p_21264 e2 va rwx).fl 0
        ∧ (tlb_empty env.a21264.dtlb → env.a21264.dtlb.spe % 8 = 0 →
            in_page (dtb_inserted env va p) a →
            cpu_alpha_mmu_v2p_21264 e1 a rwx = (dtb_inserted env va p).pte
            ∧ cpu_alpha_mmu_v2p_21264 e2 a rwx = (dtb_inserted env va p).pte)) :=
  ⟨fun hc hn => itb_lookup_after_write ticks env va p a hva ha hc hn,
   fun hc hn => dtb_lookup_after_write ticks env va p a rwx hrwx hva ha hc hn⟩

theorem c9_insert_then_lookup_witness :
    (1 : Nat) ≠ 2 ∧ (0xfffffc0000012345 : Nat) < 2 ^ 64 ∧ (0xfffffc0000013ff8 : Nat) < 2 ^ 64
    ∧ sign_extend 0xfffffc0000012345 (canonical_width env_zero 1) = 0xfffffc0000012345
    ∧ env_zero.a21264.dtlb.next < MAX_NBR_TLB_21264
    ∧ ∃ e1 e2, dtb_write 0 env_zero 0xfffffc0000012345 0x300001120 = some e1
        ∧ dtb_write 0 e1 0xfffffc0000012345 0x300001120 = some e2
        ∧ flag_bit (cpu_alpha_mmu_v2p_21264 e1 0xfffffc0000012345 1).fl 0
        ∧ flag_bit (cpu_alpha_mmu_v2p_21264 e2 0xfffffc0000012345 1).fl 0
        ∧ (tlb_empty env_zero.a21264.dtlb → env_zero.a21264.dtlb.spe % 8 = 0 →
            in_page (dtb_inserted env_zero 0xfffffc0000012345 0x300001120)
              0xfffffc0000013ff8 →
            cpu_alpha_mmu_v2p_21264 e1 0xfffffc0000013ff8 1
              = (dtb_inserted env_zero 0xfffffc0000012345 0x300001120).pte
            ∧ cpu_alpha_mmu_v2p_21264 e2 0xfffffc0000013ff8 1
              = (dtb_inserted env_zero 0xfffffc0000012345 0x300001120).pte) :=
  ⟨by decide, by decide, by decide, by decide, by decide,
   (c9_insert_then_lookup 0 env_zero 0xfffffc0000012345 0x300001120 0xfffffc0000013ff8 1
      (by decide) (by decide) (by decide)).2 (by decide) (by decide)⟩

/-! ## C5 -/

/-- The PTE register of the data stream never stores the ASM flag: the entry it
inserts is not global, whatever value is written. -/
theorem dtb_inserted_not_global (env : CPUAlphaState) (va p : Nat) :
    ¬ entry_global (dtb_inserted env va p) := by
  have h : (((p &&& 0x7fffffff0000ffe6) ||| 1) % 2 ^ 16).testBit 4 = false := by
    rw [Nat.testBit_mod_two_pow, Nat.testBit_or, Nat.testBit_and]
    have h0 : (0x7fffffff0000ffe6 : Nat).testBit 4 = false := by decide
    have h1 : (1 : Nat).testBit 4 = false := by decide
    rw [h0, h1]
    simp
  intro hg
  have hg2 : flag_bit (dtb_inserted env va p).pte.fl 4 := hg
  rw [flag_bit_iff_testBit] at hg2
  simp only [dtb_inserted] at hg2
  rw [h] at hg2
  exact absurd hg2 (by simp)

/-- C5 fails on the code: the data-stream entry written with the ASM flag set is stored
without it; the user-mode store is an access violation (DFAULT) under the ASN of the
write, but a miss (DTBM_SINGLE) once the ASN is 6. -/
theorem c5_dtb_global_dropped :
    dtb_global_scenario 5 = some (1, EXCP_21264_DFAULT, 5)
    ∧ dtb_global_scenario 6 = some (1, EXCP_21264_DTBM_SINGLE, 6) := by
  constructor <;> decide

/-! ## C10 -/

/-- The slots of the stream after the loop of `flush_tlb_21264_page`: a slot in the
range of the loop that passes the test is cleared, every other slot is as before. -/
theorem flush_page_loop_entries (asn addr j : Nat) :
    ∀ n i (tlb : alpha_21264_tlb) (calls : List EngineCall),
      (flush_page_loop asn addr i n (tlb, calls)).1.entries j
        = (if i ≤ j ∧ j < i + n ∧ flush_match (tlb.entries j) asn addr = true then
            clear_fl (tlb.entries j)
           else tlb.entries j)
      ∧ (flush_page_loop asn addr i n (tlb, calls)).1.spe = tlb.spe := by
  intro n
  induction n with
  | zero =>
    intro i tlb calls
    refine ⟨?_, rfl⟩
    rw [if_neg (fun h => by omega)]
    rfl
  | succ n ih =>
    intro i tlb calls
    by_cases hm : flush_match (tlb.entries i) asn addr = true
    · simp only [flush_page_loop, hm, if_true]
      obtain ⟨h1, h2⟩ := ih (i + 1) (set_entry tlb i (clear_fl (tlb.entries i)))
        (calls ++ flush_page_calls (shl64 (addr >>> (13 + 3 * TB_PTE_GET_GH (tlb.entries i).pte.fl))
          (13 + 3 * TB_PTE_GET_GH (tlb.entries i).pte.fl))
          (13 + 3 * TB_PTE_GET_GH (tlb.entries i).pte.fl))
      rw [h1, h2]
      refine ⟨?_, rfl⟩
      by_cases hji : j = i
      · subst hji
        have : ¬ (j + 1 ≤ j ∧ j < j + 1 + n ∧
            flush_match ((set_entry tlb j (clear_fl (tlb.entries j))).entries j) asn addr
              = true) := by
          intro h; omega
        rw [if_neg this]
        simp [set_entry, hm]
      · have he : (set_entry tlb i (clear_fl (tlb.entries i))).entries j = tlb.entries j := by
          simp [set_entry, hji]
        rw [he]
        by_cases hc : i ≤ j ∧ j < i + (n + 1) ∧ flush_match (tlb.entries j) asn addr = true
        · rw [if_pos hc, if_pos ⟨by omega, by omega, hc.2.2⟩]
        · rw [if_neg hc, if_neg (fun h => hc ⟨by omega, by omega, h.2.2⟩)]
    · simp only [flush_page_loop, hm, Bool.false_eq_true, if_false]
      obtain ⟨h1, h2⟩ := ih (i + 1) tlb calls
      rw [h1, h2]
      refine ⟨?_, rfl⟩
      by_cases hji : j = i
      · subst hji
        rw [if_neg (fun h => by omega), if_neg (fun h => hm h.2.2)]
      · by_cases hc : i ≤ j ∧ j < i + (n + 1) ∧ flush_match (tlb.entries j) asn addr = true
        · rw [if_pos hc, if_pos ⟨by omega, by omega, hc.2.2⟩]
        · rw [if_neg hc, if_neg (fun h => hc ⟨by omega, by omega, h.2.2⟩)]



theorem sar64_eq_shr_iff (x a g : Nat) (hx : x < 2 ^ 64) (ha : a < 2 ^ 63) (hg : g < 4) :
    sar64 x (13 + 3 * g) = a >>> (13 + 3 * g)
      ↔ x / (2 ^ 13 * 8 ^ g) = a / (2 ^ 13 * 8 ^ g) := by
  have hcases : g = 0 ∨ g = 1 ∨ g = 2 ∨ g = 3 := by omega
  rcases hcases with h | h | h | h <;> subst h <;>
    simp only [sar64, ofS64, toS64, Nat.shiftRight_eq_div_pow] <;> norm_num <;>
    split_ifs <;> omega

/-- The slot test of the page flush, for an address with bit 63 clear, in the words of
the specification. -/
theorem flush_match_iff (e : alpha_21264_tlbe) (asn a : Nat)
    (he : e.va < 2 ^ 64) (ha : a < 2 ^ 63) :
    flush_match e asn a = true ↔ entry_covers e asn a := by
  unfold flush_match entry_covers in_page entry_global page_size
  have hg : (e.pte.fl / 32) % 4 < 4 := Nat.mod_lt _ (by decide)
  simp only [get_gh_eq, Bool.and_eq_true, Bool.or_eq_true, decide_eq_true_eq,
    and_ASM_ne_zero_iff, sar64_eq_shr_iff _ _ _ he ha hg]
  tauto

theorem flush_page_entries (env : CPUAlphaState) (tlb : alpha_21264_tlb) (a j : Nat) :
    (flush_tlb_21264_page env tlb a).1.entries j
        = (if j < MAX_NBR_TLB_21264 ∧ flush_match (tlb.entries j) env.asn a = true then
            clear_fl (tlb.entries j)
           else tlb.entries j)
    ∧ (flush_tlb_21264_page env tlb a).1.spe = tlb.spe := by
  unfold flush_tlb_21264_page
  obtain ⟨h1, h2⟩ := flush_page_loop_entries env.asn a j MAX_NBR_TLB_21264 0 tlb []
  refine ⟨?_, h2⟩
  rw [h1]
  by_cases hc : j < MAX_NBR_TLB_21264 ∧ flush_match (tlb.entries j) env.asn a = true
  · rw [if_pos hc, if_pos ⟨Nat.zero_le _, by omega, hc.2⟩]
  · rw [if_neg hc, if_neg (fun h => hc ⟨by omega, h.2.2⟩)]

/-- What a page flush of the stream of `rwx` changes. -/
theorem flush_stream_props (env : CPUAlphaState) (rwx a : Nat) :
    (flush_stream env rwx a).asn = env.asn
    ∧ canonical_width (flush_stream env rwx a) rwx = canonical_width env rwx
    ∧ (v2p_tlb (flush_stream env rwx a) rwx).spe = (v2p_tlb env rwx).spe
    ∧ ∀ j, (v2p_tlb (flush_stream env rwx a) rwx).entries j
        = (if j < MAX_NBR_TLB_21264
              ∧ flush_match ((v2p_tlb env rwx).entries j) env.asn a = true then
            clear_fl ((v2p_tlb env rwx).entries j)
           else (v2p_tlb env rwx).entries j) := by
  by_cases h : rwx = 2
  · subst h
    refine ⟨?_, ?_, ?_, ?_⟩
    · simp only [flush_stream, if_true, set_itlb]
    · simp only [canonical_width, flush_stream, if_true, set_itlb]
    · simp only [v2p_tlb, flush_stream, if_true, set_itlb]
      exact (flush_page_entries env env.a21264.itlb a 0).2
    · intro j
      simp only [v2p_tlb, flush_stream, if_true, set_itlb]
      exact (flush_page_entries env env.a21264.itlb a j).1
  · refine ⟨?_, ?_, ?_, ?_⟩
    · simp only [flush_stream, if_neg h, set_dtlb]
    · simp only [canonical_width, flush_stream, if_neg h, set_dtlb]
    · simp only [v2p_tlb, flush_stream, if_neg h, set_dtlb]
      exact (flush_page_entries env env.a21264.dtlb a 0).2
    · intro j
      simp only [v2p_tlb, flush_stream, if_neg h, set_dtlb]
      exact (flush_page_entries env env.a21264.dtlb a j).1

/-- C10 (amended): for an address `a` with bit 63 clear, after the page flush of a
stream at `a` every slot whose entry matched the current ASN or was global and whose
page contained `a` has all flags 0, and every other slot is as before; the lookup of a
canonical address `a2` outside the superpage windows returns Miss when every valid entry
that covered `a2` also contained `a`; in particular the lookup of `a` returns Miss. -/
theorem c10_flush_page (env : CPUAlphaState) (rwx a a2 : Nat)
    (ha : a < 2 ^ 63) (ha2 : a2 < 2 ^ 64) (hwf : tlb_wf (v2p_tlb env rwx)) :
    (∀ j, j < MAX_NBR_TLB_21264 → entry_covers ((v2p_tlb env rwx).entries j) env.asn a →
        ((v2p_tlb (flush_stream env rwx a) rwx).entries j).pte.fl = 0)
    ∧ (∀ j, j < MAX_NBR_TLB_21264 →
        ¬ entry_covers ((v2p_tlb env rwx).entries j) env.asn a →
        (v2p_tlb (flush_stream env rwx a) rwx).entries j = (v2p_tlb env rwx).entries j)
    ∧ (sign_extend a2 (canonical_width env rwx) = a2 →
        ¬ in_enabled_superpage (v2p_tlb env rwx).spe a2 →
        (∀ j, j < MAX_NBR_TLB_21264 → entry_valid ((v2p_tlb env rwx).entries j) →
          entry_covers ((v2p_tlb env rwx).entries j) env.asn a2 →
          in_page ((v2p_tlb env rwx).entries j) a) →
        cpu_alpha_mmu_v2p_21264 (flush_stream env rwx a) a2 rwx
          = { pa := 0, fl := 0, asn := PTE_ASN_MISS })
    ∧ (sign_extend a (canonical_width env rwx) = a →
        ¬ in_enabled_superpage (v2p_tlb env rwx).spe a →
        cpu_alpha_mmu_v2p_21264 (flush_stream env rwx a) a rwx
          = { pa := 0, fl := 0, asn := PTE_ASN_MISS }) := by
  obtain ⟨p1, p2, p3, p4⟩ := flush_stream_props env rwx a
  have hmiss : ∀ b, b < 2 ^ 64 → sign_extend b (canonical_width env rwx) = b →
      ¬ in_enabled_superpage (v2p_tlb env rwx).spe b →
      (∀ j, j < MAX_NBR_TLB_21264 → entry_valid ((v2p_tlb env rwx).entries j) →
        entry_covers ((v2p_tlb env rwx).entries j) env.asn b →
        in_page ((v2p_tlb env rwx).entries j) a) →
      cpu_alpha_mmu_v2p_21264 (flush_stream env rwx a) b rwx
        = { pa := 0, fl := 0, asn := PTE_ASN_MISS } := by
    intro b hb hcb hspb hall
    rw [v2p_eq_search (flush_stream env rwx a) b rwx hb (by rw [p2]; exact hcb)
      (by rw [p3]; exact hspb)]
    rcases v2p_search_spec (v2p_tlb (flush_stream env rwx a) rwx)
        (flush_stream env rwx a).asn b MAX_NBR_TLB_21264 0 with
      ⟨j, _, h2, h3, _, _⟩ | ⟨_, h2⟩
    · exfalso
      have hj : j < MAX_NBR_TLB_21264 := by omega
      rw [p4 j, p1] at h3
      by_cases hf : flush_match ((v2p_tlb env rwx).entries j) env.asn a = true
      · rw [if_pos ⟨hj, hf⟩, no_match_of_fl_zero _ _ _ rfl] at h3
        exact absurd h3 (by simp)
      · rw [if_neg (fun h => hf h.2)] at h3
        obtain ⟨m1, m2, m3⟩ := (v2p_match_iff _ _ _ (hwf j hj) hb).1 h3
        have hin := hall j hj m1 ⟨m2, m3⟩
        exact hf ((flush_match_iff _ _ _ (hwf j hj) ha).2 ⟨hin, m3⟩)
    · rw [h2]; rfl
  refine ⟨?_, ?_, hmiss a2 ha2, ?_⟩
  · intro j hj hcov
    rw [p4 j, if_pos ⟨hj, (flush_match_iff _ _ _ (hwf j hj) ha).2 hcov⟩]
    rfl
  · intro j hj hcov
    rw [p4 j, if_neg (fun h => hcov ((flush_match_iff _ _ _ (hwf j hj) ha).1 h.2))]
  · intro hca hspa
    exact hmiss a (by omega) hca hspa (fun j _ _ hc => hc.1)

theorem tlb_overlap_wf : tlb_wf tlb_overlap := by
  intro i _
  by_cases h1 : i = 1
  · simp [tlb_overlap, set_entry, h1]
  · by_cases h0 : i = 0 <;> simp [tlb_overlap, set_entry, tlb_zero, h1, h0]

theorem c10_flush_page_witness :
    (0x10008 : Nat) < 2 ^ 63 ∧ (0x10008 : Nat) < 2 ^ 64
    ∧ tlb_wf (v2p_tlb env_overlap 0)
    ∧ sign_extend 0x10008 (canonical_width env_overlap 0) = 0x10008
    ∧ ¬ in_enabled_superpage (v2p_tlb env_overlap 0).spe 0x10008
    ∧ cpu_alpha_mmu_v2p_21264 (flush_stream env_overlap 0 0x10008) 0x10008 0
        = { pa := 0, fl := 0, asn := PTE_ASN_MISS } :=
  ⟨by decide, by decide, tlb_overlap_wf, by decide, by decide,
   (c10_flush_page env_overlap 0 0x10008 0x10008 (by decide) (by decide)
      tlb_overlap_wf).2.2.2 (by decide) (by decide)⟩

/-- C10 as stated fails. (1) With two overlapping entries, a page flush at 0x10008
removes the 64 KB entry of slot 0, whose page contains 0x10008 and 0x12000, but the lookup
of 0x12000 afterwards returns the 8 KB entry of slot 1, not Miss. (2) With an entry for
the sign-extended address 0xfffffc0000010000, which has bit 63 set, the page flush at that
address leaves the entry valid and the lookup still returns it. -/
theorem c10_counterexample :
    (entry_valid (env_overlap.a21264.dtlb.entries 0)
      ∧ entry_covers (env_overlap.a21264.dtlb.entries 0) env_overlap.asn 0x10008
      ∧ in_page (env_overlap.a21264.dtlb.entries 0) 0x12000
      ∧ cpu_alpha_mmu_v2p_21264 (flush_stream env_overlap 0 0x10008) 0x12000 0
          = { pa := 9, fl := 0x1101, asn := 0 })
    ∧ (entry_valid (env_high_page.a21264.dtlb.entries 3)
      ∧ entry_covers (env_high_page.a21264.dtlb.entries 3) env_high_page.asn
          0xfffffc0000010000
      ∧ sign_extend 0xfffffc0000010000 (canonical_width env_high_page 0)
          = 0xfffffc0000010000
      ∧ ((v2p_tlb (flush_stream env_high_page 0 0xfffffc0000010000) 0).entries 3).pte.fl
          = 0x1101
      ∧ cpu_alpha_mmu_v2p_21264 (flush_stream env_high_page 0 0xfffffc0000010000)
            0xfffffc0000010000 0
          = { pa := 8, fl := 0x1101, asn := 0 }) := by
  refine ⟨⟨by decide, by decide, by decide, ?_⟩, ⟨by decide, by decide, by decide, ?_, ?_⟩⟩
  · decide
  · decide
  · decide

/-! ## Superpage windows -/

theorem sp_test2_iff (spe a : Nat) (ha : a < 2 ^ 64) :
    (spe &&& 4 ≠ 0 ∧ sar64 a 46 &&& 3 = 2) ↔ ((spe / 4) % 2 = 1 ∧ (a / 2 ^ 46) % 4 = 2) := by
  have h4 := and_pow2_ne_zero_iff spe 2
  norm_num at h4
  rw [sar64_46_and a ha]
  simp only [ne_eq, h4]

theorem sp_test1_iff (spe a : Nat) (ha : a < 2 ^ 64) :
    (spe &&& 2 ≠ 0 ∧ sar64 a 41 &&& 0x7f = 0x7e)
      ↔ ((spe / 2) % 2 = 1 ∧ (a / 2 ^ 41) % 128 = 0x7e) := by
  have h2 := and_pow2_ne_zero_iff spe 1
  norm_num at h2
  rw [sar64_41_and a ha]
  simp only [ne_eq, h2]

theorem sp_test0_iff (spe a : Nat) (ha : a < 2 ^ 64) :
    (spe &&& 1 ≠ 0 ∧ sar64 a 30 &&& 0x3ffff = 0x3fffe)
      ↔ (spe % 2 = 1 ∧ (a / 2 ^ 30) % 2 ^ 18 = 0x3fffe) := by
  have h1 : ¬ spe &&& 1 = 0 ↔ spe % 2 = 1 := and_V_ne_zero_iff spe
  rw [sar64_30_and a ha]
  simp only [ne_eq, h1]

/-- A canonical address in an enabled superpage window is translated to the superpage
descriptor of the address, whatever the slots of the stream and the ASN are. -/
theorem v2p_superpage (env : CPUAlphaState) (a rwx : Nat) (ha : a < 2 ^ 64)
    (hs : sign_extend a (canonical_width env rwx) = a)
    (hsp : in_enabled_superpage (v2p_tlb env rwx).spe a) :
    cpu_alpha_mmu_v2p_21264 env a rwx = superpage_pte a := by
  unfold cpu_alpha_mmu_v2p_21264
  simp only [v2p_sign_check, hs, ne_eq, not_true_eq_false, if_false]
  unfold in_enabled_superpage at hsp
  unfold superpage_pte superpage_pa
  by_cases c2 : (v2p_tlb env rwx).spe &&& 4 ≠ 0 ∧ sar64 a 46 &&& 3 = 2
  · have c2s := (sp_test2_iff _ a ha).1 c2
    rw [if_pos c2, if_pos c2s.2]
  · rw [if_neg c2]
    have c2s := (sp_test2_iff _ a ha).not.1 c2
    by_cases c1 : (v2p_tlb env rwx).spe &&& 2 ≠ 0 ∧ sar64 a 41 &&& 0x7f = 0x7e
    · have c1s := (sp_test1_iff _ a ha).1 c1
      have hn2 : ¬ ((a / 2 ^ 46) % 4 = 2) := by omega
      rw [if_pos c1, if_neg hn2, if_pos c1s.2]
    · rw [if_neg c1]
      have c1s := (sp_test1_iff _ a ha).not.1 c1
      have c0s : (v2p_tlb env rwx).spe % 2 = 1 ∧ (a / 2 ^ 30) % 2 ^ 18 = 0x3fffe := by
        rcases hsp with h | h | h
        · exact absurd h c2s
        · exact absurd h c1s
        · exact h
      have c0 := (sp_test0_iff _ a ha).2 c0s
      have hn2 : ¬ ((a / 2 ^ 46) % 4 = 2) := by omega
      have hn1 : ¬ ((a / 2 ^ 41) % 128 = 0x7e) := by omega
      rw [if_pos c0, if_neg hn2, if_neg hn1]

/-! ## C11 -/

/-- C11: for a canonical address in a superpage window enabled in the stream's `spe`
mask, the lookup returns the descriptor with flags exactly KRE, KWE and V, ASN 0 and the
frame number `superpage_pa a`, a function of the address alone; so every state with the
same `spe` mask and the same canonical width gives the same result, whatever its slots,
`next` index and ASN are. -/
theorem c11_superpage_bypass (env : CPUAlphaState) (a rwx : Nat) (ha : a < 2 ^ 64)
    (hs : sign_extend a (canonical_width env rwx) = a)
    (hsp : in_enabled_superpage (v2p_tlb env rwx).spe a) :
    cpu_alpha_mmu_v2p_21264 env a rwx
        = { pa := superpage_pa a,
            fl := ALPHA_PTE_KRE ||| ALPHA_PTE_KWE ||| ALPHA_PTE_V, asn := 0 }
    ∧ ∀ env2 : CPUAlphaState,
        (v2p_tlb env2 rwx).spe = (v2p_tlb env rwx).spe →
        canonical_width env2 rwx = canonical_width env rwx →
        cpu_alpha_mmu_v2p_21264 env2 a rwx = cpu_alpha_mmu_v2p_21264 env a rwx := by
  refine ⟨v2p_superpage env a rwx ha hs hsp, ?_⟩
  intro env2 hspe hw
  rw [v2p_superpage env a rwx ha hs hsp,
    v2p_superpage env2 a rwx ha (by rw [hw]; exact hs) (by rw [hspe]; exact hsp)]

theorem c11_superpage_bypass_witness :
    (0xffff800000010000 : Nat) < 2 ^ 64
    ∧ sign_extend 0xffff800000010000 (canonical_width env_superpage 0) = 0xffff800000010000
    ∧ in_enabled_superpage (v2p_tlb env_superpage 0).spe 0xffff800000010000
    ∧ entry_valid (env_superpage.a21264.dtlb.entries 0)
    ∧ in_page (env_superpage.a21264.dtlb.entries 0) 0xffff800000010000
    ∧ cpu_alpha_mmu_v2p_21264 env_superpage 0xffff800000010000 0
        = { pa := superpage_pa 0xffff800000010000,
            fl := ALPHA_PTE_KRE ||| ALPHA_PTE_KWE ||| ALPHA_PTE_V, asn := 0 } :=
  ⟨by decide, by decide, by decide, by decide, by decide,
   (c11_superpage_bypass env_superpage 0xffff800000010000 0 (by decide) (by decide)
      (by decide)).1⟩

theorem superpage_fl (a : Nat) : (superpage_pte a).fl = 0x1101 := rfl

/-! ## C12 -/

/-- C12: for a canonical address in an enabled superpage window and an access kind 0, 1
or 2, the fault handler succeeds in kernel mode (`cm = 0`); in the modes 1, 2 and 3 a call
that returns returns 1 with DFAULT stored for a data access and IACV for an instruction
access, and the call does return when the engine can take the report. -/
theorem c12_superpage_kernel_only (eng : Engine) (env : CPUAlphaState)
    (a rwx mmu_idx retaddr : Nat) (ha : a < 2 ^ 64) (hrwx : rwx ≤ 2)
    (hs : sign_extend a (canonical_width env rwx) = a)
    (hsp : in_enabled_superpage (v2p_tlb env rwx).spe a) :
    (env.a21264.cm = 0 →
      ∃ r, cpu_alpha_mmu_fault_21264 eng env a rwx mmu_idx retaddr = some r ∧ r.ret = 0)
    ∧ (env.a21264.cm = 1 ∨ env.a21264.cm = 2 ∨ env.a21264.cm = 3 →
      (∀ r, cpu_alpha_mmu_fault_21264 eng env a rwx mmu_idx retaddr = some r →
        r.ret = 1
        ∧ r.env.exception_index
            = if rwx = 2 then EXCP_21264_IACV else EXCP_21264_DFAULT)
      ∧ (fault_reportable eng env rwx retaddr →
        ∃ r, cpu_alpha_mmu_fault_21264 eng env a rwx mmu_idx retaddr = some r
          ∧ r.ret = 1
          ∧ r.env.exception_index
              = if rwx = 2 then EXCP_21264_IACV else EXCP_21264_DFAULT)) := by
  have hv := v2p_superpage env a rwx ha hs hsp
  have hcases : rwx = 0 ∨ rwx = 1 ∨ rwx = 2 := by omega
  constructor
  · intro hcm
    apply mmu_fault_success
    rw [mmu_fault_ok_iff _ _ _ hrwx, hv, hcm, superpage_fl]
    rcases hcases with h | h | h <;> subst h <;> decide
  · intro hcm
    have hnok : mmu_fault_ok (cpu_alpha_mmu_v2p_21264 env a rwx) env.a21264.cm rwx
        = false := by
      by_contra hc
      have hc2 : mmu_fault_ok (cpu_alpha_mmu_v2p_21264 env a rwx) env.a21264.cm rwx
          = true := by simpa using hc
      rw [mmu_fault_ok_iff _ _ _ hrwx, hv, superpage_fl] at hc2
      revert hc2
      rcases hcm with h | h | h <;> rw [h] <;>
        rcases hcases with h2 | h2 | h2 <;> subst h2 <;> decide
    have hcode : ∀ r, cpu_alpha_mmu_fault_21264 eng env a rwx mmu_idx retaddr = some r →
        r.ret = 1
        ∧ r.env.exception_index
            = if rwx = 2 then EXCP_21264_IACV else EXCP_21264_DFAULT := by
      intro r hr
      obtain ⟨h1, h2⟩ := mmu_fault_failure eng env a rwx mmu_idx retaddr r hnok hr
      refine ⟨h1, ?_⟩
      rw [h2, hv]
      have hfl : ¬ ((superpage_pte a).fl = 0 ∧ (superpage_pte a).asn = PTE_ASN_MISS) := by
        intro h
        rw [superpage_fl] at h
        exact absurd h.1 (by decide)
      rw [if_neg hfl, if_neg hfl]
    refine ⟨hcode, ?_⟩
    intro hrep
    obtain ⟨r, hr⟩ := mmu_fault_returns eng env a rwx mmu_idx retaddr hnok hrep
    exact ⟨r, hr, hcode r hr⟩

theorem c12_superpage_kernel_only_witness :
    (0xffff800000010000 : Nat) < 2 ^ 64 ∧ (1 : Nat) ≤ 2
    ∧ sign_extend 0xffff800000010000 (canonical_width env_superpage 1) = 0xffff800000010000
    ∧ in_enabled_superpage (v2p_tlb env_superpage 1).spe 0xffff800000010000
    ∧ env_superpage.a21264.cm = 0
    ∧ ∃ r, cpu_alpha_mmu_fault_21264 eng_zero env_superpage 0xffff800000010000 1 0 1 = some r
        ∧ r.ret = 0 :=
  ⟨by decide, by decide, by decide, by decide, rfl,
   (c12_superpage_kernel_only eng_zero env_superpage 0xffff800000010000 1 0 1 (by decide)
      (by decide) (by decide) (by decide)).1 rfl⟩

/-! ## C13 -/

theorem mtpr_at_va_ctl (ticks : Nat) (env : CPUAlphaState) (val : Nat) :
    cpu_alpha_mtpr_21264 ticks env IPR_VA_CTL val = mtpr_va_ctl env val := by
  unfold cpu_alpha_mtpr_21264
  simp [IPR_VA_CTL, IPR_CC, IPR_CC_CTL, IPR_ITB_TAG, IPR_DTB_TAG0, IPR_DTB_TAG1,
    IPR_DTB_ASN1, IPR_DTB_PTE1, IPR_ITB_PTE, IPR_DTB_PTE0, IPR_DTB_ASN0, IPR_PAL_BASE,
    IPR_I_CTL]

theorem mtpr_at_i_ctl (ticks : Nat) (env : CPUAlphaState) (val : Nat) :
    cpu_alpha_mtpr_21264 ticks env IPR_I_CTL val = some (mtpr_i_ctl env val) := by
  unfold cpu_alpha_mtpr_21264
  simp [IPR_I_CTL, IPR_CC, IPR_CC_CTL, IPR_ITB_TAG, IPR_DTB_TAG0, IPR_DTB_TAG1,
    IPR_DTB_ASN1, IPR_DTB_PTE1, IPR_ITB_PTE, IPR_DTB_PTE0, IPR_DTB_ASN0, IPR_PAL_BASE]

/-- The width of the sign-extension check after a write to VA_CTL or I_CTL: 48 bits as
soon as one of the two bits VA_48 and VA_FORM_32 of the written value is set. -/
theorem width_after_write (ticks : Nat) (env e : CPUAlphaState) (v rwx : Nat) :
    (rwx ≠ 2 → cpu_alpha_mtpr_21264 ticks env IPR_VA_CTL v = some e →
      canonical_width e rwx = if (v >>> 1) &&& 3 ≠ 0 then 48 else 43)
    ∧ (cpu_alpha_mtpr_21264 ticks env IPR_I_CTL v = some e →
      canonical_width e 2 = if (v >>> 15) &&& 3 ≠ 0 then 48 else 43) := by
  constructor
  · intro hr h
    rw [mtpr_at_va_ctl] at h
    unfold mtpr_va_ctl at h
    split_ifs at h
    simp only [Option.some.injEq] at h
    subst h
    simp only [canonical_width, if_neg hr, IPR_VA_CTL_VA_48_SHIFT]
  · intro h
    rw [mtpr_at_i_ctl] at h
    simp only [Option.some.injEq] at h
    subst h
    simp only [mtpr_i_ctl]
    by_cases hc : (set_i_ctl env v).pal_mode ≠ 0
        ∧ env.a21264.sde1 ≠ (set_i_ctl env v).a21264.sde1
    · rw [if_pos hc]
      simp only [canonical_width, if_true, swap_shadow_21264, set_i_ctl,
        IPR_I_CTL_VA_48_SHIFT]
    · rw [if_neg hc]
      simp only [canonical_width, if_true, set_i_ctl, IPR_I_CTL_VA_48_SHIFT]

/-- C13 fails on the code: the address 2^42 is not canonical for 43 bits. After VA_CTL is
written with only bit 2 (VA_FORM_32) set the data lookup of it returns Miss, not the
bad-VA descriptor, so the check used 48 bits though bit 1 (VA_48) is clear; after a write
of 0 it returns the bad-VA descriptor. The same holds for I_CTL with only bit 16 set. -/
theorem c13_va_form_32_widens :
    ¬ flag_bit 4 1 ∧ ¬ flag_bit 4 0 ∧ sign_extend (2 ^ 42) 43 ≠ 2 ^ 42
    ∧ va_ctl_scenario 4 (2 ^ 42) = some { pa := 0, fl := 0, asn := PTE_ASN_MISS }
    ∧ va_ctl_scenario 0 (2 ^ 42) = some { pa := 0, fl := 0, asn := PTE_ASN_BAD_VA }
    ∧ ¬ flag_bit (2 ^ 16) 15
    ∧ i_ctl_scenario (2 ^ 16) (2 ^ 42) = some { pa := 0, fl := 0, asn := PTE_ASN_MISS }
    ∧ i_ctl_scenario 0 (2 ^ 42) = some { pa := 0, fl := 0, asn := PTE_ASN_BAD_VA } := by
  refine ⟨by decide, by decide, by decide, ?_, ?_, by decide, ?_, ?_⟩ <;> decide

/-! ## C14 -/

theorem testBit_not64 (x i : Nat) (hx : x < 2 ^ 64) :
    (not64 x).testBit i = (decide (i < 64) && !x.testBit i) := by
  unfold not64
  rw [Nat.mod_eq_of_lt hx]
  have : 2 ^ 64 - 1 - x = 2 ^ 64 - (x + 1) := by omega
  rw [this]
  exact Nat.testBit_two_pow_sub_succ hx i

/-- The offset mask of the success path, `((1 << 3g) - 1) << 13`, bit by bit. -/
theorem testBit_gh_mask (g i : Nat) (hg : g < 4) :
    (shl64 ((1 <<< (3 * g)) - 1) 13).testBit i = (decide (13 ≤ i) && decide (i < 13 + 3 * g))
    ∧ shl64 ((1 <<< (3 * g)) - 1) 13 < 2 ^ 64
    ∧ shl64 ((1 <<< (3 * g)) - 1) 13 = (2 ^ (3 * g) - 1) * 2 ^ 13 := by
  have hlt : (2 ^ (3 * g) - 1) * 2 ^ 13 < 2 ^ 64 := by
    have hcases : g = 0 ∨ g = 1 ∨ g = 2 ∨ g = 3 := by omega
    rcases hcases with h | h | h | h <;> subst h <;> norm_num
  have heq : shl64 ((1 <<< (3 * g)) - 1) 13 = (2 ^ (3 * g) - 1) * 2 ^ 13 := by
    unfold shl64
    rw [Nat.shiftLeft_eq, Nat.shiftLeft_eq, Nat.one_mul, Nat.mod_eq_of_lt hlt]
  refine ⟨?_, by rw [heq]; exact hlt, heq⟩
  rw [heq, ← Nat.shiftLeft_eq, Nat.testBit_shiftLeft, Nat.testBit_two_pow_sub_one]
  by_cases h : 13 ≤ i
  · simp only [h, ge_iff_le, decide_True, Bool.true_and]
    congr 1
    apply propext
    omega
  · simp [h]

/-- The physical address of the success path, bit by bit. -/
theorem mmu_fault_pa_bits (pte : alpha_pte) (a i : Nat) :
    (mmu_fault_pa pte a).testBit i
      = (if i < 13 then false
         else if i < 13 + 3 * ((pte.fl / 32) % 4) then a.testBit i
         else (shl64 pte.pa 13).testBit i) := by
  have hg : (pte.fl / 32) % 4 < 4 := Nat.mod_lt _ (by decide)
  obtain ⟨hm, hmlt, _⟩ := testBit_gh_mask ((pte.fl / 32) % 4) i hg
  have hs : shl64 pte.pa 13 < 2 ^ 64 := Nat.mod_lt _ (by norm_num)
  unfold mmu_fault_pa
  simp only [get_gh_eq]
  rw [Nat.testBit_or, Nat.testBit_and, Nat.testBit_and, testBit_not64 _ _ hmlt, hm]
  by_cases h13 : i < 13
  · have : ¬ 13 ≤ i := by omega
    simp only [h13, if_true, this, decide_False, Bool.false_and, Bool.and_false,
      Bool.not_false, Bool.and_true, Bool.or_false]
    by_cases h64 : i < 64
    · have hz : (shl64 pte.pa 13).testBit i = false := by
        unfold shl64
        rw [Nat.testBit_mod_two_pow, Nat.testBit_shiftLeft]
        simp [this]
      simp [hz]
    · simp [h64]
  · have h13' : 13 ≤ i := by omega
    rw [if_neg h13]
    by_cases hoff : i < 13 + 3 * ((pte.fl / 32) % 4)
    · simp [h13', hoff]
    · rw [if_neg hoff]
      by_cases h64 : i < 64
      · simp [h13', hoff, h64]
      · have hz : (shl64 pte.pa 13).testBit i = false :=
          Nat.testBit_lt_two_pow (lt_of_lt_of_le hs (Nat.pow_le_pow_right (by decide)
            (by omega)))
        simp [h13', hoff, h64, hz]

theorem mmu_fault_pa_aligned (pte : alpha_pte) (a : Nat) :
    mmu_fault_pa pte a % 2 ^ 13 = 0 := by
  apply Nat.eq_of_testBit_eq
  intro i
  rw [Nat.testBit_mod_two_pow, Nat.zero_testBit, mmu_fault_pa_bits]
  by_cases h : i < 13 <;> simp [h]

/-- The capability mask of the success path in the words of the specification. -/
theorem mmu_fault_mode_spec (pte : alpha_pte) (cm rwx : Nat) :
    (rwx = 2 → mmu_fault_mode pte cm rwx = PAGE_READ ||| PAGE_EXEC)
    ∧ (rwx ≠ 2 →
        (flag_bit (mmu_fault_mode pte cm rwx) 1
          ↔ flag_bit pte.fl (12 + cm) ∧ ¬ flag_bit pte.fl 2)
        ∧ (flag_bit (mmu_fault_mode pte cm rwx) 0
          ↔ flag_bit pte.fl (8 + cm) ∧ ¬ flag_bit pte.fl 1)
        ∧ ¬ flag_bit (mmu_fault_mode pte cm rwx) 2) := by
  have hW : (pte.fl >>> cm &&& ALPHA_PTE_KWE ≠ 0 ∧ pte.fl &&& ALPHA_PTE_FOW = 0)
      ↔ (flag_bit pte.fl (12 + cm) ∧ ¬ flag_bit pte.fl 2) := by
    have h1 : pte.fl >>> cm &&& ALPHA_PTE_KWE ≠ 0 ↔ pte.fl / 2 ^ (12 + cm) % 2 = 1 :=
      shr_and_pow2_ne_zero_iff pte.fl cm 12
    have h2 : pte.fl &&& ALPHA_PTE_FOW = 0 ↔ pte.fl / 2 ^ 2 % 2 = 0 :=
      and_pow2_eq_zero_iff pte.fl 2
    unfold flag_bit
    rw [h1, h2]
    constructor <;> intro h <;> exact ⟨h.1, by omega⟩
  have hR : (pte.fl >>> cm &&& ALPHA_PTE_KRE ≠ 0 ∧ pte.fl &&& ALPHA_PTE_FOR = 0)
      ↔ (flag_bit pte.fl (8 + cm) ∧ ¬ flag_bit pte.fl 1) := by
    have h1 : pte.fl >>> cm &&& ALPHA_PTE_KRE ≠ 0 ↔ pte.fl / 2 ^ (8 + cm) % 2 = 1 :=
      shr_and_pow2_ne_zero_iff pte.fl cm 8
    have h2 : pte.fl &&& ALPHA_PTE_FOR = 0 ↔ pte.fl / 2 ^ 1 % 2 = 0 :=
      and_pow2_eq_zero_iff pte.fl 1
    unfold flag_bit
    rw [h1, h2]
    constructor <;> intro h <;> exact ⟨h.1, by omega⟩
  constructor
  · intro h
    simp only [mmu_fault_mode, h, if_true]
  · intro h
    rw [← hW, ← hR]
    simp only [mmu_fault_mode, if_neg h]
    by_cases cw : pte.fl >>> cm &&& ALPHA_PTE_KWE ≠ 0 ∧ pte.fl &&& ALPHA_PTE_FOW = 0 <;>
      by_cases cr : pte.fl >>> cm &&& ALPHA_PTE_KRE ≠ 0 ∧ pte.fl &&& ALPHA_PTE_FOR = 0
    · rw [if_pos cw, if_pos cr]
      exact ⟨⟨fun _ => cw, fun _ => by decide⟩, ⟨fun _ => cr, fun _ => by decide⟩,
        by decide⟩
    · rw [if_pos cw, if_neg cr]
      exact ⟨⟨fun _ => cw, fun _ => by decide⟩,
        ⟨fun hc => absurd hc (by decide), fun hc => absurd hc cr⟩, by decide⟩
    · rw [if_neg cw, if_pos cr]
      exact ⟨⟨fun hc => absurd hc (by decide), fun hc => absurd hc cw⟩,
        ⟨fun _ => cr, fun _ => by decide⟩, by decide⟩
    · rw [if_neg cw, if_neg cr]
      exact ⟨⟨fun hc => absurd hc (by decide), fun hc => absurd hc cw⟩,
        ⟨fun hc => absurd hc (by decide), fun hc => absurd hc cr⟩, by decide⟩

theorem mmu_fault_success_eq (eng : Engine) (env : CPUAlphaState)
    (a rwx mmu_idx retaddr : Nat)
    (h : mmu_fault_ok (cpu_alpha_mmu_v2p_21264 env a rwx) env.a21264.cm rwx = true) :
    ∃ r, cpu_alpha_mmu_fault_21264 eng env a rwx mmu_idx retaddr = some r
      ∧ r.ret = 0
      ∧ r.env.calls = env.calls ++
          [EngineCall.tlb_set_page_exec (a &&& TARGET_PAGE_MASK)
            (mmu_fault_pa (cpu_alpha_mmu_v2p_21264 env a rwx) a)
            (mmu_fault_mode (cpu_alpha_mmu_v2p_21264 env a rwx) env.a21264.cm rwx)
            mmu_idx 1] := by
  unfold cpu_alpha_mmu_fault_21264
  simp only [h, if_true]
  exact ⟨_, rfl, rfl, rfl⟩

/-- C14: on every successful call of the fault handler (access kind 0, 1 or 2, mode in
0..3) exactly one translation is handed to the engine; its physical address is
`((pa << 13) & ~m) | (address & m)` with `m = (2^(3g) - 1) << 13`, is page-aligned, has
the bits of `pa << 13` from bit `13 + 3g` up and the bits of the virtual address at the
bits `13 .. 13 + 3g - 1`; its capability mask is READ|EXEC for an execute access and, for
a data access, contains WRITE iff the write enable of the mode is set and FOW is clear
and READ iff the read enable of the mode is set and FOR is clear; it contains the
access kind requested. -/
theorem c14_success_translation (eng : Engine) (env : CPUAlphaState)
    (a rwx mmu_idx retaddr : Nat) (r : FaultResult) (hrwx : rwx ≤ 2)
    (_hcm : env.a21264.cm < 4)
    (h : cpu_alpha_mmu_fault_21264 eng env a rwx mmu_idx retaddr = some r)
    (hret : r.ret = 0) :
    ∃ paddr prot,
      r.env.calls = env.calls ++
        [EngineCall.tlb_set_page_exec (a &&& TARGET_PAGE_MASK) paddr prot mmu_idx 1]
      ∧ paddr
          = ((shl64 (cpu_alpha_mmu_v2p_21264 env a rwx).pa 13
                &&& not64 ((2 ^ (3 * (((cpu_alpha_mmu_v2p_21264 env a rwx).fl / 32) % 4)) - 1)
                      * 2 ^ 13))
              ||| (a &&& ((2 ^ (3 * (((cpu_alpha_mmu_v2p_21264 env a rwx).fl / 32) % 4)) - 1)
                      * 2 ^ 13)))
      ∧ paddr % 2 ^ 13 = 0
      ∧ (∀ i, paddr.testBit i
          = (if i < 13 then false
             else if i < 13 + 3 * (((cpu_alpha_mmu_v2p_21264 env a rwx).fl / 32) % 4) then
               a.testBit i
             else (shl64 (cpu_alpha_mmu_v2p_21264 env a rwx).pa 13).testBit i))
      ∧ (rwx = 2 → prot = PAGE_READ ||| PAGE_EXEC)
      ∧ (rwx ≠ 2 →
          (flag_bit prot 1
            ↔ flag_bit (cpu_alpha_mmu_v2p_21264 env a rwx).fl (12 + env.a21264.cm)
              ∧ ¬ flag_bit (cpu_alpha_mmu_v2p_21264 env a rwx).fl 2)
          ∧ (flag_bit prot 0
            ↔ flag_bit (cpu_alpha_mmu_v2p_21264 env a rwx).fl (8 + env.a21264.cm)
              ∧ ¬ flag_bit (cpu_alpha_mmu_v2p_21264 env a rwx).fl 1))
      ∧ (rwx = 0 → flag_bit prot 0) ∧ (rwx = 1 → flag_bit prot 1)
      ∧ (rwx = 2 → flag_bit prot 2) := by
  have hok : mmu_fault_ok (cpu_alpha_mmu_v2p_21264 env a rwx) env.a21264.cm rwx = true := by
    by_contra hc
    have hc2 : mmu_fault_ok (cpu_alpha_mmu_v2p_21264 env a rwx) env.a21264.cm rwx
        = false := by simpa using hc
    have := (mmu_fault_failure eng env a rwx mmu_idx retaddr r hc2 h).1
    omega
  obtain ⟨r2, hr2, _, hcalls⟩ := mmu_fault_success_eq eng env a rwx mmu_idx retaddr hok
  rw [h] at hr2
  simp only [Option.some.injEq] at hr2
  subst hr2
  have hperm := (mmu_fault_ok_iff _ _ _ hrwx).1 hok
  obtain ⟨m1, m2⟩ := mmu_fault_mode_spec (cpu_alpha_mmu_v2p_21264 env a rwx)
    env.a21264.cm rwx
  have hg : ((cpu_alpha_mmu_v2p_21264 env a rwx).fl / 32) % 4 < 4 :=
    Nat.mod_lt _ (by decide)
  refine ⟨_, _, hcalls, ?_, mmu_fault_pa_aligned _ a, mmu_fault_pa_bits _ a, m1, ?_, ?_,
    ?_, ?_⟩
  · unfold mmu_fault_pa
    simp only [get_gh_eq, (testBit_gh_mask _ 0 hg).2.2]
  · intro hne
    exact ⟨(m2 hne).1, (m2 hne).2.1⟩
  · intro h0
    subst h0
    have := (m2 (by decide)).2.1
    rw [this]
    unfold access_permitted at hperm
    exact ⟨by simpa using hperm.2.1, hperm.2.2.1 rfl⟩
  · intro h1
    subst h1
    have := (m2 (by decide)).1
    rw [this]
    unfold access_permitted at hperm
    exact ⟨by simpa using hperm.2.1, hperm.2.2.2 rfl⟩
  · intro h2
    rw [m1 h2]
    decide

theorem user_read_result_eq :
    cpu_alpha_mmu_fault_21264 eng_zero env_user_ro 0x10008 0 3 1 = some user_read_result := by
  have hs : (cpu_alpha_mmu_fault_21264 eng_zero env_user_ro 0x10008 0 3 1).isSome = true := by
    decide
  obtain ⟨r, hr⟩ := Option.isSome_iff_exists.1 hs
  simp only [user_read_result, hr, Option.getD_some]

theorem c14_success_translation_witness :
    (0 : Nat) ≤ 2 ∧ env_user_ro.a21264.cm < 4
    ∧ cpu_alpha_mmu_fault_21264 eng_zero env_user_ro 0x10008 0 3 1 = some user_read_result
    ∧ user_read_result.ret = 0
    ∧ ∃ paddr prot,
        user_read_result.env.calls = env_user_ro.calls ++
          [EngineCall.tlb_set_page_exec (0x10008 &&& TARGET_PAGE_MASK) paddr prot 3 1]
        ∧ paddr % 2 ^ 13 = 0 ∧ flag_bit prot 0 :=
  ⟨by decide, by decide, user_read_result_eq, by decide,
   match c14_success_translation eng_zero env_user_ro 0x10008 0 3 1 user_read_result
      (by decide) (by decide) user_read_result_eq (by decide) with
   | ⟨paddr, prot, hc, _, hal, _, _, _, hr, _⟩ => ⟨paddr, prot, hc, hal, hr rfl⟩⟩

/-! ## Exception entry -/

/-- What the second `switch` of `do_interrupt` leaves alone. -/
theorem do_interrupt_pal_frame (env : CPUAlphaState) (excp : Int) :
    (do_interrupt_pal env excp).exc_addr = env.exc_addr
    ∧ (do_interrupt_pal env excp).exception_index = env.exception_index
    ∧ (do_interrupt_pal env excp).error_code = env.error_code
    ∧ (do_interrupt_pal env excp).pal_mode = env.pal_mode
    ∧ (do_interrupt_pal env excp).mmu_code_index = env.mmu_code_index
    ∧ (do_interrupt_pal env excp).pal_base = env.pal_base := by
  simp only [do_interrupt_pal]
  split
  · simp only [do_interrupt_reset, do_interrupt_r23, do_interrupt_swap]
    refine ⟨?_, ?_, ?_, ?_, ?_, ?_⟩ <;> split_ifs <;> rfl
  · exact ⟨rfl, rfl, rfl, rfl, rfl, rfl⟩

theorem do_interrupt_excp_vector (pe : pal_emul) (excp v : Int)
    (h : do_interrupt_excp pe excp = some v) : v = interrupt_vector excp := by
  unfold do_interrupt_excp at h
  unfold interrupt_vector
  simp only [EXCP_GEN_LAST, EXCP_GEN_OPCDEC, EXCP_GEN_ARITH, EXCP_GEN_FEN,
    EXCP_GEN_INTERRUPT, EXCP_21264_OPCDEC, EXCP_21264_ARITH, EXCP_21264_FEN,
    EXCP_21264_INTERRUPT] at h
  by_cases hle : excp ≤ 4
  · rw [if_pos hle] at h
    cases pe with
    | PAL_NONE => simp at h
    | PAL_21264 =>
      simp only at h
      split_ifs at h with h1 h2 h3 h4 <;> simp only [Option.some.injEq] at h
      · rw [if_pos h1]; omega
      · rw [if_neg h1, if_pos h2]; omega
      · rw [if_neg h1, if_neg h2, if_pos h3]; omega
      · rw [if_neg h1, if_neg h2, if_neg h3, if_pos h4]; omega
  · rw [if_neg hle] at h
    simp only [Option.some.injEq] at h
    rw [if_neg (by omega), if_neg (by omega), if_neg (by omega), if_neg (by omega)]
    exact h.symm

theorem do_interrupt_excp_some (excp : Int) (h : 1 ≤ excp) :
    ∃ v, do_interrupt_excp pal_emul.PAL_21264 excp = some v := by
  unfold do_interrupt_excp
  simp only [EXCP_GEN_LAST, EXCP_GEN_OPCDEC, EXCP_GEN_ARITH, EXCP_GEN_FEN,
    EXCP_GEN_INTERRUPT]
  by_cases hle : excp ≤ 4
  · rw [if_pos hle]
    have hc : excp = 1 ∨ excp = 2 ∨ excp = 3 ∨ excp = 4 := by omega
    rcases hc with h | h | h | h <;> subst h <;> exact ⟨_, rfl⟩
  · rw [if_neg hle]
    exact ⟨_, rfl⟩

/-- The shape of the result of `do_interrupt`. -/
theorem do_interrupt_shape (env env2 : CPUAlphaState) (h : do_interrupt env = some env2) :
    ∃ v, do_interrupt_excp env.pal_emul env.exception_index = some v
      ∧ env2 = { do_interrupt_pal
                  { env with exc_addr := env.pc ||| env.pal_mode, exception_index := 0,
                             error_code := 0, pal_mode := 1, mmu_code_index := MMU_PAL_IDX } v
                 with pc := ofS64 (((do_interrupt_pal
                  { env with exc_addr := env.pc ||| env.pal_mode, exception_index := 0,
                             error_code := 0, pal_mode := 1, mmu_code_index := MMU_PAL_IDX }
                  v).pal_base : Int) + v) } := by
  unfold do_interrupt at h
  split_ifs at h
  simp only at h
  split at h
  · exact absurd h (by simp)
  · rename_i v hv
    simp only [Option.some.injEq] at h
    exact ⟨v, hv, h.symm⟩

/-- The result of `do_interrupt` when it returns. -/
theorem do_interrupt_returns (env : CPUAlphaState)
    (hx : 1 ≤ env.exception_index)
    (hp : env.exception_index ≤ EXCP_GEN_LAST → env.pal_emul = pal_emul.PAL_21264)
    (hnot : ¬ (env.pal_mode ≠ 0 ∧ env.exception_index = EXCP_GEN_INTERRUPT)) :
    ∃ env2, do_interrupt env = some env2 := by
  have hv : ∃ v, do_interrupt_excp env.pal_emul env.exception_index = some v := by
    by_cases hle : env.exception_index ≤ EXCP_GEN_LAST
    · rw [hp hle]
      exact do_interrupt_excp_some _ hx
    · unfold do_interrupt_excp
      rw [if_neg hle]
      exact ⟨_, rfl⟩
  obtain ⟨v, hv⟩ := hv
  unfold do_interrupt
  rw [if_neg hnot]
  simp only [hv]
  exact ⟨_, rfl⟩

/-! ## C15 -/

/-- C15: when the raised condition is 1 or more, the generic conditions 1..4 are raised
under 21264 PALcode emulation, and the condition is not the generic interrupt raised
in PAL mode, `do_interrupt` returns a state with `exc_addr = old pc | old pal_mode`,
`exception_index = 0`, `error_code = 0`, `pal_mode = 1`,
`mmu_code_index = MMU_PAL_IDX` and `pc = pal_base + v` in 64-bit arithmetic, where `v`
is 0x400, 0x600, 0x200, 0x680 for the generic conditions 1, 2, 3, 4 and the raised
condition itself otherwise. -/
theorem c15_do_interrupt_state (env : CPUAlphaState)
    (hx : 1 ≤ env.exception_index)
    (hp : env.exception_index ≤ EXCP_GEN_LAST → env.pal_emul = pal_emul.PAL_21264)
    (hnot : ¬ (env.pal_mode ≠ 0 ∧ env.exception_index = EXCP_GEN_INTERRUPT)) :
    ∃ env2, do_interrupt env = some env2
      ∧ env2.exc_addr = env.pc ||| env.pal_mode
      ∧ env2.exception_index = 0
      ∧ env2.error_code = 0
      ∧ env2.pal_mode = 1
      ∧ env2.mmu_code_index = MMU_PAL_IDX
      ∧ (env2.pc : Int)
          = ((env.pal_base : Int) + interrupt_vector env.exception_index) % 2 ^ 64 := by
  obtain ⟨env2, h⟩ := do_interrupt_returns env hx hp hnot
  refine ⟨env2, h, ?_⟩
  obtain ⟨v, hv, he⟩ := do_interrupt_shape env env2 h
  have hvec := do_interrupt_excp_vector _ _ _ hv
  obtain ⟨f1, f2, f3, f4, f5, f6⟩ := do_interrupt_pal_frame
    { env with exc_addr := env.pc ||| env.pal_mode, exception_index := 0,
               error_code := 0, pal_mode := 1, mmu_code_index := MMU_PAL_IDX } v
  subst he
  refine ⟨f1, f2, f3, f4, f5, ?_⟩
  simp only [ofS64]
  rw [Int.toNat_of_nonneg (Int.emod_nonneg _ (by norm_num)), f6, hvec]

theorem c15_do_interrupt_state_witness :
    (1 : Int) ≤ env_dtb_miss.exception_index
    ∧ (env_dtb_miss.exception_index ≤ EXCP_GEN_LAST →
        env_dtb_miss.pal_emul = pal_emul.PAL_21264)
    ∧ ¬ (env_dtb_miss.pal_mode ≠ 0 ∧ env_dtb_miss.exception_index = EXCP_GEN_INTERRUPT)
    ∧ ∃ env2, do_interrupt env_dtb_miss = some env2
      ∧ env2.exc_addr = env_dtb_miss.pc ||| env_dtb_miss.pal_mode
      ∧ env2.exception_index = 0
      ∧ env2.error_code = 0
      ∧ env2.pal_mode = 1
      ∧ env2.mmu_code_index = MMU_PAL_IDX
      ∧ (env2.pc : Int)
          = ((env_dtb_miss.pal_base : Int)
              + interrupt_vector env_dtb_miss.exception_index) % 2 ^ 64 :=
  ⟨by decide, fun _ => rfl, by decide,
   c15_do_interrupt_state env_dtb_miss (by decide) (fun _ => rfl) (by decide)⟩

/-! ## Shadow registers -/

theorem or_one_and_one (x : Nat) : (x ||| 1) &&& 1 ≠ 0 := by
  apply ne_zero_of_testBit _ 0
  rw [Nat.testBit_and, Nat.testBit_or]
  simp

/-- A state with the integer and shadow registers of `swap_shadow_21264 e1` has the
eight registers exchanged. -/
theorem regs_swapped_of (e1 e2 : CPUAlphaState)
    (hir : e2.ir = (swap_shadow_21264 e1).ir)
    (ha : e2.a21264 = (swap_shadow_21264 e1).a21264) : regs_swapped e1 e2 := by
  refine ⟨?_, ?_, ?_⟩
  · simp [shadowed_ir, shadow_regs, hir, swap_shadow_21264, set_ir]
  · simp [shadowed_ir, shadow_regs, ha, swap_shadow_21264]
  · intro j hj
    simp only [is_shadowed, not_or] at hj
    obtain ⟨h4, h5, h6, h7, h20, h21, h22, h23⟩ := hj
    rw [hir]
    simp only [swap_shadow_21264, set_ir]
    rw [if_neg h23, if_neg h22, if_neg h21, if_neg h20, if_neg h7, if_neg h6, if_neg h5,
      if_neg h4]

theorem regs_same_of (e1 e2 : CPUAlphaState)
    (hir : e2.ir = e1.ir) (ha : e2.a21264 = e1.a21264) : regs_same e1 e2 := by
  refine ⟨fun j => by rw [hir], ?_⟩
  simp only [shadow_regs, ha]

theorem do_interrupt_pal_emul (env : CPUAlphaState) (excp : Int) :
    (do_interrupt_pal env excp).pal_emul = env.pal_emul := by
  simp only [do_interrupt_pal]
  split
  · simp only [do_interrupt_reset, do_interrupt_r23, do_interrupt_swap]
    split_ifs <;> rfl
  · rfl

/-- Outside the call class the second `switch` of `do_interrupt` changes the registers
only by the shadow swap. -/
theorem do_interrupt_pal_regs (e : CPUAlphaState) (v : Int)
    (hp : e.pal_emul = pal_emul.PAL_21264) (hcall : v.toNat &&& EXCP_CALL_PALP = 0) :
    (do_interrupt_pal e v).ir = (do_interrupt_swap e).ir
    ∧ (do_interrupt_pal e v).a21264 = (do_interrupt_swap e).a21264 := by
  unfold do_interrupt_pal
  rw [hp]
  simp only
  have hr : do_interrupt_r23 (do_interrupt_swap e) v = do_interrupt_swap e := by
    unfold do_interrupt_r23
    rw [if_neg (fun h => h.1 hcall)]
  rw [hr]
  unfold do_interrupt_reset
  split_ifs
  · simp only [cpu_reset_interrupt, and_self]
  · exact ⟨rfl, rfl⟩

theorem interrupt_vector_not_call (excp : Int)
    (hcall : excp.toNat &&& EXCP_CALL_PALP = 0) :
    (interrupt_vector excp).toNat &&& EXCP_CALL_PALP = 0 := by
  unfold interrupt_vector
  split_ifs
  · decide
  · decide
  · decide
  · decide
  · exact hcall

/-- The registers after a `do_interrupt` of a condition outside the call class. -/
theorem do_interrupt_regs (env e2 : CPUAlphaState) (h : do_interrupt env = some e2)
    (hp : env.pal_emul = pal_emul.PAL_21264)
    (hcall : env.exception_index.toNat &&& EXCP_CALL_PALP = 0) :
    (env.a21264.sde1 ≠ 0 ∧ (env.pc ||| env.pal_mode) &&& 1 = 0 → regs_swapped env e2)
    ∧ (¬ (env.a21264.sde1 ≠ 0 ∧ (env.pc ||| env.pal_mode) &&& 1 = 0) →
        regs_same env e2) := by
  obtain ⟨v, hv, he⟩ := do_interrupt_shape env e2 h
  have hvec := do_interrupt_excp_vector _ _ _ hv
  have hc := interrupt_vector_not_call _ hcall
  rw [← hvec] at hc
  obtain ⟨r1, r2⟩ := do_interrupt_pal_regs
    { env with exc_addr := env.pc ||| env.pal_mode, exception_index := 0,
               error_code := 0, pal_mode := 1, mmu_code_index := MMU_PAL_IDX } v hp hc
  subst he
  constructor
  · intro hs
    apply regs_swapped_of
    · rw [r1]
      unfold do_interrupt_swap
      rw [if_pos hs]
      simp only [swap_shadow_21264]
    · rw [r2]
      unfold do_interrupt_swap
      rw [if_pos hs]
      simp only [swap_shadow_21264]
  · intro hs
    apply regs_same_of
    · rw [r1]
      unfold do_interrupt_swap
      rw [if_neg hs]
    · rw [r2]
      unfold do_interrupt_swap
      rw [if_neg hs]

/-- A `do_interrupt` that returns leaves the core in PAL mode under the same PALcode
emulation. -/
theorem do_interrupt_mode (env e : CPUAlphaState) (h : do_interrupt env = some e) :
    e.pal_mode = 1 ∧ e.pal_emul = env.pal_emul := by
  obtain ⟨v, _, he⟩ := do_interrupt_shape env e h
  obtain ⟨_, _, _, f4, _, _⟩ := do_interrupt_pal_frame
    { env with exc_addr := env.pc ||| env.pal_mode, exception_index := 0,
               error_code := 0, pal_mode := 1, mmu_code_index := MMU_PAL_IDX } v
  have f7 := do_interrupt_pal_emul
    { env with exc_addr := env.pc ||| env.pal_mode, exception_index := 0,
               error_code := 0, pal_mode := 1, mmu_code_index := MMU_PAL_IDX } v
  subst he
  exact ⟨f4, f7⟩

/-- With an odd `pc` the swap test of `do_interrupt`, which reads bit 0 of
`exc_addr = pc | pal_mode`, finds the bit set although `pal_mode` is 0: the registers
are left as they are. -/
theorem do_interrupt_odd_pc :
    (do_interrupt { env_shadow with pc := 0x4001 }).map shadowed_ir
      = some (shadowed_ir env_shadow) := by
  decide

/-! ## C16 -/

/-- C16: under 21264 PALcode emulation with shadow mode enabled, for a condition that
is not of the call class, `do_interrupt` entered with `pal_mode = 0` (and a `pc` whose
bit 0 is clear, as every instruction address is) exchanges the eight registers
`ir[4..7]`, `ir[20..23]` with the shadow registers and leaves the other integer
registers unchanged; a second `do_interrupt`, raised in the resulting state for a
condition `x2` that is not of the call class, leaves the integer and shadow registers
unchanged, as does every `do_interrupt` entered with `pal_mode = 1`; over the two
transitions the registers are exchanged once. -/
theorem c16_shadow_swap_once (env : CPUAlphaState) (x2 : Int)
    (hp : env.pal_emul = pal_emul.PAL_21264) (hsde : env.a21264.sde1 ≠ 0)
    (hm : env.pal_mode = 0) (hpc : env.pc &&& 1 = 0)
    (hx : 1 ≤ env.exception_index)
    (hcall : env.exception_index.toNat &&& EXCP_CALL_PALP = 0)
    (hx2 : 1 ≤ x2) (hint : x2 ≠ EXCP_GEN_INTERRUPT)
    (hcall2 : x2.toNat &&& EXCP_CALL_PALP = 0) :
    (∃ e1 e2, do_interrupt env = some e1
      ∧ regs_swapped env e1
      ∧ e1.pal_mode = 1
      ∧ do_interrupt { e1 with exception_index := x2 } = some e2
      ∧ regs_same e1 e2
      ∧ regs_swapped env e2)
    ∧ (∀ env1 e, env1.pal_emul = pal_emul.PAL_21264 → env1.pal_mode = 1 →
        env1.exception_index.toNat &&& EXCP_CALL_PALP = 0 →
        do_interrupt env1 = some e → regs_same env1 e) := by
  have second : ∀ env1 e, env1.pal_emul = pal_emul.PAL_21264 → env1.pal_mode = 1 →
      env1.exception_index.toNat &&& EXCP_CALL_PALP = 0 →
      do_interrupt env1 = some e → regs_same env1 e := by
    intro env1 e hp1 hm1 hc1 h1
    refine (do_interrupt_regs env1 e h1 hp1 hc1).2 ?_
    rw [hm1]
    exact fun hs => or_one_and_one _ hs.2
  refine ⟨?_, second⟩
  obtain ⟨e1, h1⟩ := do_interrupt_returns env hx (fun _ => hp) (fun hh => hh.1 hm)
  obtain ⟨hpm, hemul1⟩ := do_interrupt_mode env e1 h1
  have hsw : regs_swapped env e1 := by
    refine (do_interrupt_regs env e1 h1 hp hcall).1 ⟨hsde, ?_⟩
    rw [hm, Nat.or_zero]
    exact hpc
  have hemul : e1.pal_emul = pal_emul.PAL_21264 := by rw [hemul1, hp]
  obtain ⟨e2, h2⟩ := do_interrupt_returns { e1 with exception_index := x2 } hx2
    (fun _ => hemul) (fun hh => hint hh.2)
  have hsame : regs_same e1 e2 := by
    have := second { e1 with exception_index := x2 } e2 hemul hpm hcall2 h2
    exact ⟨this.1, this.2⟩
  refine ⟨e1, e2, h1, hsw, hpm, h2, hsame, ?_⟩
  obtain ⟨s1, s2, s3⟩ := hsw
  obtain ⟨t1, t2⟩ := hsame
  refine ⟨?_, ?_, ?_⟩
  · simp only [shadowed_ir, t1]
    exact s1
  · rw [t2]
    exact s2
  · intro j hj
    rw [t1, s3 j hj]

theorem c16_shadow_swap_once_witness :
    env_shadow.pal_emul = pal_emul.PAL_21264 ∧ env_shadow.a21264.sde1 ≠ 0
    ∧ env_shadow.pal_mode = 0 ∧ env_shadow.pc &&& 1 = 0
    ∧ 1 ≤ env_shadow.exception_index
    ∧ env_shadow.exception_index.toNat &&& EXCP_CALL_PALP = 0
    ∧ 1 ≤ EXCP_21264_DFAULT ∧ EXCP_21264_DFAULT ≠ EXCP_GEN_INTERRUPT
    ∧ EXCP_21264_DFAULT.toNat &&& EXCP_CALL_PALP = 0
    ∧ (do_interrupt env_shadow).map shadowed_ir
        = some [204, 205, 206, 207, 220, 221, 222, 223]
    ∧ (do_interrupt env_shadow).map shadow_regs
        = some [104, 105, 106, 107, 120, 121, 122, 123]
    ∧ ∃ e1 e2, do_interrupt env_shadow = some e1
      ∧ regs_swapped env_shadow e1
      ∧ e1.pal_mode = 1
      ∧ do_interrupt { e1 with exception_index := EXCP_21264_DFAULT } = some e2
      ∧ regs_same e1 e2
      ∧ regs_swapped env_shadow e2 :=
  ⟨rfl, by decide, rfl, by decide, by decide, by decide, by decide, by decide, by decide,
   by decide, by decide,
   (c16_shadow_swap_once env_shadow EXCP_21264_DFAULT rfl (by decide) rfl (by decide)
      (by decide) (by decide) (by decide) (by decide) (by decide)).1⟩

/-! ## Return from PAL mode -/

theorem and_not64_three (a : Nat) (h : a < 2 ^ 64) : a &&& not64 3 = a / 4 * 4 := by
  have hm : not64 3 = (2 ^ 62 - 1) <<< 2 := by decide
  rw [hm, and_shifted_mask, Nat.shiftLeft_eq, Nat.shiftRight_eq_div_pow]
  have : a / 2 ^ 2 < 2 ^ 62 := by omega
  rw [Nat.mod_eq_of_lt this]
  norm_num

/-- The interrupt path of `helper_hw_ret` (lines 1012-1023 of `op_helper.c`). -/
theorem hw_ret_redirect (env : CPUAlphaState) (a : Nat)
    (hp : env.pal_emul = pal_emul.PAL_21264) (ha : a &&& 1 = 0)
    (hi : env.a21264.isum ≠ 0) :
    helper_hw_ret env a
      = some { env with
          exc_addr := a,
          pc := ofS64 ((env.pal_base : Int) + EXCP_21264_INTERRUPT),
          interrupt_request := env.interrupt_request &&& not64 CPU_INTERRUPT_HARD } := by
  unfold helper_hw_ret
  split
  · rw [if_pos ⟨ha, hi⟩]
  · rename_i h
    rw [hp] at h
    cases h

/-! ## C17 -/

/-- C17: under 21264 PALcode emulation `helper_hw_ret(a)` with bit 0 of `a` clear and
`isum ≠ 0` returns with `exc_addr = a`, `pc = pal_base + EXCP_21264_INTERRUPT` (in
64-bit arithmetic), the hard-interrupt request bit cleared and the other request bits
kept, and `pal_mode`, `mmu_code_index`, the integer registers and the shadow registers
unchanged. -/
theorem c17_hw_ret_redirect (env : CPUAlphaState) (a : Nat)
    (hp : env.pal_emul = pal_emul.PAL_21264) (ha : a &&& 1 = 0)
    (hi : env.a21264.isum ≠ 0) :
    ∃ e, helper_hw_ret env a = some e
      ∧ e.exc_addr = a
      ∧ (e.pc : Int) = ((env.pal_base : Int) + 0x680) % 2 ^ 64
      ∧ e.interrupt_request = env.interrupt_request &&& not64 CPU_INTERRUPT_HARD
      ∧ e.interrupt_request &&& CPU_INTERRUPT_HARD = 0
      ∧ (∀ k, k < 64 → k ≠ 1 →
          e.interrupt_request.testBit k = env.interrupt_request.testBit k)
      ∧ e.pal_mode = env.pal_mode
      ∧ e.mmu_code_index = env.mmu_code_index
      ∧ regs_same env e := by
  refine ⟨_, hw_ret_redirect env a hp ha hi, rfl, ?_, rfl, ?_, ?_, rfl, rfl, ?_⟩
  · simp only [ofS64, EXCP_21264_INTERRUPT]
    rw [Int.toNat_of_nonneg (Int.emod_nonneg _ (by norm_num))]
  · simp only
    rw [Nat.and_assoc]
    have : not64 CPU_INTERRUPT_HARD &&& CPU_INTERRUPT_HARD = 0 := by decide
    rw [this, Nat.and_zero]
  · intro k hk hk1
    simp only
    rw [Nat.testBit_and, testBit_not64 _ _ (by decide)]
    have h2 : CPU_INTERRUPT_HARD = 2 ^ 1 := by decide
    rw [h2, Nat.testBit_two_pow]
    simp [hk, Ne.symm hk1]
  · exact regs_same_of _ _ rfl rfl

theorem c17_hw_ret_redirect_witness :
    env_pal_pending.pal_emul = pal_emul.PAL_21264 ∧ 0x4000 &&& 1 = 0
    ∧ env_pal_pending.a21264.isum ≠ 0
    ∧ (helper_hw_ret env_pal_pending 0x4000).map
        (fun e => (e.exc_addr, e.pc, e.interrupt_request, e.pal_mode, e.mmu_code_index))
        = some (0x4000, 0x8680, 4, 1, MMU_PAL_IDX)
    ∧ ∃ e, helper_hw_ret env_pal_pending 0x4000 = some e
      ∧ e.exc_addr = 0x4000
      ∧ (e.pc : Int) = ((env_pal_pending.pal_base : Int) + 0x680) % 2 ^ 64
      ∧ e.interrupt_request
          = env_pal_pending.interrupt_request &&& not64 CPU_INTERRUPT_HARD
      ∧ e.interrupt_request &&& CPU_INTERRUPT_HARD = 0
      ∧ (∀ k, k < 64 → k ≠ 1 →
          e.interrupt_request.testBit k = env_pal_pending.interrupt_request.testBit k)
      ∧ e.pal_mode = env_pal_pending.pal_mode
      ∧ e.mmu_code_index = env_pal_pending.mmu_code_index
      ∧ regs_same env_pal_pending e :=
  ⟨rfl, by decide, by decide, by decide,
   c17_hw_ret_redirect env_pal_pending 0x4000 rfl (by decide) (by decide)⟩

/-- The completing path of `helper_hw_ret` (lines 1024-1033 of `op_helper.c`). -/
theorem hw_ret_complete (env : CPUAlphaState) (a : Nat)
    (hp : env.pal_emul = pal_emul.PAL_21264)
    (hc : a &&& 1 ≠ 0 ∨ env.a21264.isum = 0) :
    (env.pal_mode = a &&& 1 →
      helper_hw_ret env a = some { env with pc := a &&& not64 3 })
    ∧ (env.pal_mode ≠ a &&& 1 → a &&& 1 ≠ 0 →
      helper_hw_ret env a
        = some { env with pc := a &&& not64 3, pal_mode := a &&& 1,
                          mmu_code_index := MMU_PAL_IDX })
    ∧ (env.pal_mode ≠ a &&& 1 → a &&& 1 = 0 → env.a21264.sde1 = 0 →
      helper_hw_ret env a
        = some { env with pc := a &&& not64 3, pal_mode := a &&& 1,
                          mmu_code_index := env.mmu_data_index })
    ∧ (env.pal_mode ≠ a &&& 1 → a &&& 1 = 0 → env.a21264.sde1 ≠ 0 →
      helper_hw_ret env a
        = some (swap_shadow_21264
            { env with pc := a &&& not64 3, pal_mode := a &&& 1,
                       mmu_code_index := env.mmu_data_index })) := by
  have hfast : ¬ (a &&& 1 = 0 ∧ env.a21264.isum ≠ 0) := by
    rintro ⟨h1, h2⟩
    rcases hc with h | h
    · exact h h1
    · exact h2 h
  refine ⟨?_, ?_, ?_, ?_⟩
  · intro hm
    unfold helper_hw_ret
    split
    · rw [if_neg hfast]
      simp only
      rw [if_neg (fun h => h hm)]
    · rename_i h
      rw [hp] at h
      cases h
  · intro hm h1
    unfold helper_hw_ret
    split
    · rw [if_neg hfast]
      simp only
      rw [if_pos hm, if_neg h1, if_neg (fun h => h1 h.2)]
    · rename_i h
      rw [hp] at h
      cases h
  · intro hm h0 hs
    unfold helper_hw_ret
    split
    · rw [if_neg hfast]
      simp only
      rw [if_pos hm, if_pos h0, if_neg (fun h => h.1 hs)]
    · rename_i h
      rw [hp] at h
      cases h
  · intro hm h0 hs
    unfold helper_hw_ret
    split
    · rw [if_neg hfast]
      simp only
      rw [if_pos hm, if_pos h0, if_pos ⟨hs, h0⟩]
    · rename_i h
      rw [hp] at h
      cases h

/-! ## C18 -/

/-- Case analysis of `cpu_alpha_mtpr_21264` that records, in the `default` case, that
the id has no case of its own. -/
theorem mtpr_cases_default (ticks : Nat) (env : CPUAlphaState) (iprn val : Nat)
    (P : Option CPUAlphaState → Prop)
    (h0 : iprn = IPR_CC → P (some (mtpr_cc env val)))
    (h1 : iprn = IPR_CC_CTL → P (some (mtpr_cc_ctl ticks env val)))
    (h2 : iprn = IPR_ITB_TAG → P (some (mtpr_itb_tag env val)))
    (h3 : iprn = IPR_DTB_TAG0 → P (some (mtpr_dtb_tag0 env val)))
    (h4 : iprn = IPR_DTB_TAG1 ∨ iprn = IPR_DTB_ASN1 ∨ iprn = IPR_DTB_PTE1 → P (some env))
    (h5 : iprn = IPR_ITB_PTE → P (some (mtpr_itb_pte env val)))
    (h6 : iprn = IPR_DTB_PTE0 → P (some (mtpr_dtb_pte0 env val)))
    (h7 : iprn = IPR_DTB_ASN0 → P (some (mtpr_dtb_asn0 env val)))
    (h8 : iprn = IPR_PAL_BASE → P (some (mtpr_pal_base env val)))
    (h9 : iprn = IPR_I_CTL → P (some (mtpr_i_ctl env val)))
    (h10 : iprn = IPR_VA_CTL → P (mtpr_va_ctl env val))
    (h11 : iprn = IPR_IER_CM ∨ iprn = IPR_CM ∨ iprn = IPR_IER → P (some (mtpr_cm (mtpr_ier env iprn val) iprn val)))
    (h12 : iprn = IPR_IC_FLUSH ∨ iprn = IPR_IC_FLUSH_ASM → P (some (call_tb_flush env)))
    (h13 : iprn = IPR_ITB_IA → P (some (set_itlb (call_tlb_flush env) (flush_tlb_all_21264 env.a21264.itlb, []))))
    (h14 : iprn = IPR_ITB_IAP → P (some (set_itlb (call_tlb_flush env) (flush_tlb_asm_21264 env.a21264.itlb, []))))
    (h15 : iprn = IPR_ITB_IS → P (some (set_itlb env (flush_tlb_21264_page env env.a21264.itlb val))))
    (h16 : iprn = IPR_DTB_IA → P (some (set_dtlb (call_tlb_flush env) (flush_tlb_all_21264 env.a21264.dtlb, []))))
    (h17 : iprn = IPR_DTB_IAP → P (some (set_dtlb (call_tlb_flush env) (flush_tlb_asm_21264 env.a21264.dtlb, []))))
    (h18 : iprn = IPR_DTB_IS0 → P (some (set_dtlb env (flush_tlb_21264_page env env.a21264.dtlb val))))
    (h19 : iprn = IPR_DTB_IS1 → P (some env))
    (h20 : iprn = IPR_I_STAT ∨ iprn = IPR_DC_STAT → P (some env))
    (h21 : iprn = IPR_MM_STAT → P (some env))
    (h22 : IPR_PCTX ≤ iprn ∧ iprn ≤ IPR_PCTX_ALL → P (mtpr_pctx env iprn val))
    (h23 : iprn = IPR_M_CTL → P (some (mtpr_m_ctl env val)))
    (h24 : iprn = IPR_SIRR → P (some (mtpr_sirr env val)))
    (h25 : iprn = IPR_HW_INT_CLR → P (some env))
    (h26 : iprn = IPR_DTB_ALTMODE0 → P (some (mtpr_dtb_altmode0 env val)))
    (h27 : iprn = IPR_PCTR_CTL → P (some env))
    (h28 : iprn = IPR_C_DATA ∨ iprn = IPR_C_SHIFT → P (some env))
    (h29 : iprn = IPR_DC_CTL → P (if val &&& 0x34 ≠ 0 then none else some env))
    (h30 : iprn = 0x2d → P (if env.a21264.pal_reloc_val ≠ 0 then alpha_21264_srm_write env else some env))
    (hdefault : ¬ mtpr_handled iprn → P none) :
    P (cpu_alpha_mtpr_21264 ticks env iprn val) := by
  unfold cpu_alpha_mtpr_21264
  by_cases c0 : iprn = IPR_CC
  · rw [if_pos c0]; exact h0 c0
  rw [if_neg c0]
  by_cases c1 : iprn = IPR_CC_CTL
  · rw [if_pos c1]; exact h1 c1
  rw [if_neg c1]
  by_cases c2 : iprn = IPR_ITB_TAG
  · rw [if_pos c2]; exact h2 c2
  rw [if_neg c2]
  by_cases c3 : iprn = IPR_DTB_TAG0
  · rw [if_pos c3]; exact h3 c3
  rw [if_neg c3]
  by_cases c4 : iprn = IPR_DTB_TAG1 ∨ iprn = IPR_DTB_ASN1 ∨ iprn = IPR_DTB_PTE1
  · rw [if_pos c4]; exact h4 c4
  rw [if_neg c4]
  by_cases c5 : iprn = IPR_ITB_PTE
  · rw [if_pos c5]; exact h5 c5
  rw [if_neg c5]
  by_cases c6 : iprn = IPR_DTB_PTE0
  · rw [if_pos c6]; exact h6 c6
  rw [if_neg c6]
  by_cases c7 : iprn = IPR_DTB_ASN0
  · rw [if_pos c7]; exact h7 c7
  rw [if_neg c7]
  by_cases c8 : iprn = IPR_PAL_BASE
  · rw [if_pos c8]; exact h8 c8
  rw [if_neg c8]
  by_cases c9 : iprn = IPR_I_CTL
  · rw [if_pos c9]; exact h9 c9
  rw [if_neg c9]
  by_cases c10 : iprn = IPR_VA_CTL
  · rw [if_pos c10]; exact h10 c10
  rw [if_neg c10]
  by_cases c11 : iprn = IPR_IER_CM ∨ iprn = IPR_CM ∨ iprn = IPR_IER
  · rw [if_pos c11]; exact h11 c11
  rw [if_neg c11]
  by_cases c12 : iprn = IPR_IC_FLUSH ∨ iprn = IPR_IC_FLUSH_ASM
  · rw [if_pos c12]; exact h12 c12
  rw [if_neg c12]
  by_cases c13 : iprn = IPR_ITB_IA
  · rw [if_pos c13]; exact h13 c13
  rw [if_neg c13]
  by_cases c14 : iprn = IPR_ITB_IAP
  · rw [if_pos c14]; exact h14 c14
  rw [if_neg c14]
  by_cases c15 : iprn = IPR_ITB_IS
  · rw [if_pos c15]; exact h15 c15
  rw [if_neg c15]
  by_cases c16 : iprn = IPR_DTB_IA
  · rw [if_pos c16]; exact h16 c16
  rw [if_neg c16]
  by_cases c17 : iprn = IPR_DTB_IAP
  · rw [if_pos c17]; exact h17 c17
  rw [if_neg c17]
  by_cases c18 : iprn = IPR_DTB_IS0
  · rw [if_pos c18]; exact h18 c18
  rw [if_neg c18]
  by_cases c19 : iprn = IPR_DTB_IS1
  · rw [if_pos c19]; exact h19 c19
  rw [if_neg c19]
  by_cases c20 : iprn = IPR_I_STAT ∨ iprn = IPR_DC_STAT
  · rw [if_pos c20]; exact h20 c20
  rw [if_neg c20]
  by_cases c21 : iprn = IPR_MM_STAT
  · rw [if_pos c21]; exact h21 c21
  rw [if_neg c21]
  by_cases c22 : IPR_PCTX ≤ iprn ∧ iprn ≤ IPR_PCTX_ALL
  · rw [if_pos c22]; exact h22 c22
  rw [if_neg c22]
  by_cases c23 : iprn = IPR_M_CTL
  · rw [if_pos c23]; exact h23 c23
  rw [if_neg c23]
  by_cases c24 : iprn = IPR_SIRR
  · rw [if_pos c24]; exact h24 c24
  rw [if_neg c24]
  by_cases c25 : iprn = IPR_HW_INT_CLR
  · rw [if_pos c25]; exact h25 c25
  rw [if_neg c25]
  by_cases c26 : iprn = IPR_DTB_ALTMODE0
  · rw [if_pos c26]; exact h26 c26
  rw [if_neg c26]
  by_cases c27 : iprn = IPR_PCTR_CTL
  · rw [if_pos c27]; exact h27 c27
  rw [if_neg c27]
  by_cases c28 : iprn = IPR_C_DATA ∨ iprn = IPR_C_SHIFT
  · rw [if_pos c28]; exact h28 c28
  rw [if_neg c28]
  by_cases c29 : iprn = IPR_DC_CTL
  · rw [if_pos c29]; exact h29 c29
  rw [if_neg c29]
  by_cases c30 : iprn = 0x2d
  · rw [if_pos c30]; exact h30 c30
  rw [if_neg c30]
  refine hdefault (fun hh => ?_)
  unfold mtpr_handled at hh
  rcases hh with h | h | h | h | h | h | h | h | h | h | h | h | h | h | h | h | h | h
    | h | h | h | h | h | h | h | h | h | h | h | h | h
  · exact c0 h
  · exact c1 h
  · exact c2 h
  · exact c3 h
  · exact c4 h
  · exact c5 h
  · exact c6 h
  · exact c7 h
  · exact c8 h
  · exact c9 h
  · exact c10 h
  · exact c11 h
  · exact c12 h
  · exact c13 h
  · exact c14 h
  · exact c15 h
  · exact c16 h
  · exact c17 h
  · exact c18 h
  · exact c19 h
  · exact c20 h
  · exact c21 h
  · exact c22 h
  · exact c23 h
  · exact c24 h
  · exact c25 h
  · exact c26 h
  · exact c27 h
  · exact c28 h
  · exact c29 h
  · exact c30 h

/-! ## C19 -/

/-- C19 (amended): for a register id outside PAL_BASE, I_CTL, IVA_FORM, VA, EXC_ADDR,
PCTX .. PCTX_ALL, IER_CM, CM, IER, ISUM, SIRR, MM_STAT, VA_FORM and EXC_SUM,
`cpu_alpha_mfpr_21264` returns 0 when the id is I_STAT, DC_STAT, C_DATA or C_SHIFT and
aborts (`cpu_abort`) for every other id. -/
theorem c19_mfpr_zero_or_abort (env : CPUAlphaState) (iprn : Nat)
    (h : ¬ mfpr_implemented iprn) :
    (mfpr_reads_zero iprn → cpu_alpha_mfpr_21264 env iprn = some 0)
    ∧ (¬ mfpr_reads_zero iprn → cpu_alpha_mfpr_21264 env iprn = none) := by
  simp only [mfpr_implemented, not_or] at h
  obtain ⟨h1, h2, h3, h4, h5, h6, h7, h8, h9, h10, h11, h12, h13, h14⟩ := h
  have h789 : ¬ (iprn = IPR_IER_CM ∨ iprn = IPR_CM ∨ iprn = IPR_IER) := by
    rintro (h | h | h)
    · exact h7 h
    · exact h8 h
    · exact h9 h
  unfold cpu_alpha_mfpr_21264
  simp only
  rw [if_neg h1, if_neg h2, if_neg h3, if_neg h4, if_neg h5]
  constructor
  · intro hz
    by_cases hs : iprn = IPR_I_STAT ∨ iprn = IPR_DC_STAT
    · rw [if_pos hs]
    · rw [if_neg hs]
      have hc : iprn = IPR_C_DATA ∨ iprn = IPR_C_SHIFT := by
        rcases hz with h | h | h | h
        · exact absurd (Or.inl h) hs
        · exact absurd (Or.inr h) hs
        · exact Or.inl h
        · exact Or.inr h
      rw [if_pos hc]
  · intro hz
    simp only [mfpr_reads_zero, not_or] at hz
    obtain ⟨z1, z2, z3, z4⟩ := hz
    have hs : ¬ (iprn = IPR_I_STAT ∨ iprn = IPR_DC_STAT) := by
      rintro (h | h)
      · exact z1 h
      · exact z2 h
    have hc : ¬ (iprn = IPR_C_DATA ∨ iprn = IPR_C_SHIFT) := by
      rintro (h | h)
      · exact z3 h
      · exact z4 h
    rw [if_neg hs, if_neg hc, if_neg h6, if_neg h789, if_neg h10, if_neg h11, if_neg h12,
      if_neg h13, if_neg h14]

theorem c19_mfpr_zero_or_abort_witness :
    ¬ mfpr_implemented IPR_ITB_TAG
    ∧ ¬ mfpr_reads_zero IPR_ITB_TAG
    ∧ mfpr_reads_zero IPR_DC_STAT
    ∧ cpu_alpha_mfpr_21264 env_user_ro IPR_ITB_TAG = none
    ∧ cpu_alpha_mfpr_21264 env_user_ro IPR_DC_STAT = some 0 :=
  ⟨by decide, by decide, by decide,
   (c19_mfpr_zero_or_abort env_user_ro IPR_ITB_TAG (by decide)).2 (by decide),
   (c19_mfpr_zero_or_abort env_user_ro IPR_DC_STAT (by decide)).1 (by decide)⟩

/-- C19, as claimed, fails: the read of ITB_TAG, ITB_PTE, DTB_TAG0, IC_FLUSH or M_CTL
aborts instead of returning 0. -/
theorem c19_counterexample :
    ¬ mfpr_implemented IPR_ITB_TAG
    ∧ cpu_alpha_mfpr_21264 env_zero IPR_ITB_TAG = none
    ∧ cpu_alpha_mfpr_21264 env_zero IPR_ITB_PTE = none
    ∧ cpu_alpha_mfpr_21264 env_zero IPR_DTB_TAG0 = none
    ∧ cpu_alpha_mfpr_21264 env_zero IPR_IC_FLUSH = none
    ∧ cpu_alpha_mfpr_21264 env_zero IPR_M_CTL = none := by
  decide

/-- A case of the `switch` that only stores is not fatal. -/
theorem mtpr_some_iff (env : CPUAlphaState) (iprn val : Nat) (e : CPUAlphaState)
    (hh : mtpr_handled iprn ∧ iprn ≠ IPR_VA_CTL ∧ iprn ≠ IPR_DC_CTL
      ∧ ¬ (IPR_PCTX ≤ iprn ∧ iprn ≤ IPR_PCTX_ALL) ∧ iprn ≠ 0x2d) :
    some e = none ↔ (mtpr_fatal iprn val ∨ mtpr_exits env iprn) := by
  refine iff_of_false (Option.some_ne_none e) ?_
  unfold mtpr_fatal mtpr_exits
  rintro ((⟨h, _⟩ | ⟨h, _⟩ | ⟨h, _⟩ | h) | ⟨h, _⟩)
  · exact hh.2.1 h
  · exact hh.2.2.1 h
  · exact hh.2.2.2.1 h
  · exact h hh.1
  · exact hh.2.2.2.2 h

/-- The case `IPR_PCTX ... IPR_PCTX_ALL` aborts exactly on a selected non-zero ASTRR or
ASTER field. -/
theorem mtpr_pctx_none_iff (env : CPUAlphaState) (iprn val : Nat) :
    mtpr_pctx env iprn val = none
      ↔ (iprn &&& IPR_PCTX_ASTRR ≠ 0 ∧ (val >>> IPR_PCTX_ASTRR_SHIFT) &&& 0xf ≠ 0)
        ∨ (iprn &&& IPR_PCTX_ASTER ≠ 0 ∧ (val >>> IPR_PCTX_ASTER_SHIFT) &&& 0xf ≠ 0) := by
  have aster : ∀ env2 : CPUAlphaState,
      ((if iprn &&& IPR_PCTX_ASTER ≠ 0 ∧ (pctx_aster env2 iprn val).a21264.aster ≠ 0
        then none
        else some (pctx_ppce (pctx_fpe (pctx_aster env2 iprn val) iprn val) iprn val))
        = none)
      ↔ (iprn &&& IPR_PCTX_ASTER ≠ 0 ∧ (val >>> IPR_PCTX_ASTER_SHIFT) &&& 0xf ≠ 0) := by
    intro env2
    by_cases h1 : iprn &&& IPR_PCTX_ASTER ≠ 0
    · have e : (pctx_aster env2 iprn val).a21264.aster
          = (val >>> IPR_PCTX_ASTER_SHIFT) &&& 0xf := by
        unfold pctx_aster
        rw [if_pos h1]
      rw [e]
      by_cases h2 : (val >>> IPR_PCTX_ASTER_SHIFT) &&& 0xf ≠ 0
      · rw [if_pos ⟨h1, h2⟩]
        exact iff_of_true rfl ⟨h1, h2⟩
      · rw [if_neg (fun h => h2 h.2)]
        exact iff_of_false (Option.some_ne_none _) (fun h => h2 h.2)
    · rw [if_neg (fun h => h1 h.1)]
      exact iff_of_false (Option.some_ne_none _) (fun h => h1 h.1)
  unfold mtpr_pctx
  simp only
  by_cases h1 : iprn &&& IPR_PCTX_ASTRR ≠ 0
  · have e : (pctx_astrr (pctx_asn env iprn val) iprn val).a21264.astrr
        = (val >>> IPR_PCTX_ASTRR_SHIFT) &&& 0xf := by
      unfold pctx_astrr
      rw [if_pos h1]
    rw [e]
    by_cases h2 : (val >>> IPR_PCTX_ASTRR_SHIFT) &&& 0xf ≠ 0
    · rw [if_pos ⟨h1, h2⟩]
      exact iff_of_true rfl (Or.inl ⟨h1, h2⟩)
    · rw [if_neg (fun h => h2 h.2), aster]
      constructor
      · exact fun h => Or.inr h
      · rintro (h | h)
        · exact absurd h.2 h2
        · exact h
  · rw [if_neg (fun h => h1 h.1), aster]
    constructor
    · exact fun h => Or.inr h
    · rintro (h | h)
      · exact absurd h.1 h1
      · exact h

/-! ## C20 -/

/-- C20 (amended): `cpu_alpha_mtpr_21264` does not return exactly on a write of VA_CTL
with bit 0 set, a write of DC_CTL with a bit of 0x34 set, a PCTX write that selects the
ASTRR or ASTER field with a non-zero value of the field, a write to an id that has no
case in the `switch` (all four call `cpu_abort`), and a write to the id 0x2d in a state
whose `pal_reloc_val` is non-zero (it calls `alpha_21264_srm_write`, which ends the
process with `exit`); every other write returns normally. -/
theorem c20_mtpr_fatal_iff (ticks : Nat) (env : CPUAlphaState) (iprn val : Nat) :
    cpu_alpha_mtpr_21264 ticks env iprn val = none
      ↔ (mtpr_fatal iprn val ∨ mtpr_exits env iprn) := by
  refine mtpr_cases_default ticks env iprn val
    (fun r => r = none ↔ (mtpr_fatal iprn val ∨ mtpr_exits env iprn))
    (fun h => mtpr_some_iff _ _ _ _ (by subst h; decide))
    (fun h => mtpr_some_iff _ _ _ _ (by subst h; decide))
    (fun h => mtpr_some_iff _ _ _ _ (by subst h; decide))
    (fun h => mtpr_some_iff _ _ _ _ (by subst h; decide))
    (fun h => mtpr_some_iff _ _ _ _ (by rcases h with h | h | h <;> subst h <;> decide))
    (fun h => mtpr_some_iff _ _ _ _ (by subst h; decide))
    (fun h => mtpr_some_iff _ _ _ _ (by subst h; decide))
    (fun h => mtpr_some_iff _ _ _ _ (by subst h; decide))
    (fun h => mtpr_some_iff _ _ _ _ (by subst h; decide))
    (fun h => mtpr_some_iff _ _ _ _ (by subst h; decide))
    ?va_ctl
    (fun h => mtpr_some_iff _ _ _ _ (by rcases h with h | h | h <;> subst h <;> decide))
    (fun h => mtpr_some_iff _ _ _ _ (by rcases h with h | h <;> subst h <;> decide))
    (fun h => mtpr_some_iff _ _ _ _ (by subst h; decide))
    (fun h => mtpr_some_iff _ _ _ _ (by subst h; decide))
    (fun h => mtpr_some_iff _ _ _ _ (by subst h; decide))
    (fun h => mtpr_some_iff _ _ _ _ (by subst h; decide))
    (fun h => mtpr_some_iff _ _ _ _ (by subst h; decide))
    (fun h => mtpr_some_iff _ _ _ _ (by subst h; decide))
    (fun h => mtpr_some_iff _ _ _ _ (by subst h; decide))
    (fun h => mtpr_some_iff _ _ _ _ (by rcases h with h | h <;> subst h <;> decide))
    (fun h => mtpr_some_iff _ _ _ _ (by subst h; decide))
    ?pctx
    (fun h => mtpr_some_iff _ _ _ _ (by subst h; decide))
    (fun h => mtpr_some_iff _ _ _ _ (by subst h; decide))
    (fun h => mtpr_some_iff _ _ _ _ (by subst h; decide))
    (fun h => mtpr_some_iff _ _ _ _ (by subst h; decide))
    (fun h => mtpr_some_iff _ _ _ _ (by subst h; decide))
    (fun h => mtpr_some_iff _ _ _ _ (by rcases h with h | h <;> subst h <;> decide))
    ?dc_ctl
    ?m_fix
    (fun h => iff_of_true rfl (Or.inl (Or.inr (Or.inr (Or.inr h)))))
  case va_ctl =>
    intro h
    subst h
    unfold mtpr_va_ctl
    by_cases hb : val &&& 1 ≠ 0
    · rw [if_pos hb]
      exact iff_of_true rfl (Or.inl (Or.inl ⟨rfl, hb⟩))
    · rw [if_neg hb]
      refine iff_of_false (Option.some_ne_none _) ?_
      unfold mtpr_fatal mtpr_exits
      rintro ((⟨_, h⟩ | ⟨h, _⟩ | ⟨h, _⟩ | h) | ⟨h, _⟩)
      · exact hb h
      · revert h; decide
      · revert h; decide
      · revert h; decide
      · revert h; decide
  case pctx =>
    intro h
    rw [mtpr_pctx_none_iff]
    unfold mtpr_fatal mtpr_exits
    have hdef : mtpr_handled iprn := by
      unfold mtpr_handled
      iterate 22 right
      left
      exact h
    constructor
    · intro hf
      exact Or.inl (Or.inr (Or.inr (Or.inl ⟨h, hf⟩)))
    · rintro ((⟨h1, _⟩ | ⟨h1, _⟩ | ⟨_, hf⟩ | hn) | ⟨h1, _⟩)
      · exfalso
        rw [h1] at h
        revert h
        decide
      · exfalso
        rw [h1] at h
        revert h
        decide
      · exact hf
      · exact absurd hdef hn
      · exfalso
        rw [h1] at h
        revert h
        decide
  case dc_ctl =>
    intro h
    subst h
    by_cases hb : val &&& 0x34 ≠ 0
    · rw [if_pos hb]
      exact iff_of_true rfl (Or.inl (Or.inr (Or.inl ⟨rfl, hb⟩)))
    · rw [if_neg hb]
      refine iff_of_false (Option.some_ne_none _) ?_
      unfold mtpr_fatal mtpr_exits
      rintro ((⟨h, _⟩ | ⟨_, h⟩ | ⟨h, _⟩ | h) | ⟨h, _⟩)
      · revert h; decide
      · exact hb h
      · revert h; decide
      · revert h; decide
      · revert h; decide
  case m_fix =>
    intro h
    subst h
    have hn : ¬ mtpr_fatal 0x2d val := by
      unfold mtpr_fatal
      rintro (⟨h, _⟩ | ⟨h, _⟩ | ⟨h, _⟩ | h)
      · revert h; decide
      · revert h; decide
      · revert h; decide
      · revert h; decide
    by_cases hb : env.a21264.pal_reloc_val ≠ 0
    · rw [if_pos hb]
      refine iff_of_true ?_ (Or.inr ⟨rfl, hb⟩)
      simp only [alpha_21264_srm_write]
    · rw [if_neg hb]
      refine iff_of_false (Option.some_ne_none _) ?_
      rintro (h | h)
      · exact hn h
      · exact hb h.2

/-- C20, as claimed, fails: the writes of VA_CTL with bit 0 set, of DC_CTL with a bit of
0x34 set, of the ASTRR field of PCTX with a non-zero value, and of the unhandled id
0x05 (PMPC) abort, and the write of the id 0x2d in a state with a non-zero
`pal_reloc_val` ends the process. -/
theorem c20_counterexample :
    cpu_alpha_mtpr_21264 0 env_zero IPR_VA_CTL 1 = none
    ∧ cpu_alpha_mtpr_21264 0 env_zero IPR_DC_CTL 4 = none
    ∧ cpu_alpha_mtpr_21264 0 env_zero (IPR_PCTX + IPR_PCTX_ASTRR) (1 <<< 9) = none
    ∧ cpu_alpha_mtpr_21264 0 env_zero IPR_PMPC 0 = none
    ∧ cpu_alpha_mtpr_21264 0 env_rombuild 0x2d 0 = none :=
  ⟨Option.isNone_iff_eq_none.mp (by decide), Option.isNone_iff_eq_none.mp (by decide),
   Option.isNone_iff_eq_none.mp (by decide), Option.isNone_iff_eq_none.mp (by decide),
   Option.isNone_iff_eq_none.mp (by decide)⟩

theorem c20_mtpr_fatal_iff_witness :
    cpu_alpha_mtpr_21264 0 env_zero IPR_VA_CTL 1 = none
    ∧ (∃ e, cpu_alpha_mtpr_21264 0 env_zero IPR_VA_CTL 2 = some e)
    ∧ cpu_alpha_mtpr_21264 7 env_user_ro 0x2e 0 = none
    ∧ cpu_alpha_mtpr_21264 0 env_rombuild 0x2d 0 = none
    ∧ (∃ e, cpu_alpha_mtpr_21264 0 env_zero 0x2d 0 = some e) :=
  ⟨(c20_mtpr_fatal_iff 0 env_zero IPR_VA_CTL 1).2 (by decide),
   Option.ne_none_iff_exists'.mp
     (fun h => absurd ((c20_mtpr_fatal_iff 0 env_zero IPR_VA_CTL 2).1 h) (by decide)),
   (c20_mtpr_fatal_iff 7 env_user_ro 0x2e 0).2 (by decide),
   (c20_mtpr_fatal_iff 0 env_rombuild 0x2d 0).2 (by decide),
   Option.ne_none_iff_exists'.mp
     (fun h => absurd ((c20_mtpr_fatal_iff 0 env_zero 0x2d 0).1 h) (by decide))⟩

/-! ## Diagnostic registers of a data fault -/

/-- The low four bits of `mm_stat`: below 16, and odd exactly for a write. -/
theorem mm_stat_low (p1 p2 p3 p4 : Prop) [Decidable p1] [Decidable p2] [Decidable p3]
    [Decidable p4] :
    ((if p1 then 1 else 0) ||| ((if p2 then 6 else 0)
        ||| ((if p3 then 0xa else 0) ||| (if p4 then 2 else 0))) : Nat) < 16
    ∧ (((if p1 then 1 else 0) ||| ((if p2 then 6 else 0)
        ||| ((if p3 then 0xa else 0) ||| (if p4 then 2 else 0))) : Nat) % 2 = 1 ↔ p1) := by
  by_cases h1 : p1 <;> by_cases h2 : p2 <;> by_cases h3 : p3 <;> by_cases h4 : p4 <;>
    simp only [h1, h2, h3, h4, if_true, if_false, iff_true, iff_false] <;> decide

/-- The value of `mm_stat` as a number: the opcode times 16 plus the low four bits. -/
theorem mm_stat_value (pte : alpha_pte) (rwx insn : Nat) (hi : insn < 2 ^ 32) :
    mmu_fault_mm_stat pte rwx insn / 2 ^ 4 = insn / 2 ^ 26
    ∧ (flag_bit (mmu_fault_mm_stat pte rwx insn) 0 ↔ rwx = 1) := by
  unfold mmu_fault_mm_stat flag_bit
  obtain ⟨hlt, hodd⟩ := mm_stat_low (rwx = 1) (rwx = 0 ∧ pte.fl &&& ALPHA_PTE_FOR ≠ 0)
    (rwx = 1 ∧ pte.fl &&& ALPHA_PTE_FOW ≠ 0) (pte.fl = 0 ∧ pte.asn = PTE_ASN_BAD_VA)
  rw [Nat.or_assoc, Nat.or_assoc, Nat.or_assoc, Nat.shiftLeft_eq, Nat.shiftRight_eq_div_pow,
    Nat.mul_comm, ← Nat.mul_add_lt_is_or (by simpa using hlt)]
  generalize ((if rwx = 1 then 1 else 0) ||| ((if rwx = 0 ∧ pte.fl &&& ALPHA_PTE_FOR ≠ 0
    then 6 else 0) ||| ((if rwx = 1 ∧ pte.fl &&& ALPHA_PTE_FOW ≠ 0 then 0xa else 0)
    ||| (if pte.fl = 0 ∧ pte.asn = PTE_ASN_BAD_VA then 2 else 0))) : Nat) = w at hlt hodd ⊢
  have hy : insn / 2 ^ 26 < 64 := by omega
  constructor
  · omega
  · rw [← hodd]
    omega

/-- The state a failed data access leaves (lines 229-275 of `helper.c`). -/
theorem mmu_fault_data_failure (eng : Engine) (env : CPUAlphaState)
    (a rwx mmu_idx retaddr : Nat) (r : FaultResult) (h2 : rwx ≠ 2)
    (h : mmu_fault_ok (cpu_alpha_mmu_v2p_21264 env a rwx) env.a21264.cm rwx = false)
    (hr : cpu_alpha_mmu_fault_21264 eng env a rwx mmu_idx retaddr = some r) :
    ∃ tb f, eng.tb_find_pc retaddr = some tb
      ∧ va_form a env.a21264.d_vptb env.a21264.dva_48 = some f
      ∧ r.env.a21264.va = a
      ∧ r.env.a21264.exc_sum = ((fault_insn eng tb retaddr >>> 21) &&& 0x1f) <<< 8
      ∧ r.env.a21264.mm_stat
          = mmu_fault_mm_stat (cpu_alpha_mmu_v2p_21264 env a rwx) rwx
              (fault_insn eng tb retaddr)
      ∧ r.env.a21264.va_form = f := by
  unfold cpu_alpha_mmu_fault_21264 at hr
  simp only [h, Bool.false_eq_true, if_false, h2] at hr
  by_cases hra : retaddr = 0
  · simp [hra] at hr
  · simp only [hra, if_false] at hr
    cases htb : eng.tb_find_pc retaddr with
    | none => simp [htb] at hr
    | some tb =>
      simp only [htb] at hr
      unfold cpu_alpha_mmu_dfault_21264 at hr
      simp only at hr
      cases hf : va_form a env.a21264.d_vptb env.a21264.dva_48 with
      | none => simp [hf] at hr
      | some f =>
        simp only [hf, Option.some.injEq] at hr
        refine ⟨tb, f, rfl, rfl, ?_, ?_, ?_, ?_⟩ <;> rw [← hr] <;> rfl

/-! ## C21 -/

/-- C21: a data-stream access (`rwx` 0 or 1) that returns 1 has found the block of the
faulting instruction and leaves `va` = the faulting address,
`exc_sum = ((insn >> 21) & 0x1f) << 8`, `mm_stat` with bit 0 set exactly for a write and
with `insn >> 26` from bit 4 upward, and `va_form` = the page-table form of the address
under `d_vptb`; `insn` is the 32-bit instruction word read for the fault. The call
does return 1 when the access is not permitted and the engine can take the report. -/
theorem c21_data_fault_registers (eng : Engine) (env : CPUAlphaState)
    (a rwx mmu_idx retaddr : Nat) (hrwx : rwx = 0 ∨ rwx = 1)
    (hinsn : ∀ p, eng.ldl_phys p < 2 ^ 32) :
    (∀ r, cpu_alpha_mmu_fault_21264 eng env a rwx mmu_idx retaddr = some r → r.ret = 1 →
      ∃ tb, eng.tb_find_pc retaddr = some tb
        ∧ r.env.a21264.va = a
        ∧ r.env.a21264.exc_sum = ((fault_insn eng tb retaddr / 2 ^ 21) % 32) * 2 ^ 8
        ∧ (flag_bit r.env.a21264.mm_stat 0 ↔ rwx = 1)
        ∧ r.env.a21264.mm_stat / 2 ^ 4 = fault_insn eng tb retaddr / 2 ^ 26
        ∧ va_form a env.a21264.d_vptb env.a21264.dva_48 = some r.env.a21264.va_form)
    ∧ (mmu_fault_ok (cpu_alpha_mmu_v2p_21264 env a rwx) env.a21264.cm rwx = false →
        fault_reportable eng env rwx retaddr →
        ∃ r, cpu_alpha_mmu_fault_21264 eng env a rwx mmu_idx retaddr = some r
          ∧ r.ret = 1) := by
  have h2 : rwx ≠ 2 := by omega
  constructor
  · intro r hr hret
    have hok : mmu_fault_ok (cpu_alpha_mmu_v2p_21264 env a rwx) env.a21264.cm rwx
        = false := by
      cases hb : mmu_fault_ok (cpu_alpha_mmu_v2p_21264 env a rwx) env.a21264.cm rwx with
      | false => rfl
      | true =>
        obtain ⟨r2, hr2, hz⟩ := mmu_fault_success eng env a rwx mmu_idx retaddr hb
        rw [hr] at hr2
        simp only [Option.some.injEq] at hr2
        rw [hr2, hz] at hret
        exact absurd hret (by decide)
    obtain ⟨tb, f, htb, hf, hva, hsum, hmm, hform⟩ :=
      mmu_fault_data_failure eng env a rwx mmu_idx retaddr r h2 hok hr
    obtain ⟨m1, m2⟩ := mm_stat_value (cpu_alpha_mmu_v2p_21264 env a rwx) rwx
      (fault_insn eng tb retaddr) (hinsn _)
    refine ⟨tb, htb, hva, ?_, ?_, ?_, ?_⟩
    · rw [hsum, Nat.shiftLeft_eq, Nat.shiftRight_eq_div_pow]
      have : (0x1f : Nat) = 2 ^ 5 - 1 := by decide
      rw [this, Nat.and_pow_two_sub_one_eq_mod]
    · rw [hmm]
      exact m2
    · rw [hmm]
      exact m1
    · rw [hform]
      exact hf
  · intro hok hrep
    obtain ⟨r, hr⟩ := mmu_fault_returns eng env a rwx mmu_idx retaddr hok hrep
    exact ⟨r, hr, (mmu_fault_failure eng env a rwx mmu_idx retaddr r hok hr).1⟩

theorem c21_data_fault_registers_witness :
    ((1 : Nat) = 0 ∨ (1 : Nat) = 1)
    ∧ (∀ p, eng_store.ldl_phys p < 2 ^ 32)
    ∧ (cpu_alpha_mmu_fault_21264 eng_store env_user_ro 0x10008 1 3 1).map
        (fun r => (r.ret, r.env.a21264.va, r.env.a21264.exc_sum, r.env.a21264.mm_stat))
        = some (1, 0x10008, 0x100, 0x2d1)
    ∧ ∃ r, cpu_alpha_mmu_fault_21264 eng_store env_user_ro 0x10008 1 3 1 = some r
      ∧ r.ret = 1
      ∧ ∃ tb, eng_store.tb_find_pc 1 = some tb
        ∧ r.env.a21264.va = 0x10008
        ∧ r.env.a21264.exc_sum = ((fault_insn eng_store tb 1 / 2 ^ 21) % 32) * 2 ^ 8
        ∧ (flag_bit r.env.a21264.mm_stat 0 ↔ (1 : Nat) = 1)
        ∧ r.env.a21264.mm_stat / 2 ^ 4 = fault_insn eng_store tb 1 / 2 ^ 26
        ∧ va_form 0x10008 env_user_ro.a21264.d_vptb env_user_ro.a21264.dva_48
            = some r.env.a21264.va_form :=
  ⟨Or.inr rfl, fun _ => (by decide : (0xB4220000 : Nat) < 2 ^ 32), by decide,
   match (c21_data_fault_registers eng_store env_user_ro 0x10008 1 3 1 (Or.inr rfl)
      (fun _ => (by decide : (0xB4220000 : Nat) < 2 ^ 32))).2 (by decide) (by decide) with
   | ⟨r, hr, hret⟩ =>
     ⟨r, hr, hret,
      (c21_data_fault_registers eng_store env_user_ro 0x10008 1 3 1 (Or.inr rfl)
        (fun _ => (by decide : (0xB4220000 : Nat) < 2 ^ 32))).1 r hr hret⟩⟩

/-! ## C22 -/

/-- A state with the integer registers of `swap_shadow_21264 e1` and the shadowed
registers of `e1` in its shadow registers has the eight registers exchanged. -/
theorem regs_swapped_of_shadow (e1 e2 : CPUAlphaState)
    (hir : e2.ir = (swap_shadow_21264 e1).ir)
    (hs : shadow_regs e2 = shadowed_ir e1) : regs_swapped e1 e2 := by
  refine ⟨?_, hs, ?_⟩
  · simp [shadowed_ir, shadow_regs, hir, swap_shadow_21264, set_ir]
  · intro j hj
    simp only [is_shadowed, not_or] at hj
    obtain ⟨h4, h5, h6, h7, h20, h21, h22, h23⟩ := hj
    rw [hir]
    simp only [swap_shadow_21264, set_ir]
    rw [if_neg h23, if_neg h22, if_neg h21, if_neg h20, if_neg h7, if_neg h6, if_neg h5,
      if_neg h4]

/-- The registers after the case `IPR_I_CTL`. -/
theorem mtpr_i_ctl_regs (env : CPUAlphaState) (val : Nat) :
    (env.pal_mode ≠ 0 ∧ env.a21264.sde1 ≠ (val >>> IPR_I_CTL_SDE1_SHIFT) &&& 1 →
      regs_swapped env (mtpr_i_ctl env val))
    ∧ (¬ (env.pal_mode ≠ 0 ∧ env.a21264.sde1 ≠ (val >>> IPR_I_CTL_SDE1_SHIFT) &&& 1) →
      regs_same env (mtpr_i_ctl env val)) := by
  constructor
  · intro hc
    have hc2 : (set_i_ctl env val).pal_mode ≠ 0
        ∧ env.a21264.sde1 ≠ (set_i_ctl env val).a21264.sde1 := hc
    apply regs_swapped_of_shadow
    · unfold mtpr_i_ctl
      rw [if_pos hc2]
      simp only [swap_shadow_21264, set_i_ctl]
    · unfold mtpr_i_ctl
      rw [if_pos hc2]
      simp only [shadow_regs, shadowed_ir, swap_shadow_21264, set_i_ctl]
  · intro hc
    have hc2 : ¬ ((set_i_ctl env val).pal_mode ≠ 0
        ∧ env.a21264.sde1 ≠ (set_i_ctl env val).a21264.sde1) := hc
    refine ⟨fun j => ?_, ?_⟩
    · unfold mtpr_i_ctl
      rw [if_neg hc2]
      simp only [set_i_ctl]
    · unfold mtpr_i_ctl
      rw [if_neg hc2]
      simp only [shadow_regs, set_i_ctl]

/-- C22: a write to I_CTL returns; performed while `pal_mode` is set with a value whose
bit 7 (SDE1) differs from the previous `sde1`, it exchanges the eight shadowed integer
registers with the shadow registers and leaves the other integer registers unchanged;
performed with bit 7 equal to the previous `sde1`, or while `pal_mode` is clear, it
leaves all integer and shadow registers unchanged. In both cases `sde1` becomes
bit 7 of the value. -/
theorem c22_i_ctl_shadow_swap (ticks : Nat) (env : CPUAlphaState) (val : Nat) :
    ∃ e, cpu_alpha_mtpr_21264 ticks env IPR_I_CTL val = some e
      ∧ e.a21264.sde1 = (val / 2 ^ 7) % 2
      ∧ (env.pal_mode ≠ 0 ∧ (val / 2 ^ 7) % 2 ≠ env.a21264.sde1 → regs_swapped env e)
      ∧ (¬ (env.pal_mode ≠ 0 ∧ (val / 2 ^ 7) % 2 ≠ env.a21264.sde1) → regs_same env e) := by
  have hb : (val >>> IPR_I_CTL_SDE1_SHIFT) &&& 1 = (val / 2 ^ 7) % 2 := by
    rw [Nat.shiftRight_eq_div_pow, Nat.and_one_is_mod, IPR_I_CTL_SDE1_SHIFT]
  obtain ⟨h1, h2⟩ := mtpr_i_ctl_regs env val
  rw [hb] at h1 h2
  refine ⟨_, mtpr_at_i_ctl ticks env val, ?_, ?_, ?_⟩
  · rw [← hb]
    unfold mtpr_i_ctl
    split_ifs
    · simp only [swap_shadow_21264, set_i_ctl]
    · simp only [set_i_ctl]
  · exact fun hc => h1 ⟨hc.1, Ne.symm hc.2⟩
  · exact fun hc => h2 (fun hh => hc ⟨hh.1, Ne.symm hh.2⟩)

theorem c22_i_ctl_shadow_swap_witness :
    (cpu_alpha_mtpr_21264 0 env_pal IPR_I_CTL 0).map
        (fun e => (e.a21264.sde1, shadowed_ir e, shadow_regs e))
      = some (0, [204, 205, 206, 207, 220, 221, 222, 223],
              [104, 105, 106, 107, 120, 121, 122, 123])
    ∧ (cpu_alpha_mtpr_21264 0 env_shadow IPR_I_CTL 0).map
        (fun e => (e.a21264.sde1, shadowed_ir e, shadow_regs e))
      = some (0, [104, 105, 106, 107, 120, 121, 122, 123],
              [204, 205, 206, 207, 220, 221, 222, 223])
    ∧ ∃ e, cpu_alpha_mtpr_21264 0 env_pal IPR_I_CTL 0 = some e
      ∧ e.a21264.sde1 = (0 / 2 ^ 7) % 2
      ∧ (env_pal.pal_mode ≠ 0 ∧ (0 / 2 ^ 7) % 2 ≠ env_pal.a21264.sde1 →
          regs_swapped env_pal e)
      ∧ (¬ (env_pal.pal_mode ≠ 0 ∧ (0 / 2 ^ 7) % 2 ≠ env_pal.a21264.sde1) →
          regs_same env_pal e) :=
  ⟨by decide, by decide, c22_i_ctl_shadow_swap 0 env_pal 0⟩

/-! ## C23 -/

/-- In the call class with `call_pal_r23` enabled the second `switch` of
`do_interrupt` stores `pc` in `ir[23]` after the shadow swap. -/
theorem do_interrupt_pal_call (e : CPUAlphaState) (v : Int)
    (hp : e.pal_emul = pal_emul.PAL_21264)
    (hcall : v.toNat &&& EXCP_CALL_PALP ≠ 0 ∧ e.a21264.call_pal_r23 ≠ 0) :
    (do_interrupt_pal e v).ir = set_ir (do_interrupt_swap e).ir 23 e.pc
    ∧ (do_interrupt_pal e v).a21264 = (do_interrupt_swap e).a21264 := by
  have hsw : (do_interrupt_swap e).a21264.call_pal_r23 = e.a21264.call_pal_r23
      ∧ (do_interrupt_swap e).pc = e.pc := by
    unfold do_interrupt_swap
    split_ifs
    · simp only [swap_shadow_21264, and_self]
    · exact ⟨rfl, rfl⟩
  unfold do_interrupt_pal
  rw [hp]
  simp only
  have hr : do_interrupt_r23 (do_interrupt_swap e) v
      = { do_interrupt_swap e with
          ir := set_ir (do_interrupt_swap e).ir 23 (do_interrupt_swap e).pc } := by
    unfold do_interrupt_r23
    rw [if_pos ⟨hcall.1, by rw [hsw.1]; exact hcall.2⟩]
  rw [hr]
  unfold do_interrupt_reset
  split_ifs
  · simp only [cpu_reset_interrupt, hsw.2, and_self]
  · simp only [hsw.2, and_self]

/-- The hardware vectors 0x100 .. 0x780 are not of the call class. -/
theorem hw_vector_not_call (x : Int) (h1 : 0x100 ≤ x) (h2 : x ≤ 0x780) :
    x.toNat &&& EXCP_CALL_PALP = 0 := by
  have hx : x.toNat < 2 ^ 13 := by omega
  have hp : EXCP_CALL_PALP = 2 ^ 13 := by decide
  rw [hp]
  apply (and_pow2_eq_zero_iff _ _).2
  omega

/-- Outside the call class, or with `call_pal_r23` disabled, the second `switch` of
`do_interrupt` changes the registers only by the shadow swap. -/
theorem do_interrupt_pal_nocall (e : CPUAlphaState) (v : Int)
    (hp : e.pal_emul = pal_emul.PAL_21264)
    (hcall : ¬ (v.toNat &&& EXCP_CALL_PALP ≠ 0 ∧ e.a21264.call_pal_r23 ≠ 0)) :
    (do_interrupt_pal e v).ir = (do_interrupt_swap e).ir
    ∧ (do_interrupt_pal e v).a21264 = (do_interrupt_swap e).a21264 := by
  have hsw : (do_interrupt_swap e).a21264.call_pal_r23 = e.a21264.call_pal_r23 := by
    unfold do_interrupt_swap
    split_ifs
    · simp only [swap_shadow_21264]
    · rfl
  unfold do_interrupt_pal
  rw [hp]
  simp only
  have hr : do_interrupt_r23 (do_interrupt_swap e) v = do_interrupt_swap e := by
    unfold do_interrupt_r23
    rw [if_neg (fun h => hcall ⟨h.1, by rw [← hsw]; exact h.2⟩)]
  rw [hr]
  unfold do_interrupt_reset
  split_ifs
  · simp only [cpu_reset_interrupt, and_self]
  · exact ⟨rfl, rfl⟩

/-- The registers after the shadow swap of `do_interrupt`. -/
theorem do_interrupt_swap_regs (env : CPUAlphaState) :
    (env.a21264.sde1 ≠ 0 ∧ (env.pc ||| env.pal_mode) &&& 1 = 0 →
      (do_interrupt_swap
          { env with exc_addr := env.pc ||| env.pal_mode, exception_index := 0,
                     error_code := 0, pal_mode := 1, mmu_code_index := MMU_PAL_IDX }).ir
        = (swap_shadow_21264 env).ir
      ∧ (do_interrupt_swap
          { env with exc_addr := env.pc ||| env.pal_mode, exception_index := 0,
                     error_code := 0, pal_mode := 1, mmu_code_index := MMU_PAL_IDX }).a21264
        = (swap_shadow_21264 env).a21264)
    ∧ (¬ (env.a21264.sde1 ≠ 0 ∧ (env.pc ||| env.pal_mode) &&& 1 = 0) →
      (do_interrupt_swap
          { env with exc_addr := env.pc ||| env.pal_mode, exception_index := 0,
                     error_code := 0, pal_mode := 1, mmu_code_index := MMU_PAL_IDX }).ir
        = env.ir
      ∧ (do_interrupt_swap
          { env with exc_addr := env.pc ||| env.pal_mode, exception_index := 0,
                     error_code := 0, pal_mode := 1, mmu_code_index := MMU_PAL_IDX }).a21264
        = env.a21264) := by
  constructor
  · intro hs
    unfold do_interrupt_swap
    rw [if_pos hs]
    simp only [swap_shadow_21264, and_self]
  · intro hs
    unfold do_interrupt_swap
    rw [if_neg hs]
    exact ⟨rfl, rfl⟩

/-- The registers of the result of `do_interrupt` are those the second `switch`
leaves. -/
theorem do_interrupt_result_regs (env e : CPUAlphaState) (h : do_interrupt env = some e) :
    e.ir = (do_interrupt_pal
        { env with exc_addr := env.pc ||| env.pal_mode, exception_index := 0,
                   error_code := 0, pal_mode := 1, mmu_code_index := MMU_PAL_IDX }
        (interrupt_vector env.exception_index)).ir
    ∧ e.a21264 = (do_interrupt_pal
        { env with exc_addr := env.pc ||| env.pal_mode, exception_index := 0,
                   error_code := 0, pal_mode := 1, mmu_code_index := MMU_PAL_IDX }
        (interrupt_vector env.exception_index)).a21264 := by
  obtain ⟨v, hv, he⟩ := do_interrupt_shape env e h
  have hvec := do_interrupt_excp_vector _ _ _ hv
  subst hvec
  rw [he]
  exact ⟨rfl, rfl⟩

/-- C23: under 21264 PALcode emulation `do_interrupt` returns for a raised condition
from 1 up that is not the generic interrupt raised in PAL mode. When the vector is of
the call class (bit `EXCP_CALL_PALP` set) and `call_pal_r23` is enabled, `ir[23]` of
the result holds the `pc` of before the transition; the store follows the shadow swap:
when the swap is done (shadow mode on, bit 0 of `pc | pal_mode` clear) the shadow
registers hold the eight shadowed registers of before, `shadow_r23` the caller's
`ir[23]`, and `ir[4..7]`, `ir[20..22]` hold the former shadow registers; when it is not
done only `ir[23]` changes. When the vector is not of the call class or `call_pal_r23`
is disabled, the registers change by the shadow swap only. The hardware vectors
0x100 .. 0x780 are not of the call class. -/
theorem c23_call_pal_r23 (env : CPUAlphaState)
    (hp : env.pal_emul = pal_emul.PAL_21264) (hx : 1 ≤ env.exception_index)
    (hnot : ¬ (env.pal_mode ≠ 0 ∧ env.exception_index = EXCP_GEN_INTERRUPT)) :
    (∃ e, do_interrupt env = some e
      ∧ ((interrupt_vector env.exception_index).toNat &&& EXCP_CALL_PALP ≠ 0
          ∧ env.a21264.call_pal_r23 ≠ 0 →
        e.ir 23 = env.pc
        ∧ (env.a21264.sde1 ≠ 0 ∧ (env.pc ||| env.pal_mode) &&& 1 = 0 →
            shadow_regs e = shadowed_ir env
            ∧ e.a21264.shadow_r23 = env.ir 23
            ∧ [e.ir 4, e.ir 5, e.ir 6, e.ir 7, e.ir 20, e.ir 21, e.ir 22]
                = [env.a21264.shadow_r4, env.a21264.shadow_r5, env.a21264.shadow_r6,
                   env.a21264.shadow_r7, env.a21264.shadow_r20, env.a21264.shadow_r21,
                   env.a21264.shadow_r22]
            ∧ ∀ j, ¬ is_shadowed j → e.ir j = env.ir j)
        ∧ (¬ (env.a21264.sde1 ≠ 0 ∧ (env.pc ||| env.pal_mode) &&& 1 = 0) →
            shadow_regs e = shadow_regs env ∧ ∀ j, j ≠ 23 → e.ir j = env.ir j))
      ∧ (¬ ((interrupt_vector env.exception_index).toNat &&& EXCP_CALL_PALP ≠ 0
            ∧ env.a21264.call_pal_r23 ≠ 0) →
        (env.a21264.sde1 ≠ 0 ∧ (env.pc ||| env.pal_mode) &&& 1 = 0 → regs_swapped env e)
        ∧ (¬ (env.a21264.sde1 ≠ 0 ∧ (env.pc ||| env.pal_mode) &&& 1 = 0) →
            regs_same env e)))
    ∧ ∀ x : Int, 0x100 ≤ x → x ≤ 0x780 → x.toNat &&& EXCP_CALL_PALP = 0 := by
  refine ⟨?_, hw_vector_not_call⟩
  obtain ⟨e, h⟩ := do_interrupt_returns env hx (fun _ => hp) hnot
  obtain ⟨hir, ha⟩ := do_interrupt_result_regs env e h
  obtain ⟨sw1, sw0⟩ := do_interrupt_swap_regs env
  refine ⟨e, h, ?_, ?_⟩
  · intro hcall
    obtain ⟨r1, r2⟩ := do_interrupt_pal_call
      { env with exc_addr := env.pc ||| env.pal_mode, exception_index := 0,
                 error_code := 0, pal_mode := 1, mmu_code_index := MMU_PAL_IDX }
      (interrupt_vector env.exception_index) hp hcall
    rw [r1] at hir
    rw [r2] at ha
    refine ⟨?_, ?_, ?_⟩
    · rw [hir]
      simp only [set_ir, if_true]
    · intro hs
      obtain ⟨s1, s2⟩ := sw1 hs
      rw [s1] at hir
      rw [s2] at ha
      refine ⟨?_, ?_, ?_, ?_⟩
      · simp only [shadow_regs, ha, shadowed_ir, swap_shadow_21264]
      · rw [ha]
        simp only [swap_shadow_21264]
      · rw [hir]
        simp [swap_shadow_21264, set_ir]
      · intro j hj
        simp only [is_shadowed, not_or] at hj
        obtain ⟨h4, h5, h6, h7, h20, h21, h22, h23⟩ := hj
        rw [hir]
        simp only [swap_shadow_21264, set_ir]
        rw [if_neg h23, if_neg h23, if_neg h22, if_neg h21, if_neg h20, if_neg h7,
          if_neg h6, if_neg h5, if_neg h4]
    · intro hs
      obtain ⟨s1, s2⟩ := sw0 hs
      rw [s1] at hir
      rw [s2] at ha
      refine ⟨?_, ?_⟩
      · simp only [shadow_regs, ha]
      · intro j hj
        rw [hir]
        simp only [set_ir]
        rw [if_neg hj]
  · intro hcall
    obtain ⟨r1, r2⟩ := do_interrupt_pal_nocall
      { env with exc_addr := env.pc ||| env.pal_mode, exception_index := 0,
                 error_code := 0, pal_mode := 1, mmu_code_index := MMU_PAL_IDX }
      (interrupt_vector env.exception_index) hp hcall
    rw [r1] at hir
    rw [r2] at ha
    constructor
    · intro hs
      obtain ⟨s1, s2⟩ := sw1 hs
      exact regs_swapped_of _ _ (by rw [hir, s1]) (by rw [ha, s2])
    · intro hs
      obtain ⟨s1, s2⟩ := sw0 hs
      exact regs_same_of _ _ (by rw [hir, s1]) (by rw [ha, s2])

theorem c23_call_pal_r23_witness :
    env_call.pal_emul = pal_emul.PAL_21264 ∧ 1 ≤ env_call.exception_index
    ∧ ¬ (env_call.pal_mode ≠ 0 ∧ env_call.exception_index = EXCP_GEN_INTERRUPT)
    ∧ ((interrupt_vector env_call.exception_index).toNat &&& EXCP_CALL_PALP ≠ 0
        ∧ env_call.a21264.call_pal_r23 ≠ 0)
    ∧ (env_call.a21264.sde1 ≠ 0 ∧ (env_call.pc ||| env_call.pal_mode) &&& 1 = 0)
    ∧ (do_interrupt env_call).map (fun e => (e.ir 23, e.a21264.shadow_r23, e.ir 22))
        = some (0x4000, 123, 222)
    ∧ ∃ e, do_interrupt env_call = some e
      ∧ ((interrupt_vector env_call.exception_index).toNat &&& EXCP_CALL_PALP ≠ 0
          ∧ env_call.a21264.call_pal_r23 ≠ 0 →
        e.ir 23 = env_call.pc
        ∧ (env_call.a21264.sde1 ≠ 0 ∧ (env_call.pc ||| env_call.pal_mode) &&& 1 = 0 →
            shadow_regs e = shadowed_ir env_call
            ∧ e.a21264.shadow_r23 = env_call.ir 23
            ∧ [e.ir 4, e.ir 5, e.ir 6, e.ir 7, e.ir 20, e.ir 21, e.ir 22]
                = [env_call.a21264.shadow_r4, env_call.a21264.shadow_r5,
                   env_call.a21264.shadow_r6, env_call.a21264.shadow_r7,
                   env_call.a21264.shadow_r20, env_call.a21264.shadow_r21,
                   env_call.a21264.shadow_r22]
            ∧ ∀ j, ¬ is_shadowed j → e.ir j = env_call.ir j)
        ∧ (¬ (env_call.a21264.sde1 ≠ 0 ∧ (env_call.pc ||| env_call.pal_mode) &&& 1 = 0) →
            shadow_regs e = shadow_regs env_call ∧ ∀ j, j ≠ 23 → e.ir j = env_call.ir j))
      ∧ (¬ ((interrupt_vector env_call.exception_index).toNat &&& EXCP_CALL_PALP ≠ 0
            ∧ env_call.a21264.call_pal_r23 ≠ 0) →
        (env_call.a21264.sde1 ≠ 0 ∧ (env_call.pc ||| env_call.pal_mode) &&& 1 = 0 →
            regs_swapped env_call e)
        ∧ (¬ (env_call.a21264.sde1 ≠ 0 ∧ (env_call.pc ||| env_call.pal_mode) &&& 1 = 0) →
            regs_same env_call e)) :=
  ⟨rfl, by decide, by decide, by decide, by decide, by decide,
   (c23_call_pal_r23 env_call rfl (by decide) (by decide)).1⟩

/-! ## Fields of a floating-point register value -/

/-- A field taken by a shift and a mask of `n` ones. -/
theorem shr_and_ones (a k n : Nat) : (a >>> k) &&& (2 ^ n - 1) = (a / 2 ^ k) % 2 ^ n := by
  rw [Nat.and_pow_two_sub_one_eq_mod, Nat.shiftRight_eq_div_pow]

/-- A single bit taken by a shift and a one-bit mask. -/
theorem shr_and_bit (a k j : Nat) :
    (a >>> k) &&& (2 ^ j) = 2 ^ j * ((a / 2 ^ (k + j)) % 2) := by
  have h := and_shifted_mask (a >>> k) j 1
  simp only [Nat.pow_one, Nat.reduceSub, Nat.one_shiftLeft] at h
  rw [h, ← Nat.shiftRight_add, Nat.shiftLeft_eq, Nat.shiftRight_eq_div_pow, Nat.mul_comm]

theorem f_exp_field (a : Nat) :
    (((a >>> 55) &&& 0x80) ||| ((a >>> 52) &&& 0x7f)) % 2 ^ 32
      = 128 * ((a / 2 ^ 62) % 2) + (a / 2 ^ 52) % 128 := by
  have h1 := shr_and_bit a 55 7
  have h2 := shr_and_ones a 52 7
  norm_num at h1 h2
  rw [h1, h2, ← Nat.mul_add_lt_is_or (i := 7) (by omega)]
  omega

theorem f_mant_sig_field (a : Nat) :
    (((a >>> 32) &&& 0x80000000) ||| ((a >>> 29) &&& 0x007fffff)) % 2 ^ 32
      = 2 ^ 31 * ((a / 2 ^ 63) % 2) + (a / 2 ^ 29) % 2 ^ 23 := by
  have h1 := shr_and_bit a 32 31
  have h2 := shr_and_ones a 29 23
  norm_num at h1 h2
  rw [h1, h2, ← Nat.mul_add_lt_is_or (i := 31) (by omega)]
  omega

theorem g_exp_field (a : Nat) : (a >>> 52) &&& 0x7ff = (a / 2 ^ 52) % 2048 := by
  have h2 := shr_and_ones a 52 11
  norm_num at h2
  exact h2

theorem f32_exp_field (a : Nat) : (a >>> 23) &&& 0xff = (a / 2 ^ 23) % 256 := by
  have h2 := shr_and_ones a 23 8
  norm_num at h2
  exact h2

/-! ## C24 -/

/-- C24 (amended): on the way out of IEEE every infinity and every NaN gives the
register value 1, the encoding whose exponent field is zero and whose only set bit is
bit 0 of the fraction: for every `float64` with biased exponent 2047 `float64_to_g`
returns 1, and for every `float32` with biased exponent 255 `float32_to_f` returns 1.
On the way in `g_to_float64` rejects the value 1 as a reserved operand, and
`f_to_float32`, whose fraction field starts at bit 29, reads it as zero and returns
0 without a fault. -/
theorem c24_nan_inf_to_one (x : Nat) :
    ((x / 2 ^ 52) % 2048 = 2047 → float64_to_g x = 1)
    ∧ ((x / 2 ^ 23) % 256 = 255 → float32_to_f x = 1)
    ∧ g_to_float64 1 = Helper.raised EXCP_GEN_OPCDEC 0
    ∧ f_to_float32 1 = Helper.ret 0 := by
  refine ⟨?_, ?_, by decide, by decide⟩
  · intro h
    unfold float64_to_g
    simp only
    rw [g_exp_field, if_pos h]
  · intro h
    unfold float32_to_f
    simp only
    rw [f32_exp_field, if_pos h]

theorem c24_nan_inf_to_one_witness :
    ((0xfff8000000000001 / 2 ^ 52) % 2048 = 2047 ∧ float64_to_g 0xfff8000000000001 = 1)
    ∧ ((0x7fc00000 / 2 ^ 23) % 256 = 255 ∧ float32_to_f 0x7fc00000 = 1) :=
  ⟨⟨by decide, (c24_nan_inf_to_one 0xfff8000000000001).1 (by decide)⟩,
   ⟨by decide, (c24_nan_inf_to_one 0x7fc00000).2.1 (by decide)⟩⟩

/-- C24, as claimed, fails: the infinities of both widths are converted to the register
value 1, whose exponent field (bits 62..52) is zero, not to 0x0010000000000000, the
encoding of the claim, whose exponent field is 1. -/
theorem c24_counterexample :
    (0x7ff0000000000000 / 2 ^ 52) % 2048 = 2047
    ∧ float64_to_g 0x7ff0000000000000 = 1
    ∧ (0x7f800000 / 2 ^ 23) % 256 = 255
    ∧ float32_to_f 0x7f800000 = 1
    ∧ (1 : Nat) ≠ 0x0010000000000000
    ∧ (1 / 2 ^ 52) % 2048 = 0
    ∧ (0x0010000000000000 / 2 ^ 52) % 2048 = 1 := by
  decide

/-! ## C25 -/

/-- The two outcomes of `g_to_float64`. -/
theorem g_to_float64_cases (a : Nat) :
    ((a / 2 ^ 52) % 2048 = 0 ∧ a &&& 0x800fffffffffffff ≠ 0 →
      g_to_float64 a = Helper.raised EXCP_GEN_OPCDEC 0)
    ∧ (¬ ((a / 2 ^ 52) % 2048 = 0 ∧ a &&& 0x800fffffffffffff ≠ 0) →
      g_to_float64 a
        = if (a / 2 ^ 52) % 2048 < 3 then Helper.ret 0
          else Helper.ret (shl64 ((a / 2 ^ 52) % 2048 - 2) 52
                ||| (a &&& 0x800fffffffffffff))) := by
  constructor
  · intro h
    unfold g_to_float64
    simp only
    rw [g_exp_field, if_pos h]
    rfl
  · intro h
    unfold g_to_float64
    simp only
    rw [g_exp_field, if_neg h]

/-- The two outcomes of `f_to_float32`. -/
theorem f_to_float32_cases (a : Nat) :
    ((128 * ((a / 2 ^ 62) % 2) + (a / 2 ^ 52) % 128 = 0
        ∧ 2 ^ 31 * ((a / 2 ^ 63) % 2) + (a / 2 ^ 29) % 2 ^ 23 ≠ 0) →
      f_to_float32 a = Helper.raised EXCP_GEN_OPCDEC 0)
    ∧ (¬ (128 * ((a / 2 ^ 62) % 2) + (a / 2 ^ 52) % 128 = 0
        ∧ 2 ^ 31 * ((a / 2 ^ 63) % 2) + (a / 2 ^ 29) % 2 ^ 23 ≠ 0) →
      f_to_float32 a
        = if 128 * ((a / 2 ^ 62) % 2) + (a / 2 ^ 52) % 128 < 3 then Helper.ret 0
          else Helper.ret
            ((((128 * ((a / 2 ^ 62) % 2) + (a / 2 ^ 52) % 128 - 2) <<< 23)
              ||| (2 ^ 31 * ((a / 2 ^ 63) % 2) + (a / 2 ^ 29) % 2 ^ 23)) % 2 ^ 32)) := by
  constructor
  · intro h
    unfold f_to_float32
    simp only
    rw [f_exp_field, f_mant_sig_field, if_pos h]
    rfl
  · intro h
    unfold f_to_float32
    simp only
    rw [f_exp_field, f_mant_sig_field, if_neg h]

/-- C25: `g_to_float64(a)` raises the illegal-operation condition (`EXCP_GEN_OPCDEC`,
error 0) exactly when the exponent field (bits 62..52) is zero and
`a & 0x800fffffffffffff` is non-zero, and returns a value otherwise; `f_to_float32(a)`
raises it exactly when bit 62 and bits 58..52 are zero and bit 63 or one of the bits
51..29 is set, and returns a value otherwise. -/
theorem c25_reserved_operand (a : Nat) :
    (g_to_float64 a = Helper.raised EXCP_GEN_OPCDEC 0
      ↔ (a / 2 ^ 52) % 2048 = 0 ∧ a &&& 0x800fffffffffffff ≠ 0)
    ∧ (¬ ((a / 2 ^ 52) % 2048 = 0 ∧ a &&& 0x800fffffffffffff ≠ 0) →
        ∃ v, g_to_float64 a = Helper.ret v)
    ∧ (f_to_float32 a = Helper.raised EXCP_GEN_OPCDEC 0
      ↔ ((a / 2 ^ 62) % 2 = 0 ∧ (a / 2 ^ 52) % 128 = 0)
        ∧ ((a / 2 ^ 63) % 2 = 1 ∨ (a / 2 ^ 29) % 2 ^ 23 ≠ 0))
    ∧ (¬ (((a / 2 ^ 62) % 2 = 0 ∧ (a / 2 ^ 52) % 128 = 0)
          ∧ ((a / 2 ^ 63) % 2 = 1 ∨ (a / 2 ^ 29) % 2 ^ 23 ≠ 0)) →
        ∃ v, f_to_float32 a = Helper.ret v) := by
  obtain ⟨g1, g2⟩ := g_to_float64_cases a
  obtain ⟨f1, f2⟩ := f_to_float32_cases a
  have gret : ¬ ((a / 2 ^ 52) % 2048 = 0 ∧ a &&& 0x800fffffffffffff ≠ 0) →
      ∃ v, g_to_float64 a = Helper.ret v := by
    intro h
    rw [g2 h]
    split_ifs
    · exact ⟨_, rfl⟩
    · exact ⟨_, rfl⟩
  have hfc : (128 * ((a / 2 ^ 62) % 2) + (a / 2 ^ 52) % 128 = 0
        ∧ 2 ^ 31 * ((a / 2 ^ 63) % 2) + (a / 2 ^ 29) % 2 ^ 23 ≠ 0)
      ↔ (((a / 2 ^ 62) % 2 = 0 ∧ (a / 2 ^ 52) % 128 = 0)
        ∧ ((a / 2 ^ 63) % 2 = 1 ∨ (a / 2 ^ 29) % 2 ^ 23 ≠ 0)) := by
    constructor
    · intro h
      omega
    · intro h
      omega
  have fret : ¬ (((a / 2 ^ 62) % 2 = 0 ∧ (a / 2 ^ 52) % 128 = 0)
        ∧ ((a / 2 ^ 63) % 2 = 1 ∨ (a / 2 ^ 29) % 2 ^ 23 ≠ 0)) →
      ∃ v, f_to_float32 a = Helper.ret v := by
    intro h
    rw [f2 (fun hh => h (hfc.1 hh))]
    split_ifs
    · exact ⟨_, rfl⟩
    · exact ⟨_, rfl⟩
  refine ⟨⟨fun h => ?_, g1⟩, gret, ⟨fun h => ?_, fun h => f1 (hfc.2 h)⟩, fret⟩
  · by_contra hc
    obtain ⟨v, hv⟩ := gret hc
    rw [hv] at h
    cases h
  · by_contra hc
    obtain ⟨v, hv⟩ := fret hc
    rw [hv] at h
    cases h

theorem c25_reserved_operand_witness :
    g_to_float64 0x8000000000000000 = Helper.raised EXCP_GEN_OPCDEC 0
    ∧ (∃ v, g_to_float64 0x4010000000000000 = Helper.ret v)
    ∧ f_to_float32 0x0000000020000000 = Helper.raised EXCP_GEN_OPCDEC 0
    ∧ (∃ v, f_to_float32 0x0800000000000000 = Helper.ret v) :=
  ⟨(c25_reserved_operand 0x8000000000000000).1.2 (by decide),
   (c25_reserved_operand 0x4010000000000000).2.1 (by decide),
   (c25_reserved_operand 0x0000000020000000).2.2.1.2 (by decide),
   (c25_reserved_operand 0x0800000000000000).2.2.2 (by decide)⟩

/-! ## Round trips through IEEE -/

theorem or_left_comm3 (a b c : Nat) : a ||| (b ||| c) = b ||| (a ||| c) := by
  rw [← Nat.or_assoc, Nat.or_comm a b, Nat.or_assoc]

/-- The sign and fraction kept by `g_to_float64`, as a number. -/
theorem g_mant_sig_field (v : Nat) :
    v &&& 0x800fffffffffffff = 2 ^ 63 * ((v / 2 ^ 63) % 2) + v % 2 ^ 52 := by
  have hm : (0x800fffffffffffff : Nat) = 2 ^ 63 ||| (2 ^ 52 - 1) := by decide
  have h1 := shr_and_bit v 0 63
  have h2 := Nat.and_pow_two_sub_one_eq_mod v 52
  simp only [Nat.shiftRight_zero, Nat.zero_add] at h1
  rw [hm, Nat.and_or_distrib_left, h1, h2, ← Nat.mul_add_lt_is_or (i := 63) (by omega)]

/-- The value `g_to_float64` returns for an exponent field from 3 up. -/
theorem g_to_float64_normal (v : Nat) (h3 : 3 ≤ (v / 2 ^ 52) % 2048) :
    g_to_float64 v
      = Helper.ret (2 ^ 63 * ((v / 2 ^ 63) % 2) + 2 ^ 52 * ((v / 2 ^ 52) % 2048 - 2)
          + v % 2 ^ 52) := by
  rw [(g_to_float64_cases v).2 (fun h => by omega), if_neg (by omega), g_mant_sig_field]
  have hs : shl64 ((v / 2 ^ 52) % 2048 - 2) 52 = 2 ^ 52 * ((v / 2 ^ 52) % 2048 - 2) := by
    unfold shl64
    rw [Nat.shiftLeft_eq]
    omega
  have hA := Nat.mul_add_lt_is_or (i := 63) (b := v % 2 ^ 52) (by omega) ((v / 2 ^ 63) % 2)
  have hB := Nat.mul_add_lt_is_or (i := 52) (b := v % 2 ^ 52) (by omega)
    ((v / 2 ^ 52) % 2048 - 2)
  have hC := Nat.mul_add_lt_is_or (i := 63)
    (b := 2 ^ 52 * ((v / 2 ^ 52) % 2048 - 2) + v % 2 ^ 52) (by omega) ((v / 2 ^ 63) % 2)
  rw [hs, hA, or_left_comm3, ← hB, ← hC, Nat.add_assoc]

/-- The value `float64_to_g` returns for a normal number below the overflow guard:
the fraction is not part of it. -/
theorem float64_to_g_normal (x : Nat) (h1 : 1 ≤ (x / 2 ^ 52) % 2048)
    (h2 : (x / 2 ^ 52) % 2048 < 2045) :
    float64_to_g x
      = 2 ^ 63 * ((x / 2 ^ 63) % 2) + 2 ^ 52 * ((x / 2 ^ 52) % 2048 + 2) := by
  unfold float64_to_g
  simp only
  rw [g_exp_field, if_neg (by omega), if_neg (by omega), if_neg (by omega)]
  have hs : shl64 ((x / 2 ^ 52) % 2048 + 2) 52 = 2 ^ 52 * ((x / 2 ^ 52) % 2048 + 2) := by
    unfold shl64
    rw [Nat.shiftLeft_eq]
    omega
  have h1 := shr_and_bit x 0 63
  simp only [Nat.shiftRight_zero, Nat.zero_add] at h1
  have hc : (0x8000000000000000 : Nat) = 2 ^ 63 := by decide
  rw [hs, hc, h1, ← Nat.mul_add_lt_is_or (i := 63) (by omega)]

/-! ## C26 -/

/-- C26 fails on the code: for a Format-G value `v` with exponent field in 3 .. 2046,
`g_to_float64(v)` does not fault and `float64_to_g(g_to_float64(v))` is `v` with its
fraction (bits 51..0) cleared; it is `v` only when the fraction is zero. -/
theorem c26_g_round_trip (v : Nat) (hv : v < 2 ^ 64)
    (h3 : 3 ≤ (v / 2 ^ 52) % 2048) (h4 : (v / 2 ^ 52) % 2048 ≤ 2046) :
    g_round_trip v = Helper.ret (v / 2 ^ 52 * 2 ^ 52)
    ∧ (g_round_trip v = Helper.ret v ↔ v % 2 ^ 52 = 0) := by
  have key : g_round_trip v = Helper.ret (v / 2 ^ 52 * 2 ^ 52) := by
    unfold g_round_trip
    rw [g_to_float64_normal v h3]
    simp only
    rw [float64_to_g_normal _ (by omega) (by omega)]
    congr 1
    omega
  refine ⟨key, ?_⟩
  rw [key]
  constructor
  · intro h
    injection h with h
    omega
  · intro h
    congr 1
    omega

theorem c26_g_round_trip_witness :
    (0x4010000000000001 : Nat) < 2 ^ 64
    ∧ 3 ≤ (0x4010000000000001 / 2 ^ 52) % 2048
    ∧ (0x4010000000000001 / 2 ^ 52) % 2048 ≤ 2046
    ∧ g_to_float64 0x4010000000000001 = Helper.ret 0x3ff0000000000001
    ∧ float64_to_g 0x3ff0000000000001 = 0x4010000000000000
    ∧ g_round_trip 0x4010000000000001 = Helper.ret 0x4010000000000000
    ∧ ¬ (g_round_trip 0x4010000000000001 = Helper.ret 0x4010000000000001) :=
  ⟨by decide, by decide, by decide, by decide, by decide, by decide,
   fun h => absurd
     ((c26_g_round_trip 0x4010000000000001 (by decide) (by decide) (by decide)).2.1 h)
     (by decide)⟩

/-! ## Round trip of an IEEE single -/



/-- The value `float32_to_f` returns for a normal single below the overflow guard:
the sign at bit 63 and the exponent plus 2 at bits 59..52; the fraction is not part of
it. -/
theorem float32_to_f_normal (x : Nat) (hx : x < 2 ^ 32) (h1 : 1 ≤ (x / 2 ^ 23) % 256)
    (h2 : (x / 2 ^ 23) % 256 ≤ 252) :
    float32_to_f x = 2 ^ 63 * (x / 2 ^ 31) + 2 ^ 52 * ((x / 2 ^ 23) % 256 + 2) := by
  unfold float32_to_f
  simp only
  rw [f32_exp_field, if_neg (by omega), if_neg (by omega), if_neg (by omega)]
  have hb := shr_and_bit x 0 31
  simp only [Nat.shiftRight_zero, Nat.zero_add] at hb
  have hc : (0x80000000 : Nat) = 2 ^ 31 := by decide
  have hs : shl64 (2 ^ 31 * ((x / 2 ^ 31) % 2)) 32 = 2 ^ 63 * (x / 2 ^ 31) := by
    unfold shl64
    rw [Nat.shiftLeft_eq]
    omega
  have he : shl64 ((x / 2 ^ 23) % 256 + 2) 52 = 2 ^ 52 * ((x / 2 ^ 23) % 256 + 2) := by
    unfold shl64
    rw [Nat.shiftLeft_eq]
    omega
  rw [hc, hb, hs, he, ← Nat.mul_add_lt_is_or (i := 63) (by omega)]

/-- The outcome of `f_to_float32` from the four fields it reads. -/
theorem f_to_float32_of_fields (a hi lo s m : Nat) (h1 : (a / 2 ^ 62) % 2 = hi)
    (h2 : (a / 2 ^ 52) % 128 = lo) (h3 : (a / 2 ^ 63) % 2 = s)
    (h4 : (a / 2 ^ 29) % 2 ^ 23 = m) :
    f_to_float32 a
      = if 128 * hi + lo = 0 ∧ 2 ^ 31 * s + m ≠ 0 then Helper.raised EXCP_GEN_OPCDEC 0
        else if 128 * hi + lo < 3 then Helper.ret 0
        else Helper.ret ((((128 * hi + lo - 2) <<< 23) ||| (2 ^ 31 * s + m)) % 2 ^ 32) := by
  subst h1 h2 h3 h4
  obtain ⟨f1, f2⟩ := f_to_float32_cases a
  by_cases hc : 128 * ((a / 2 ^ 62) % 2) + (a / 2 ^ 52) % 128 = 0
      ∧ 2 ^ 31 * ((a / 2 ^ 63) % 2) + (a / 2 ^ 29) % 2 ^ 23 ≠ 0
  · rw [if_pos hc]
    exact f1 hc
  · rw [if_neg hc]
    exact f2 hc

/-- The round trip of a normal IEEE single below the overflow guard, by the exponent
the way back reads, which is `(exponent + 2) % 128`. -/
theorem f_round_trip_normal (x : Nat) (hx : x < 2 ^ 32) (h1 : 1 ≤ (x / 2 ^ 23) % 256)
    (h2 : (x / 2 ^ 23) % 256 ≤ 252) :
    f_round_trip x
      = if ((x / 2 ^ 23) % 256 + 2) % 128 = 0 ∧ x / 2 ^ 31 = 1 then
          Helper.raised EXCP_GEN_OPCDEC 0
        else if ((x / 2 ^ 23) % 256 + 2) % 128 < 3 then Helper.ret 0
        else Helper.ret (2 ^ 31 * (x / 2 ^ 31)
              + 2 ^ 23 * (((x / 2 ^ 23) % 256 + 2) % 128 - 2)) := by
  have hv := float32_to_f_normal x hx h1 h2
  unfold f_round_trip
  rw [hv]
  have hsb : x / 2 ^ 31 < 2 := by omega
  generalize x / 2 ^ 31 = s at *
  generalize (x / 2 ^ 23) % 256 = e at *
  rw [f_to_float32_of_fields _ 0 ((e + 2) % 128) s 0 (by omega) (by omega) (by omega)
    (by omega)]
  simp only [Nat.mul_zero, Nat.zero_add, Nat.add_zero]
  by_cases hc : (e + 2) % 128 = 0 ∧ s = 1
  · rw [if_pos hc, if_pos ⟨hc.1, by omega⟩]
  · rw [if_neg hc, if_neg (fun h => hc ⟨h.1, by omega⟩)]
    by_cases h3 : (e + 2) % 128 < 3
    · rw [if_pos h3, if_pos h3]
    · rw [if_neg h3, if_neg h3]
      congr 1
      rw [Nat.or_comm, Nat.shiftLeft_eq, Nat.mul_comm _ (2 ^ 23),
        ← Nat.mul_add_lt_is_or (i := 31) (by omega)]
      omega

/-! ## C27 -/

/-- C27 fails on the code: for a normal IEEE single `x` with biased exponent in 1 .. 252,
`float32_to_f(x)` is the sign at bit 63 and the exponent plus 2 at bits 59..52, without
the fraction, and `f_to_float32(float32_to_f(x))` is `x` only when the exponent is at
most 125 and the fraction is zero. -/
theorem c27_f_round_trip (x : Nat) (hx : x < 2 ^ 32) (h1 : 1 ≤ (x / 2 ^ 23) % 256)
    (h2 : (x / 2 ^ 23) % 256 ≤ 252) :
    float32_to_f x = 2 ^ 63 * (x / 2 ^ 31) + 2 ^ 52 * ((x / 2 ^ 23) % 256 + 2)
    ∧ (f_round_trip x = Helper.ret x ↔ (x / 2 ^ 23) % 256 ≤ 125 ∧ x % 2 ^ 23 = 0) := by
  refine ⟨float32_to_f_normal x hx h1 h2, ?_⟩
  rw [f_round_trip_normal x hx h1 h2]
  split_ifs with c1 c2
  · refine iff_of_false (fun h => by cases h) (fun h => ?_)
    omega
  · rw [Helper.ret.injEq]
    omega
  · rw [Helper.ret.injEq]
    omega

theorem c27_f_round_trip_witness :
    (0x3f800000 : Nat) < 2 ^ 32 ∧ 1 ≤ (0x3f800000 / 2 ^ 23) % 256
    ∧ (0x3f800000 / 2 ^ 23) % 256 ≤ 252
    ∧ float32_to_f 0x3f800000 = 0x0810000000000000
    ∧ f_round_trip 0x3f800000 = Helper.ret 0
    ∧ f_round_trip 0xbf000000 = Helper.raised EXCP_GEN_OPCDEC 0
    ∧ f_round_trip 0x3e800001 = Helper.ret 0x3e800000
    ∧ ¬ (f_round_trip 0x3f800000 = Helper.ret 0x3f800000) :=
  ⟨by decide, by decide, by decide, by decide, by decide, by decide, by decide,
   fun h => absurd
     ((c27_f_round_trip 0x3f800000 (by decide) (by decide) (by decide)).2.1 h).1
     (by decide)⟩

/-! ## S format -/

/-- A field taken by a mask of `n` ones at bit `k`. -/
theorem and_field (a k n : Nat) :
    a &&& ((2 ^ n - 1) <<< k) = 2 ^ k * ((a / 2 ^ k) % 2 ^ n) := by
  rw [and_shifted_mask, Nat.shiftLeft_eq, Nat.shiftRight_eq_div_pow, Nat.mul_comm]

/-- The value of `float32_to_s` as a number. -/
theorem float32_to_s_value (m : Nat) (hm : m < 2 ^ 32) :
    float32_to_s m
      = 2 ^ 62 * (m / 2 ^ 30)
        + (2 ^ 59 * (if (m / 2 ^ 23) % 256 ≠ 255 ∧ (m / 2 ^ 30) % 2 = 0 then 7 else 0)
          + 2 ^ 29 * (m % 2 ^ 30)) := by
  have c1 : (0xc0000000 : Nat) = (2 ^ 2 - 1) <<< 30 := by decide
  have c2 : (0x3fffffff : Nat) = 2 ^ 30 - 1 := by decide
  have c3 : (0x7f800000 : Nat) = (2 ^ 8 - 1) <<< 23 := by decide
  have c4 : (0x40000000 : Nat) = (2 ^ 1 - 1) <<< 30 := by decide
  have k7 : shl64 0x7 59 = 2 ^ 59 * 7 := by decide
  have e1 : shl64 (m &&& 0xc0000000) 32 = 2 ^ 62 * (m / 2 ^ 30) := by
    rw [c1, and_field]
    unfold shl64
    rw [Nat.shiftLeft_eq]
    omega
  have e2 : shl64 (m &&& 0x3fffffff) 29 = 2 ^ 29 * (m % 2 ^ 30) := by
    rw [c2, Nat.and_pow_two_sub_one_eq_mod]
    unfold shl64
    rw [Nat.shiftLeft_eq]
    omega
  have e3 : m &&& 0x7f800000 ≠ 0x7f800000 ↔ (m / 2 ^ 23) % 256 ≠ 255 := by
    rw [c3, and_field]
    have : (2 ^ 8 - 1) <<< 23 = 2 ^ 23 * 255 := by decide
    rw [this]
    omega
  have e4 : m &&& 0x40000000 = 0 ↔ (m / 2 ^ 30) % 2 = 0 := by
    rw [c4, and_field]
    omega
  unfold float32_to_s
  simp only
  rw [e1, e2, k7]
  by_cases hc : (m / 2 ^ 23) % 256 ≠ 255 ∧ (m / 2 ^ 30) % 2 = 0
  · rw [if_pos ⟨e3.2 hc.1, e4.2 hc.2⟩, if_pos hc, Nat.or_assoc,
      Nat.or_comm (2 ^ 29 * (m % 2 ^ 30)) (2 ^ 59 * 7),
      ← Nat.mul_add_lt_is_or (i := 59) (by omega),
      ← Nat.mul_add_lt_is_or (i := 62) (by omega)]
  · rw [if_neg (fun h => hc ⟨e3.1 h.1, e4.1 h.2⟩), if_neg hc,
      ← Nat.mul_add_lt_is_or (i := 62) (by omega)]
    omega

/-- The value of `s_to_float32` as a number. -/
theorem s_to_float32_value (a : Nat) :
    s_to_float32 a = (2 ^ 30 * ((a / 2 ^ 62) % 4) + (a / 2 ^ 29) % 2 ^ 30) % 2 ^ 32 := by
  have c1 : (0xc0000000 : Nat) = (2 ^ 2 - 1) <<< 30 := by decide
  have c2 : (0x3fffffff : Nat) = 2 ^ 30 - 1 := by decide
  unfold s_to_float32
  rw [c1, and_field, c2, shr_and_ones, Nat.shiftRight_eq_div_pow, Nat.div_div_eq_div_mul,
    ← Nat.mul_add_lt_is_or (i := 30) (by omega)]
  norm_num

/-! ## C28 -/

/-- C28: for every 32-bit memory word `m`,
`helper_s_to_memory(helper_memory_to_s(m)) = m`, and `helper_memory_to_s(m)` has bits
28..0 zero, bits 63..62 equal to bits 31..30 of `m`, bits 58..29 equal to bits 29..0 of
`m`, and bits 61..59 all ones when the exponent of `m` is not all ones and bit 30 of `m`
is clear, all zeros otherwise. -/
theorem c28_s_format (m : Nat) (hm : m < 2 ^ 32) :
    helper_s_to_memory (helper_memory_to_s m) = m
    ∧ helper_memory_to_s m % 2 ^ 29 = 0
    ∧ helper_memory_to_s m / 2 ^ 62 = m / 2 ^ 30
    ∧ (helper_memory_to_s m / 2 ^ 29) % 2 ^ 30 = m % 2 ^ 30
    ∧ (helper_memory_to_s m / 2 ^ 59) % 8
        = if (m / 2 ^ 23) % 256 ≠ 255 ∧ (m / 2 ^ 30) % 2 = 0 then 7 else 0 := by
  have hv := float32_to_s_value m hm
  unfold helper_s_to_memory helper_memory_to_s
  rw [s_to_float32_value, hv]
  have hw : (if (m / 2 ^ 23) % 256 ≠ 255 ∧ (m / 2 ^ 30) % 2 = 0 then 7 else 0 : Nat) < 8 := by
    split_ifs <;> decide
  generalize (if (m / 2 ^ 23) % 256 ≠ 255 ∧ (m / 2 ^ 30) % 2 = 0 then 7 else 0 : Nat) = w
    at hw ⊢
  refine ⟨?_, ?_, ?_, ?_, ?_⟩ <;> omega

theorem c28_s_format_witness :
    (0x3f800000 : Nat) < 2 ^ 32
    ∧ helper_memory_to_s 0x3f800000 = 0x3ff0000000000000
    ∧ helper_memory_to_s 0x40000000 = 0x4000000000000000
    ∧ helper_memory_to_s 0x7f800000 = 0x47f0000000000000
    ∧ helper_s_to_memory (helper_memory_to_s 0x3f800000) = 0x3f800000 :=
  ⟨by decide, by decide, by decide, by decide,
   (c28_s_format 0x3f800000 (by decide)).1⟩

/-! ## Overflow-checked addition -/

/-- Bit 63 of a 64-bit value is its sign. -/
theorem testBit_63 (x : Nat) (hx : x < 2 ^ 64) : x.testBit 63 = decide (2 ^ 63 ≤ x) := by
  rw [Nat.testBit_to_div_mod]
  apply decide_eq_decide.2
  omega

/-- The overflow test of `helper_addqv`: the operands have the same sign and the sum
has the other one. -/
theorem addqv_test_iff (a b s : Nat) (ha : a < 2 ^ 64) (hb : b < 2 ^ 64) (hs : s < 2 ^ 64) :
    ((a ^^^ b ^^^ (2 ^ 64 - 1)) &&& (a ^^^ s) &&& (1 <<< 63)) ≠ 0
      ↔ ((2 ^ 63 ≤ a ↔ 2 ^ 63 ≤ b) ∧ ¬ (2 ^ 63 ≤ a ↔ 2 ^ 63 ≤ s)) := by
  have h1 : (1 <<< 63 : Nat) = 2 ^ 63 := by decide
  rw [h1, and_pow2_ne_zero_iff]
  have hf := flag_bit_iff_testBit ((a ^^^ b ^^^ (2 ^ 64 - 1)) &&& (a ^^^ s)) 63
  unfold flag_bit at hf
  rw [hf, Nat.testBit_and, Nat.testBit_xor, Nat.testBit_xor, Nat.testBit_xor,
    Nat.testBit_two_pow_sub_one, testBit_63 a ha, testBit_63 b hb, testBit_63 s hs]
  by_cases c1 : 2 ^ 63 ≤ a <;> by_cases c2 : 2 ^ 63 ≤ b <;> by_cases c3 : 2 ^ 63 ≤ s <;>
    simp [c1, c2, c3]

theorem helper_addqv_eq (a b : Nat) (ha : a < 2 ^ 64) (hb : b < 2 ^ 64) :
    helper_addqv a b
      = if (2 ^ 63 ≤ a ↔ 2 ^ 63 ≤ b) ∧ ¬ (2 ^ 63 ≤ a ↔ 2 ^ 63 ≤ (a + b) % 2 ^ 64)
        then Helper.raised EXCP_GEN_ARITH EXCP_ARITH_OVERFLOW
        else Helper.ret ((a + b) % 2 ^ 64) := by
  have hs : (a + b) % 2 ^ 64 < 2 ^ 64 := Nat.mod_lt _ (by decide)
  have ht := addqv_test_iff a b ((a + b) % 2 ^ 64) ha hb hs
  unfold helper_addqv
  simp only
  by_cases hc : (2 ^ 63 ≤ a ↔ 2 ^ 63 ≤ b) ∧ ¬ (2 ^ 63 ≤ a ↔ 2 ^ 63 ≤ (a + b) % 2 ^ 64)
  · rw [if_pos (ht.2 hc), if_pos hc]
    rfl
  · rw [if_neg (fun h => hc (ht.1 h)), if_neg hc]

/-! ## C29 -/

/-- C29: for all 64-bit `a` and `b`, `helper_addqv(a, b)` signals the arithmetic trap
(`EXCP_GEN_ARITH`, `EXCP_ARITH_OVERFLOW`) exactly when the sum of `a` and `b` read as
signed 64-bit integers lies outside [-2^63, 2^63 - 1], and otherwise returns the 64-bit
value whose signed reading is that sum. -/
theorem c29_addqv_overflow (a b : Nat) (ha : a < 2 ^ 64) (hb : b < 2 ^ 64) :
    (helper_addqv a b = Helper.raised EXCP_GEN_ARITH EXCP_ARITH_OVERFLOW
      ↔ (toS64 a + toS64 b < -2 ^ 63 ∨ 2 ^ 63 ≤ toS64 a + toS64 b))
    ∧ (¬ (toS64 a + toS64 b < -2 ^ 63 ∨ 2 ^ 63 ≤ toS64 a + toS64 b) →
        ∃ r, helper_addqv a b = Helper.ret r ∧ r < 2 ^ 64
          ∧ toS64 r = toS64 a + toS64 b) := by
  have hs : (a + b) % 2 ^ 64 < 2 ^ 64 := Nat.mod_lt _ (by decide)
  have hiff : ((2 ^ 63 ≤ a ↔ 2 ^ 63 ≤ b) ∧ ¬ (2 ^ 63 ≤ a ↔ 2 ^ 63 ≤ (a + b) % 2 ^ 64))
      ↔ (toS64 a + toS64 b < -2 ^ 63 ∨ 2 ^ 63 ≤ toS64 a + toS64 b) := by
    unfold toS64
    split_ifs <;> constructor <;> intro h <;> omega
  rw [helper_addqv_eq a b ha hb]
  constructor
  · constructor
    · intro h
      by_contra hn
      rw [if_neg (fun hc => hn (hiff.1 hc))] at h
      cases h
    · intro h
      rw [if_pos (hiff.2 h)]
  · intro hn
    rw [if_neg (fun hc => hn (hiff.1 hc))]
    refine ⟨_, rfl, hs, ?_⟩
    have hn2 : ¬ ((2 ^ 63 ≤ a ↔ 2 ^ 63 ≤ b) ∧ ¬ (2 ^ 63 ≤ a ↔ 2 ^ 63 ≤ (a + b) % 2 ^ 64)) :=
      fun hc => hn (hiff.1 hc)
    unfold toS64 at hn ⊢
    split_ifs at hn ⊢ <;> omega

theorem c29_addqv_overflow_witness :
    (2 ^ 63 - 1 : Nat) < 2 ^ 64 ∧ (1 : Nat) < 2 ^ 64 ∧ (2 ^ 63 : Nat) < 2 ^ 64
    ∧ (2 ^ 64 - 1 : Nat) < 2 ^ 64
    ∧ helper_addqv (2 ^ 63 - 1) 1 = Helper.raised EXCP_GEN_ARITH EXCP_ARITH_OVERFLOW
    ∧ helper_addqv (2 ^ 63) (2 ^ 64 - 1) = Helper.raised EXCP_GEN_ARITH EXCP_ARITH_OVERFLOW
    ∧ helper_addqv (2 ^ 63) (2 ^ 63) = Helper.raised EXCP_GEN_ARITH EXCP_ARITH_OVERFLOW
    ∧ helper_addqv (2 ^ 63 - 1) (2 ^ 63) = Helper.ret (2 ^ 64 - 1)
    ∧ ∃ r, helper_addqv (2 ^ 63 - 1) (2 ^ 63) = Helper.ret r ∧ r < 2 ^ 64
        ∧ toS64 r = toS64 (2 ^ 63 - 1) + toS64 (2 ^ 63) :=
  ⟨by decide, by decide, by decide, by decide,
   (c29_addqv_overflow (2 ^ 63 - 1) 1 (by decide) (by decide)).1.2 (by decide),
   (c29_addqv_overflow (2 ^ 63) (2 ^ 64 - 1) (by decide) (by decide)).1.2 (by decide),
   (c29_addqv_overflow (2 ^ 63) (2 ^ 63) (by decide) (by decide)).1.2 (by decide),
   by decide,
   (c29_addqv_overflow (2 ^ 63 - 1) (2 ^ 63) (by decide) (by decide)).2 (by decide)⟩

/-! ## Overflow-checked multiplication -/

theorem toS64_abs (x : Nat) (hx : x < 2 ^ 64) : |toS64 x| ≤ 2 ^ 63 := by
  rw [abs_le]
  unfold toS64
  split_ifs <;> constructor <;> omega

/-- The test of `helper_mulqv` on the high word: it lets through every product whose
high word is 0 or -1, that is every product in [-2^64, 2^64 - 1]. -/
theorem helper_mulqv_traps_iff (a b : Nat) (ha : a < 2 ^ 64) (hb : b < 2 ^ 64) :
    (helper_mulqv a b = Helper.raised EXCP_GEN_ARITH EXCP_ARITH_OVERFLOW
      ↔ (toS64 a * toS64 b < -2 ^ 64 ∨ 2 ^ 64 ≤ toS64 a * toS64 b))
    ∧ (¬ (toS64 a * toS64 b < -2 ^ 64 ∨ 2 ^ 64 ≤ toS64 a * toS64 b) →
        helper_mulqv a b = Helper.ret (ofS64 (toS64 a * toS64 b))) := by
  have hbound : |toS64 a * toS64 b| ≤ 2 ^ 63 * 2 ^ 63 := by
    rw [abs_mul]
    exact mul_le_mul (toS64_abs a ha) (toS64_abs b hb) (abs_nonneg _) (by norm_num)
  rw [abs_le] at hbound
  unfold helper_mulqv muls64
  simp only
  generalize toS64 a * toS64 b = p at hbound ⊢
  have hc : (ofS64 (p / 2 ^ 64) + 1) % 2 ^ 64 > 1 ↔ (p < -2 ^ 64 ∨ 2 ^ 64 ≤ p) := by
    unfold ofS64
    omega
  by_cases h : p < -2 ^ 64 ∨ 2 ^ 64 ≤ p
  · rw [if_pos (hc.2 h)]
    exact ⟨⟨fun _ => h, fun _ => rfl⟩, fun hn => absurd h hn⟩
  · rw [if_neg (fun hh => h (hc.1 hh))]
    refine ⟨⟨fun hr => ?_, fun hh => absurd hh h⟩, fun _ => rfl⟩
    cases hr

/-! ## C30 -/

/-- C30 fails on the code: the products 2^32 * 2^31 and (-1) * i64::MIN are both 2^63,
outside the signed 64-bit range, and `helper_mulqv` returns their low word 2^63 (read
as signed: i64::MIN) without signalling the trap. -/
theorem c30_mulqv_misses_overflow :
    toS64 (2 ^ 32) * toS64 (2 ^ 31) = 2 ^ 63
    ∧ muls64 (2 ^ 32) (2 ^ 31) = (2 ^ 63, 0)
    ∧ helper_mulqv (2 ^ 32) (2 ^ 31) = Helper.ret (2 ^ 63)
    ∧ toS64 (2 ^ 64 - 1) = -1 ∧ toS64 (2 ^ 63) = -2 ^ 63
    ∧ toS64 (2 ^ 64 - 1) * toS64 (2 ^ 63) = 2 ^ 63
    ∧ helper_mulqv (2 ^ 64 - 1) (2 ^ 63) = Helper.ret (2 ^ 63)
    ∧ helper_mulqv (2 ^ 32) (2 ^ 32) = Helper.raised EXCP_GEN_ARITH EXCP_ARITH_OVERFLOW := by
  decide

/-! ## Overflow-checked longword arithmetic -/

theorem testBit_31 (x : Nat) : x.testBit 31 = decide (2 ^ 31 ≤ x % 2 ^ 32) := by
  rw [Nat.testBit_to_div_mod]
  apply decide_eq_decide.2
  omega

/-- The overflow test of `helper_addlv`: bit 31 is the same in the two operands and
differs in the sum. -/
theorem addlv_test_iff (a b s : Nat) :
    ((a ^^^ b ^^^ (2 ^ 64 - 1)) &&& (a ^^^ s) &&& (1 <<< 31)) ≠ 0
      ↔ ((2 ^ 31 ≤ a % 2 ^ 32 ↔ 2 ^ 31 ≤ b % 2 ^ 32)
          ∧ ¬ (2 ^ 31 ≤ a % 2 ^ 32 ↔ 2 ^ 31 ≤ s % 2 ^ 32)) := by
  have h1 : (1 <<< 31 : Nat) = 2 ^ 31 := by decide
  rw [h1, and_pow2_ne_zero_iff]
  have hf := flag_bit_iff_testBit ((a ^^^ b ^^^ (2 ^ 64 - 1)) &&& (a ^^^ s)) 31
  unfold flag_bit at hf
  rw [hf, Nat.testBit_and, Nat.testBit_xor, Nat.testBit_xor, Nat.testBit_xor,
    Nat.testBit_two_pow_sub_one, testBit_31 a, testBit_31 b, testBit_31 s]
  by_cases c1 : 2 ^ 31 ≤ a % 2 ^ 32 <;> by_cases c2 : 2 ^ 31 ≤ b % 2 ^ 32 <;>
    by_cases c3 : 2 ^ 31 ≤ s % 2 ^ 32 <;> simp [c1, c2, c3]

/-- The overflow test of `helper_sublv`: bit 31 differs in the two operands and the
difference has not that of the first. -/
theorem sublv_test_iff (a b s : Nat) :
    ((a ^^^ b) &&& (s ^^^ a) &&& (1 <<< 31)) ≠ 0
      ↔ (¬ (2 ^ 31 ≤ a % 2 ^ 32 ↔ 2 ^ 31 ≤ b % 2 ^ 32)
          ∧ ¬ (2 ^ 31 ≤ s % 2 ^ 32 ↔ 2 ^ 31 ≤ a % 2 ^ 32)) := by
  have h1 : (1 <<< 31 : Nat) = 2 ^ 31 := by decide
  rw [h1, and_pow2_ne_zero_iff]
  have hf := flag_bit_iff_testBit ((a ^^^ b) &&& (s ^^^ a)) 31
  unfold flag_bit at hf
  rw [hf, Nat.testBit_and, Nat.testBit_xor, Nat.testBit_xor,
    testBit_31 a, testBit_31 b, testBit_31 s]
  by_cases c1 : 2 ^ 31 ≤ a % 2 ^ 32 <;> by_cases c2 : 2 ^ 31 ≤ b % 2 ^ 32 <;>
    by_cases c3 : 2 ^ 31 ≤ s % 2 ^ 32 <;> simp [c1, c2, c3]

theorem helper_addlv_eq (a b : Nat) :
    helper_addlv a b
      = if toS32 a + toS32 b < -2 ^ 31 ∨ 2 ^ 31 ≤ toS32 a + toS32 b
        then Helper.raised EXCP_GEN_ARITH EXCP_ARITH_OVERFLOW
        else Helper.ret ((a + b) % 2 ^ 32) := by
  have hm : ((a + b) % 2 ^ 64) % 2 ^ 32 = (a + b) % 2 ^ 32 := by omega
  have ht := addlv_test_iff a b ((a + b) % 2 ^ 32)
  have hiff : ((2 ^ 31 ≤ a % 2 ^ 32 ↔ 2 ^ 31 ≤ b % 2 ^ 32)
          ∧ ¬ (2 ^ 31 ≤ a % 2 ^ 32 ↔ 2 ^ 31 ≤ ((a + b) % 2 ^ 32) % 2 ^ 32))
      ↔ (toS32 a + toS32 b < -2 ^ 31 ∨ 2 ^ 31 ≤ toS32 a + toS32 b) := by
    unfold toS32
    split_ifs <;> constructor <;> intro h <;> omega
  unfold helper_addlv
  simp only
  rw [hm]
  by_cases hc : toS32 a + toS32 b < -2 ^ 31 ∨ 2 ^ 31 ≤ toS32 a + toS32 b
  · rw [if_pos (ht.2 (hiff.2 hc)), if_pos hc]
    rfl
  · rw [if_neg (fun h => hc (hiff.1 (ht.1 h))), if_neg hc]

theorem helper_sublv_eq (a b : Nat) (hb : b < 2 ^ 64) :
    helper_sublv a b
      = if toS32 a - toS32 b < -2 ^ 31 ∨ 2 ^ 31 ≤ toS32 a - toS32 b
        then Helper.raised EXCP_GEN_ARITH EXCP_ARITH_OVERFLOW
        else Helper.ret ((a + (2 ^ 64 - b)) % 2 ^ 32) := by
  have hm : ((a + (2 ^ 64 - b % 2 ^ 64)) % 2 ^ 64) % 2 ^ 32 = (a + (2 ^ 64 - b)) % 2 ^ 32 := by
    omega
  have ht := sublv_test_iff a b ((a + (2 ^ 64 - b)) % 2 ^ 32)
  have hiff : (¬ (2 ^ 31 ≤ a % 2 ^ 32 ↔ 2 ^ 31 ≤ b % 2 ^ 32)
          ∧ ¬ (2 ^ 31 ≤ ((a + (2 ^ 64 - b)) % 2 ^ 32) % 2 ^ 32 ↔ 2 ^ 31 ≤ a % 2 ^ 32))
      ↔ (toS32 a - toS32 b < -2 ^ 31 ∨ 2 ^ 31 ≤ toS32 a - toS32 b) := by
    unfold toS32
    split_ifs <;> constructor <;> intro h <;> omega
  unfold helper_sublv
  simp only
  rw [hm]
  by_cases hc : toS32 a - toS32 b < -2 ^ 31 ∨ 2 ^ 31 ≤ toS32 a - toS32 b
  · rw [if_pos (ht.2 (hiff.2 hc)), if_pos hc]
    rfl
  · rw [if_neg (fun h => hc (hiff.1 (ht.1 h))), if_neg hc]

/-- The outcome of `helper_mullv` by the 64-bit product of the whole operands. -/
theorem helper_mullv_eq (a b : Nat) :
    helper_mullv a b
      = if toS64 (ofS64 (toS64 a * toS64 b)) < -2 ^ 31
            ∨ 2 ^ 31 ≤ toS64 (ofS64 (toS64 a * toS64 b))
        then Helper.raised EXCP_GEN_ARITH EXCP_ARITH_OVERFLOW
        else Helper.ret (ofS64 (toS64 a * toS64 b)) := by
  unfold helper_mullv
  simp only
  have hlt : ofS64 (toS64 a * toS64 b) < 2 ^ 64 := by
    unfold ofS64
    omega
  generalize ofS64 (toS64 a * toS64 b) = r at hlt ⊢
  have hc : toS32 r ≠ toS64 r ↔ (toS64 r < -2 ^ 31 ∨ 2 ^ 31 ≤ toS64 r) := by
    unfold toS32 toS64
    split_ifs <;> constructor <;> intro h <;> omega
  by_cases h : toS64 r < -2 ^ 31 ∨ 2 ^ 31 ≤ toS64 r
  · rw [if_pos (hc.2 h), if_pos h]
    rfl
  · rw [if_neg (fun hh => h (hc.1 hh)), if_neg h]
    congr 1
    have : toS32 r = toS64 r := by
      by_contra hne
      exact h (hc.1 hne)
    rw [this]
    unfold ofS64 toS64
    split_ifs <;> omega

/-- Claim C31 (code defect): `helper_mullv` multiplies the whole 64-bit operands, so
its outcome is decided by the 64-bit product: it raises the arithmetic trap exactly
when that product, wrapped to 64 bits, is no signed 32-bit value, and returns the
product otherwise.  With op1 = 2^32 and op2 = 1, whose low longwords are 0 and 1, it
raises the trap, while with op1 = 0 it returns 0: bits 63..32 of an operand change
the outcome. -/
theorem c31_mullv_uses_upper_bits (a b : Nat) :
    (helper_mullv a b = Helper.raised EXCP_GEN_ARITH EXCP_ARITH_OVERFLOW
        ↔ (toS64 (ofS64 (toS64 a * toS64 b)) < -2 ^ 31
            ∨ 2 ^ 31 ≤ toS64 (ofS64 (toS64 a * toS64 b))))
      ∧ (¬ (toS64 (ofS64 (toS64 a * toS64 b)) < -2 ^ 31
            ∨ 2 ^ 31 ≤ toS64 (ofS64 (toS64 a * toS64 b)))
          → helper_mullv a b = Helper.ret (ofS64 (toS64 a * toS64 b)))
      ∧ helper_mullv (2 ^ 32) 1 = Helper.raised EXCP_GEN_ARITH EXCP_ARITH_OVERFLOW
      ∧ helper_mullv 0 1 = Helper.ret 0
      ∧ (2 ^ 32) % 2 ^ 32 = 0 % 2 ^ 32
      ∧ toS32 (2 ^ 32) * toS32 1 = 0 := by
  refine ⟨?_, ?_, by decide, by decide, by decide, by decide⟩
  · rw [helper_mullv_eq]
    constructor
    · intro h
      by_contra hc
      rw [if_neg hc] at h
      cases h
    · intro h
      rw [if_pos h]
  · intro h
    rw [helper_mullv_eq, if_neg h]

/-- Claim C34 (code defect): `helper_addlv` and `helper_sublv` raise the arithmetic
trap exactly when the signed 32-bit sum or difference of the low longwords leaves the
signed 32-bit range, and otherwise return the low 32 bits of the result zero-extended,
a value below 2^32, not sign-extended: adding 0 to 0xffffffffffffffff returns
0x00000000ffffffff, and 0 minus 1 returns 0x00000000ffffffff, where `helper_mullv` of
0xffffffffffffffff and 1 returns 0xffffffffffffffff. -/
theorem c34_addlv_sublv_zero_extend (a b : Nat) (hb : b < 2 ^ 64) :
    (helper_addlv a b = Helper.raised EXCP_GEN_ARITH EXCP_ARITH_OVERFLOW
        ↔ (toS32 a + toS32 b < -2 ^ 31 ∨ 2 ^ 31 ≤ toS32 a + toS32 b))
      ∧ (¬ (toS32 a + toS32 b < -2 ^ 31 ∨ 2 ^ 31 ≤ toS32 a + toS32 b)
          → helper_addlv a b = Helper.ret ((a + b) % 2 ^ 32))
      ∧ (helper_sublv a b = Helper.raised EXCP_GEN_ARITH EXCP_ARITH_OVERFLOW
        ↔ (toS32 a - toS32 b < -2 ^ 31 ∨ 2 ^ 31 ≤ toS32 a - toS32 b))
      ∧ (¬ (toS32 a - toS32 b < -2 ^ 31 ∨ 2 ^ 31 ≤ toS32 a - toS32 b)
          → helper_sublv a b = Helper.ret ((a + (2 ^ 64 - b)) % 2 ^ 32))
      ∧ (a + b) % 2 ^ 32 < 2 ^ 32 ∧ (a + (2 ^ 64 - b)) % 2 ^ 32 < 2 ^ 32
      ∧ helper_addlv 0xffffffffffffffff 0 = Helper.ret 0x00000000ffffffff
      ∧ helper_sublv 0 1 = Helper.ret 0x00000000ffffffff
      ∧ helper_mullv 0xffffffffffffffff 1 = Helper.ret 0xffffffffffffffff := by
  refine ⟨?_, ?_, ?_, ?_, Nat.mod_lt _ (by norm_num), Nat.mod_lt _ (by norm_num),
    by decide, by decide, by decide⟩
  · rw [helper_addlv_eq]
    constructor
    · intro h
      by_contra hc
      rw [if_neg hc] at h
      cases h
    · intro h
      rw [if_pos h]
  · intro h
    rw [helper_addlv_eq, if_neg h]
  · rw [helper_sublv_eq a b hb]
    constructor
    · intro h
      by_contra hc
      rw [if_neg hc] at h
      cases h
    · intro h
      rw [if_pos h]
  · intro h
    rw [helper_sublv_eq a b hb, if_neg h]

theorem c34_addlv_sublv_zero_extend_witness :
    (helper_addlv 0x7fffffff 1 = Helper.raised EXCP_GEN_ARITH EXCP_ARITH_OVERFLOW
        ↔ (toS32 0x7fffffff + toS32 1 < -2 ^ 31 ∨ 2 ^ 31 ≤ toS32 0x7fffffff + toS32 1))
      ∧ helper_addlv 0x7fffffff 1 = Helper.raised EXCP_GEN_ARITH EXCP_ARITH_OVERFLOW :=
  ⟨(c34_addlv_sublv_zero_extend 0x7fffffff 1 (by decide)).1, by decide⟩


/-! ## The slot tests of the page flush and of the lookup -/

/-- For an address with bit 63 set the comparison of line 359 of `helper.c` fails for
every tag: the tag is shifted as an `int64_t`, the address as a `uint64_t`. -/
theorem sar64_ne_shr_high (x a g : Nat) (hx : x < 2 ^ 64) (ha : a < 2 ^ 64)
    (hh : 2 ^ 63 ≤ a) (hg : g < 4) :
    sar64 x (13 + 3 * g) ≠ a >>> (13 + 3 * g) := by
  have hcases : g = 0 ∨ g = 1 ∨ g = 2 ∨ g = 3 := by omega
  rcases hcases with h | h | h | h <;> subst h <;>
    simp only [sar64, ofS64, toS64, Nat.shiftRight_eq_div_pow] <;> norm_num <;>
    split_ifs <;> omega

theorem flush_match_high (e : alpha_21264_tlbe) (asn a : Nat)
    (he : e.va < 2 ^ 64) (ha : a < 2 ^ 64) (hh : 2 ^ 63 ≤ a) :
    flush_match e asn a = false := by
  have hg : (e.pte.fl / 32) % 4 < 4 := Nat.mod_lt _ (by decide)
  unfold flush_match
  simp only [get_gh_eq, sar64_ne_shr_high _ _ _ he ha hh hg, decide_False, Bool.false_and]

/-- Claim C32 (code defect): for an address with bit 63 clear the slot test of
`flush_tlb_21264_page` selects a valid entry exactly when the slot test of the lookup
matches it, and it also selects invalid entries; for an address with bit 63 set it
selects no entry at all, since line 359 shifts the tag as a signed and the address as
an unsigned value.  The valid entry of the page at 0xfffffc0000010000 is matched by
the lookup of that address and not selected by the flush. -/
theorem c32_flush_match_unsigned (e : alpha_21264_tlbe) (asn a : Nat)
    (he : e.va < 2 ^ 64) (ha : a < 2 ^ 64) :
    (a < 2 ^ 63 → entry_valid e → flush_match e asn a = v2p_match e asn a)
      ∧ (a < 2 ^ 63 → ¬ entry_valid e →
          v2p_match e asn a = false ∧ (flush_match e asn a = true ↔ entry_covers e asn a))
      ∧ (2 ^ 63 ≤ a → flush_match e asn a = false)
      ∧ v2p_match (env_high_page.a21264.dtlb.entries 3) 0 0xfffffc0000010000 = true
      ∧ flush_match (env_high_page.a21264.dtlb.entries 3) 0 0xfffffc0000010000 = false := by
  refine ⟨?_, ?_, ?_, by decide, by decide⟩
  · intro h63 hv
    have h1 := flush_match_iff e asn a he h63
    have h2 := v2p_match_iff e asn a he ha
    unfold entry_covers at h1
    rw [Bool.eq_iff_iff, h1, h2]
    constructor
    · intro h
      exact ⟨hv, h.1, h.2⟩
    · intro h
      exact ⟨h.2.1, h.2.2⟩
  · intro h63 hv
    refine ⟨?_, flush_match_iff e asn a he h63⟩
    have h2 := v2p_match_iff e asn a he ha
    cases hb : v2p_match e asn a with
    | false => rfl
    | true => exact absurd (h2.1 hb).1 hv
  · intro hh
    exact flush_match_high e asn a he ha hh

theorem c32_flush_match_unsigned_witness :
    (0xfffffc0000010000 : Nat) < 2 ^ 64 ∧ 2 ^ 63 ≤ (0xfffffc0000010000 : Nat)
      ∧ entry_valid (env_high_page.a21264.dtlb.entries 3)
      ∧ entry_covers (env_high_page.a21264.dtlb.entries 3) 0 0xfffffc0000010000
      ∧ flush_match (env_high_page.a21264.dtlb.entries 3) 0 0xfffffc0000010000 = false :=
  ⟨by decide, by decide, by decide, by decide,
   (c32_flush_match_unsigned (env_high_page.a21264.dtlb.entries 3) 0 0xfffffc0000010000
     (by decide) (by decide)).2.2.1 (by decide)⟩


/-! ## Register and memory layout of VAX F values -/

/-- The bits of a memory word taken to the register layout and back by
`helper_memory_to_f` and `helper_f_to_memory`: every bit is kept, and bits 15..14
also receive bits 18..17. -/
theorem f_memory_round_trip_bits (m i : Nat) (hm : m < 2 ^ 32) :
    (helper_f_to_memory (helper_memory_to_f m)).testBit i
      = (m.testBit i || (decide (14 ≤ i ∧ i < 16) && m.testBit (i + 3))) := by
  have k1 : (0x00001fffe0000000 : Nat) = (2 ^ 16 - 1) <<< 29 := by decide
  have k2 : (0x07ffe00000000000 : Nat) = (2 ^ 14 - 1) <<< 45 := by decide
  have k3 : (0xc000000000000000 : Nat) = (2 ^ 2 - 1) <<< 62 := by decide
  have k4 : (0x0000c000 : Nat) = (2 ^ 2 - 1) <<< 14 := by decide
  have k5 : (0x003fffff : Nat) = 2 ^ 22 - 1 := by decide
  have k6 : (0xffff0000 : Nat) = (2 ^ 16 - 1) <<< 16 := by decide
  have k7 : (0x7 : Nat) = 2 ^ 3 - 1 := by decide
  have hhi : ∀ j, 32 ≤ j → m.testBit j = false := by
    intro j hj
    apply Nat.testBit_lt_two_pow
    calc m < 2 ^ 32 := hm
      _ ≤ 2 ^ j := Nat.pow_le_pow_right (by norm_num) hj
  unfold helper_f_to_memory helper_memory_to_f shl64
  simp only
  rw [k1, k2, k3, k4, k5, k6, k7]
  by_cases hi : i < 32
  · split
    · simp only [Nat.testBit_mod_two_pow, Nat.testBit_or, Nat.testBit_shiftRight,
        Nat.testBit_and, Nat.testBit_shiftLeft, Nat.testBit_two_pow_sub_one]
      interval_cases i <;> simp
    · simp only [Nat.testBit_mod_two_pow, Nat.testBit_or, Nat.testBit_shiftRight,
        Nat.testBit_and, Nat.testBit_shiftLeft, Nat.testBit_two_pow_sub_one]
      interval_cases i <;> simp
  · have h32 : 32 ≤ i := by omega
    have hd : decide (i < 32) = false := by simp [hi]
    have hr : ¬ (14 ≤ i ∧ i < 16) := by omega
    rw [Nat.testBit_mod_two_pow, hd, hhi i h32]
    simp [hr]

/-- Claim C33 (code defect): for a 32-bit memory word m, storing back the register
value built by `helper_memory_to_f` gives m exactly when bit 17 of m is set only with
bit 14 and bit 18 only with bit 15: `helper_memory_to_f` masks with 0x003fffff before
the shift by 45, so bits 18..17 of m reach bits 63..62 of the register.  For
m = 0x00020000 the register value has bit 62 set and the round trip gives
0x00024000. -/
theorem c33_f_memory_round_trip (m : Nat) (hm : m < 2 ^ 32) :
    (helper_f_to_memory (helper_memory_to_f m) = m
        ↔ ((m.testBit 17 = true → m.testBit 14 = true)
            ∧ (m.testBit 18 = true → m.testBit 15 = true)))
      ∧ helper_memory_to_f 0x00020000 = 2 ^ 62 + 7 * 2 ^ 59 + 2 ^ 30
      ∧ helper_memory_to_f 0 = 7 * 2 ^ 59
      ∧ helper_f_to_memory (helper_memory_to_f 0x00020000) = 0x00024000 := by
  refine ⟨?_, by decide, by decide, by decide⟩
  constructor
  · intro h
    have h14 := f_memory_round_trip_bits m 14 hm
    have h15 := f_memory_round_trip_bits m 15 hm
    rw [h] at h14 h15
    constructor
    · intro h17
      rw [h14]
      simp [h17]
    · intro h18
      rw [h15]
      simp [h18]
  · intro h
    apply Nat.eq_of_testBit_eq
    intro i
    rw [f_memory_round_trip_bits m i hm]
    by_cases c14 : i = 14
    · subst c14
      by_cases h17 : m.testBit 17 = true
      · simp [h.1 h17]
      · simp [h17]
    · by_cases c15 : i = 15
      · subst c15
        by_cases h18 : m.testBit 18 = true
        · simp [h.2 h18]
        · simp [h18]
      · have hr : ¬ (14 ≤ i ∧ i < 16) := by omega
        simp [hr]

theorem c33_f_memory_round_trip_witness :
    (0x00020000 : Nat) < 2 ^ 32
      ∧ helper_f_to_memory (helper_memory_to_f 0x00020000) ≠ 0x00020000
      ∧ ¬ ((0x00020000 : Nat).testBit 17 = true → (0x00020000 : Nat).testBit 14 = true) :=
  ⟨by decide,
   fun h => absurd (((c33_f_memory_round_trip 0x00020000 (by decide)).1.1 h).1 (by decide))
     (by decide),
   by decide⟩


/-! ## Longword register format conversions -/

/-- The value built by the source's `__helper_cvtql`: bits 31..30 of the operand at
bits 63..62 and bits 30..0 at bits 59..29. -/
theorem cvtql_value (a : Nat) :
    shl64 (a &&& 0xC0000000) 32 ||| shl64 (a &&& 0x7FFFFFFF) 29
      = 2 ^ 62 * ((a / 2 ^ 30) % 4) + 2 ^ 29 * (a % 2 ^ 31) := by
  have h1 : a &&& 0xC0000000 = 2 ^ 30 * ((a / 2 ^ 30) % 2 ^ 2) := by
    rw [← and_field]
    rfl
  have h2 : a &&& 0x7FFFFFFF = a % 2 ^ 31 := by
    rw [← Nat.and_pow_two_sub_one_eq_mod]
  have hl : 2 ^ 29 * (a % 2 ^ 31) < 2 ^ 62 := by omega
  rw [h1, h2]
  unfold shl64
  rw [Nat.shiftLeft_eq, Nat.shiftLeft_eq]
  have e1 : 2 ^ 30 * (a / 2 ^ 30 % 2 ^ 2) * 2 ^ 32 % 2 ^ 64 = 2 ^ 62 * ((a / 2 ^ 30) % 4) := by
    omega
  have e2 : a % 2 ^ 31 * 2 ^ 29 % 2 ^ 64 = 2 ^ 29 * (a % 2 ^ 31) := by omega
  rw [e1, e2]
  exact (Nat.mul_add_lt_is_or hl _).symm

theorem helper_cvtql_eq (a : Nat) :
    helper_cvtql a = Helper.ret (2 ^ 62 * ((a / 2 ^ 30) % 4) + 2 ^ 29 * (a % 2 ^ 31)) := by
  unfold helper_cvtql helper_cvtql_sv
  simp only [cvtql_value]
  simp

theorem helper_cvtqlv_eq (a : Nat) :
    helper_cvtqlv a
      = if 4 ≤ a % 2 ^ 32 then Helper.raised EXCP_GEN_ARITH EXCP_ARITH_OVERFLOW
        else Helper.ret (2 ^ 62 * ((a / 2 ^ 30) % 4) + 2 ^ 29 * (a % 2 ^ 31)) := by
  unfold helper_cvtqlv helper_cvtql_sv
  simp only [cvtql_value]
  have hc : toS32 (2 ^ 62 * ((a / 2 ^ 30) % 4) + 2 ^ 29 * (a % 2 ^ 31))
        ≠ toS64 (2 ^ 62 * ((a / 2 ^ 30) % 4) + 2 ^ 29 * (a % 2 ^ 31)) ↔ 4 ≤ a % 2 ^ 32 := by
    unfold toS32 toS64
    split_ifs <;> constructor <;> intro h <;> omega
  by_cases h : 4 ≤ a % 2 ^ 32
  · rw [if_pos ⟨by decide, hc.2 h⟩, if_pos h]
    rfl
  · rw [if_neg (fun hh => h (hc.1 hh.2)), if_neg h]
    simp

/-- Claim C35 (code defect): `helper_cvtql` puts bits 31..30 of its operand at bits
63..62 and bits 30..0 at bits 59..29, so bit 30 also lands at bit 59, and
`helper_cvtqlv` raises the arithmetic trap exactly when the low 32 bits of the operand
are 4 or more, whatever the upper bits.  For x = 8 the round trip gives 9 and
`helper_cvtqlv` traps though 8 fits in 32 bits; for a = 2^32, which does not fit,
`helper_cvtqlv` returns; and `helper_cvtql` of 0x40000000 has bit 59 set. -/
theorem c35_cvt_longword (a : Nat) :
    helper_cvtql a = Helper.ret (2 ^ 62 * ((a / 2 ^ 30) % 4) + 2 ^ 29 * (a % 2 ^ 31))
      ∧ (helper_cvtqlv a = Helper.raised EXCP_GEN_ARITH EXCP_ARITH_OVERFLOW
          ↔ 4 ≤ a % 2 ^ 32)
      ∧ helper_cvtql 8 = Helper.ret 0x100000000
      ∧ helper_cvtlq 0x100000000 = 9
      ∧ helper_cvtqlv 8 = Helper.raised EXCP_GEN_ARITH EXCP_ARITH_OVERFLOW
      ∧ helper_cvtqlv (2 ^ 32) = Helper.ret 0
      ∧ helper_cvtql 0x40000000 = Helper.ret (2 ^ 62 + 2 ^ 59) := by
  refine ⟨helper_cvtql_eq a, ?_, by decide, by decide, by decide, by decide, by decide⟩
  rw [helper_cvtqlv_eq]
  constructor
  · intro h
    by_contra hc
    rw [if_neg hc] at h
    cases h
  · intro h
    rw [if_pos h]


/-! ## The form argument of `va_form` -/

theorem va_form_none_iff (va vptb form : Nat) : va_form va vptb form = none ↔ 3 ≤ form := by
  unfold va_form
  simp only
  split_ifs with h0 h1 h2
  · simp [h0]
  · simp [h1]
  · simp [h2]
  · simp only [true_iff]
    omega

/-- The field `dva_48` after a write to VA_CTL that returns. -/
theorem va_ctl_dva_48 (ticks : Nat) (env e : CPUAlphaState) (v : Nat)
    (h : cpu_alpha_mtpr_21264 ticks env IPR_VA_CTL v = some e) :
    e.a21264.dva_48 = (v / 2) % 4 := by
  rw [mtpr_at_va_ctl] at h
  unfold mtpr_va_ctl at h
  split_ifs at h
  simp only [Option.some.injEq] at h
  subst h
  simp only [IPR_VA_CTL_VA_48_SHIFT]
  rw [show (3 : Nat) = 2 ^ 2 - 1 by norm_num, shr_and_ones]
  norm_num

/-- The field `iva_48` after a write to I_CTL. -/
theorem i_ctl_iva_48 (ticks : Nat) (env e : CPUAlphaState) (v : Nat)
    (h : cpu_alpha_mtpr_21264 ticks env IPR_I_CTL v = some e) :
    e.a21264.iva_48 = (v / 2 ^ 15) % 4 := by
  rw [mtpr_at_i_ctl] at h
  simp only [Option.some.injEq] at h
  subst h
  have hv : (v >>> IPR_I_CTL_VA_48_SHIFT) &&& 3 = (v / 2 ^ 15) % 4 := by
    simp only [IPR_I_CTL_VA_48_SHIFT]
    rw [show (3 : Nat) = 2 ^ 2 - 1 by norm_num, shr_and_ones]
    norm_num
  simp only [mtpr_i_ctl]
  by_cases hc : (set_i_ctl env v).pal_mode ≠ 0
      ∧ env.a21264.sde1 ≠ (set_i_ctl env v).a21264.sde1
  · rw [if_pos hc]
    simp only [swap_shadow_21264, set_i_ctl]
    exact hv
  · rw [if_neg hc]
    simp only [set_i_ctl]
    exact hv

/-- A data access that is not permitted aborts when the form of the data stream is
not one of 0, 1, 2. -/
theorem mmu_fault_data_abort (eng : Engine) (env : CPUAlphaState)
    (a rwx mmu_idx retaddr : Nat) (h2 : rwx ≠ 2)
    (h : mmu_fault_ok (cpu_alpha_mmu_v2p_21264 env a rwx) env.a21264.cm rwx = false)
    (hf : 3 ≤ env.a21264.dva_48) :
    cpu_alpha_mmu_fault_21264 eng env a rwx mmu_idx retaddr = none := by
  cases hr : cpu_alpha_mmu_fault_21264 eng env a rwx mmu_idx retaddr with
  | none => rfl
  | some r =>
    obtain ⟨tb, f, _, hform, _⟩ :=
      mmu_fault_data_failure eng env a rwx mmu_idx retaddr r h2 h hr
    have := (va_form_none_iff a env.a21264.d_vptb env.a21264.dva_48).2 hf
    rw [this] at hform
    cases hform

/-- An instruction access that is not permitted aborts when the form of the
instruction stream is not one of 0, 1, 2. -/
theorem mmu_fault_insn_abort (eng : Engine) (env : CPUAlphaState)
    (a mmu_idx retaddr : Nat)
    (h : mmu_fault_ok (cpu_alpha_mmu_v2p_21264 env a 2) env.a21264.cm 2 = false)
    (hf : 3 ≤ env.a21264.iva_48) :
    cpu_alpha_mmu_fault_21264 eng env a 2 mmu_idx retaddr = none := by
  have hn := (va_form_none_iff a env.a21264.i_vptb env.a21264.iva_48).2 hf
  unfold cpu_alpha_mmu_fault_21264
  simp only [h, Bool.false_eq_true, if_false, if_true, hn]
  split <;> rfl

/-- Claim C36, amended: after a write of `v` to VA_CTL that returns, the form that the
data-fault path passes to `va_form` is `(v >> 1) & 3`, and after a write of `v` to
I_CTL the form of the instruction-fault path is `(v >> 15) & 3`: a value in 0..3.
`va_form` returns for the forms 0, 1, 2 and aborts for the form 3, so a fault that has
to be reported aborts exactly when the written value has both bits of the field set;
otherwise `cpu_alpha_mmu_dfault_21264` returns. -/
theorem c36_va_form_argument (ticks : Nat) (env e : CPUAlphaState) (v : Nat) :
    (cpu_alpha_mtpr_21264 ticks env IPR_VA_CTL v = some e →
      e.a21264.dva_48 = (v / 2) % 4
      ∧ (∀ a, cpu_alpha_mmu_dfault_21264 e a = none ↔ (v / 2) % 4 = 3)
      ∧ ((v / 2) % 4 = 3 → ∀ eng a rwx mmu_idx retaddr, rwx ≠ 2 →
          mmu_fault_ok (cpu_alpha_mmu_v2p_21264 e a rwx) e.a21264.cm rwx = false →
          cpu_alpha_mmu_fault_21264 eng e a rwx mmu_idx retaddr = none))
    ∧ (cpu_alpha_mtpr_21264 ticks env IPR_I_CTL v = some e →
      e.a21264.iva_48 = (v / 2 ^ 15) % 4
      ∧ (∀ a, va_form a e.a21264.i_vptb e.a21264.iva_48 = none ↔ (v / 2 ^ 15) % 4 = 3)
      ∧ ((v / 2 ^ 15) % 4 = 3 → ∀ eng a mmu_idx retaddr,
          mmu_fault_ok (cpu_alpha_mmu_v2p_21264 e a 2) e.a21264.cm 2 = false →
          cpu_alpha_mmu_fault_21264 eng e a 2 mmu_idx retaddr = none)) := by
  constructor
  · intro h
    have hd := va_ctl_dva_48 ticks env e v h
    refine ⟨hd, ?_, ?_⟩
    · intro a
      have hn := va_form_none_iff a e.a21264.d_vptb e.a21264.dva_48
      rw [hd] at hn
      unfold cpu_alpha_mmu_dfault_21264
      rw [hd]
      constructor
      · intro hx
        by_contra hne
        have hlt : ¬ 3 ≤ (v / 2) % 4 := by omega
        cases hv : va_form a e.a21264.d_vptb ((v / 2) % 4) with
        | none => exact hlt (hn.1 hv)
        | some f =>
          rw [hv] at hx
          cases hx
      · intro hx
        have hv := hn.2 (by omega)
        rw [hv]
    · intro h3 eng a rwx mmu_idx retaddr h2 hok
      exact mmu_fault_data_abort eng e a rwx mmu_idx retaddr h2 hok (by omega)
  · intro h
    have hd := i_ctl_iva_48 ticks env e v h
    refine ⟨hd, ?_, ?_⟩
    · intro a
      have hn := va_form_none_iff a e.a21264.i_vptb e.a21264.iva_48
      rw [hn, hd]
      omega
    · intro h3 eng a mmu_idx retaddr hok
      exact mmu_fault_insn_abort eng e a mmu_idx retaddr hok (by omega)

theorem c36_va_form_argument_witness :
    ∃ e, cpu_alpha_mtpr_21264 0 env_zero IPR_VA_CTL 4 = some e
      ∧ e.a21264.dva_48 = (4 / 2) % 4
      ∧ ¬ cpu_alpha_mmu_dfault_21264 e 0x10008 = none :=
  match h : cpu_alpha_mtpr_21264 0 env_zero IPR_VA_CTL 4 with
  | some e =>
    ⟨e, rfl, ((c36_va_form_argument 0 env_zero e 4).1 h).1,
     fun hn => absurd ((((c36_va_form_argument 0 env_zero e 4).1 h).2.1 0x10008).1 hn)
       (by decide)⟩
  | none => absurd h (by
      intro hh
      have := congrArg Option.isSome hh
      revert this
      decide)

/-- Claim C36 fails on the code: the write of 6 to VA_CTL (bit 0 clear, VA_48 and
VA_FORM_32 both set) returns and leaves `dva_48 = 3`; the report of the data miss at
0x10008 that follows aborts in `va_form`. The write of 0x18000 to I_CTL leaves
`iva_48 = 3`, and the report of the instruction miss that follows aborts as well. -/
theorem c36_counterexample :
    6 % 2 = 0
      ∧ (cpu_alpha_mtpr_21264 0 env_zero IPR_VA_CTL 6).map (fun e => e.a21264.dva_48)
          = some 3
      ∧ (va_ctl_fault_scenario 6 0x10008).map Option.isNone = some true
      ∧ (va_ctl_fault_scenario 4 0x10008).map Option.isNone = some false
      ∧ (cpu_alpha_mtpr_21264 0 env_zero IPR_I_CTL 0x18000).map (fun e => e.a21264.iva_48)
          = some 3
      ∧ (i_ctl_fault_scenario 0x18000 0x10008).map Option.isNone = some true
      ∧ (i_ctl_fault_scenario 0x8000 0x10008).map Option.isNone = some false := by
  refine ⟨by decide, ?_, ?_, ?_, ?_, ?_, ?_⟩ <;> decide


/-! ## Cause bits of a data fault -/

/-- Bits 3..1 of the low four bits of `mm_stat`. -/
theorem mm_stat_cause_low (p1 p2 p3 p4 : Prop) [Decidable p1] [Decidable p2] [Decidable p3]
    [Decidable p4] :
    ((((if p1 then 1 else 0) ||| ((if p2 then 6 else 0)
        ||| ((if p3 then 0xa else 0) ||| (if p4 then 2 else 0))) : Nat) / 2) % 8 ≠ 0
      ↔ (p2 ∨ p3 ∨ p4)) := by
  by_cases h1 : p1 <;> by_cases h2 : p2 <;> by_cases h3 : p3 <;> by_cases h4 : p4 <;>
    simp only [h1, h2, h3, h4, if_true, if_false, or_true, true_or, or_false, iff_true,
      iff_false] <;> decide

/-- The cause bits 3..1 of the stored `mm_stat` are non-zero exactly for a read of a
fault-on-read entry, a write of a fault-on-write entry, or a bad virtual address. -/
theorem mm_stat_cause (pte : alpha_pte) (rwx insn : Nat) :
    (mmu_fault_mm_stat pte rwx insn / 2) % 8 ≠ 0
      ↔ ((rwx = 0 ∧ pte.fl &&& ALPHA_PTE_FOR ≠ 0) ∨ (rwx = 1 ∧ pte.fl &&& ALPHA_PTE_FOW ≠ 0)
          ∨ (pte.fl = 0 ∧ pte.asn = PTE_ASN_BAD_VA)) := by
  unfold mmu_fault_mm_stat
  obtain ⟨hlt, _⟩ := mm_stat_low (rwx = 1) (rwx = 0 ∧ pte.fl &&& ALPHA_PTE_FOR ≠ 0)
    (rwx = 1 ∧ pte.fl &&& ALPHA_PTE_FOW ≠ 0) (pte.fl = 0 ∧ pte.asn = PTE_ASN_BAD_VA)
  have hc := mm_stat_cause_low (rwx = 1) (rwx = 0 ∧ pte.fl &&& ALPHA_PTE_FOR ≠ 0)
    (rwx = 1 ∧ pte.fl &&& ALPHA_PTE_FOW ≠ 0) (pte.fl = 0 ∧ pte.asn = PTE_ASN_BAD_VA)
  rw [Nat.or_assoc, Nat.or_assoc, Nat.or_assoc, Nat.shiftLeft_eq, Nat.shiftRight_eq_div_pow,
    Nat.mul_comm, ← Nat.mul_add_lt_is_or (by simpa using hlt)]
  rw [← hc]
  generalize ((if rwx = 1 then 1 else 0) ||| ((if rwx = 0 ∧ pte.fl &&& ALPHA_PTE_FOR ≠ 0
    then 6 else 0) ||| ((if rwx = 1 ∧ pte.fl &&& ALPHA_PTE_FOW ≠ 0 then 0xa else 0)
    ||| (if pte.fl = 0 ∧ pte.asn = PTE_ASN_BAD_VA then 2 else 0))) : Nat) = w at hlt ⊢
  omega

/-- Claim C37 (code defect): a data access that `cpu_alpha_mmu_fault_21264` reports as
DTBM_SINGLE leaves the cause bits 3..1 of `mm_stat` zero, and one that it reports as
DFAULT leaves a cause bit set exactly when the address is a bad virtual address, or
the access is a read of a fault-on-read entry or a write of a fault-on-write entry.
A DFAULT that comes from the enable bits alone sets none of them: the user-mode store
to the read-only page at 0x10008 is reported as DFAULT with the cause bits zero. -/
theorem c37_fault_cause_bits (eng : Engine) (env : CPUAlphaState)
    (a rwx mmu_idx retaddr : Nat) (hrwx : rwx = 0 ∨ rwx = 1) :
    (∀ r, cpu_alpha_mmu_fault_21264 eng env a rwx mmu_idx retaddr = some r → r.ret = 1 →
      (r.env.exception_index = EXCP_21264_DTBM_SINGLE ∨ r.env.exception_index = EXCP_21264_DFAULT)
      ∧ (r.env.exception_index = EXCP_21264_DTBM_SINGLE →
          (r.env.a21264.mm_stat / 2) % 8 = 0)
      ∧ (r.env.exception_index = EXCP_21264_DFAULT →
          ((r.env.a21264.mm_stat / 2) % 8 ≠ 0
            ↔ (cpu_alpha_mmu_v2p_21264 env a rwx = pte_bad_va
                ∨ (rwx = 0 ∧ flag_bit (cpu_alpha_mmu_v2p_21264 env a rwx).fl 1)
                ∨ (rwx = 1 ∧ flag_bit (cpu_alpha_mmu_v2p_21264 env a rwx).fl 2)))))
    ∧ (cpu_alpha_mmu_fault_21264 eng_store env_user_ro 0x10008 1 3 1).map
        (fun r => (r.ret, r.env.exception_index, (r.env.a21264.mm_stat / 2) % 8))
        = some (1, EXCP_21264_DFAULT, 0)
    ∧ ¬ access_permitted (cpu_alpha_mmu_v2p_21264 env_user_ro 0x10008 1).fl
          env_user_ro.a21264.cm 1 := by
  have h2 : rwx ≠ 2 := by omega
  refine ⟨?_, by decide, by decide⟩
  intro r hr hret
  have hok : mmu_fault_ok (cpu_alpha_mmu_v2p_21264 env a rwx) env.a21264.cm rwx
      = false := by
    cases hb : mmu_fault_ok (cpu_alpha_mmu_v2p_21264 env a rwx) env.a21264.cm rwx with
    | false => rfl
    | true =>
      obtain ⟨r2, hr2, hz⟩ := mmu_fault_success eng env a rwx mmu_idx retaddr hb
      rw [hr] at hr2
      simp only [Option.some.injEq] at hr2
      rw [hr2, hz] at hret
      exact absurd hret (by decide)
  obtain ⟨tb, f, _, _, _, _, hmm, _⟩ :=
    mmu_fault_data_failure eng env a rwx mmu_idx retaddr r h2 hok hr
  have hx := (mmu_fault_failure eng env a rwx mmu_idx retaddr r hok hr).2
  rw [if_neg h2] at hx
  have hc := mm_stat_cause (cpu_alpha_mmu_v2p_21264 env a rwx) rwx (fault_insn eng tb retaddr)
  rw [← hmm] at hc
  have hfor := and_pow2_ne_zero_iff (cpu_alpha_mmu_v2p_21264 env a rwx).fl 1
  have hfow := and_pow2_ne_zero_iff (cpu_alpha_mmu_v2p_21264 env a rwx).fl 2
  have eFOR : ALPHA_PTE_FOR = 2 ^ 1 := by decide
  have eFOW : ALPHA_PTE_FOW = 2 ^ 2 := by decide
  rw [eFOR, eFOW, hfor, hfow] at hc
  have hbad : (cpu_alpha_mmu_v2p_21264 env a rwx).fl = 0
        ∧ (cpu_alpha_mmu_v2p_21264 env a rwx).asn = PTE_ASN_BAD_VA
      ↔ cpu_alpha_mmu_v2p_21264 env a rwx = pte_bad_va := by
    constructor
    · intro hb
      rcases v2p_total_cases env a rwx with hh | hh | hh
      · exact hh
      · rw [hh] at hb
        exact absurd hb.2 (by decide)
      · omega
    · intro hb
      rw [hb]
      exact ⟨rfl, rfl⟩
  by_cases hm : (cpu_alpha_mmu_v2p_21264 env a rwx).fl = 0
      ∧ (cpu_alpha_mmu_v2p_21264 env a rwx).asn = PTE_ASN_MISS
  · rw [if_pos hm] at hx
    refine ⟨Or.inl hx, ?_, ?_⟩
    · intro _
      by_contra hne
      rcases hc.1 hne with h | h | h
      · have := h.2
        rw [hm.1] at this
        exact absurd this (by decide)
      · have := h.2
        rw [hm.1] at this
        exact absurd this (by decide)
      · rw [hm.2] at h
        exact absurd h.2 (by decide)
    · intro he
      rw [hx] at he
      exact absurd he (by decide)
  · rw [if_neg hm] at hx
    refine ⟨Or.inr hx, ?_, ?_⟩
    · intro he
      rw [hx] at he
      exact absurd he (by decide)
    · intro _
      unfold flag_bit
      rw [hc, hbad]
      constructor
      · rintro (h | h | h)
        · exact Or.inr (Or.inl h)
        · exact Or.inr (Or.inr h)
        · exact Or.inl h
      · rintro (h | h | h)
        · exact Or.inr (Or.inr h)
        · exact Or.inl h
        · exact Or.inr (Or.inl h)

theorem c37_fault_cause_bits_witness :
    ((1 : Nat) = 0 ∨ (1 : Nat) = 1)
    ∧ ∃ r, cpu_alpha_mmu_fault_21264 eng_store env_user_ro 0x10008 1 3 1 = some r
      ∧ r.ret = 1
      ∧ (r.env.exception_index = EXCP_21264_DTBM_SINGLE
          ∨ r.env.exception_index = EXCP_21264_DFAULT) :=
  ⟨Or.inr rfl,
   match mmu_fault_returns eng_store env_user_ro 0x10008 1 3 1 (by decide) (by decide) with
   | ⟨r, hr⟩ =>
     ⟨r, hr, (mmu_fault_failure eng_store env_user_ro 0x10008 1 3 1 r (by decide) hr).1,
      ((c37_fault_cause_bits eng_store env_user_ro 0x10008 1 3 1 (Or.inr rfl)).1 r hr
        (mmu_fault_failure eng_store env_user_ro 0x10008 1 3 1 r (by decide) hr).1).1⟩⟩


/-! ## The superpage windows -/

/-- At most one of the three window tests of the lookup holds. -/
theorem superpage_windows_disjoint (a : Nat) (ha : a < 2 ^ 64) :
    ¬ (sar64 a 46 &&& 3 = 2 ∧ sar64 a 41 &&& 0x7f = 0x7e)
      ∧ ¬ (sar64 a 46 &&& 3 = 2 ∧ sar64 a 30 &&& 0x3ffff = 0x3fffe)
      ∧ ¬ (sar64 a 41 &&& 0x7f = 0x7e ∧ sar64 a 30 &&& 0x3ffff = 0x3fffe) := by
  rw [sar64_46_and a ha, sar64_41_and a ha, sar64_30_and a ha]
  omega

theorem perm_three (order : List Nat) (h : order.Perm [2, 1, 0]) :
    order = [2, 1, 0] ∨ order = [2, 0, 1] ∨ order = [1, 2, 0] ∨ order = [1, 0, 2]
      ∨ order = [0, 2, 1] ∨ order = [0, 1, 2] := by
  have hm := List.mem_permutations.2 h
  have hp : List.permutations [2, 1, 0]
      = [[2, 1, 0], [1, 2, 0], [0, 1, 2], [1, 0, 2], [0, 2, 1], [2, 0, 1]] := by
    simp [List.permutations, List.permutationsAux_cons, List.permutationsAux_nil,
      List.permutationsAux2]
  rw [hp] at hm
  simp only [List.mem_cons, List.mem_singleton, List.not_mem_nil, or_false] at hm
  tauto

/-- The first hit of the three checks in any order, by the outcomes of the checks. -/
theorem superpage_first_perm (order : List Nat) (spe a : Nat) (h : order.Perm [2, 1, 0])
    (d1 : ¬ (superpage_check 2 spe a ≠ none ∧ superpage_check 1 spe a ≠ none))
    (d2 : ¬ (superpage_check 2 spe a ≠ none ∧ superpage_check 0 spe a ≠ none))
    (d3 : ¬ (superpage_check 1 spe a ≠ none ∧ superpage_check 0 spe a ≠ none)) :
    superpage_first order spe a = superpage_first [2, 1, 0] spe a := by
  rcases perm_three order h with h | h | h | h | h | h <;> subst h <;>
    simp only [superpage_first] <;>
    cases h2 : superpage_check 2 spe a <;> cases h1 : superpage_check 1 spe a <;>
    cases h0 : superpage_check 0 spe a <;> simp only [h2, h1, h0] at d1 d2 d3 ⊢ <;>
    simp at d1 d2 d3

theorem superpage_check_hit (k spe a : Nat) (h : superpage_check k spe a ≠ none) :
    (k = 2 ∧ sar64 a 46 &&& 3 = 2) ∨ (k = 1 ∧ sar64 a 41 &&& 0x7f = 0x7e)
      ∨ (k = 0 ∧ sar64 a 30 &&& 0x3ffff = 0x3fffe) := by
  unfold superpage_check at h
  split_ifs at h with k2 c2 k1 c1 k0 c0
  · exact Or.inl ⟨k2, c2.2⟩
  · exact absurd rfl h
  · exact Or.inr (Or.inl ⟨k1, c1.2⟩)
  · exact absurd rfl h
  · exact Or.inr (Or.inr ⟨k0, c0.2⟩)
  · exact absurd rfl h
  · exact absurd rfl h

/-- The program takes the checks in the order 2, 1, 0. -/
theorem v2p_ordered_program (env : CPUAlphaState) (a rwx : Nat) :
    v2p_ordered [2, 1, 0] env a rwx = cpu_alpha_mmu_v2p_21264 env a rwx := by
  unfold v2p_ordered cpu_alpha_mmu_v2p_21264
  simp only
  split_ifs with hs c2 c1 c0
  · rfl
  · simp only [superpage_first, superpage_check, if_true, if_pos c2]
  · simp only [superpage_first, superpage_check, if_true, if_neg c2, if_pos c1,
      Nat.reduceEqDiff, if_false]
  · simp only [superpage_first, superpage_check, if_true, if_neg c2, if_neg c1, if_pos c0,
      Nat.reduceEqDiff, if_false]
  · simp only [superpage_first, superpage_check, if_true, if_neg c2, if_neg c1, if_neg c0,
      Nat.reduceEqDiff, if_false]

theorem v2p_order_independent (order : List Nat) (env : CPUAlphaState) (a rwx : Nat)
    (ha : a < 2 ^ 64) (h : order.Perm [2, 1, 0]) :
    v2p_ordered order env a rwx = cpu_alpha_mmu_v2p_21264 env a rwx := by
  obtain ⟨d1, d2, d3⟩ := superpage_windows_disjoint a ha
  rw [← v2p_ordered_program]
  unfold v2p_ordered
  simp only
  rw [superpage_first_perm order _ a h]
  · intro hh
    rcases superpage_check_hit _ _ _ hh.1 with x | x | x <;>
      rcases superpage_check_hit _ _ _ hh.2 with y | y | y <;>
      first
        | exact absurd x.1 (by decide)
        | exact absurd y.1 (by decide)
        | exact d1 ⟨x.2, y.2⟩
  · intro hh
    rcases superpage_check_hit _ _ _ hh.1 with x | x | x <;>
      rcases superpage_check_hit _ _ _ hh.2 with y | y | y <;>
      first
        | exact absurd x.1 (by decide)
        | exact absurd y.1 (by decide)
        | exact d2 ⟨x.2, y.2⟩
  · intro hh
    rcases superpage_check_hit _ _ _ hh.1 with x | x | x <;>
      rcases superpage_check_hit _ _ _ hh.2 with y | y | y <;>
      first
        | exact absurd x.1 (by decide)
        | exact absurd y.1 (by decide)
        | exact d3 ⟨x.2, y.2⟩

/-- Claim C38: for every 64-bit address at most one of the three superpage window
tests of `cpu_alpha_mmu_v2p_21264` holds, and for every state and access kind the
lookup with the three checks taken in any order returns the descriptor the program
returns. -/
theorem c38_superpage_order (env : CPUAlphaState) (a rwx : Nat) (ha : a < 2 ^ 64) :
    ¬ (sar64 a 46 &&& 3 = 2 ∧ sar64 a 41 &&& 0x7f = 0x7e)
      ∧ ¬ (sar64 a 46 &&& 3 = 2 ∧ sar64 a 30 &&& 0x3ffff = 0x3fffe)
      ∧ ¬ (sar64 a 41 &&& 0x7f = 0x7e ∧ sar64 a 30 &&& 0x3ffff = 0x3fffe)
      ∧ ∀ order : List Nat, order.Perm [2, 1, 0] →
          v2p_ordered order env a rwx = cpu_alpha_mmu_v2p_21264 env a rwx := by
  obtain ⟨d1, d2, d3⟩ := superpage_windows_disjoint a ha
  exact ⟨d1, d2, d3, fun order h => v2p_order_independent order env a rwx ha h⟩

theorem c38_superpage_order_witness :
    (0xffff800000010000 : Nat) < 2 ^ 64
      ∧ sar64 0xffff800000010000 46 &&& 3 = 2
      ∧ v2p_ordered [0, 1, 2] env_superpage 0xffff800000010000 0
          = cpu_alpha_mmu_v2p_21264 env_superpage 0xffff800000010000 0 :=
  ⟨by decide, by decide,
   (c38_superpage_order env_superpage 0xffff800000010000 0 (by decide)).2.2.2 [0, 1, 2]
     (by decide)⟩


/-! ## Exception entry followed by return -/

theorem swap_shadow_twice_ir (env : CPUAlphaState) :
    (swap_shadow_21264 (swap_shadow_21264 env)).ir = env.ir := by
  funext j
  simp only [swap_shadow_21264, set_ir]
  split_ifs with h1 h2 h3 h4 h5 h6 h7 h8 <;> simp_all

theorem swap_shadow_twice_a21264 (env : CPUAlphaState) :
    (swap_shadow_21264 (swap_shadow_21264 env)).a21264 = env.a21264 := by
  simp [swap_shadow_21264, set_ir]

/-- The function `swap_shadow_21264` applied twice gives the state back. -/
theorem swap_shadow_twice (env : CPUAlphaState) :
    swap_shadow_21264 (swap_shadow_21264 env) = env := by
  have h1 := swap_shadow_twice_ir env
  have h2 := swap_shadow_twice_a21264 env
  cases env
  simp only [swap_shadow_21264] at h1 h2 ⊢
  simp only [CPUAlphaState.mk.injEq, and_true, true_and]
  exact ⟨h1, h2⟩

theorem swap_shadow_congr (a b : CPUAlphaState) (hir : a.ir = b.ir)
    (ha : a.a21264 = b.a21264) :
    (swap_shadow_21264 a).ir = (swap_shadow_21264 b).ir
      ∧ (swap_shadow_21264 a).a21264 = (swap_shadow_21264 b).a21264 := by
  simp only [swap_shadow_21264, hir, ha, and_self]

/-- The state `do_interrupt` leaves for a condition that does not store r23. -/
theorem do_interrupt_entry (env e1 : CPUAlphaState) (h : do_interrupt env = some e1)
    (hp : env.pal_emul = pal_emul.PAL_21264)
    (hcall : ¬ ((interrupt_vector env.exception_index).toNat &&& EXCP_CALL_PALP ≠ 0
      ∧ env.a21264.call_pal_r23 ≠ 0)) :
    e1.exc_addr = env.pc ||| env.pal_mode
      ∧ (env.a21264.sde1 ≠ 0 ∧ (env.pc ||| env.pal_mode) &&& 1 = 0 →
          e1.ir = (swap_shadow_21264 env).ir ∧ e1.a21264 = (swap_shadow_21264 env).a21264)
      ∧ (¬ (env.a21264.sde1 ≠ 0 ∧ (env.pc ||| env.pal_mode) &&& 1 = 0) →
          e1.ir = env.ir ∧ e1.a21264 = env.a21264) := by
  obtain ⟨r1, r2⟩ := do_interrupt_result_regs env e1 h
  obtain ⟨n1, n2⟩ := do_interrupt_pal_nocall
    { env with exc_addr := env.pc ||| env.pal_mode, exception_index := 0,
               error_code := 0, pal_mode := 1, mmu_code_index := MMU_PAL_IDX }
    (interrupt_vector env.exception_index) hp hcall
  obtain ⟨s1, s2⟩ := do_interrupt_swap_regs env
  obtain ⟨v, _, he⟩ := do_interrupt_shape env e1 h
  obtain ⟨f1, _⟩ := do_interrupt_pal_frame
    { env with exc_addr := env.pc ||| env.pal_mode, exception_index := 0,
               error_code := 0, pal_mode := 1, mmu_code_index := MMU_PAL_IDX } v
  refine ⟨?_, ?_, ?_⟩
  · rw [he]
    exact f1
  · intro hs
    rw [r1, r2, n1, n2]
    exact s1 hs
  · intro hs
    rw [r1, r2, n1, n2]
    exact s2 hs

/-- Entry into PAL mode by `do_interrupt` followed by `helper_hw_ret(exc_addr)`. -/
theorem interrupt_return (env : CPUAlphaState)
    (hp : env.pal_emul = pal_emul.PAL_21264) (hm : env.pal_mode = 0)
    (hpc : env.pc < 2 ^ 64) (hal : env.pc % 4 = 0) (hx : 1 ≤ env.exception_index)
    (hcall : ¬ ((interrupt_vector env.exception_index).toNat &&& EXCP_CALL_PALP ≠ 0
      ∧ env.a21264.call_pal_r23 ≠ 0))
    (hisum : env.a21264.isum = 0) :
    ∃ e1 e2, do_interrupt env = some e1 ∧ helper_hw_ret e1 e1.exc_addr = some e2
      ∧ e2.pc = env.pc ∧ e2.pal_mode = 0 ∧ e2.ir = env.ir ∧ e2.a21264 = env.a21264 := by
  have hnot : ¬ (env.pal_mode ≠ 0 ∧ env.exception_index = EXCP_GEN_INTERRUPT) :=
    fun hh => hh.1 hm
  obtain ⟨e1, h1⟩ := do_interrupt_returns env hx (fun _ => hp) hnot
  obtain ⟨m1, m2⟩ := do_interrupt_mode env e1 h1
  obtain ⟨x1, x2, x3⟩ := do_interrupt_entry env e1 h1 hp hcall
  have hexc : e1.exc_addr = env.pc := by
    rw [x1, hm]
    exact Nat.or_zero _
  have hbit : env.pc &&& 1 = 0 := by
    rw [Nat.and_one_is_mod]
    omega
  have hor : (env.pc ||| env.pal_mode) &&& 1 = 0 := by
    rw [hm, Nat.or_zero]
    exact hbit
  have hpc3 : env.pc &&& not64 3 = env.pc := by
    rw [and_not64_three env.pc hpc]
    omega
  have hp1 : e1.pal_emul = pal_emul.PAL_21264 := by rw [m2, hp]
  have hne : e1.pal_mode ≠ env.pc &&& 1 := by
    rw [m1, hbit]
    decide
  by_cases hs : env.a21264.sde1 = 0
  · obtain ⟨y1, y2⟩ := x3 (fun hh => hh.1 hs)
    have hi1 : e1.a21264.isum = 0 := by rw [y2, hisum]
    have hs1 : e1.a21264.sde1 = 0 := by rw [y2, hs]
    obtain ⟨_, _, k3, _⟩ := hw_ret_complete e1 env.pc hp1 (Or.inr hi1)
    refine ⟨e1, _, h1, by rw [hexc]; exact k3 hne hbit hs1, ?_, ?_, ?_, ?_⟩
    · exact hpc3
    · exact hbit
    · exact y1
    · exact y2
  · obtain ⟨y1, y2⟩ := x2 ⟨hs, hor⟩
    have hi1 : e1.a21264.isum = 0 := by
      rw [y2]
      simp only [swap_shadow_21264]
      exact hisum
    have hs1 : e1.a21264.sde1 ≠ 0 := by
      rw [y2]
      simp only [swap_shadow_21264]
      exact hs
    obtain ⟨_, _, _, k4⟩ := hw_ret_complete e1 env.pc hp1 (Or.inr hi1)
    obtain ⟨c1, c2⟩ := swap_shadow_congr
      { e1 with pc := env.pc &&& not64 3, pal_mode := env.pc &&& 1,
                mmu_code_index := e1.mmu_data_index } (swap_shadow_21264 env) y1 y2
    refine ⟨e1, _, h1, by rw [hexc]; exact k4 hne hbit hs1, ?_, ?_, ?_, ?_⟩
    · simp only [swap_shadow_21264]
      exact hpc3
    · simp only [swap_shadow_21264]
      exact hbit
    · rw [c1]
      exact swap_shadow_twice_ir env
    · rw [c2]
      exact swap_shadow_twice_a21264 env

/-- Claim C39: from a state of the 21264 core outside PAL mode with a 4-byte-aligned
pc, no pending interrupt summary and a raised condition (code at least 1) that does
not store r23, `do_interrupt` returns, `helper_hw_ret` of the saved `exc_addr` returns,
and the state reached has the pc, `pal_mode = 0`, every integer register and the eight
shadow registers of the state before the exception, whatever `sde1` is; and
`swap_shadow_21264` applied twice is the identity on every state. -/
theorem c39_entry_return_identity (env : CPUAlphaState)
    (hp : env.pal_emul = pal_emul.PAL_21264) (hm : env.pal_mode = 0)
    (hpc : env.pc < 2 ^ 64) (hal : env.pc % 4 = 0) (hx : 1 ≤ env.exception_index)
    (hcall : ¬ ((interrupt_vector env.exception_index).toNat &&& EXCP_CALL_PALP ≠ 0
      ∧ env.a21264.call_pal_r23 ≠ 0))
    (hisum : env.a21264.isum = 0) :
    (∃ e1 e2, do_interrupt env = some e1 ∧ helper_hw_ret e1 e1.exc_addr = some e2
      ∧ e2.pc = env.pc ∧ e2.pal_mode = 0 ∧ (∀ j, e2.ir j = env.ir j)
      ∧ shadow_regs e2 = shadow_regs env)
    ∧ ∀ s : CPUAlphaState, swap_shadow_21264 (swap_shadow_21264 s) = s := by
  refine ⟨?_, swap_shadow_twice⟩
  obtain ⟨e1, e2, h1, h2, h3, h4, h5, h6⟩ :=
    interrupt_return env hp hm hpc hal hx hcall hisum
  refine ⟨e1, e2, h1, h2, h3, h4, fun j => by rw [h5], ?_⟩
  simp only [shadow_regs, h6]

theorem c39_entry_return_identity_witness :
    env_shadow.a21264.sde1 = 1
      ∧ ((do_interrupt env_shadow).map (fun e => (e.pal_mode, shadowed_ir e)))
          = some (1, [204, 205, 206, 207, 220, 221, 222, 223])
      ∧ ∃ e1 e2, do_interrupt env_shadow = some e1
          ∧ helper_hw_ret e1 e1.exc_addr = some e2
          ∧ e2.pc = env_shadow.pc ∧ e2.pal_mode = 0 ∧ (∀ j, e2.ir j = env_shadow.ir j)
          ∧ shadow_regs e2 = shadow_regs env_shadow :=
  ⟨by decide, by decide,
   (c39_entry_return_identity env_shadow rfl rfl (by decide) (by decide) (by decide)
     (by decide) rfl).1⟩


/-! ## The frame of a superpage hit -/

end Alpha
